import Mathlib

/-!
# ActivityStreams property and type model (go-fed `streams/impl/activitystreams`)

Shallow embedding of the generated Go sources

* `property_next/gen_property_activitystreams_next.go`
* `property_prev/gen_property_activitystreams_prev.go`
* `property_following/gen_property_activitystreams_following.go`

Go values are embedded as follows.

* `interface{}` is `Value`; the nil interface is `Value.nil`.
* `map[string]T` is an association list `List (String × T)`; `m[k]` is `List.lookup k m`.
* A nil-able pointer or interface value of type `T` is `Option T`, `nil` being `none`.
* A Go result pair `(T, error)` is `Option T × Option error`.
* Methods with a pointer receiver that mutate `this` return the new state.
* The Go package `vocab` of interfaces is a record `Vocab` of `VocabType`s (a carrier with
  the interface methods the sources call); the package-level `mgr` and the standard library
  function `url.Parse` are parameters (`Manager`, `NetURL`).
-/

namespace streams

/-- Go `error` values; only nil-ness is ever inspected by the sources. -/
abbrev error := String

/-- Dynamic content of a Go `interface{}` produced by unmarshalling a document. The sources
only test whether a value is a string or a map, so the payload of a number (a `float64` in Go)
is kept as an integer. -/
inductive Value where
  | nil : Value
  | bool (b : Bool) : Value
  | number (n : Int) : Value
  | string (s : String) : Value
  | array (xs : List Value) : Value
  | object (m : List (String × Value)) : Value

instance : Inhabited Value := ⟨Value.nil⟩

/-- Go test `i == nil` on an `interface{}`. -/
def Value.isNil : Value → Bool
  | Value.nil => true
  | _ => false

/-- Go `map[string]interface{}`. -/
abbrev JsonMap := List (String × Value)

/-- Go `map[string]string`, used for alias maps and JSON-LD contexts. -/
abbrev AliasMap := List (String × String)

/-- Go map assignment `m[k] = v`: overwrite the entry for `k` if present, else add it. -/
def mapSet {β : Type} (m : List (String × β)) (k : String) (v : β) : List (String × β) :=
  match m with
  | [] => [(k, v)]
  | (k', v') :: rest => if k' = k then (k, v) :: rest else (k', v') :: mapSet rest k v

/-- The vocabulary namespace URI looked up in alias maps. -/
def vocabURI : String := "https://www.w3.org/TR/activitystreams-vocabulary"

/-- What the sources observe of a `*url.URL`: its `Scheme` field and the result of `String()`. -/
structure URL where
  Scheme : String
  full : String
  deriving DecidableEq, Repr

/-- Method `(*url.URL).String()`. -/
def URL.String (u : URL) := u.full

/-- The part of package `net/url` the sources call: `url.Parse`, which returns either a
non-nil URL or an error. -/
structure NetURL where
  Parse : String → Except error URL

/-- A `vocab` interface: the carrier of its non-nil values and the methods called on them. -/
structure VocabType where
  T : Type
  Serialize : T → JsonMap × Option error
  LessThan : T → T → Bool
  JSONLDContext : T → AliasMap

instance : CoeSort VocabType Type := ⟨VocabType.T⟩

/-- The interfaces of Go package `vocab` used by the three properties. -/
structure Vocab where
  ActivityStreamsCollection : VocabType
  ActivityStreamsCollectionPage : VocabType
  ActivityStreamsLink : VocabType
  ActivityStreamsMention : VocabType
  ActivityStreamsOrderedCollection : VocabType
  ActivityStreamsOrderedCollectionPage : VocabType

/-- The package-level `mgr`: the type deserializers the property resolvers call. Each returns
a Go pair `(value, error)`. -/
structure Manager (vocab : Vocab) where
  DeserializeCollectionActivityStreams :
    JsonMap → AliasMap → Option vocab.ActivityStreamsCollection × Option error
  DeserializeCollectionPageActivityStreams :
    JsonMap → AliasMap → Option vocab.ActivityStreamsCollectionPage × Option error
  DeserializeLinkActivityStreams :
    JsonMap → AliasMap → Option vocab.ActivityStreamsLink × Option error
  DeserializeMentionActivityStreams :
    JsonMap → AliasMap → Option vocab.ActivityStreamsMention × Option error
  DeserializeOrderedCollectionActivityStreams :
    JsonMap → AliasMap → Option vocab.ActivityStreamsOrderedCollection × Option error
  DeserializeOrderedCollectionPageActivityStreams :
    JsonMap → AliasMap → Option vocab.ActivityStreamsOrderedCollectionPage × Option error

/-! ## Property "next" -/

namespace propertynext

/-- Struct `ActivityStreamsNextProperty`. -/
structure ActivityStreamsNextProperty (vocab : Vocab) where
  activitystreamsCollectionPageMember : Option vocab.ActivityStreamsCollectionPage := none
  activitystreamsLinkMember : Option vocab.ActivityStreamsLink := none
  activitystreamsMentionMember : Option vocab.ActivityStreamsMention := none
  activitystreamsOrderedCollectionPageMember :
    Option vocab.ActivityStreamsOrderedCollectionPage := none
  unknown : Value := Value.nil
  iri : Option URL := none
  alias_ : String := ""

variable {vocab : Vocab}

/-- Function `DeserializeNextProperty`. -/
def DeserializeNextProperty (url : NetURL) (mgr : Manager vocab) (m : JsonMap)
    (aliasMap : AliasMap) : Option (ActivityStreamsNextProperty vocab) × Option error :=
  let alias_ := match aliasMap.lookup vocabURI with
    | some a => a
    | none => ""
  let propName := if alias_.length > 0 then alias_ ++ ":" ++ "next" else "next"
  match m.lookup propName with
  | some i =>
    let asIRI : Option URL := match i with
      | Value.string s =>
        match url.Parse s with
        | Except.ok u => if u.Scheme.length > 0 then some u else none
        | Except.error _ => none
      | _ => none
    match asIRI with
    | some u => (some { alias_ := alias_, iri := some u }, none)
    | none =>
      let asUnknown : Option (ActivityStreamsNextProperty vocab) × Option error :=
        (some { alias_ := alias_, unknown := i }, none)
      match i with
      | Value.object m =>
        match mgr.DeserializeCollectionPageActivityStreams m aliasMap with
        | (v, none) => (some { activitystreamsCollectionPageMember := v, alias_ := alias_ }, none)
        | (_, some _) =>
        match mgr.DeserializeLinkActivityStreams m aliasMap with
        | (v, none) => (some { activitystreamsLinkMember := v, alias_ := alias_ }, none)
        | (_, some _) =>
        match mgr.DeserializeMentionActivityStreams m aliasMap with
        | (v, none) => (some { activitystreamsMentionMember := v, alias_ := alias_ }, none)
        | (_, some _) =>
        match mgr.DeserializeOrderedCollectionPageActivityStreams m aliasMap with
        | (v, none) =>
          (some { activitystreamsOrderedCollectionPageMember := v, alias_ := alias_ }, none)
        | (_, some _) => asUnknown
      | _ => asUnknown
  | none => (none, none)

/-- Function `NewActivityStreamsNextProperty`. -/
def NewActivityStreamsNextProperty : ActivityStreamsNextProperty vocab := { alias_ := "" }

namespace ActivityStreamsNextProperty

/-- Method `Clear`. -/
def Clear (this : ActivityStreamsNextProperty vocab) : ActivityStreamsNextProperty vocab :=
  { this with
    activitystreamsCollectionPageMember := none
    activitystreamsLinkMember := none
    activitystreamsMentionMember := none
    activitystreamsOrderedCollectionPageMember := none
    unknown := Value.nil
    iri := none }

/-- Method `GetActivityStreamsCollectionPage`. -/
def GetActivityStreamsCollectionPage (this : ActivityStreamsNextProperty vocab) :=
  this.activitystreamsCollectionPageMember

/-- Method `GetActivityStreamsLink`. -/
def GetActivityStreamsLink (this : ActivityStreamsNextProperty vocab) :=
  this.activitystreamsLinkMember

/-- Method `GetActivityStreamsMention`. -/
def GetActivityStreamsMention (this : ActivityStreamsNextProperty vocab) :=
  this.activitystreamsMentionMember

/-- Method `GetActivityStreamsOrderedCollectionPage`. -/
def GetActivityStreamsOrderedCollectionPage (this : ActivityStreamsNextProperty vocab) :=
  this.activitystreamsOrderedCollectionPageMember

/-- Method `GetIRI`. -/
def GetIRI (this : ActivityStreamsNextProperty vocab) : Option URL := this.iri

/-- Method `IsActivityStreamsCollectionPage`. -/
def IsActivityStreamsCollectionPage (this : ActivityStreamsNextProperty vocab) : Bool :=
  this.activitystreamsCollectionPageMember.isSome

/-- Method `IsActivityStreamsLink`. -/
def IsActivityStreamsLink (this : ActivityStreamsNextProperty vocab) : Bool :=
  this.activitystreamsLinkMember.isSome

/-- Method `IsActivityStreamsMention`. -/
def IsActivityStreamsMention (this : ActivityStreamsNextProperty vocab) : Bool :=
  this.activitystreamsMentionMember.isSome

/-- Method `IsActivityStreamsOrderedCollectionPage`. -/
def IsActivityStreamsOrderedCollectionPage (this : ActivityStreamsNextProperty vocab) : Bool :=
  this.activitystreamsOrderedCollectionPageMember.isSome

/-- Method `IsIRI`. -/
def IsIRI (this : ActivityStreamsNextProperty vocab) : Bool := this.iri.isSome

/-- Method `HasAny`. -/
def HasAny (this : ActivityStreamsNextProperty vocab) : Bool :=
  this.IsActivityStreamsCollectionPage ||
    this.IsActivityStreamsLink ||
    this.IsActivityStreamsMention ||
    this.IsActivityStreamsOrderedCollectionPage ||
    this.iri.isSome

/-- Method `JSONLDContext`. -/
def JSONLDContext (this : ActivityStreamsNextProperty vocab) : AliasMap :=
  let m : AliasMap := [(vocabURI, this.alias_)]
  let child : AliasMap :=
    match this.activitystreamsCollectionPageMember with
    | some v => vocab.ActivityStreamsCollectionPage.JSONLDContext v
    | none =>
    match this.activitystreamsLinkMember with
    | some v => vocab.ActivityStreamsLink.JSONLDContext v
    | none =>
    match this.activitystreamsMentionMember with
    | some v => vocab.ActivityStreamsMention.JSONLDContext v
    | none =>
    match this.activitystreamsOrderedCollectionPageMember with
    | some v => vocab.ActivityStreamsOrderedCollectionPage.JSONLDContext v
    | none => []
  child.foldl (fun m kv => mapSet m kv.1 kv.2) m

/-- Method `KindIndex`. -/
def KindIndex (this : ActivityStreamsNextProperty vocab) : Int :=
  if this.IsActivityStreamsCollectionPage then 0
  else if this.IsActivityStreamsLink then 1
  else if this.IsActivityStreamsMention then 2
  else if this.IsActivityStreamsOrderedCollectionPage then 3
  else if this.IsIRI then -2
  else -1

/-- Method `LessThan`. The result is `none` when the run reaches a nil value where the Go
code calls a method on it or hands it to the alternative's own `LessThan`. -/
def LessThan (this o : ActivityStreamsNextProperty vocab) : Option Bool :=
  let idx1 := this.KindIndex
  let idx2 := o.KindIndex
  if idx1 < idx2 then some true
  else if idx1 > idx2 then some false
  else
    match this.activitystreamsCollectionPageMember with
    | some a => (o.GetActivityStreamsCollectionPage).map
        (vocab.ActivityStreamsCollectionPage.LessThan a)
    | none =>
    match this.activitystreamsLinkMember with
    | some a => (o.GetActivityStreamsLink).map (vocab.ActivityStreamsLink.LessThan a)
    | none =>
    match this.activitystreamsMentionMember with
    | some a => (o.GetActivityStreamsMention).map (vocab.ActivityStreamsMention.LessThan a)
    | none =>
    match this.activitystreamsOrderedCollectionPageMember with
    | some a => (o.GetActivityStreamsOrderedCollectionPage).map
        (vocab.ActivityStreamsOrderedCollectionPage.LessThan a)
    | none =>
    match this.iri with
    | some u => (o.GetIRI).map (fun w => decide (u.String < w.String))
    | none => some false

/-- Method `Name`. -/
def Name (_this : ActivityStreamsNextProperty vocab) : String := "next"

/-- Method `Serialize`. A typed alternative's map becomes the returned `interface{}`. -/
def Serialize (this : ActivityStreamsNextProperty vocab) : Value × Option error :=
  match this.activitystreamsCollectionPageMember with
  | some v =>
    let r := vocab.ActivityStreamsCollectionPage.Serialize v
    (Value.object r.1, r.2)
  | none =>
  match this.activitystreamsLinkMember with
  | some v =>
    let r := vocab.ActivityStreamsLink.Serialize v
    (Value.object r.1, r.2)
  | none =>
  match this.activitystreamsMentionMember with
  | some v =>
    let r := vocab.ActivityStreamsMention.Serialize v
    (Value.object r.1, r.2)
  | none =>
  match this.activitystreamsOrderedCollectionPageMember with
  | some v =>
    let r := vocab.ActivityStreamsOrderedCollectionPage.Serialize v
    (Value.object r.1, r.2)
  | none =>
  match this.iri with
  | some u => (Value.string u.String, none)
  | none => (this.unknown, none)

/-- Method `SetActivityStreamsCollectionPage`. -/
def SetActivityStreamsCollectionPage (this : ActivityStreamsNextProperty vocab)
    (v : Option vocab.ActivityStreamsCollectionPage) : ActivityStreamsNextProperty vocab :=
  { this.Clear with activitystreamsCollectionPageMember := v }

/-- Method `SetActivityStreamsLink`. -/
def SetActivityStreamsLink (this : ActivityStreamsNextProperty vocab)
    (v : Option vocab.ActivityStreamsLink) : ActivityStreamsNextProperty vocab :=
  { this.Clear with activitystreamsLinkMember := v }

/-- Method `SetActivityStreamsMention`. -/
def SetActivityStreamsMention (this : ActivityStreamsNextProperty vocab)
    (v : Option vocab.ActivityStreamsMention) : ActivityStreamsNextProperty vocab :=
  { this.Clear with activitystreamsMentionMember := v }

/-- Method `SetActivityStreamsOrderedCollectionPage`. -/
def SetActivityStreamsOrderedCollectionPage (this : ActivityStreamsNextProperty vocab)
    (v : Option vocab.ActivityStreamsOrderedCollectionPage) :
    ActivityStreamsNextProperty vocab :=
  { this.Clear with activitystreamsOrderedCollectionPageMember := v }

/-- Method `SetIRI`. -/
def SetIRI (this : ActivityStreamsNextProperty vocab) (v : Option URL) :
    ActivityStreamsNextProperty vocab :=
  { this.Clear with iri := v }

end ActivityStreamsNextProperty

end propertynext

/-! ## Property "prev" -/

namespace propertyprev

/-- Struct `ActivityStreamsPrevProperty`. -/
structure ActivityStreamsPrevProperty (vocab : Vocab) where
  activitystreamsCollectionPageMember : Option vocab.ActivityStreamsCollectionPage := none
  activitystreamsLinkMember : Option vocab.ActivityStreamsLink := none
  activitystreamsMentionMember : Option vocab.ActivityStreamsMention := none
  activitystreamsOrderedCollectionPageMember :
    Option vocab.ActivityStreamsOrderedCollectionPage := none
  unknown : Value := Value.nil
  iri : Option URL := none
  alias_ : String := ""

variable {vocab : Vocab}

/-- Function `DeserializePrevProperty`. -/
def DeserializePrevProperty (url : NetURL) (mgr : Manager vocab) (m : JsonMap)
    (aliasMap : AliasMap) : Option (ActivityStreamsPrevProperty vocab) × Option error :=
  let alias_ := match aliasMap.lookup vocabURI with
    | some a => a
    | none => ""
  let propName := if alias_.length > 0 then alias_ ++ ":" ++ "prev" else "prev"
  match m.lookup propName with
  | some i =>
    let asIRI : Option URL := match i with
      | Value.string s =>
        match url.Parse s with
        | Except.ok u => if u.Scheme.length > 0 then some u else none
        | Except.error _ => none
      | _ => none
    match asIRI with
    | some u => (some { alias_ := alias_, iri := some u }, none)
    | none =>
      let asUnknown : Option (ActivityStreamsPrevProperty vocab) × Option error :=
        (some { alias_ := alias_, unknown := i }, none)
      match i with
      | Value.object m =>
        match mgr.DeserializeCollectionPageActivityStreams m aliasMap with
        | (v, none) => (some { activitystreamsCollectionPageMember := v, alias_ := alias_ }, none)
        | (_, some _) =>
        match mgr.DeserializeLinkActivityStreams m aliasMap with
        | (v, none) => (some { activitystreamsLinkMember := v, alias_ := alias_ }, none)
        | (_, some _) =>
        match mgr.DeserializeMentionActivityStreams m aliasMap with
        | (v, none) => (some { activitystreamsMentionMember := v, alias_ := alias_ }, none)
        | (_, some _) =>
        match mgr.DeserializeOrderedCollectionPageActivityStreams m aliasMap with
        | (v, none) =>
          (some { activitystreamsOrderedCollectionPageMember := v, alias_ := alias_ }, none)
        | (_, some _) => asUnknown
      | _ => asUnknown
  | none => (none, none)

/-- Function `NewActivityStreamsPrevProperty`. -/
def NewActivityStreamsPrevProperty : ActivityStreamsPrevProperty vocab := { alias_ := "" }

namespace ActivityStreamsPrevProperty

/-- Method `Clear`. -/
def Clear (this : ActivityStreamsPrevProperty vocab) : ActivityStreamsPrevProperty vocab :=
  { this with
    activitystreamsCollectionPageMember := none
    activitystreamsLinkMember := none
    activitystreamsMentionMember := none
    activitystreamsOrderedCollectionPageMember := none
    unknown := Value.nil
    iri := none }

/-- Method `GetActivityStreamsCollectionPage`. -/
def GetActivityStreamsCollectionPage (this : ActivityStreamsPrevProperty vocab) :=
  this.activitystreamsCollectionPageMember

/-- Method `GetActivityStreamsLink`. -/
def GetActivityStreamsLink (this : ActivityStreamsPrevProperty vocab) :=
  this.activitystreamsLinkMember

/-- Method `GetActivityStreamsMention`. -/
def GetActivityStreamsMention (this : ActivityStreamsPrevProperty vocab) :=
  this.activitystreamsMentionMember

/-- Method `GetActivityStreamsOrderedCollectionPage`. -/
def GetActivityStreamsOrderedCollectionPage (this : ActivityStreamsPrevProperty vocab) :=
  this.activitystreamsOrderedCollectionPageMember

/-- Method `GetIRI`. -/
def GetIRI (this : ActivityStreamsPrevProperty vocab) : Option URL := this.iri

/-- Method `IsActivityStreamsCollectionPage`. -/
def IsActivityStreamsCollectionPage (this : ActivityStreamsPrevProperty vocab) : Bool :=
  this.activitystreamsCollectionPageMember.isSome

/-- Method `IsActivityStreamsLink`. -/
def IsActivityStreamsLink (this : ActivityStreamsPrevProperty vocab) : Bool :=
  this.activitystreamsLinkMember.isSome

/-- Method `IsActivityStreamsMention`. -/
def IsActivityStreamsMention (this : ActivityStreamsPrevProperty vocab) : Bool :=
  this.activitystreamsMentionMember.isSome

/-- Method `IsActivityStreamsOrderedCollectionPage`. -/
def IsActivityStreamsOrderedCollectionPage (this : ActivityStreamsPrevProperty vocab) : Bool :=
  this.activitystreamsOrderedCollectionPageMember.isSome

/-- Method `IsIRI`. -/
def IsIRI (this : ActivityStreamsPrevProperty vocab) : Bool := this.iri.isSome

/-- Method `HasAny`. -/
def HasAny (this : ActivityStreamsPrevProperty vocab) : Bool :=
  this.IsActivityStreamsCollectionPage ||
    this.IsActivityStreamsLink ||
    this.IsActivityStreamsMention ||
    this.IsActivityStreamsOrderedCollectionPage ||
    this.iri.isSome

/-- Method `JSONLDContext`. -/
def JSONLDContext (this : ActivityStreamsPrevProperty vocab) : AliasMap :=
  let m : AliasMap := [(vocabURI, this.alias_)]
  let child : AliasMap :=
    match this.activitystreamsCollectionPageMember with
    | some v => vocab.ActivityStreamsCollectionPage.JSONLDContext v
    | none =>
    match this.activitystreamsLinkMember with
    | some v => vocab.ActivityStreamsLink.JSONLDContext v
    | none =>
    match this.activitystreamsMentionMember with
    | some v => vocab.ActivityStreamsMention.JSONLDContext v
    | none =>
    match this.activitystreamsOrderedCollectionPageMember with
    | some v => vocab.ActivityStreamsOrderedCollectionPage.JSONLDContext v
    | none => []
  child.foldl (fun m kv => mapSet m kv.1 kv.2) m

/-- Method `KindIndex`. -/
def KindIndex (this : ActivityStreamsPrevProperty vocab) : Int :=
  if this.IsActivityStreamsCollectionPage then 0
  else if this.IsActivityStreamsLink then 1
  else if this.IsActivityStreamsMention then 2
  else if this.IsActivityStreamsOrderedCollectionPage then 3
  else if this.IsIRI then -2
  else -1

/-- Method `LessThan`. The result is `none` when the run reaches a nil value where the Go
code calls a method on it or hands it to the alternative's own `LessThan`. -/
def LessThan (this o : ActivityStreamsPrevProperty vocab) : Option Bool :=
  let idx1 := this.KindIndex
  let idx2 := o.KindIndex
  if idx1 < idx2 then some true
  else if idx1 > idx2 then some false
  else
    match this.activitystreamsCollectionPageMember with
    | some a => (o.GetActivityStreamsCollectionPage).map
        (vocab.ActivityStreamsCollectionPage.LessThan a)
    | none =>
    match this.activitystreamsLinkMember with
    | some a => (o.GetActivityStreamsLink).map (vocab.ActivityStreamsLink.LessThan a)
    | none =>
    match this.activitystreamsMentionMember with
    | some a => (o.GetActivityStreamsMention).map (vocab.ActivityStreamsMention.LessThan a)
    | none =>
    match this.activitystreamsOrderedCollectionPageMember with
    | some a => (o.GetActivityStreamsOrderedCollectionPage).map
        (vocab.ActivityStreamsOrderedCollectionPage.LessThan a)
    | none =>
    match this.iri with
    | some u => (o.GetIRI).map (fun w => decide (u.String < w.String))
    | none => some false

/-- Method `Name`. -/
def Name (_this : ActivityStreamsPrevProperty vocab) : String := "prev"

/-- Method `Serialize`. A typed alternative's map becomes the returned `interface{}`. -/
def Serialize (this : ActivityStreamsPrevProperty vocab) : Value × Option error :=
  match this.activitystreamsCollectionPageMember with
  | some v =>
    let r := vocab.ActivityStreamsCollectionPage.Serialize v
    (Value.object r.1, r.2)
  | none =>
  match this.activitystreamsLinkMember with
  | some v =>
    let r := vocab.ActivityStreamsLink.Serialize v
    (Value.object r.1, r.2)
  | none =>
  match this.activitystreamsMentionMember with
  | some v =>
    let r := vocab.ActivityStreamsMention.Serialize v
    (Value.object r.1, r.2)
  | none =>
  match this.activitystreamsOrderedCollectionPageMember with
  | some v =>
    let r := vocab.ActivityStreamsOrderedCollectionPage.Serialize v
    (Value.object r.1, r.2)
  | none =>
  match this.iri with
  | some u => (Value.string u.String, none)
  | none => (this.unknown, none)

/-- Method `SetActivityStreamsCollectionPage`. -/
def SetActivityStreamsCollectionPage (this : ActivityStreamsPrevProperty vocab)
    (v : Option vocab.ActivityStreamsCollectionPage) : ActivityStreamsPrevProperty vocab :=
  { this.Clear with activitystreamsCollectionPageMember := v }

/-- Method `SetActivityStreamsLink`. -/
def SetActivityStreamsLink (this : ActivityStreamsPrevProperty vocab)
    (v : Option vocab.ActivityStreamsLink) : ActivityStreamsPrevProperty vocab :=
  { this.Clear with activitystreamsLinkMember := v }

/-- Method `SetActivityStreamsMention`. -/
def SetActivityStreamsMention (this : ActivityStreamsPrevProperty vocab)
    (v : Option vocab.ActivityStreamsMention) : ActivityStreamsPrevProperty vocab :=
  { this.Clear with activitystreamsMentionMember := v }

/-- Method `SetActivityStreamsOrderedCollectionPage`. -/
def SetActivityStreamsOrderedCollectionPage (this : ActivityStreamsPrevProperty vocab)
    (v : Option vocab.ActivityStreamsOrderedCollectionPage) :
    ActivityStreamsPrevProperty vocab :=
  { this.Clear with activitystreamsOrderedCollectionPageMember := v }

/-- Method `SetIRI`. -/
def SetIRI (this : ActivityStreamsPrevProperty vocab) (v : Option URL) :
    ActivityStreamsPrevProperty vocab :=
  { this.Clear with iri := v }

end ActivityStreamsPrevProperty

end propertyprev

/-! ## Property "following" -/

namespace propertyfollowing

/-- Struct `ActivityStreamsFollowingProperty`. -/
structure ActivityStreamsFollowingProperty (vocab : Vocab) where
  activitystreamsOrderedCollectionMember : Option vocab.ActivityStreamsOrderedCollection := none
  activitystreamsCollectionMember : Option vocab.ActivityStreamsCollection := none
  activitystreamsCollectionPageMember : Option vocab.ActivityStreamsCollectionPage := none
  activitystreamsOrderedCollectionPageMember :
    Option vocab.ActivityStreamsOrderedCollectionPage := none
  unknown : Value := Value.nil
  iri : Option URL := none
  alias_ : String := ""

variable {vocab : Vocab}

/-- Function `DeserializeFollowingProperty`. -/
def DeserializeFollowingProperty (url : NetURL) (mgr : Manager vocab) (m : JsonMap)
    (aliasMap : AliasMap) : Option (ActivityStreamsFollowingProperty vocab) × Option error :=
  let alias_ := match aliasMap.lookup vocabURI with
    | some a => a
    | none => ""
  let propName := if alias_.length > 0 then alias_ ++ ":" ++ "following" else "following"
  match m.lookup propName with
  | some i =>
    let asIRI : Option URL := match i with
      | Value.string s =>
        match url.Parse s with
        | Except.ok u => if u.Scheme.length > 0 then some u else none
        | Except.error _ => none
      | _ => none
    match asIRI with
    | some u => (some { alias_ := alias_, iri := some u }, none)
    | none =>
      let asUnknown : Option (ActivityStreamsFollowingProperty vocab) × Option error :=
        (some { alias_ := alias_, unknown := i }, none)
      match i with
      | Value.object m =>
        match mgr.DeserializeOrderedCollectionActivityStreams m aliasMap with
        | (v, none) => (some { activitystreamsOrderedCollectionMember := v, alias_ := alias_ }, none)
        | (_, some _) =>
        match mgr.DeserializeCollectionActivityStreams m aliasMap with
        | (v, none) => (some { activitystreamsCollectionMember := v, alias_ := alias_ }, none)
        | (_, some _) =>
        match mgr.DeserializeCollectionPageActivityStreams m aliasMap with
        | (v, none) => (some { activitystreamsCollectionPageMember := v, alias_ := alias_ }, none)
        | (_, some _) =>
        match mgr.DeserializeOrderedCollectionPageActivityStreams m aliasMap with
        | (v, none) =>
          (some { activitystreamsOrderedCollectionPageMember := v, alias_ := alias_ }, none)
        | (_, some _) => asUnknown
      | _ => asUnknown
  | none => (none, none)

/-- Function `NewActivityStreamsFollowingProperty`. -/
def NewActivityStreamsFollowingProperty : ActivityStreamsFollowingProperty vocab := { alias_ := "" }

namespace ActivityStreamsFollowingProperty

/-- Method `Clear`. -/
def Clear (this : ActivityStreamsFollowingProperty vocab) : ActivityStreamsFollowingProperty vocab :=
  { this with
    activitystreamsOrderedCollectionMember := none
    activitystreamsCollectionMember := none
    activitystreamsCollectionPageMember := none
    activitystreamsOrderedCollectionPageMember := none
    unknown := Value.nil
    iri := none }

/-- Method `GetActivityStreamsOrderedCollection`. -/
def GetActivityStreamsOrderedCollection (this : ActivityStreamsFollowingProperty vocab) :=
  this.activitystreamsOrderedCollectionMember

/-- Method `GetActivityStreamsCollection`. -/
def GetActivityStreamsCollection (this : ActivityStreamsFollowingProperty vocab) :=
  this.activitystreamsCollectionMember

/-- Method `GetActivityStreamsCollectionPage`. -/
def GetActivityStreamsCollectionPage (this : ActivityStreamsFollowingProperty vocab) :=
  this.activitystreamsCollectionPageMember

/-- Method `GetActivityStreamsOrderedCollectionPage`. -/
def GetActivityStreamsOrderedCollectionPage (this : ActivityStreamsFollowingProperty vocab) :=
  this.activitystreamsOrderedCollectionPageMember

/-- Method `GetIRI`. -/
def GetIRI (this : ActivityStreamsFollowingProperty vocab) : Option URL := this.iri

/-- Method `IsActivityStreamsOrderedCollection`. -/
def IsActivityStreamsOrderedCollection (this : ActivityStreamsFollowingProperty vocab) : Bool :=
  this.activitystreamsOrderedCollectionMember.isSome

/-- Method `IsActivityStreamsCollection`. -/
def IsActivityStreamsCollection (this : ActivityStreamsFollowingProperty vocab) : Bool :=
  this.activitystreamsCollectionMember.isSome

/-- Method `IsActivityStreamsCollectionPage`. -/
def IsActivityStreamsCollectionPage (this : ActivityStreamsFollowingProperty vocab) : Bool :=
  this.activitystreamsCollectionPageMember.isSome

/-- Method `IsActivityStreamsOrderedCollectionPage`. -/
def IsActivityStreamsOrderedCollectionPage (this : ActivityStreamsFollowingProperty vocab) : Bool :=
  this.activitystreamsOrderedCollectionPageMember.isSome

/-- Method `IsIRI`. -/
def IsIRI (this : ActivityStreamsFollowingProperty vocab) : Bool := this.iri.isSome

/-- Method `HasAny`. -/
def HasAny (this : ActivityStreamsFollowingProperty vocab) : Bool :=
  this.IsActivityStreamsOrderedCollection ||
    this.IsActivityStreamsCollection ||
    this.IsActivityStreamsCollectionPage ||
    this.IsActivityStreamsOrderedCollectionPage ||
    this.iri.isSome

/-- Method `JSONLDContext`. -/
def JSONLDContext (this : ActivityStreamsFollowingProperty vocab) : AliasMap :=
  let m : AliasMap := [(vocabURI, this.alias_)]
  let child : AliasMap :=
    match this.activitystreamsOrderedCollectionMember with
    | some v => vocab.ActivityStreamsOrderedCollection.JSONLDContext v
    | none =>
    match this.activitystreamsCollectionMember with
    | some v => vocab.ActivityStreamsCollection.JSONLDContext v
    | none =>
    match this.activitystreamsCollectionPageMember with
    | some v => vocab.ActivityStreamsCollectionPage.JSONLDContext v
    | none =>
    match this.activitystreamsOrderedCollectionPageMember with
    | some v => vocab.ActivityStreamsOrderedCollectionPage.JSONLDContext v
    | none => []
  child.foldl (fun m kv => mapSet m kv.1 kv.2) m

/-- Method `KindIndex`. -/
def KindIndex (this : ActivityStreamsFollowingProperty vocab) : Int :=
  if this.IsActivityStreamsOrderedCollection then 0
  else if this.IsActivityStreamsCollection then 1
  else if this.IsActivityStreamsCollectionPage then 2
  else if this.IsActivityStreamsOrderedCollectionPage then 3
  else if this.IsIRI then -2
  else -1

/-- Method `LessThan`. The result is `none` when the run reaches a nil value where the Go
code calls a method on it or hands it to the alternative's own `LessThan`. -/
def LessThan (this o : ActivityStreamsFollowingProperty vocab) : Option Bool :=
  let idx1 := this.KindIndex
  let idx2 := o.KindIndex
  if idx1 < idx2 then some true
  else if idx1 > idx2 then some false
  else
    match this.activitystreamsOrderedCollectionMember with
    | some a => (o.GetActivityStreamsOrderedCollection).map
        (vocab.ActivityStreamsOrderedCollection.LessThan a)
    | none =>
    match this.activitystreamsCollectionMember with
    | some a => (o.GetActivityStreamsCollection).map (vocab.ActivityStreamsCollection.LessThan a)
    | none =>
    match this.activitystreamsCollectionPageMember with
    | some a => (o.GetActivityStreamsCollectionPage).map (vocab.ActivityStreamsCollectionPage.LessThan a)
    | none =>
    match this.activitystreamsOrderedCollectionPageMember with
    | some a => (o.GetActivityStreamsOrderedCollectionPage).map
        (vocab.ActivityStreamsOrderedCollectionPage.LessThan a)
    | none =>
    match this.iri with
    | some u => (o.GetIRI).map (fun w => decide (u.String < w.String))
    | none => some false

/-- Method `Name`. -/
def Name (_this : ActivityStreamsFollowingProperty vocab) : String := "following"

/-- Method `Serialize`. A typed alternative's map becomes the returned `interface{}`. -/
def Serialize (this : ActivityStreamsFollowingProperty vocab) : Value × Option error :=
  match this.activitystreamsOrderedCollectionMember with
  | some v =>
    let r := vocab.ActivityStreamsOrderedCollection.Serialize v
    (Value.object r.1, r.2)
  | none =>
  match this.activitystreamsCollectionMember with
  | some v =>
    let r := vocab.ActivityStreamsCollection.Serialize v
    (Value.object r.1, r.2)
  | none =>
  match this.activitystreamsCollectionPageMember with
  | some v =>
    let r := vocab.ActivityStreamsCollectionPage.Serialize v
    (Value.object r.1, r.2)
  | none =>
  match this.activitystreamsOrderedCollectionPageMember with
  | some v =>
    let r := vocab.ActivityStreamsOrderedCollectionPage.Serialize v
    (Value.object r.1, r.2)
  | none =>
  match this.iri with
  | some u => (Value.string u.String, none)
  | none => (this.unknown, none)

/-- Method `SetActivityStreamsOrderedCollection`. -/
def SetActivityStreamsOrderedCollection (this : ActivityStreamsFollowingProperty vocab)
    (v : Option vocab.ActivityStreamsOrderedCollection) : ActivityStreamsFollowingProperty vocab :=
  { this.Clear with activitystreamsOrderedCollectionMember := v }

/-- Method `SetActivityStreamsCollection`. -/
def SetActivityStreamsCollection (this : ActivityStreamsFollowingProperty vocab)
    (v : Option vocab.ActivityStreamsCollection) : ActivityStreamsFollowingProperty vocab :=
  { this.Clear with activitystreamsCollectionMember := v }

/-- Method `SetActivityStreamsCollectionPage`. -/
def SetActivityStreamsCollectionPage (this : ActivityStreamsFollowingProperty vocab)
    (v : Option vocab.ActivityStreamsCollectionPage) : ActivityStreamsFollowingProperty vocab :=
  { this.Clear with activitystreamsCollectionPageMember := v }

/-- Method `SetActivityStreamsOrderedCollectionPage`. -/
def SetActivityStreamsOrderedCollectionPage (this : ActivityStreamsFollowingProperty vocab)
    (v : Option vocab.ActivityStreamsOrderedCollectionPage) :
    ActivityStreamsFollowingProperty vocab :=
  { this.Clear with activitystreamsOrderedCollectionPageMember := v }

/-- Method `SetIRI`. -/
def SetIRI (this : ActivityStreamsFollowingProperty vocab) (v : Option URL) :
    ActivityStreamsFollowingProperty vocab :=
  { this.Clear with iri := v }

end ActivityStreamsFollowingProperty

end propertyfollowing

/-! ## Vocabulary types

The sources `type_link/gen_type_activitystreams_link.go`,
`type_relationship/gen_type_activitystreams_relationship.go` and `type_place/gen_type_place.go`
repeat one block of code per declared property, in declaration order, in each of their
functions. The structs keep one field per property; `fields` lists them in declaration order and
each repeated block is embedded once, as a function run over that list. All property fields
share one interface `P`, since the sources call the same methods on each of them.
The Go fields `Type` (of Place) and `ActivityStreamsRelationship` (of the Relationship struct
of the same name) are written `Type_` and `ActivityStreamsRelationship_`.
-/

/-- A `vocab` property interface as the type sources use it: the carrier of its non-nil
values and the methods called on them. -/
structure PropertyType where
  T : Type
  Serialize : T → Value × Option error
  Name : T → String
  LessThan : T → T → Bool
  JSONLDContext : T → AliasMap

instance : CoeSort PropertyType Type := ⟨PropertyType.T⟩

/-- The property deserializers of the package-level `mgr`, keyed by property name: `mgr "href"`
stands for `mgr.DeserializeHrefPropertyActivityStreams()`, and so on. Each returns a Go pair
`(property, error)`. -/
abbrev PropertyManager (P : PropertyType) :=
  String → JsonMap → AliasMap → Option P × Option error

namespace strings

/-- The text `s` without the leading `pre`, if it starts with it. -/
def trimPrefixChars : List Char → List Char → Option (List Char)
  | s, [] => some s
  | [], _ :: _ => none
  | c :: s, p :: pre => if c = p then trimPrefixChars s pre else none

/-- Function `strings.TrimPrefix` of the Go standard library. -/
def TrimPrefix (s pre : String) : String :=
  match trimPrefixChars s.data pre.data with
  | some rest => String.mk rest
  | none => s

end strings

section blocks

variable {P : PropertyType}

/-- Block "Known property deserialization", one step per declared property:
`if p, err := mgr.Deserialize…Property…()(m, aliasMap); err != nil { return nil, err }` and
otherwise the field is assigned `p` (Link and Relationship guard the assignment by `p != nil`,
which leaves a nil field nil). The result is the list of field values, or the first error. -/
def deserializeKnown (mgr : PropertyManager P) (m : JsonMap) (aliasMap : AliasMap) :
    List String → List (Option P) × Option error
  | [] => ([], none)
  | name :: rest =>
    match mgr name m aliasMap with
    | (_, some err) => ([], some err)
    | (p, none) =>
      match deserializeKnown mgr m aliasMap rest with
      | (_, some err) => ([], some err)
      | (fields, none) => (p :: fields, none)

/-- Block "Unknown deserialization": `for k, v := range m`, skip `k` when it equals one of the
listed names, else `this.unknown[k] = v`, starting from the empty map. -/
def deserializeUnknown (known : List String) (m : JsonMap) : JsonMap :=
  m.foldl (fun unknown kv => if known.contains kv.1 then unknown else mapSet unknown kv.1 kv.2) []

/-- Block "Serialize known properties" of Link and Relationship, one step per field:
`if this.X != nil { if i, err := this.X.Serialize(); err != nil { return nil, err } else if
i != nil { m[this.X.Name()] = i } }`. -/
def serializeKnown : List (Option P) → JsonMap → JsonMap × Option error
  | [], m => (m, none)
  | none :: rest, m => serializeKnown rest m
  | some p :: rest, m =>
    match P.Serialize p with
    | (_, some err) => ([], some err)
    | (i, none) => serializeKnown rest (if i.isNil then m else mapSet m (P.Name p) i)

/-- Block "Serialize known properties" of Place, whose steps call `this.X.Serialize()` without
testing `this.X` for nil: `none` is the run-time fault of calling a method on a nil interface. -/
def serializeKnownUnguarded : List (Option P) → JsonMap → Option (JsonMap × Option error)
  | [], m => some (m, none)
  | none :: _, _ => none
  | some p :: rest, m =>
    match P.Serialize p with
    | (_, some err) => some ([], some err)
    | (i, none) => serializeKnownUnguarded rest (if i.isNil then m else mapSet m (P.Name p) i)

/-- Block "Serialize unknown properties": `for k, v := range this.unknown`,
`if _, has := m[k]; !has { m[k] = v }`. -/
def serializeUnknown (unknown : JsonMap) (m : JsonMap) : JsonMap :=
  unknown.foldl (fun m kv => if (m.lookup kv.1).isSome then m else mapSet m kv.1 kv.2) m

/-- Block "Compare known properties" of Link and Relationship, one step per field, on the
fields of `this` and of `o`: `some b` when a step returns `b`, `none` when every step falls
through. A step reads
`if lhs != nil && rhs != nil { if lhs.LessThan(rhs) { return true } else if rhs.LessThan(lhs)
{ return false } } else if lhs == nil && rhs != nil { return true } else if rhs != nil &&
rhs == nil { return false }`; its last condition never holds. -/
def lessThanKnown : List (Option P) → List (Option P) → Option Bool
  | lhs :: ls, rhs :: rs =>
    match lhs, rhs with
    | some l, some r =>
      if P.LessThan l r then some true
      else if P.LessThan r l then some false
      else lessThanKnown ls rs
    | none, some _ => some true
    | _, rhs => if rhs.isSome && rhs.isNone then some false else lessThanKnown ls rs
  | _, _ => none

end blocks

/-! ### Link -/

namespace typelink

/-- Struct `ActivityStreamsLink`. -/
structure ActivityStreamsLink (P : PropertyType) where
  ActivityStreamsAttributedTo : Option P := none
  ActivityStreamsHeight : Option P := none
  ActivityStreamsHref : Option P := none
  ActivityStreamsHreflang : Option P := none
  ActivityStreamsId : Option P := none
  ActivityStreamsMediaType : Option P := none
  ActivityStreamsName : Option P := none
  ActivityStreamsPreview : Option P := none
  ActivityStreamsRel : Option P := none
  ActivityStreamsSummary : Option P := none
  ActivityStreamsType : Option P := none
  ActivityStreamsWidth : Option P := none
  alias_ : String := ""
  unknown : JsonMap := []

variable {P : PropertyType}

/-- The declared properties of Link, in declaration order. -/
def propertyNames : List String :=
    ["attributedTo", "height", "href", "hreflang", "id", "mediaType", "name", "preview", "rel",
     "summary", "type", "width"]

/-- The names the "Unknown deserialization" block of `DeserializeLink` skips. -/
def knownNames : List String :=
    ["attributedTo", "height", "href", "hreflang", "id", "mediaType", "name", "nameMap",
     "preview", "rel", "summary", "summaryMap", "type", "width"]

/-- The property fields of a `ActivityStreamsLink`, in declaration order. -/
def ActivityStreamsLink.fields (this : ActivityStreamsLink P) : List (Option P) :=
    [this.ActivityStreamsAttributedTo, this.ActivityStreamsHeight, this.ActivityStreamsHref,
     this.ActivityStreamsHreflang, this.ActivityStreamsId, this.ActivityStreamsMediaType,
     this.ActivityStreamsName, this.ActivityStreamsPreview, this.ActivityStreamsRel,
     this.ActivityStreamsSummary, this.ActivityStreamsType, this.ActivityStreamsWidth]

/-- The struct built by `DeserializeLink`: the k-th known-property step assigns the k-th field. -/
def ActivityStreamsLink.ofFields (fields : List (Option P)) (alias_ : String) (unknown : JsonMap) :
    ActivityStreamsLink P :=
  { ActivityStreamsAttributedTo := fields.getD 0 none
    ActivityStreamsHeight := fields.getD 1 none
    ActivityStreamsHref := fields.getD 2 none
    ActivityStreamsHreflang := fields.getD 3 none
    ActivityStreamsId := fields.getD 4 none
    ActivityStreamsMediaType := fields.getD 5 none
    ActivityStreamsName := fields.getD 6 none
    ActivityStreamsPreview := fields.getD 7 none
    ActivityStreamsRel := fields.getD 8 none
    ActivityStreamsSummary := fields.getD 9 none
    ActivityStreamsType := fields.getD 10 none
    ActivityStreamsWidth := fields.getD 11 none
    alias_ := alias_
    unknown := unknown }

/-- Function `DeserializeLink`. The texts of the error values are shortened. -/
def DeserializeLink (mgr : PropertyManager P) (m : JsonMap) (aliasMap : AliasMap) :
    Option (ActivityStreamsLink P) × Option error :=
  let names : String × String := match aliasMap.lookup vocabURI with
    | some a => (a, a ++ ":")
    | none => ("", "")
  let alias_ := names.1
  let aliasPrefix := names.2
  let typeError : Option error := match m.lookup "type" with
    | none => some "no \"type\" property in map"
    | some (Value.string typeString) =>
      let typeName := strings.TrimPrefix typeString aliasPrefix
      if typeName ≠ "Link" then some "\"type\" property is not of \"Link\" type" else none
    | some (Value.array arrType) =>
      let found := arrType.any (fun elemVal =>
        match elemVal with
        | Value.string typeString => strings.TrimPrefix typeString aliasPrefix == "Link"
        | _ => false)
      if !found then some "could not find a \"type\" property of value \"Link\"" else none
    | some _ => some "\"type\" property is unrecognized type"
  match typeError with
  | some err => (none, some err)
  | none =>
    match deserializeKnown mgr m aliasMap propertyNames with
    | (_, some err) => (none, some err)
    | (fields, none) =>
      (some (ActivityStreamsLink.ofFields fields alias_ (deserializeUnknown knownNames m)), none)

namespace ActivityStreamsLink

/-- Method `GetUnknownProperties`. -/
def GetUnknownProperties (this : ActivityStreamsLink P) : JsonMap := this.unknown

/-- Method `LessThan`. -/
def LessThan (this o : ActivityStreamsLink P) : Bool :=
  match lessThanKnown this.fields o.fields with
  | some b => b
  | none =>
    if this.unknown.length < o.GetUnknownProperties.length then true
    else if o.GetUnknownProperties.length < this.unknown.length then false
    else false

/-- Method `Serialize`. -/
def Serialize (this : ActivityStreamsLink P) : JsonMap × Option error :=
  let m : JsonMap := []
  let typeName := if this.alias_.length > 0 then this.alias_ ++ ":" ++ "Link" else "Link"
  let m := mapSet m "type" (Value.string typeName)
  match serializeKnown this.fields m with
  | (_, some err) => ([], some err)
  | (m, none) => (serializeUnknown this.unknown m, none)

end ActivityStreamsLink

end typelink

/-! ### Relationship -/

namespace typerelationship

/-- Struct `ActivityStreamsRelationship`. -/
structure ActivityStreamsRelationship (P : PropertyType) where
  ActivityStreamsAltitude : Option P := none
  ActivityStreamsAttachment : Option P := none
  ActivityStreamsAttributedTo : Option P := none
  ActivityStreamsAudience : Option P := none
  ActivityStreamsBcc : Option P := none
  ActivityStreamsBto : Option P := none
  ActivityStreamsCc : Option P := none
  ActivityStreamsContent : Option P := none
  ActivityStreamsContext : Option P := none
  ActivityStreamsDuration : Option P := none
  ActivityStreamsEndTime : Option P := none
  ActivityStreamsGenerator : Option P := none
  ActivityStreamsIcon : Option P := none
  ActivityStreamsId : Option P := none
  ActivityStreamsImage : Option P := none
  ActivityStreamsInReplyTo : Option P := none
  ActivityStreamsLikes : Option P := none
  ActivityStreamsLocation : Option P := none
  ActivityStreamsMediaType : Option P := none
  ActivityStreamsName : Option P := none
  ActivityStreamsObject : Option P := none
  ActivityStreamsPreview : Option P := none
  ActivityStreamsPublished : Option P := none
  ActivityStreamsRelationship_ : Option P := none
  ActivityStreamsReplies : Option P := none
  ActivityStreamsShares : Option P := none
  ActivityStreamsStartTime : Option P := none
  ActivityStreamsSubject : Option P := none
  ActivityStreamsSummary : Option P := none
  ActivityStreamsTag : Option P := none
  ActivityStreamsTo : Option P := none
  ActivityStreamsType : Option P := none
  ActivityStreamsUpdated : Option P := none
  ActivityStreamsUrl : Option P := none
  alias_ : String := ""
  unknown : JsonMap := []

variable {P : PropertyType}

/-- The declared properties of Relationship, in declaration order. -/
def propertyNames : List String :=
    ["altitude", "attachment", "attributedTo", "audience", "bcc", "bto", "cc", "content",
     "context", "duration", "endTime", "generator", "icon", "id", "image", "inReplyTo", "likes",
     "location", "mediaType", "name", "object", "preview", "published", "relationship",
     "replies", "shares", "startTime", "subject", "summary", "tag", "to", "type", "updated",
     "url"]

/-- The names the "Unknown deserialization" block of `DeserializeRelationship` skips. -/
def knownNames : List String :=
    ["altitude", "attachment", "attributedTo", "audience", "bcc", "bto", "cc", "content",
     "contentMap", "context", "duration", "endTime", "generator", "icon", "id", "image",
     "inReplyTo", "likes", "location", "mediaType", "name", "nameMap", "object", "preview",
     "published", "relationship", "replies", "shares", "startTime", "subject", "summary",
     "summaryMap", "tag", "to", "type", "updated", "url"]

/-- The property fields of a `ActivityStreamsRelationship`, in declaration order. -/
def ActivityStreamsRelationship.fields (this : ActivityStreamsRelationship P) : List (Option P) :=
    [this.ActivityStreamsAltitude, this.ActivityStreamsAttachment,
     this.ActivityStreamsAttributedTo, this.ActivityStreamsAudience, this.ActivityStreamsBcc,
     this.ActivityStreamsBto, this.ActivityStreamsCc, this.ActivityStreamsContent,
     this.ActivityStreamsContext, this.ActivityStreamsDuration, this.ActivityStreamsEndTime,
     this.ActivityStreamsGenerator, this.ActivityStreamsIcon, this.ActivityStreamsId,
     this.ActivityStreamsImage, this.ActivityStreamsInReplyTo, this.ActivityStreamsLikes,
     this.ActivityStreamsLocation, this.ActivityStreamsMediaType, this.ActivityStreamsName,
     this.ActivityStreamsObject, this.ActivityStreamsPreview, this.ActivityStreamsPublished,
     this.ActivityStreamsRelationship_, this.ActivityStreamsReplies, this.ActivityStreamsShares,
     this.ActivityStreamsStartTime, this.ActivityStreamsSubject, this.ActivityStreamsSummary,
     this.ActivityStreamsTag, this.ActivityStreamsTo, this.ActivityStreamsType,
     this.ActivityStreamsUpdated, this.ActivityStreamsUrl]

/-- The struct built by `DeserializeRelationship`: the k-th known-property step assigns the k-th field. -/
def ActivityStreamsRelationship.ofFields (fields : List (Option P)) (alias_ : String) (unknown : JsonMap) :
    ActivityStreamsRelationship P :=
  { ActivityStreamsAltitude := fields.getD 0 none
    ActivityStreamsAttachment := fields.getD 1 none
    ActivityStreamsAttributedTo := fields.getD 2 none
    ActivityStreamsAudience := fields.getD 3 none
    ActivityStreamsBcc := fields.getD 4 none
    ActivityStreamsBto := fields.getD 5 none
    ActivityStreamsCc := fields.getD 6 none
    ActivityStreamsContent := fields.getD 7 none
    ActivityStreamsContext := fields.getD 8 none
    ActivityStreamsDuration := fields.getD 9 none
    ActivityStreamsEndTime := fields.getD 10 none
    ActivityStreamsGenerator := fields.getD 11 none
    ActivityStreamsIcon := fields.getD 12 none
    ActivityStreamsId := fields.getD 13 none
    ActivityStreamsImage := fields.getD 14 none
    ActivityStreamsInReplyTo := fields.getD 15 none
    ActivityStreamsLikes := fields.getD 16 none
    ActivityStreamsLocation := fields.getD 17 none
    ActivityStreamsMediaType := fields.getD 18 none
    ActivityStreamsName := fields.getD 19 none
    ActivityStreamsObject := fields.getD 20 none
    ActivityStreamsPreview := fields.getD 21 none
    ActivityStreamsPublished := fields.getD 22 none
    ActivityStreamsRelationship_ := fields.getD 23 none
    ActivityStreamsReplies := fields.getD 24 none
    ActivityStreamsShares := fields.getD 25 none
    ActivityStreamsStartTime := fields.getD 26 none
    ActivityStreamsSubject := fields.getD 27 none
    ActivityStreamsSummary := fields.getD 28 none
    ActivityStreamsTag := fields.getD 29 none
    ActivityStreamsTo := fields.getD 30 none
    ActivityStreamsType := fields.getD 31 none
    ActivityStreamsUpdated := fields.getD 32 none
    ActivityStreamsUrl := fields.getD 33 none
    alias_ := alias_
    unknown := unknown }

/-- Function `DeserializeRelationship`. The texts of the error values are shortened. -/
def DeserializeRelationship (mgr : PropertyManager P) (m : JsonMap) (aliasMap : AliasMap) :
    Option (ActivityStreamsRelationship P) × Option error :=
  let names : String × String := match aliasMap.lookup vocabURI with
    | some a => (a, a ++ ":")
    | none => ("", "")
  let alias_ := names.1
  let aliasPrefix := names.2
  let typeError : Option error := match m.lookup "type" with
    | none => some "no \"type\" property in map"
    | some (Value.string typeString) =>
      let typeName := strings.TrimPrefix typeString aliasPrefix
      if typeName ≠ "Relationship" then some "\"type\" property is not of \"Relationship\" type" else none
    | some (Value.array arrType) =>
      let found := arrType.any (fun elemVal =>
        match elemVal with
        | Value.string typeString => strings.TrimPrefix typeString aliasPrefix == "Relationship"
        | _ => false)
      if !found then some "could not find a \"type\" property of value \"Relationship\"" else none
    | some _ => some "\"type\" property is unrecognized type"
  match typeError with
  | some err => (none, some err)
  | none =>
    match deserializeKnown mgr m aliasMap propertyNames with
    | (_, some err) => (none, some err)
    | (fields, none) =>
      (some (ActivityStreamsRelationship.ofFields fields alias_ (deserializeUnknown knownNames m)), none)

namespace ActivityStreamsRelationship

/-- Method `GetUnknownProperties`. -/
def GetUnknownProperties (this : ActivityStreamsRelationship P) : JsonMap := this.unknown

/-- Method `LessThan`. -/
def LessThan (this o : ActivityStreamsRelationship P) : Bool :=
  match lessThanKnown this.fields o.fields with
  | some b => b
  | none =>
    if this.unknown.length < o.GetUnknownProperties.length then true
    else if o.GetUnknownProperties.length < this.unknown.length then false
    else false

/-- Method `Serialize`. -/
def Serialize (this : ActivityStreamsRelationship P) : JsonMap × Option error :=
  let m : JsonMap := []
  let typeName := if this.alias_.length > 0 then this.alias_ ++ ":" ++ "Relationship" else "Relationship"
  let m := mapSet m "type" (Value.string typeName)
  match serializeKnown this.fields m with
  | (_, some err) => ([], some err)
  | (m, none) => (serializeUnknown this.unknown m, none)

end ActivityStreamsRelationship

end typerelationship

/-! ### Place -/

namespace typeplace

/-- Struct `Place`. -/
structure Place (P : PropertyType) where
  Accuracy : Option P := none
  Altitude : Option P := none
  Attachment : Option P := none
  AttributedTo : Option P := none
  Audience : Option P := none
  Bcc : Option P := none
  Bto : Option P := none
  Cc : Option P := none
  Content : Option P := none
  Context : Option P := none
  Duration : Option P := none
  EndTime : Option P := none
  Generator : Option P := none
  Icon : Option P := none
  Id : Option P := none
  Image : Option P := none
  InReplyTo : Option P := none
  Latitude : Option P := none
  Location : Option P := none
  Longitude : Option P := none
  MediaType : Option P := none
  Name : Option P := none
  Object : Option P := none
  Preview : Option P := none
  Published : Option P := none
  Radius : Option P := none
  Replies : Option P := none
  StartTime : Option P := none
  Summary : Option P := none
  Tag : Option P := none
  To : Option P := none
  Type_ : Option P := none
  Units : Option P := none
  Updated : Option P := none
  Url : Option P := none
  alias_ : String := ""
  unknown : JsonMap := []

variable {P : PropertyType}

/-- The declared properties of Place, in declaration order. -/
def propertyNames : List String :=
    ["accuracy", "altitude", "attachment", "attributedTo", "audience", "bcc", "bto", "cc",
     "content", "context", "duration", "endTime", "generator", "icon", "id", "image",
     "inReplyTo", "latitude", "location", "longitude", "mediaType", "name", "object", "preview",
     "published", "radius", "replies", "startTime", "summary", "tag", "to", "type", "units",
     "updated", "url"]

/-- The names the "Unknown deserialization" block of `DeserializePlace` skips. -/
def knownNames : List String :=
    ["accuracy", "altitude", "attachment", "attributedTo", "audience", "bcc", "bto", "cc",
     "content", "context", "duration", "endTime", "generator", "icon", "id", "image",
     "inReplyTo", "latitude", "location", "longitude", "mediaType", "name", "object", "preview",
     "published", "radius", "replies", "startTime", "summary", "tag", "to", "type", "units",
     "updated", "url"]

/-- The property fields of a `Place`, in declaration order. -/
def Place.fields (this : Place P) : List (Option P) :=
    [this.Accuracy, this.Altitude, this.Attachment, this.AttributedTo, this.Audience, this.Bcc,
     this.Bto, this.Cc, this.Content, this.Context, this.Duration, this.EndTime, this.Generator,
     this.Icon, this.Id, this.Image, this.InReplyTo, this.Latitude, this.Location,
     this.Longitude, this.MediaType, this.Name, this.Object, this.Preview, this.Published,
     this.Radius, this.Replies, this.StartTime, this.Summary, this.Tag, this.To, this.Type_,
     this.Units, this.Updated, this.Url]

/-- The struct built by `DeserializePlace`: the k-th known-property step assigns the k-th field. -/
def Place.ofFields (fields : List (Option P)) (alias_ : String) (unknown : JsonMap) :
    Place P :=
  { Accuracy := fields.getD 0 none
    Altitude := fields.getD 1 none
    Attachment := fields.getD 2 none
    AttributedTo := fields.getD 3 none
    Audience := fields.getD 4 none
    Bcc := fields.getD 5 none
    Bto := fields.getD 6 none
    Cc := fields.getD 7 none
    Content := fields.getD 8 none
    Context := fields.getD 9 none
    Duration := fields.getD 10 none
    EndTime := fields.getD 11 none
    Generator := fields.getD 12 none
    Icon := fields.getD 13 none
    Id := fields.getD 14 none
    Image := fields.getD 15 none
    InReplyTo := fields.getD 16 none
    Latitude := fields.getD 17 none
    Location := fields.getD 18 none
    Longitude := fields.getD 19 none
    MediaType := fields.getD 20 none
    Name := fields.getD 21 none
    Object := fields.getD 22 none
    Preview := fields.getD 23 none
    Published := fields.getD 24 none
    Radius := fields.getD 25 none
    Replies := fields.getD 26 none
    StartTime := fields.getD 27 none
    Summary := fields.getD 28 none
    Tag := fields.getD 29 none
    To := fields.getD 30 none
    Type_ := fields.getD 31 none
    Units := fields.getD 32 none
    Updated := fields.getD 33 none
    Url := fields.getD 34 none
    alias_ := alias_
    unknown := unknown }

/-- Function `DeserializePlace`. -/
def DeserializePlace (mgr : PropertyManager P) (m : JsonMap) (aliasMap : AliasMap) :
    Option (Place P) × Option error :=
  let alias_ := match aliasMap.lookup vocabURI with
    | some a => a
    | none => ""
  match deserializeKnown mgr m aliasMap propertyNames with
  | (_, some err) => (none, some err)
  | (fields, none) => (some (Place.ofFields fields alias_ (deserializeUnknown knownNames m)), none)

namespace Place

/-- Method `Serialize`. The result is `none` when the run faults on a nil property. -/
def Serialize (this : Place P) : Option (Value × Option error) :=
  let m : JsonMap := []
  match serializeKnownUnguarded this.fields m with
  | none => none
  | some (_, some err) => some (Value.nil, some err)
  | some (m, none) => some (Value.object (serializeUnknown this.unknown m), none)

end Place

end typeplace

/-! ### Contexts, type relations and the order of Place

The remaining functions of the three type sources. -/

/-- A non-nil value of the interface `vocab.Type`, of which the sources call `GetName` only. -/
structure NamedType where
  GetName : String

section blocks

variable {P : PropertyType}

/-- Method `helperJSONLDContext`, which Link, Relationship and Place each declare with this
body; the receiver is not used. The loop `for k, v := range i.JSONLDContext()` runs
`toMerge[k] = v`. -/
def helperJSONLDContext (i : Option P) (toMerge : AliasMap) : AliasMap :=
  match i with
  | none => toMerge
  | some p => (P.JSONLDContext p).foldl (fun toMerge kv => mapSet toMerge kv.1 kv.2) toMerge

/-- Block "Compare known properties" of Place, one step per field, on the fields of `this` and
of `o`: `if this.X.LessThan(o.GetX()) { return true } else if o.GetX().LessThan(this.X)
{ return false }`, with no test for nil. The outer `none` is the run-time fault of calling
`LessThan` on a nil property or of handing it a nil property (the property sources call a method
on their argument); `some (some b)` when a step returns `b`; `some none` when every step falls
through. -/
def lessThanKnownUnguarded : List (Option P) → List (Option P) → Option (Option Bool)
  | lhs :: ls, rhs :: rs =>
    match lhs, rhs with
    | some l, some r =>
      if P.LessThan l r then some (some true)
      else if P.LessThan r l then some (some false)
      else lessThanKnownUnguarded ls rs
    | _, _ => none
  | _, _ => some none

end blocks

namespace typelink

variable {P : PropertyType}

/-- Function `ActivityStreamsLinkExtends`. -/
def ActivityStreamsLinkExtends (_other : NamedType) : Bool :=
  false

/-- Function `LinkIsDisjointWith`. -/
def LinkIsDisjointWith (other : NamedType) : Bool :=
  let disjointWith : List String :=
    ["Accept", "Activity", "Add", "Announce", "Application", "Arrive", "Article", "Audio",
     "Block", "Collection", "CollectionPage", "Create", "Delete", "Dislike", "Document",
     "Event", "Flag", "Follow", "Group", "Ignore", "Image", "IntransitiveActivity", "Invite",
     "Join", "Leave", "Like", "Listen", "Move", "Note", "Object", "Offer", "OrderedCollection",
     "OrderedCollectionPage", "OrderedCollectionPage", "Organization", "Page", "Person",
     "Place", "Profile", "Question", "Read", "Reject", "Relationship", "Remove", "Service",
     "TentativeAccept", "TentativeReject", "Tombstone", "Travel", "Undo", "Update", "Video",
     "View"]
  disjointWith.any (fun disjoint => disjoint == other.GetName)

/-- Function `LinkIsExtendedBy`. -/
def LinkIsExtendedBy (other : NamedType) : Bool :=
  let extensions : List String := ["Mention"]
  extensions.any (fun ext => ext == other.GetName)

namespace ActivityStreamsLink

/-- Method `IsExtending`. -/
def IsExtending (_this : ActivityStreamsLink P) (other : NamedType) : Bool :=
  ActivityStreamsLinkExtends other

/-- Method `JSONLDContext`: one call `m = this.helperJSONLDContext(this.X, m)` per field. -/
def JSONLDContext (this : ActivityStreamsLink P) : AliasMap :=
  let m : AliasMap := [(vocabURI, this.alias_)]
  this.fields.foldl (fun m i => helperJSONLDContext i m) m

end ActivityStreamsLink

end typelink

namespace typerelationship

variable {P : PropertyType}

/-- Function `ActivityStreamsRelationshipExtends`. -/
def ActivityStreamsRelationshipExtends (other : NamedType) : Bool :=
  let extensions : List String := ["Object"]
  extensions.any (fun ext => ext == other.GetName)

/-- Function `RelationshipIsDisjointWith`. -/
def RelationshipIsDisjointWith (other : NamedType) : Bool :=
  let disjointWith : List String :=
    ["Link", "Mention"]
  disjointWith.any (fun disjoint => disjoint == other.GetName)

/-- Function `RelationshipIsExtendedBy`. -/
def RelationshipIsExtendedBy (_other : NamedType) : Bool :=
  false

namespace ActivityStreamsRelationship

/-- Method `IsExtending`. -/
def IsExtending (_this : ActivityStreamsRelationship P) (other : NamedType) : Bool :=
  ActivityStreamsRelationshipExtends other

/-- Method `JSONLDContext`: one call `m = this.helperJSONLDContext(this.X, m)` per field. -/
def JSONLDContext (this : ActivityStreamsRelationship P) : AliasMap :=
  let m : AliasMap := [(vocabURI, this.alias_)]
  this.fields.foldl (fun m i => helperJSONLDContext i m) m

end ActivityStreamsRelationship

end typerelationship

namespace typeplace

variable {P : PropertyType}

/-- Function `PlaceExtends`. -/
def PlaceExtends (other : NamedType) : Bool :=
  let extensions : List String := ["Object"]
  extensions.any (fun ext => ext == other.GetName)

/-- Function `PlaceIsDisjointWith`. -/
def PlaceIsDisjointWith (other : NamedType) : Bool :=
  let disjointWith : List String :=
    ["Link", "Mention"]
  disjointWith.any (fun disjoint => disjoint == other.GetName)

/-- Function `PlaceIsExtendedBy`. -/
def PlaceIsExtendedBy (_other : NamedType) : Bool :=
  false

namespace Place

/-- Method `IsExtending`. -/
def IsExtending (_this : Place P) (other : NamedType) : Bool :=
  PlaceExtends other

/-- Method `JSONLDContext`: one call `m = this.helperJSONLDContext(this.X, m)` per field. -/
def JSONLDContext (this : Place P) : AliasMap :=
  let m : AliasMap := [(vocabURI, this.alias_)]
  this.fields.foldl (fun m i => helperJSONLDContext i m) m

end Place

end typeplace

namespace typeplace

variable {P : PropertyType}

/-- Function `NewPlace`. -/
def NewPlace : Place P := { alias_ := "", unknown := [] }

namespace Place

/-- Method `GetUnknownProperties`. -/
def GetUnknownProperties (this : Place P) : JsonMap := this.unknown

/-- Method `LessThan`. The result is `none` when the run faults on a nil property. -/
def LessThan (this o : Place P) : Option Bool :=
  match lessThanKnownUnguarded this.fields o.fields with
  | none => none
  | some (some b) => some b
  | some none =>
    if this.unknown.length < o.GetUnknownProperties.length then some true
    else if o.GetUnknownProperties.length < this.unknown.length then some false
    else some false

end Place

end typeplace

/-! ### Type names, and the getters and setters of Place -/

/-- The value a caller holds after calling a method with a value receiver on it. Go hands the
method a copy of the receiver: `body` runs on that copy, which is dropped when the call
returns. -/
def valueReceiverCall {S : Type} (body : S → S) (receiver : S) : S :=
  (body receiver, receiver).2

namespace typelink

variable {P : PropertyType}

/-- Method `GetName` of `ActivityStreamsLink`. -/
def ActivityStreamsLink.GetName (_this : ActivityStreamsLink P) : String := "Link"

end typelink

namespace typerelationship

variable {P : PropertyType}

/-- Method `GetName` of `ActivityStreamsRelationship`. -/
def ActivityStreamsRelationship.GetName (_this : ActivityStreamsRelationship P) : String :=
  "Relationship"

end typerelationship

namespace typeplace

variable {P : PropertyType}

namespace Place

/-- Method `GetAccuracy`. -/
def GetAccuracy (this : Place P) : Option P := this.Accuracy

/-- Method `GetAltitude`. -/
def GetAltitude (this : Place P) : Option P := this.Altitude

/-- Method `GetAttachment`. -/
def GetAttachment (this : Place P) : Option P := this.Attachment

/-- Method `GetAttributedTo`. -/
def GetAttributedTo (this : Place P) : Option P := this.AttributedTo

/-- Method `GetAudience`. -/
def GetAudience (this : Place P) : Option P := this.Audience

/-- Method `GetBcc`. -/
def GetBcc (this : Place P) : Option P := this.Bcc

/-- Method `GetBto`. -/
def GetBto (this : Place P) : Option P := this.Bto

/-- Method `GetCc`. -/
def GetCc (this : Place P) : Option P := this.Cc

/-- Method `GetContent`. -/
def GetContent (this : Place P) : Option P := this.Content

/-- Method `GetContext`. -/
def GetContext (this : Place P) : Option P := this.Context

/-- Method `GetDuration`. -/
def GetDuration (this : Place P) : Option P := this.Duration

/-- Method `GetEndTime`. -/
def GetEndTime (this : Place P) : Option P := this.EndTime

/-- Method `GetGenerator`. -/
def GetGenerator (this : Place P) : Option P := this.Generator

/-- Method `GetIcon`. -/
def GetIcon (this : Place P) : Option P := this.Icon

/-- Method `GetId`. -/
def GetId (this : Place P) : Option P := this.Id

/-- Method `GetImage`. -/
def GetImage (this : Place P) : Option P := this.Image

/-- Method `GetInReplyTo`. -/
def GetInReplyTo (this : Place P) : Option P := this.InReplyTo

/-- Method `GetLatitude`. -/
def GetLatitude (this : Place P) : Option P := this.Latitude

/-- Method `GetLocation`. -/
def GetLocation (this : Place P) : Option P := this.Location

/-- Method `GetLongitude`. -/
def GetLongitude (this : Place P) : Option P := this.Longitude

/-- Method `GetMediaType`. -/
def GetMediaType (this : Place P) : Option P := this.MediaType

/-- Method `GetName`. -/
def GetName (this : Place P) : Option P := this.Name

/-- Method `GetObject`. -/
def GetObject (this : Place P) : Option P := this.Object

/-- Method `GetPreview`. -/
def GetPreview (this : Place P) : Option P := this.Preview

/-- Method `GetPublished`. -/
def GetPublished (this : Place P) : Option P := this.Published

/-- Method `GetRadius`. -/
def GetRadius (this : Place P) : Option P := this.Radius

/-- Method `GetReplies`. -/
def GetReplies (this : Place P) : Option P := this.Replies

/-- Method `GetStartTime`. -/
def GetStartTime (this : Place P) : Option P := this.StartTime

/-- Method `GetSummary`. -/
def GetSummary (this : Place P) : Option P := this.Summary

/-- Method `GetTag`. -/
def GetTag (this : Place P) : Option P := this.Tag

/-- Method `GetTo`. -/
def GetTo (this : Place P) : Option P := this.To

/-- Method `GetType`. -/
def GetType (this : Place P) : Option P := this.Type_

/-- Method `GetUnits`. -/
def GetUnits (this : Place P) : Option P := this.Units

/-- Method `GetUpdated`. -/
def GetUpdated (this : Place P) : Option P := this.Updated

/-- Method `GetUrl`. -/
def GetUrl (this : Place P) : Option P := this.Url

/-- Method `SetAccuracy`, declared with a value receiver: its body `this.Accuracy = i`, as a function
of the receiver it runs on. -/
def SetAccuracy (this : Place P) (i : Option P) : Place P := { this with Accuracy := i }

/-- Method `SetAltitude`, declared with a value receiver: its body `this.Altitude = i`, as a function
of the receiver it runs on. -/
def SetAltitude (this : Place P) (i : Option P) : Place P := { this with Altitude := i }

/-- Method `SetAttachment`, declared with a value receiver: its body `this.Attachment = i`, as a function
of the receiver it runs on. -/
def SetAttachment (this : Place P) (i : Option P) : Place P := { this with Attachment := i }

/-- Method `SetAttributedTo`, declared with a value receiver: its body `this.AttributedTo = i`, as a function
of the receiver it runs on. -/
def SetAttributedTo (this : Place P) (i : Option P) : Place P := { this with AttributedTo := i }

/-- Method `SetAudience`, declared with a value receiver: its body `this.Audience = i`, as a function
of the receiver it runs on. -/
def SetAudience (this : Place P) (i : Option P) : Place P := { this with Audience := i }

/-- Method `SetBcc`, declared with a value receiver: its body `this.Bcc = i`, as a function
of the receiver it runs on. -/
def SetBcc (this : Place P) (i : Option P) : Place P := { this with Bcc := i }

/-- Method `SetBto`, declared with a value receiver: its body `this.Bto = i`, as a function
of the receiver it runs on. -/
def SetBto (this : Place P) (i : Option P) : Place P := { this with Bto := i }

/-- Method `SetCc`, declared with a value receiver: its body `this.Cc = i`, as a function
of the receiver it runs on. -/
def SetCc (this : Place P) (i : Option P) : Place P := { this with Cc := i }

/-- Method `SetContent`, declared with a value receiver: its body `this.Content = i`, as a function
of the receiver it runs on. -/
def SetContent (this : Place P) (i : Option P) : Place P := { this with Content := i }

/-- Method `SetContext`, declared with a value receiver: its body `this.Context = i`, as a function
of the receiver it runs on. -/
def SetContext (this : Place P) (i : Option P) : Place P := { this with Context := i }

/-- Method `SetDuration`, declared with a value receiver: its body `this.Duration = i`, as a function
of the receiver it runs on. -/
def SetDuration (this : Place P) (i : Option P) : Place P := { this with Duration := i }

/-- Method `SetEndTime`, declared with a value receiver: its body `this.EndTime = i`, as a function
of the receiver it runs on. -/
def SetEndTime (this : Place P) (i : Option P) : Place P := { this with EndTime := i }

/-- Method `SetGenerator`, declared with a value receiver: its body `this.Generator = i`, as a function
of the receiver it runs on. -/
def SetGenerator (this : Place P) (i : Option P) : Place P := { this with Generator := i }

/-- Method `SetIcon`, declared with a value receiver: its body `this.Icon = i`, as a function
of the receiver it runs on. -/
def SetIcon (this : Place P) (i : Option P) : Place P := { this with Icon := i }

/-- Method `SetId`, declared with a value receiver: its body `this.Id = i`, as a function
of the receiver it runs on. -/
def SetId (this : Place P) (i : Option P) : Place P := { this with Id := i }

/-- Method `SetImage`, declared with a value receiver: its body `this.Image = i`, as a function
of the receiver it runs on. -/
def SetImage (this : Place P) (i : Option P) : Place P := { this with Image := i }

/-- Method `SetInReplyTo`, declared with a value receiver: its body `this.InReplyTo = i`, as a function
of the receiver it runs on. -/
def SetInReplyTo (this : Place P) (i : Option P) : Place P := { this with InReplyTo := i }

/-- Method `SetLatitude`, declared with a value receiver: its body `this.Latitude = i`, as a function
of the receiver it runs on. -/
def SetLatitude (this : Place P) (i : Option P) : Place P := { this with Latitude := i }

/-- Method `SetLocation`, declared with a value receiver: its body `this.Location = i`, as a function
of the receiver it runs on. -/
def SetLocation (this : Place P) (i : Option P) : Place P := { this with Location := i }

/-- Method `SetLongitude`, declared with a value receiver: its body `this.Longitude = i`, as a function
of the receiver it runs on. -/
def SetLongitude (this : Place P) (i : Option P) : Place P := { this with Longitude := i }

/-- Method `SetMediaType`, declared with a value receiver: its body `this.MediaType = i`, as a function
of the receiver it runs on. -/
def SetMediaType (this : Place P) (i : Option P) : Place P := { this with MediaType := i }

/-- Method `SetName`, declared with a value receiver: its body `this.Name = i`, as a function
of the receiver it runs on. -/
def SetName (this : Place P) (i : Option P) : Place P := { this with Name := i }

/-- Method `SetObject`, declared with a value receiver: its body `this.Object = i`, as a function
of the receiver it runs on. -/
def SetObject (this : Place P) (i : Option P) : Place P := { this with Object := i }

/-- Method `SetPreview`, declared with a value receiver: its body `this.Preview = i`, as a function
of the receiver it runs on. -/
def SetPreview (this : Place P) (i : Option P) : Place P := { this with Preview := i }

/-- Method `SetPublished`, declared with a value receiver: its body `this.Published = i`, as a function
of the receiver it runs on. -/
def SetPublished (this : Place P) (i : Option P) : Place P := { this with Published := i }

/-- Method `SetRadius`, declared with a value receiver: its body `this.Radius = i`, as a function
of the receiver it runs on. -/
def SetRadius (this : Place P) (i : Option P) : Place P := { this with Radius := i }

/-- Method `SetReplies`, declared with a value receiver: its body `this.Replies = i`, as a function
of the receiver it runs on. -/
def SetReplies (this : Place P) (i : Option P) : Place P := { this with Replies := i }

/-- Method `SetStartTime`, declared with a value receiver: its body `this.StartTime = i`, as a function
of the receiver it runs on. -/
def SetStartTime (this : Place P) (i : Option P) : Place P := { this with StartTime := i }

/-- Method `SetSummary`, declared with a value receiver: its body `this.Summary = i`, as a function
of the receiver it runs on. -/
def SetSummary (this : Place P) (i : Option P) : Place P := { this with Summary := i }

/-- Method `SetTag`, declared with a value receiver: its body `this.Tag = i`, as a function
of the receiver it runs on. -/
def SetTag (this : Place P) (i : Option P) : Place P := { this with Tag := i }

/-- Method `SetTo`, declared with a value receiver: its body `this.To = i`, as a function
of the receiver it runs on. -/
def SetTo (this : Place P) (i : Option P) : Place P := { this with To := i }

/-- Method `SetType`, declared with a value receiver: its body `this.Type = i`, as a function
of the receiver it runs on. -/
def SetType (this : Place P) (i : Option P) : Place P := { this with Type_ := i }

/-- Method `SetUnits`, declared with a value receiver: its body `this.Units = i`, as a function
of the receiver it runs on. -/
def SetUnits (this : Place P) (i : Option P) : Place P := { this with Units := i }

/-- Method `SetUpdated`, declared with a value receiver: its body `this.Updated = i`, as a function
of the receiver it runs on. -/
def SetUpdated (this : Place P) (i : Option P) : Place P := { this with Updated := i }

/-- Method `SetUrl`, declared with a value receiver: its body `this.Url = i`, as a function
of the receiver it runs on. -/
def SetUrl (this : Place P) (i : Option P) : Place P := { this with Url := i }

end Place

end typeplace

/-! ## Specification vocabulary -/

/-- The alias an alias map binds to the vocabulary URI; the empty string when unbound. -/
def boundAlias (aliasMap : AliasMap) : String :=
  (aliasMap.lookup vocabURI).getD ""

/-- The lookup key of a property as the specification words it: `alias:name` when the
alias map binds the vocabulary URI to a non-empty alias, and the bare `name` otherwise. -/
def lookupKey (aliasMap : AliasMap) (name : String) : String :=
  if boundAlias aliasMap = "" then name else boundAlias aliasMap ++ ":" ++ name

/-- A map as Go holds it: no key occurs twice. -/
def DistinctKeys {β : Type} (m : List (String × β)) : Prop :=
  (m.map Prod.fst).Nodup

/-- The prefix a type deserializer strips from a type name: `alias:` when the alias map binds
the vocabulary URI to `alias`, nothing when it is unbound. -/
def typeAliasPrefix (aliasMap : AliasMap) : String :=
  match aliasMap.lookup vocabURI with
  | some a => a ++ ":"
  | none => ""

/-- The `type` value names the type, as the specification words it: a string that equals the
type name once the alias prefix is removed, or an array with such a string among its
elements. -/
def namesType (typeName pre : String) : Value → Bool
  | Value.string s => strings.TrimPrefix s pre == typeName
  | Value.array xs => xs.any (fun x =>
      match x with
      | Value.string s => strings.TrimPrefix s pre == typeName
      | _ => false)
  | _ => false

/-- The error of the first declared property, in declaration order, whose deserializer
returns one. -/
def firstPropertyError {P : PropertyType} (mgr : PropertyManager P) (m : JsonMap)
    (aliasMap : AliasMap) (names : List String) : Option error :=
  names.findSome? (fun name => (mgr name m aliasMap).2)

/-- Two property fields hold equivalent values under the order of the properties: both are
nil, or both are set and neither value is less than the other. -/
def fieldEquiv (P : PropertyType) : Option P → Option P → Prop
  | some p, some q => P.LessThan p q = false ∧ P.LessThan q p = false
  | none, none => True
  | _, _ => False

/-- The `LessThan` of a `vocab` interface is a strict order: irreflexive, asymmetric and
transitive. -/
def VocabType.StrictOrder (V : VocabType) : Prop :=
  (∀ a : V, V.LessThan a a = false) ∧
  (∀ a b : V, V.LessThan a b = true → V.LessThan b a = false) ∧
  (∀ a b c : V, V.LessThan a b = true → V.LessThan b c = true → V.LessThan a c = true)

/-- The `LessThan` of each interface of the package is a strict order. -/
def Vocab.StrictOrder (vocab : Vocab) : Prop :=
  vocab.ActivityStreamsCollection.StrictOrder ∧
  vocab.ActivityStreamsCollectionPage.StrictOrder ∧
  vocab.ActivityStreamsLink.StrictOrder ∧
  vocab.ActivityStreamsMention.StrictOrder ∧
  vocab.ActivityStreamsOrderedCollection.StrictOrder ∧
  vocab.ActivityStreamsOrderedCollectionPage.StrictOrder

/-- The `LessThan` of a property interface is a strict order: irreflexive, asymmetric and
transitive. -/
def PropertyType.StrictOrder (P : PropertyType) : Prop :=
  (∀ a : P, P.LessThan a a = false) ∧
  (∀ a b : P, P.LessThan a b = true → P.LessThan b a = false) ∧
  (∀ a b c : P, P.LessThan a b = true → P.LessThan b c = true → P.LessThan a c = true)

/-! ## Mutation sequences of "next" -/

namespace propertynext

variable {vocab : Vocab}

/-- A mutating call on a "next" property: a typed setter, `SetIRI` or `Clear`, with its
argument (which may be nil). -/
inductive Mutation (vocab : Vocab) where
  | SetActivityStreamsCollectionPage (v : Option vocab.ActivityStreamsCollectionPage)
  | SetActivityStreamsLink (v : Option vocab.ActivityStreamsLink)
  | SetActivityStreamsMention (v : Option vocab.ActivityStreamsMention)
  | SetActivityStreamsOrderedCollectionPage
      (v : Option vocab.ActivityStreamsOrderedCollectionPage)
  | SetIRI (v : Option URL)
  | Clear

/-- The state after one mutating call. -/
def Mutation.apply (this : ActivityStreamsNextProperty vocab) :
    Mutation vocab → ActivityStreamsNextProperty vocab
  | Mutation.SetActivityStreamsCollectionPage v => this.SetActivityStreamsCollectionPage v
  | Mutation.SetActivityStreamsLink v => this.SetActivityStreamsLink v
  | Mutation.SetActivityStreamsMention v => this.SetActivityStreamsMention v
  | Mutation.SetActivityStreamsOrderedCollectionPage v =>
    this.SetActivityStreamsOrderedCollectionPage v
  | Mutation.SetIRI v => this.SetIRI v
  | Mutation.Clear => this.Clear

/-- How many of the four typed members, the IRI and the unknown value are non-nil. -/
def ActivityStreamsNextProperty.nonNilCount (this : ActivityStreamsNextProperty vocab) : Nat :=
  (if this.activitystreamsCollectionPageMember.isSome then 1 else 0) +
    (if this.activitystreamsLinkMember.isSome then 1 else 0) +
    (if this.activitystreamsMentionMember.isSome then 1 else 0) +
    (if this.activitystreamsOrderedCollectionPageMember.isSome then 1 else 0) +
    (if this.iri.isSome then 1 else 0) +
    (if this.unknown.isNil then 0 else 1)

end propertynext

/-! ## Mutation sequences of "prev" -/

namespace propertyprev

variable {vocab : Vocab}

/-- A mutating call on a "prev" property: a typed setter, `SetIRI` or `Clear`, with its
argument (which may be nil). -/
inductive Mutation (vocab : Vocab) where
  | SetActivityStreamsCollectionPage (v : Option vocab.ActivityStreamsCollectionPage)
  | SetActivityStreamsLink (v : Option vocab.ActivityStreamsLink)
  | SetActivityStreamsMention (v : Option vocab.ActivityStreamsMention)
  | SetActivityStreamsOrderedCollectionPage
      (v : Option vocab.ActivityStreamsOrderedCollectionPage)
  | SetIRI (v : Option URL)
  | Clear

/-- The state after one mutating call. -/
def Mutation.apply (this : ActivityStreamsPrevProperty vocab) :
    Mutation vocab → ActivityStreamsPrevProperty vocab
  | Mutation.SetActivityStreamsCollectionPage v => this.SetActivityStreamsCollectionPage v
  | Mutation.SetActivityStreamsLink v => this.SetActivityStreamsLink v
  | Mutation.SetActivityStreamsMention v => this.SetActivityStreamsMention v
  | Mutation.SetActivityStreamsOrderedCollectionPage v =>
    this.SetActivityStreamsOrderedCollectionPage v
  | Mutation.SetIRI v => this.SetIRI v
  | Mutation.Clear => this.Clear

/-- How many of the four typed members, the IRI and the unknown value are non-nil. -/
def ActivityStreamsPrevProperty.nonNilCount (this : ActivityStreamsPrevProperty vocab) : Nat :=
  (if this.activitystreamsCollectionPageMember.isSome then 1 else 0) +
    (if this.activitystreamsLinkMember.isSome then 1 else 0) +
    (if this.activitystreamsMentionMember.isSome then 1 else 0) +
    (if this.activitystreamsOrderedCollectionPageMember.isSome then 1 else 0) +
    (if this.iri.isSome then 1 else 0) +
    (if this.unknown.isNil then 0 else 1)

end propertyprev

/-! ## Mutation sequences of "following" -/

namespace propertyfollowing

variable {vocab : Vocab}

/-- A mutating call on a "following" property: a typed setter, `SetIRI` or `Clear`, with its
argument (which may be nil). -/
inductive Mutation (vocab : Vocab) where
  | SetActivityStreamsOrderedCollection (v : Option vocab.ActivityStreamsOrderedCollection)
  | SetActivityStreamsCollection (v : Option vocab.ActivityStreamsCollection)
  | SetActivityStreamsCollectionPage (v : Option vocab.ActivityStreamsCollectionPage)
  | SetActivityStreamsOrderedCollectionPage
      (v : Option vocab.ActivityStreamsOrderedCollectionPage)
  | SetIRI (v : Option URL)
  | Clear

/-- The state after one mutating call. -/
def Mutation.apply (this : ActivityStreamsFollowingProperty vocab) :
    Mutation vocab → ActivityStreamsFollowingProperty vocab
  | Mutation.SetActivityStreamsOrderedCollection v => this.SetActivityStreamsOrderedCollection v
  | Mutation.SetActivityStreamsCollection v => this.SetActivityStreamsCollection v
  | Mutation.SetActivityStreamsCollectionPage v => this.SetActivityStreamsCollectionPage v
  | Mutation.SetActivityStreamsOrderedCollectionPage v =>
    this.SetActivityStreamsOrderedCollectionPage v
  | Mutation.SetIRI v => this.SetIRI v
  | Mutation.Clear => this.Clear

/-- How many of the four typed members, the IRI and the unknown value are non-nil. -/
def ActivityStreamsFollowingProperty.nonNilCount (this : ActivityStreamsFollowingProperty vocab) : Nat :=
  (if this.activitystreamsOrderedCollectionMember.isSome then 1 else 0) +
    (if this.activitystreamsCollectionMember.isSome then 1 else 0) +
    (if this.activitystreamsCollectionPageMember.isSome then 1 else 0) +
    (if this.activitystreamsOrderedCollectionPageMember.isSome then 1 else 0) +
    (if this.iri.isSome then 1 else 0) +
    (if this.unknown.isNil then 0 else 1)

end propertyfollowing

/-! ## Sample collaborators

Concrete instances of the parameters, used to evaluate the embedding on explicit documents. -/

/-- Scheme scanner `getScheme` of Go's `net/url`, on which `url.Parse` relies: the scheme and
the remainder after the colon, an empty scheme when the text does not start with one, and an
error for a leading colon. `seen` holds the bytes already scanned, latest first. -/
def getSchemeFrom (rawURL : String) (seen : List Char) : List Char → Except error (String × String)
  | [] => Except.ok ("", rawURL)
  | c :: cs =>
    if c.isAlpha then getSchemeFrom rawURL (c :: seen) cs
    else if c.isDigit || c = '+' || c = '-' || c = '.' then
      if seen.isEmpty then Except.ok ("", rawURL) else getSchemeFrom rawURL (c :: seen) cs
    else if c = ':' then
      if seen.isEmpty then Except.error "missing protocol scheme"
      else Except.ok (String.mk seen.reverse, String.mk cs)
    else Except.ok ("", rawURL)

/-- A sample `url.Parse`: the scheme is found as `net/url` finds it and lower-cased; no text
is rejected for any other reason, and `String()` gives the text back. -/
def sampleURL : NetURL where
  Parse := fun s =>
    match getSchemeFrom s [] s.data with
    | Except.ok (scheme, _) => Except.ok { Scheme := String.mk (scheme.data.map Char.toLower), full := s }
    | Except.error e => Except.error e

/-- A sample `vocab` interface whose values are the raw maps they were read from. -/
def sampleType : VocabType where
  T := JsonMap
  Serialize := fun v => (v, none)
  LessThan := fun _ _ => false
  JSONLDContext := fun _ => []

/-- A sample `vocab` package: every interface is `sampleType`. -/
def sampleVocab : Vocab where
  ActivityStreamsCollection := sampleType
  ActivityStreamsCollectionPage := sampleType
  ActivityStreamsLink := sampleType
  ActivityStreamsMention := sampleType
  ActivityStreamsOrderedCollection := sampleType
  ActivityStreamsOrderedCollectionPage := sampleType

/-- A sample type deserializer: accepts a map whose `"type"` is a string in `names`. -/
def sampleDeserialize (names : List String) (m : JsonMap) (_aliasMap : AliasMap) :
    Option JsonMap × Option error :=
  match m.lookup "type" with
  | some (Value.string s) =>
    if names.contains s then (some m, none) else (none, some "type mismatch")
  | _ => (none, some "no type")

/-- A sample `mgr`. Its Mention deserializer also accepts maps of type `"Link"`, and its
Collection deserializer also accepts maps of type `"OrderedCollection"`. -/
def sampleManager : Manager sampleVocab where
  DeserializeCollectionActivityStreams := sampleDeserialize ["Collection", "OrderedCollection"]
  DeserializeCollectionPageActivityStreams := sampleDeserialize ["CollectionPage"]
  DeserializeLinkActivityStreams := sampleDeserialize ["Link"]
  DeserializeMentionActivityStreams := sampleDeserialize ["Mention", "Link"]
  DeserializeOrderedCollectionActivityStreams := sampleDeserialize ["OrderedCollection"]
  DeserializeOrderedCollectionPageActivityStreams := sampleDeserialize ["OrderedCollectionPage"]

/-- A sample property interface: a property is the name it serializes under together with
its raw value; no property is less than another. -/
def sampleProperty : PropertyType where
  T := String × Value
  Serialize := fun p => (p.2, none)
  Name := fun p => p.1
  LessThan := fun _ _ => false
  JSONLDContext := fun _ => []

/-- A sample `mgr` for property deserializers that works as the resolvers of "next", "prev"
and "following" do: the property is read under its lookup key, a missing key gives no
property, and no error is ever returned. -/
def samplePropertyManager : PropertyManager sampleProperty :=
  fun name m aliasMap =>
    match m.lookup (lookupKey aliasMap name) with
    | some v => (some (name, v), none)
    | none => (none, none)

/-- A sample `mgr` whose deserializers of the properties listed in `failing` return an
error, the others working as in `samplePropertyManager`. -/
def sampleFailingManager (failing : List String) : PropertyManager sampleProperty :=
  fun name m aliasMap =>
    if failing.contains name then (none, some ("cannot read " ++ name))
    else samplePropertyManager name m aliasMap


/-- A sample `vocab` interface with an order and a context: a value is the alias it was built
under together with a rank. Values compare by rank, and the context of a value binds the
vocabulary URI to its alias. -/
def sampleRankedType : VocabType where
  T := String × Nat
  Serialize := fun v => ([("rank", Value.number v.2)], none)
  LessThan := fun a b => decide (a.2 < b.2)
  JSONLDContext := fun v => [(vocabURI, v.1)]

/-- A sample `vocab` package: every interface is `sampleRankedType`. -/
def sampleRankedVocab : Vocab where
  ActivityStreamsCollection := sampleRankedType
  ActivityStreamsCollectionPage := sampleRankedType
  ActivityStreamsLink := sampleRankedType
  ActivityStreamsMention := sampleRankedType
  ActivityStreamsOrderedCollection := sampleRankedType
  ActivityStreamsOrderedCollectionPage := sampleRankedType

/-- A sample property interface with an order and a context: a property is the alias it was
built under together with a rank, serialized under the name "height". -/
def sampleRankedProperty : PropertyType where
  T := String × Nat
  Serialize := fun p => (Value.number p.2, none)
  Name := fun _ => "height"
  LessThan := fun a b => decide (a.2 < b.2)
  JSONLDContext := fun p => [(vocabURI, p.1)]

/-- A sample Place in which every declared property is present, each holding its own name as
value, and whose unknown bag holds the key "name" of a present property next to the key "x". -/
def sampleFullPlace : typeplace.Place sampleProperty :=
  typeplace.Place.ofFields (typeplace.propertyNames.map (fun n => some (n, Value.string n))) ""
    [("name", Value.number 1), ("x", Value.number 2)]
/-! ## Basic facts -/

theorem string_length_pos_iff (s : String) : s.length > 0 ↔ s ≠ "" := by
  cases s with
  | mk l =>
    cases l with
    | nil => simp [String.length]
    | cons c cs =>
      simp [String.length]
      intro h
      exact absurd (congrArg String.data h) (by simp)

theorem resolver_key (aliasMap : AliasMap) (name : String) :
    (if (boundAlias aliasMap).length > 0 then boundAlias aliasMap ++ ":" ++ name else name) =
      lookupKey aliasMap name := by
  unfold lookupKey
  by_cases ha : boundAlias aliasMap = ""
  · simp [ha]
  · have := (string_length_pos_iff (boundAlias aliasMap)).2 ha
    simp [ha, this]

theorem resolver_alias (aliasMap : AliasMap) :
    (match aliasMap.lookup vocabURI with
      | some a => a
      | none => "") = boundAlias aliasMap := by
  unfold boundAlias
  cases aliasMap.lookup vocabURI <;> rfl

/-! ## The resolver of "next", branch by branch -/

namespace propertynext

variable {vocab : Vocab}

theorem next_absent (url : NetURL) (mgr : Manager vocab) (m : JsonMap) (aliasMap : AliasMap)
    (h : m.lookup (lookupKey aliasMap "next") = none) :
    DeserializeNextProperty url mgr m aliasMap = (none, none) := by
  simp only [DeserializeNextProperty, resolver_alias, resolver_key, h]

theorem next_iri (url : NetURL) (mgr : Manager vocab) (m : JsonMap) (aliasMap : AliasMap)
    (s : String) (u : URL)
    (h : m.lookup (lookupKey aliasMap "next") = some (Value.string s))
    (hp : url.Parse s = Except.ok u) (hs : u.Scheme ≠ "") :
    DeserializeNextProperty url mgr m aliasMap =
      (some { alias_ := boundAlias aliasMap, iri := some u }, none) := by
  have := (string_length_pos_iff u.Scheme).2 hs
  simp [DeserializeNextProperty, resolver_alias, resolver_key, h, hp, this]

theorem next_string_unknown (url : NetURL) (mgr : Manager vocab) (m : JsonMap)
    (aliasMap : AliasMap) (s : String)
    (h : m.lookup (lookupKey aliasMap "next") = some (Value.string s))
    (hp : ∀ u, url.Parse s = Except.ok u → u.Scheme = "") :
    DeserializeNextProperty url mgr m aliasMap =
      (some { alias_ := boundAlias aliasMap, unknown := Value.string s }, none) := by
  cases hq : url.Parse s with
  | error e => simp [DeserializeNextProperty, resolver_alias, resolver_key, h, hq]
  | ok u => simp [DeserializeNextProperty, resolver_alias, resolver_key, h, hq, hp u hq]

theorem next_object (url : NetURL) (mgr : Manager vocab) (m : JsonMap) (aliasMap : AliasMap)
    (o : JsonMap) (h : m.lookup (lookupKey aliasMap "next") = some (Value.object o)) :
    DeserializeNextProperty url mgr m aliasMap =
      match mgr.DeserializeCollectionPageActivityStreams o aliasMap with
      | (v, none) =>
        (some { activitystreamsCollectionPageMember := v, alias_ := boundAlias aliasMap }, none)
      | (_, some _) =>
      match mgr.DeserializeLinkActivityStreams o aliasMap with
      | (v, none) =>
        (some { activitystreamsLinkMember := v, alias_ := boundAlias aliasMap }, none)
      | (_, some _) =>
      match mgr.DeserializeMentionActivityStreams o aliasMap with
      | (v, none) =>
        (some { activitystreamsMentionMember := v, alias_ := boundAlias aliasMap }, none)
      | (_, some _) =>
      match mgr.DeserializeOrderedCollectionPageActivityStreams o aliasMap with
      | (v, none) =>
        (some { activitystreamsOrderedCollectionPageMember := v,
                alias_ := boundAlias aliasMap }, none)
      | (_, some _) =>
        (some { alias_ := boundAlias aliasMap, unknown := Value.object o }, none) := by
  simp only [DeserializeNextProperty, resolver_alias, resolver_key, h]

theorem next_other (url : NetURL) (mgr : Manager vocab) (m : JsonMap) (aliasMap : AliasMap)
    (v : Value) (h : m.lookup (lookupKey aliasMap "next") = some v)
    (hs : ∀ s, v ≠ Value.string s) (ho : ∀ o, v ≠ Value.object o) :
    DeserializeNextProperty url mgr m aliasMap =
      (some { alias_ := boundAlias aliasMap, unknown := v }, none) := by
  cases v with
  | string s => exact absurd rfl (hs s)
  | object o => exact absurd rfl (ho o)
  | _ => simp only [DeserializeNextProperty, resolver_alias, resolver_key, h]

theorem next_result (url : NetURL) (mgr : Manager vocab) (m : JsonMap) (aliasMap : AliasMap) :
    (DeserializeNextProperty url mgr m aliasMap).2 = none ∧
      ∀ p, (DeserializeNextProperty url mgr m aliasMap).1 = some p →
        p.nonNilCount ≤ 1 ∧ p.alias_ = boundAlias aliasMap := by
  cases h : m.lookup (lookupKey aliasMap "next") with
  | none =>
    rw [next_absent url mgr m aliasMap h]
    simp
  | some v =>
    cases v with
    | string s =>
      by_cases hp : ∃ u, url.Parse s = Except.ok u ∧ u.Scheme ≠ ""
      · obtain ⟨u, hu, hs⟩ := hp
        rw [next_iri url mgr m aliasMap s u h hu hs]
        refine ⟨rfl, ?_⟩
        intro p hp
        cases hp
        exact ⟨by simp [ActivityStreamsNextProperty.nonNilCount, Value.isNil], rfl⟩
      · rw [next_string_unknown url mgr m aliasMap s h
          (fun u hu => by
            by_contra hne
            exact hp ⟨u, hu, hne⟩)]
        refine ⟨rfl, ?_⟩
        intro p hp
        cases hp
        exact ⟨by simp [ActivityStreamsNextProperty.nonNilCount, Value.isNil], rfl⟩
    | object o =>
      rw [next_object url mgr m aliasMap o h]
      rcases mgr.DeserializeCollectionPageActivityStreams o aliasMap with ⟨v1, _ | e1⟩ <;>
      rcases mgr.DeserializeLinkActivityStreams o aliasMap with ⟨v2, _ | e2⟩ <;>
      rcases mgr.DeserializeMentionActivityStreams o aliasMap with ⟨v3, _ | e3⟩ <;>
      rcases mgr.DeserializeOrderedCollectionPageActivityStreams o aliasMap with ⟨v4, _ | e4⟩ <;>
      refine ⟨rfl, ?_⟩ <;>
      intro p hp <;>
      cases hp <;>
      refine ⟨?_, rfl⟩ <;>
      simp [ActivityStreamsNextProperty.nonNilCount, Value.isNil] <;>
      try (split <;> simp)
    | _ =>
      rw [next_other url mgr m aliasMap _ h (fun s => by simp) (fun o => by simp)]
      refine ⟨rfl, ?_⟩
      intro p hp
      cases hp
      exact ⟨by simp [ActivityStreamsNextProperty.nonNilCount, Value.isNil], rfl⟩

theorem next_apply_count (p : ActivityStreamsNextProperty vocab) (mu : Mutation vocab) :
    (Mutation.apply p mu).nonNilCount ≤ 1 := by
  cases mu <;>
  simp only [Mutation.apply, ActivityStreamsNextProperty.SetActivityStreamsCollectionPage,
    ActivityStreamsNextProperty.SetActivityStreamsLink,
    ActivityStreamsNextProperty.SetActivityStreamsMention,
    ActivityStreamsNextProperty.SetActivityStreamsOrderedCollectionPage,
    ActivityStreamsNextProperty.SetIRI, ActivityStreamsNextProperty.Clear,
    ActivityStreamsNextProperty.nonNilCount, Value.isNil, Option.isSome_none] <;>
  simp <;>
  try (split <;> simp)

theorem next_run_count (ops : List (Mutation vocab)) (p : ActivityStreamsNextProperty vocab)
    (h : p.nonNilCount ≤ 1) : (ops.foldl Mutation.apply p).nonNilCount ≤ 1 := by
  induction ops generalizing p with
  | nil => exact h
  | cons mu rest ih => exact ih _ (next_apply_count p mu)

theorem next_present (url : NetURL) (mgr : Manager vocab) (m : JsonMap) (aliasMap : AliasMap)
    (v : Value) (h : m.lookup (lookupKey aliasMap "next") = some v) :
    ∃ p, DeserializeNextProperty url mgr m aliasMap = (some p, none) := by
  cases v with
  | string s =>
    by_cases hp : ∃ u, url.Parse s = Except.ok u ∧ u.Scheme ≠ ""
    · obtain ⟨u, hu, hs⟩ := hp
      exact ⟨_, next_iri url mgr m aliasMap s u h hu hs⟩
    · exact ⟨_, next_string_unknown url mgr m aliasMap s h
        (fun u hu => by
          by_contra hne
          exact hp ⟨u, hu, hne⟩)⟩
  | object o =>
    rw [next_object url mgr m aliasMap o h]
    rcases mgr.DeserializeCollectionPageActivityStreams o aliasMap with ⟨v1, _ | e1⟩ <;>
    rcases mgr.DeserializeLinkActivityStreams o aliasMap with ⟨v2, _ | e2⟩ <;>
    rcases mgr.DeserializeMentionActivityStreams o aliasMap with ⟨v3, _ | e3⟩ <;>
    rcases mgr.DeserializeOrderedCollectionPageActivityStreams o aliasMap with ⟨v4, _ | e4⟩ <;>
    exact ⟨_, rfl⟩
  | _ => exact ⟨_, next_other url mgr m aliasMap _ h (fun s => by simp) (fun o => by simp)⟩

end propertynext

/-! ## The resolver of "prev", branch by branch -/

namespace propertyprev

variable {vocab : Vocab}

theorem prev_absent (url : NetURL) (mgr : Manager vocab) (m : JsonMap) (aliasMap : AliasMap)
    (h : m.lookup (lookupKey aliasMap "prev") = none) :
    DeserializePrevProperty url mgr m aliasMap = (none, none) := by
  simp only [DeserializePrevProperty, resolver_alias, resolver_key, h]

theorem prev_iri (url : NetURL) (mgr : Manager vocab) (m : JsonMap) (aliasMap : AliasMap)
    (s : String) (u : URL)
    (h : m.lookup (lookupKey aliasMap "prev") = some (Value.string s))
    (hp : url.Parse s = Except.ok u) (hs : u.Scheme ≠ "") :
    DeserializePrevProperty url mgr m aliasMap =
      (some { alias_ := boundAlias aliasMap, iri := some u }, none) := by
  have := (string_length_pos_iff u.Scheme).2 hs
  simp [DeserializePrevProperty, resolver_alias, resolver_key, h, hp, this]

theorem prev_string_unknown (url : NetURL) (mgr : Manager vocab) (m : JsonMap)
    (aliasMap : AliasMap) (s : String)
    (h : m.lookup (lookupKey aliasMap "prev") = some (Value.string s))
    (hp : ∀ u, url.Parse s = Except.ok u → u.Scheme = "") :
    DeserializePrevProperty url mgr m aliasMap =
      (some { alias_ := boundAlias aliasMap, unknown := Value.string s }, none) := by
  cases hq : url.Parse s with
  | error e => simp [DeserializePrevProperty, resolver_alias, resolver_key, h, hq]
  | ok u => simp [DeserializePrevProperty, resolver_alias, resolver_key, h, hq, hp u hq]

theorem prev_object (url : NetURL) (mgr : Manager vocab) (m : JsonMap) (aliasMap : AliasMap)
    (o : JsonMap) (h : m.lookup (lookupKey aliasMap "prev") = some (Value.object o)) :
    DeserializePrevProperty url mgr m aliasMap =
      match mgr.DeserializeCollectionPageActivityStreams o aliasMap with
      | (v, none) =>
        (some { activitystreamsCollectionPageMember := v, alias_ := boundAlias aliasMap }, none)
      | (_, some _) =>
      match mgr.DeserializeLinkActivityStreams o aliasMap with
      | (v, none) =>
        (some { activitystreamsLinkMember := v, alias_ := boundAlias aliasMap }, none)
      | (_, some _) =>
      match mgr.DeserializeMentionActivityStreams o aliasMap with
      | (v, none) =>
        (some { activitystreamsMentionMember := v, alias_ := boundAlias aliasMap }, none)
      | (_, some _) =>
      match mgr.DeserializeOrderedCollectionPageActivityStreams o aliasMap with
      | (v, none) =>
        (some { activitystreamsOrderedCollectionPageMember := v,
                alias_ := boundAlias aliasMap }, none)
      | (_, some _) =>
        (some { alias_ := boundAlias aliasMap, unknown := Value.object o }, none) := by
  simp only [DeserializePrevProperty, resolver_alias, resolver_key, h]

theorem prev_other (url : NetURL) (mgr : Manager vocab) (m : JsonMap) (aliasMap : AliasMap)
    (v : Value) (h : m.lookup (lookupKey aliasMap "prev") = some v)
    (hs : ∀ s, v ≠ Value.string s) (ho : ∀ o, v ≠ Value.object o) :
    DeserializePrevProperty url mgr m aliasMap =
      (some { alias_ := boundAlias aliasMap, unknown := v }, none) := by
  cases v with
  | string s => exact absurd rfl (hs s)
  | object o => exact absurd rfl (ho o)
  | _ => simp only [DeserializePrevProperty, resolver_alias, resolver_key, h]

theorem prev_result (url : NetURL) (mgr : Manager vocab) (m : JsonMap) (aliasMap : AliasMap) :
    (DeserializePrevProperty url mgr m aliasMap).2 = none ∧
      ∀ p, (DeserializePrevProperty url mgr m aliasMap).1 = some p →
        p.nonNilCount ≤ 1 ∧ p.alias_ = boundAlias aliasMap := by
  cases h : m.lookup (lookupKey aliasMap "prev") with
  | none =>
    rw [prev_absent url mgr m aliasMap h]
    simp
  | some v =>
    cases v with
    | string s =>
      by_cases hp : ∃ u, url.Parse s = Except.ok u ∧ u.Scheme ≠ ""
      · obtain ⟨u, hu, hs⟩ := hp
        rw [prev_iri url mgr m aliasMap s u h hu hs]
        refine ⟨rfl, ?_⟩
        intro p hp
        cases hp
        exact ⟨by simp [ActivityStreamsPrevProperty.nonNilCount, Value.isNil], rfl⟩
      · rw [prev_string_unknown url mgr m aliasMap s h
          (fun u hu => by
            by_contra hne
            exact hp ⟨u, hu, hne⟩)]
        refine ⟨rfl, ?_⟩
        intro p hp
        cases hp
        exact ⟨by simp [ActivityStreamsPrevProperty.nonNilCount, Value.isNil], rfl⟩
    | object o =>
      rw [prev_object url mgr m aliasMap o h]
      rcases mgr.DeserializeCollectionPageActivityStreams o aliasMap with ⟨v1, _ | e1⟩ <;>
      rcases mgr.DeserializeLinkActivityStreams o aliasMap with ⟨v2, _ | e2⟩ <;>
      rcases mgr.DeserializeMentionActivityStreams o aliasMap with ⟨v3, _ | e3⟩ <;>
      rcases mgr.DeserializeOrderedCollectionPageActivityStreams o aliasMap with ⟨v4, _ | e4⟩ <;>
      refine ⟨rfl, ?_⟩ <;>
      intro p hp <;>
      cases hp <;>
      refine ⟨?_, rfl⟩ <;>
      simp [ActivityStreamsPrevProperty.nonNilCount, Value.isNil] <;>
      try (split <;> simp)
    | _ =>
      rw [prev_other url mgr m aliasMap _ h (fun s => by simp) (fun o => by simp)]
      refine ⟨rfl, ?_⟩
      intro p hp
      cases hp
      exact ⟨by simp [ActivityStreamsPrevProperty.nonNilCount, Value.isNil], rfl⟩

theorem prev_apply_count (p : ActivityStreamsPrevProperty vocab) (mu : Mutation vocab) :
    (Mutation.apply p mu).nonNilCount ≤ 1 := by
  cases mu <;>
  simp only [Mutation.apply, ActivityStreamsPrevProperty.SetActivityStreamsCollectionPage,
    ActivityStreamsPrevProperty.SetActivityStreamsLink,
    ActivityStreamsPrevProperty.SetActivityStreamsMention,
    ActivityStreamsPrevProperty.SetActivityStreamsOrderedCollectionPage,
    ActivityStreamsPrevProperty.SetIRI, ActivityStreamsPrevProperty.Clear,
    ActivityStreamsPrevProperty.nonNilCount, Value.isNil, Option.isSome_none] <;>
  simp <;>
  try (split <;> simp)

theorem prev_run_count (ops : List (Mutation vocab)) (p : ActivityStreamsPrevProperty vocab)
    (h : p.nonNilCount ≤ 1) : (ops.foldl Mutation.apply p).nonNilCount ≤ 1 := by
  induction ops generalizing p with
  | nil => exact h
  | cons mu rest ih => exact ih _ (prev_apply_count p mu)

theorem prev_present (url : NetURL) (mgr : Manager vocab) (m : JsonMap) (aliasMap : AliasMap)
    (v : Value) (h : m.lookup (lookupKey aliasMap "prev") = some v) :
    ∃ p, DeserializePrevProperty url mgr m aliasMap = (some p, none) := by
  cases v with
  | string s =>
    by_cases hp : ∃ u, url.Parse s = Except.ok u ∧ u.Scheme ≠ ""
    · obtain ⟨u, hu, hs⟩ := hp
      exact ⟨_, prev_iri url mgr m aliasMap s u h hu hs⟩
    · exact ⟨_, prev_string_unknown url mgr m aliasMap s h
        (fun u hu => by
          by_contra hne
          exact hp ⟨u, hu, hne⟩)⟩
  | object o =>
    rw [prev_object url mgr m aliasMap o h]
    rcases mgr.DeserializeCollectionPageActivityStreams o aliasMap with ⟨v1, _ | e1⟩ <;>
    rcases mgr.DeserializeLinkActivityStreams o aliasMap with ⟨v2, _ | e2⟩ <;>
    rcases mgr.DeserializeMentionActivityStreams o aliasMap with ⟨v3, _ | e3⟩ <;>
    rcases mgr.DeserializeOrderedCollectionPageActivityStreams o aliasMap with ⟨v4, _ | e4⟩ <;>
    exact ⟨_, rfl⟩
  | _ => exact ⟨_, prev_other url mgr m aliasMap _ h (fun s => by simp) (fun o => by simp)⟩

end propertyprev

/-! ## The resolver of "following", branch by branch -/

namespace propertyfollowing

variable {vocab : Vocab}

theorem following_absent (url : NetURL) (mgr : Manager vocab) (m : JsonMap) (aliasMap : AliasMap)
    (h : m.lookup (lookupKey aliasMap "following") = none) :
    DeserializeFollowingProperty url mgr m aliasMap = (none, none) := by
  simp only [DeserializeFollowingProperty, resolver_alias, resolver_key, h]

theorem following_iri (url : NetURL) (mgr : Manager vocab) (m : JsonMap) (aliasMap : AliasMap)
    (s : String) (u : URL)
    (h : m.lookup (lookupKey aliasMap "following") = some (Value.string s))
    (hp : url.Parse s = Except.ok u) (hs : u.Scheme ≠ "") :
    DeserializeFollowingProperty url mgr m aliasMap =
      (some { alias_ := boundAlias aliasMap, iri := some u }, none) := by
  have := (string_length_pos_iff u.Scheme).2 hs
  simp [DeserializeFollowingProperty, resolver_alias, resolver_key, h, hp, this]

theorem following_string_unknown (url : NetURL) (mgr : Manager vocab) (m : JsonMap)
    (aliasMap : AliasMap) (s : String)
    (h : m.lookup (lookupKey aliasMap "following") = some (Value.string s))
    (hp : ∀ u, url.Parse s = Except.ok u → u.Scheme = "") :
    DeserializeFollowingProperty url mgr m aliasMap =
      (some { alias_ := boundAlias aliasMap, unknown := Value.string s }, none) := by
  cases hq : url.Parse s with
  | error e => simp [DeserializeFollowingProperty, resolver_alias, resolver_key, h, hq]
  | ok u => simp [DeserializeFollowingProperty, resolver_alias, resolver_key, h, hq, hp u hq]

theorem following_object (url : NetURL) (mgr : Manager vocab) (m : JsonMap) (aliasMap : AliasMap)
    (o : JsonMap) (h : m.lookup (lookupKey aliasMap "following") = some (Value.object o)) :
    DeserializeFollowingProperty url mgr m aliasMap =
      match mgr.DeserializeOrderedCollectionActivityStreams o aliasMap with
      | (v, none) =>
        (some { activitystreamsOrderedCollectionMember := v, alias_ := boundAlias aliasMap }, none)
      | (_, some _) =>
      match mgr.DeserializeCollectionActivityStreams o aliasMap with
      | (v, none) =>
        (some { activitystreamsCollectionMember := v, alias_ := boundAlias aliasMap }, none)
      | (_, some _) =>
      match mgr.DeserializeCollectionPageActivityStreams o aliasMap with
      | (v, none) =>
        (some { activitystreamsCollectionPageMember := v, alias_ := boundAlias aliasMap }, none)
      | (_, some _) =>
      match mgr.DeserializeOrderedCollectionPageActivityStreams o aliasMap with
      | (v, none) =>
        (some { activitystreamsOrderedCollectionPageMember := v,
                alias_ := boundAlias aliasMap }, none)
      | (_, some _) =>
        (some { alias_ := boundAlias aliasMap, unknown := Value.object o }, none) := by
  simp only [DeserializeFollowingProperty, resolver_alias, resolver_key, h]

theorem following_other (url : NetURL) (mgr : Manager vocab) (m : JsonMap) (aliasMap : AliasMap)
    (v : Value) (h : m.lookup (lookupKey aliasMap "following") = some v)
    (hs : ∀ s, v ≠ Value.string s) (ho : ∀ o, v ≠ Value.object o) :
    DeserializeFollowingProperty url mgr m aliasMap =
      (some { alias_ := boundAlias aliasMap, unknown := v }, none) := by
  cases v with
  | string s => exact absurd rfl (hs s)
  | object o => exact absurd rfl (ho o)
  | _ => simp only [DeserializeFollowingProperty, resolver_alias, resolver_key, h]

theorem following_result (url : NetURL) (mgr : Manager vocab) (m : JsonMap) (aliasMap : AliasMap) :
    (DeserializeFollowingProperty url mgr m aliasMap).2 = none ∧
      ∀ p, (DeserializeFollowingProperty url mgr m aliasMap).1 = some p →
        p.nonNilCount ≤ 1 ∧ p.alias_ = boundAlias aliasMap := by
  cases h : m.lookup (lookupKey aliasMap "following") with
  | none =>
    rw [following_absent url mgr m aliasMap h]
    simp
  | some v =>
    cases v with
    | string s =>
      by_cases hp : ∃ u, url.Parse s = Except.ok u ∧ u.Scheme ≠ ""
      · obtain ⟨u, hu, hs⟩ := hp
        rw [following_iri url mgr m aliasMap s u h hu hs]
        refine ⟨rfl, ?_⟩
        intro p hp
        cases hp
        exact ⟨by simp [ActivityStreamsFollowingProperty.nonNilCount, Value.isNil], rfl⟩
      · rw [following_string_unknown url mgr m aliasMap s h
          (fun u hu => by
            by_contra hne
            exact hp ⟨u, hu, hne⟩)]
        refine ⟨rfl, ?_⟩
        intro p hp
        cases hp
        exact ⟨by simp [ActivityStreamsFollowingProperty.nonNilCount, Value.isNil], rfl⟩
    | object o =>
      rw [following_object url mgr m aliasMap o h]
      rcases mgr.DeserializeOrderedCollectionActivityStreams o aliasMap with ⟨v1, _ | e1⟩ <;>
      rcases mgr.DeserializeCollectionActivityStreams o aliasMap with ⟨v2, _ | e2⟩ <;>
      rcases mgr.DeserializeCollectionPageActivityStreams o aliasMap with ⟨v3, _ | e3⟩ <;>
      rcases mgr.DeserializeOrderedCollectionPageActivityStreams o aliasMap with ⟨v4, _ | e4⟩ <;>
      refine ⟨rfl, ?_⟩ <;>
      intro p hp <;>
      cases hp <;>
      refine ⟨?_, rfl⟩ <;>
      simp [ActivityStreamsFollowingProperty.nonNilCount, Value.isNil] <;>
      try (split <;> simp)
    | _ =>
      rw [following_other url mgr m aliasMap _ h (fun s => by simp) (fun o => by simp)]
      refine ⟨rfl, ?_⟩
      intro p hp
      cases hp
      exact ⟨by simp [ActivityStreamsFollowingProperty.nonNilCount, Value.isNil], rfl⟩

theorem following_apply_count (p : ActivityStreamsFollowingProperty vocab) (mu : Mutation vocab) :
    (Mutation.apply p mu).nonNilCount ≤ 1 := by
  cases mu <;>
  simp only [Mutation.apply, ActivityStreamsFollowingProperty.SetActivityStreamsOrderedCollection,
    ActivityStreamsFollowingProperty.SetActivityStreamsCollection,
    ActivityStreamsFollowingProperty.SetActivityStreamsCollectionPage,
    ActivityStreamsFollowingProperty.SetActivityStreamsOrderedCollectionPage,
    ActivityStreamsFollowingProperty.SetIRI, ActivityStreamsFollowingProperty.Clear,
    ActivityStreamsFollowingProperty.nonNilCount, Value.isNil, Option.isSome_none] <;>
  simp <;>
  try (split <;> simp)

theorem following_run_count (ops : List (Mutation vocab)) (p : ActivityStreamsFollowingProperty vocab)
    (h : p.nonNilCount ≤ 1) : (ops.foldl Mutation.apply p).nonNilCount ≤ 1 := by
  induction ops generalizing p with
  | nil => exact h
  | cons mu rest ih => exact ih _ (following_apply_count p mu)

theorem following_present (url : NetURL) (mgr : Manager vocab) (m : JsonMap) (aliasMap : AliasMap)
    (v : Value) (h : m.lookup (lookupKey aliasMap "following") = some v) :
    ∃ p, DeserializeFollowingProperty url mgr m aliasMap = (some p, none) := by
  cases v with
  | string s =>
    by_cases hp : ∃ u, url.Parse s = Except.ok u ∧ u.Scheme ≠ ""
    · obtain ⟨u, hu, hs⟩ := hp
      exact ⟨_, following_iri url mgr m aliasMap s u h hu hs⟩
    · exact ⟨_, following_string_unknown url mgr m aliasMap s h
        (fun u hu => by
          by_contra hne
          exact hp ⟨u, hu, hne⟩)⟩
  | object o =>
    rw [following_object url mgr m aliasMap o h]
    rcases mgr.DeserializeOrderedCollectionActivityStreams o aliasMap with ⟨v1, _ | e1⟩ <;>
    rcases mgr.DeserializeCollectionActivityStreams o aliasMap with ⟨v2, _ | e2⟩ <;>
    rcases mgr.DeserializeCollectionPageActivityStreams o aliasMap with ⟨v3, _ | e3⟩ <;>
    rcases mgr.DeserializeOrderedCollectionPageActivityStreams o aliasMap with ⟨v4, _ | e4⟩ <;>
    exact ⟨_, rfl⟩
  | _ => exact ⟨_, following_other url mgr m aliasMap _ h (fun s => by simp) (fun o => by simp)⟩

end propertyfollowing

/-! ## The order of "next", kind by kind -/

namespace propertynext

namespace ActivityStreamsNextProperty

variable {vocab : Vocab}

theorem next_kind_cases (p : ActivityStreamsNextProperty vocab) :
    ((∃ a, p.activitystreamsCollectionPageMember = some a) ∧ p.KindIndex = 0) ∨
    (p.activitystreamsCollectionPageMember = none ∧
      (∃ a, p.activitystreamsLinkMember = some a) ∧ p.KindIndex = 1) ∨
    (p.activitystreamsCollectionPageMember = none ∧ p.activitystreamsLinkMember = none ∧
      (∃ a, p.activitystreamsMentionMember = some a) ∧ p.KindIndex = 2) ∨
    (p.activitystreamsCollectionPageMember = none ∧ p.activitystreamsLinkMember = none ∧ p.activitystreamsMentionMember = none ∧
      (∃ a, p.activitystreamsOrderedCollectionPageMember = some a) ∧ p.KindIndex = 3) ∨
    (p.activitystreamsCollectionPageMember = none ∧ p.activitystreamsLinkMember = none ∧
      p.activitystreamsMentionMember = none ∧
      p.activitystreamsOrderedCollectionPageMember = none ∧
      (∃ u, p.iri = some u) ∧ p.KindIndex = -2) ∨
    (p.activitystreamsCollectionPageMember = none ∧ p.activitystreamsLinkMember = none ∧
      p.activitystreamsMentionMember = none ∧
      p.activitystreamsOrderedCollectionPageMember = none ∧
      p.iri = none ∧ p.KindIndex = -1) := by
  rcases p with ⟨_ | a, _ | b, _ | c, _ | d, unk, _ | u, al⟩ <;>
  simp [KindIndex, IsActivityStreamsCollectionPage, IsActivityStreamsLink,
    IsActivityStreamsMention, IsActivityStreamsOrderedCollectionPage, IsIRI]

theorem next_lessThan_lt (a b : ActivityStreamsNextProperty vocab) (h : a.KindIndex < b.KindIndex) :
    a.LessThan b = some true := by
  simp only [LessThan, h, if_true]

theorem next_lessThan_gt (a b : ActivityStreamsNextProperty vocab) (h : b.KindIndex < a.KindIndex) :
    a.LessThan b = some false := by
  have h1 : ¬ a.KindIndex < b.KindIndex := by omega
  simp only [LessThan, h1, gt_iff_lt, h, if_true, if_false]

theorem next_lessThan_kind0 (a b : ActivityStreamsNextProperty vocab)
    (x y : vocab.ActivityStreamsCollectionPage)
    (hx : a.activitystreamsCollectionPageMember = some x)
    (hy : b.activitystreamsCollectionPageMember = some y) :
    a.LessThan b = some (vocab.ActivityStreamsCollectionPage.LessThan x y) := by
  simp [LessThan, KindIndex, IsActivityStreamsCollectionPage, IsActivityStreamsLink,
    IsActivityStreamsMention, IsActivityStreamsOrderedCollectionPage, IsIRI,
    GetActivityStreamsCollectionPage, GetActivityStreamsLink, GetActivityStreamsMention,
    GetActivityStreamsOrderedCollectionPage, GetIRI, hx, hy]

theorem next_lessThan_kind1 (a b : ActivityStreamsNextProperty vocab)
    (x y : vocab.ActivityStreamsLink)
    (ha0 : a.activitystreamsCollectionPageMember = none)
    (hb0 : b.activitystreamsCollectionPageMember = none)
    (hx : a.activitystreamsLinkMember = some x)
    (hy : b.activitystreamsLinkMember = some y) :
    a.LessThan b = some (vocab.ActivityStreamsLink.LessThan x y) := by
  simp [LessThan, KindIndex, IsActivityStreamsCollectionPage, IsActivityStreamsLink,
    IsActivityStreamsMention, IsActivityStreamsOrderedCollectionPage, IsIRI,
    GetActivityStreamsCollectionPage, GetActivityStreamsLink, GetActivityStreamsMention,
    GetActivityStreamsOrderedCollectionPage, GetIRI, ha0, hb0, hx, hy]

theorem next_lessThan_kind2 (a b : ActivityStreamsNextProperty vocab)
    (x y : vocab.ActivityStreamsMention)
    (ha0 : a.activitystreamsCollectionPageMember = none)
    (hb0 : b.activitystreamsCollectionPageMember = none)
    (ha1 : a.activitystreamsLinkMember = none)
    (hb1 : b.activitystreamsLinkMember = none)
    (hx : a.activitystreamsMentionMember = some x)
    (hy : b.activitystreamsMentionMember = some y) :
    a.LessThan b = some (vocab.ActivityStreamsMention.LessThan x y) := by
  simp [LessThan, KindIndex, IsActivityStreamsCollectionPage, IsActivityStreamsLink,
    IsActivityStreamsMention, IsActivityStreamsOrderedCollectionPage, IsIRI,
    GetActivityStreamsCollectionPage, GetActivityStreamsLink, GetActivityStreamsMention,
    GetActivityStreamsOrderedCollectionPage, GetIRI, ha0, hb0, ha1, hb1, hx, hy]

theorem next_lessThan_kind3 (a b : ActivityStreamsNextProperty vocab)
    (x y : vocab.ActivityStreamsOrderedCollectionPage)
    (ha0 : a.activitystreamsCollectionPageMember = none)
    (hb0 : b.activitystreamsCollectionPageMember = none)
    (ha1 : a.activitystreamsLinkMember = none)
    (hb1 : b.activitystreamsLinkMember = none)
    (ha2 : a.activitystreamsMentionMember = none)
    (hb2 : b.activitystreamsMentionMember = none)
    (hx : a.activitystreamsOrderedCollectionPageMember = some x)
    (hy : b.activitystreamsOrderedCollectionPageMember = some y) :
    a.LessThan b = some (vocab.ActivityStreamsOrderedCollectionPage.LessThan x y) := by
  simp [LessThan, KindIndex, IsActivityStreamsCollectionPage, IsActivityStreamsLink,
    IsActivityStreamsMention, IsActivityStreamsOrderedCollectionPage, IsIRI,
    GetActivityStreamsCollectionPage, GetActivityStreamsLink, GetActivityStreamsMention,
    GetActivityStreamsOrderedCollectionPage, GetIRI, ha0, hb0, ha1, hb1, ha2, hb2, hx, hy]

theorem next_lessThan_iri (a b : ActivityStreamsNextProperty vocab) (u w : URL)
    (ha0 : a.activitystreamsCollectionPageMember = none)
    (hb0 : b.activitystreamsCollectionPageMember = none)
    (ha1 : a.activitystreamsLinkMember = none)
    (hb1 : b.activitystreamsLinkMember = none)
    (ha2 : a.activitystreamsMentionMember = none)
    (hb2 : b.activitystreamsMentionMember = none)
    (ha3 : a.activitystreamsOrderedCollectionPageMember = none)
    (hb3 : b.activitystreamsOrderedCollectionPageMember = none)
    (hu : a.iri = some u) (hw : b.iri = some w) :
    a.LessThan b = some (decide (u.String < w.String)) := by
  simp [LessThan, KindIndex, IsActivityStreamsCollectionPage, IsActivityStreamsLink,
    IsActivityStreamsMention, IsActivityStreamsOrderedCollectionPage, IsIRI,
    GetActivityStreamsCollectionPage, GetActivityStreamsLink, GetActivityStreamsMention,
    GetActivityStreamsOrderedCollectionPage, GetIRI, ha0, hb0, ha1, hb1, ha2, hb2, ha3, hb3, hu, hw]

theorem next_lessThan_unset (a b : ActivityStreamsNextProperty vocab)
    (ha0 : a.activitystreamsCollectionPageMember = none)
    (hb0 : b.activitystreamsCollectionPageMember = none)
    (ha1 : a.activitystreamsLinkMember = none)
    (hb1 : b.activitystreamsLinkMember = none)
    (ha2 : a.activitystreamsMentionMember = none)
    (hb2 : b.activitystreamsMentionMember = none)
    (ha3 : a.activitystreamsOrderedCollectionPageMember = none)
    (hb3 : b.activitystreamsOrderedCollectionPageMember = none)
    (hu : a.iri = none) (hw : b.iri = none) :
    a.LessThan b = some false := by
  simp [LessThan, KindIndex, IsActivityStreamsCollectionPage, IsActivityStreamsLink,
    IsActivityStreamsMention, IsActivityStreamsOrderedCollectionPage, IsIRI,
    GetActivityStreamsCollectionPage, GetActivityStreamsLink, GetActivityStreamsMention,
    GetActivityStreamsOrderedCollectionPage, GetIRI, ha0, hb0, ha1, hb1, ha2, hb2, ha3, hb3, hu, hw]

theorem next_kind_ranking (i a t : ActivityStreamsNextProperty vocab)
    (hi : i.IsIRI = true ∧ i.IsActivityStreamsCollectionPage = false ∧
      i.IsActivityStreamsLink = false ∧ i.IsActivityStreamsMention = false ∧
      i.IsActivityStreamsOrderedCollectionPage = false)
    (ha : a.HasAny = false)
    (ht : t.IsActivityStreamsCollectionPage = true ∨ t.IsActivityStreamsLink = true ∨
      t.IsActivityStreamsMention = true ∨ t.IsActivityStreamsOrderedCollectionPage = true) :
    i.KindIndex = -2 ∧ a.KindIndex = -1 ∧ 0 ≤ t.KindIndex ∧
      i.KindIndex < a.KindIndex ∧ a.KindIndex < t.KindIndex := by
  have h1 : i.KindIndex = -2 := by
    rcases next_kind_cases i with
      ⟨⟨x, hx⟩, hk⟩ | ⟨h0, ⟨x, hx⟩, hk⟩ | ⟨h0, h1, ⟨x, hx⟩, hk⟩ |
    ⟨h0, h1, h2, ⟨x, hx⟩, hk⟩ | ⟨h0, h1, h2, h3, ⟨u, hu⟩, hk⟩ | ⟨h0, h1, h2, h3, hu, hk⟩ <;>
    simp_all [HasAny, IsActivityStreamsCollectionPage, IsActivityStreamsLink,
    IsActivityStreamsMention, IsActivityStreamsOrderedCollectionPage, IsIRI]
  have h2 : a.KindIndex = -1 := by
    rcases next_kind_cases a with
      ⟨⟨x, hx⟩, hk⟩ | ⟨h0, ⟨x, hx⟩, hk⟩ | ⟨h0, h1, ⟨x, hx⟩, hk⟩ |
    ⟨h0, h1, h2, ⟨x, hx⟩, hk⟩ | ⟨h0, h1, h2, h3, ⟨u, hu⟩, hk⟩ | ⟨h0, h1, h2, h3, hu, hk⟩ <;>
    simp_all [HasAny, IsActivityStreamsCollectionPage, IsActivityStreamsLink,
    IsActivityStreamsMention, IsActivityStreamsOrderedCollectionPage, IsIRI]
  have h3 : 0 ≤ t.KindIndex := by
    rcases next_kind_cases t with
      ⟨⟨x, hx⟩, hk⟩ | ⟨h0, ⟨x, hx⟩, hk⟩ | ⟨h0, h1, ⟨x, hx⟩, hk⟩ |
    ⟨h0, h1, h2, ⟨x, hx⟩, hk⟩ | ⟨h0, h1, h2, h3, ⟨u, hu⟩, hk⟩ | ⟨h0, h1, h2, h3, hu, hk⟩ <;>
    simp_all [HasAny, IsActivityStreamsCollectionPage, IsActivityStreamsLink,
    IsActivityStreamsMention, IsActivityStreamsOrderedCollectionPage, IsIRI]
  exact ⟨h1, h2, h3, by omega, by omega⟩

theorem next_lessThan_asymm
    (s0 : vocab.ActivityStreamsCollectionPage.StrictOrder)
    (s1 : vocab.ActivityStreamsLink.StrictOrder)
    (s2 : vocab.ActivityStreamsMention.StrictOrder)
    (s3 : vocab.ActivityStreamsOrderedCollectionPage.StrictOrder)
    (a b : ActivityStreamsNextProperty vocab) :
    ¬ (a.LessThan b = some true ∧ b.LessThan a = some true) := by
  rintro ⟨hab, hba⟩
  rcases lt_trichotomy a.KindIndex b.KindIndex with h | h | h
  · rw [next_lessThan_gt b a h] at hba
    exact Bool.noConfusion (Option.some.inj hba)
  · rcases next_kind_cases a with
      ⟨⟨x, hx⟩, ka⟩ | ⟨a0, ⟨x, hx⟩, ka⟩ | ⟨a0, a1, ⟨x, hx⟩, ka⟩ |
      ⟨a0, a1, a2, ⟨x, hx⟩, ka⟩ | ⟨a0, a1, a2, a3, ⟨u, hu⟩, ka⟩ | ⟨a0, a1, a2, a3, hu, ka⟩ <;>
    rcases next_kind_cases b with
      ⟨⟨y, hy⟩, kb⟩ | ⟨b0, ⟨y, hy⟩, kb⟩ | ⟨b0, b1, ⟨y, hy⟩, kb⟩ |
      ⟨b0, b1, b2, ⟨y, hy⟩, kb⟩ | ⟨b0, b1, b2, b3, ⟨w, hw⟩, kb⟩ | ⟨b0, b1, b2, b3, hw, kb⟩ <;>
    (try omega)
    · rw [next_lessThan_kind0 a b x y hx hy] at hab
      rw [next_lessThan_kind0 b a y x hy hx] at hba
      have e := s0.2.1 x y (Option.some.inj hab)
      rw [e] at hba
      exact Bool.noConfusion (Option.some.inj hba)
    · rw [next_lessThan_kind1 a b x y a0 b0 hx hy] at hab
      rw [next_lessThan_kind1 b a y x b0 a0 hy hx] at hba
      have e := s1.2.1 x y (Option.some.inj hab)
      rw [e] at hba
      exact Bool.noConfusion (Option.some.inj hba)
    · rw [next_lessThan_kind2 a b x y a0 b0 a1 b1 hx hy] at hab
      rw [next_lessThan_kind2 b a y x b0 a0 b1 a1 hy hx] at hba
      have e := s2.2.1 x y (Option.some.inj hab)
      rw [e] at hba
      exact Bool.noConfusion (Option.some.inj hba)
    · rw [next_lessThan_kind3 a b x y a0 b0 a1 b1 a2 b2 hx hy] at hab
      rw [next_lessThan_kind3 b a y x b0 a0 b1 a1 b2 a2 hy hx] at hba
      have e := s3.2.1 x y (Option.some.inj hab)
      rw [e] at hba
      exact Bool.noConfusion (Option.some.inj hba)
    · rw [next_lessThan_iri a b u w a0 b0 a1 b1 a2 b2 a3 b3 hu hw] at hab
      rw [next_lessThan_iri b a w u b0 a0 b1 a1 b2 a2 b3 a3 hw hu] at hba
      exact lt_asymm (of_decide_eq_true (Option.some.inj hab))
        (of_decide_eq_true (Option.some.inj hba))
    · rw [next_lessThan_unset a b a0 b0 a1 b1 a2 b2 a3 b3 hu hw] at hab
      exact Bool.noConfusion (Option.some.inj hab)
  · rw [next_lessThan_gt a b h] at hab
    exact Bool.noConfusion (Option.some.inj hab)

theorem next_lessThan_trans
    (s0 : vocab.ActivityStreamsCollectionPage.StrictOrder)
    (s1 : vocab.ActivityStreamsLink.StrictOrder)
    (s2 : vocab.ActivityStreamsMention.StrictOrder)
    (s3 : vocab.ActivityStreamsOrderedCollectionPage.StrictOrder)
    (a b c : ActivityStreamsNextProperty vocab)
    (hab : a.LessThan b = some true) (hbc : b.LessThan c = some true) :
    a.LessThan c = some true := by
  have h1 : ¬ b.KindIndex < a.KindIndex := by
    intro h
    rw [next_lessThan_gt a b h] at hab
    exact Bool.noConfusion (Option.some.inj hab)
  have h2 : ¬ c.KindIndex < b.KindIndex := by
    intro h
    rw [next_lessThan_gt b c h] at hbc
    exact Bool.noConfusion (Option.some.inj hbc)
  by_cases h : a.KindIndex < c.KindIndex
  · exact next_lessThan_lt a c h
  · have e1 : a.KindIndex = b.KindIndex := by omega
    have e2 : b.KindIndex = c.KindIndex := by omega
    rcases next_kind_cases a with
      ⟨⟨x, hx⟩, ka⟩ | ⟨a0, ⟨x, hx⟩, ka⟩ | ⟨a0, a1, ⟨x, hx⟩, ka⟩ |
      ⟨a0, a1, a2, ⟨x, hx⟩, ka⟩ | ⟨a0, a1, a2, a3, ⟨u, hu⟩, ka⟩ | ⟨a0, a1, a2, a3, hu, ka⟩ <;>
    rcases next_kind_cases b with
      ⟨⟨y, hy⟩, kb⟩ | ⟨b0, ⟨y, hy⟩, kb⟩ | ⟨b0, b1, ⟨y, hy⟩, kb⟩ |
      ⟨b0, b1, b2, ⟨y, hy⟩, kb⟩ | ⟨b0, b1, b2, b3, ⟨w, hw⟩, kb⟩ | ⟨b0, b1, b2, b3, hw, kb⟩ <;>
    (try omega) <;>
    rcases next_kind_cases c with
      ⟨⟨z, hz⟩, kc⟩ | ⟨c0, ⟨z, hz⟩, kc⟩ | ⟨c0, c1, ⟨z, hz⟩, kc⟩ |
      ⟨c0, c1, c2, ⟨z, hz⟩, kc⟩ | ⟨c0, c1, c2, c3, ⟨r, hr⟩, kc⟩ | ⟨c0, c1, c2, c3, hr, kc⟩ <;>
    (try omega)
    · rw [next_lessThan_kind0 a b x y hx hy] at hab
      rw [next_lessThan_kind0 b c y z hy hz] at hbc
      rw [next_lessThan_kind0 a c x z hx hz]
      exact congrArg some (s0.2.2 x y z (Option.some.inj hab) (Option.some.inj hbc))
    · rw [next_lessThan_kind1 a b x y a0 b0 hx hy] at hab
      rw [next_lessThan_kind1 b c y z b0 c0 hy hz] at hbc
      rw [next_lessThan_kind1 a c x z a0 c0 hx hz]
      exact congrArg some (s1.2.2 x y z (Option.some.inj hab) (Option.some.inj hbc))
    · rw [next_lessThan_kind2 a b x y a0 b0 a1 b1 hx hy] at hab
      rw [next_lessThan_kind2 b c y z b0 c0 b1 c1 hy hz] at hbc
      rw [next_lessThan_kind2 a c x z a0 c0 a1 c1 hx hz]
      exact congrArg some (s2.2.2 x y z (Option.some.inj hab) (Option.some.inj hbc))
    · rw [next_lessThan_kind3 a b x y a0 b0 a1 b1 a2 b2 hx hy] at hab
      rw [next_lessThan_kind3 b c y z b0 c0 b1 c1 b2 c2 hy hz] at hbc
      rw [next_lessThan_kind3 a c x z a0 c0 a1 c1 a2 c2 hx hz]
      exact congrArg some (s3.2.2 x y z (Option.some.inj hab) (Option.some.inj hbc))
    · rw [next_lessThan_iri a b u w a0 b0 a1 b1 a2 b2 a3 b3 hu hw] at hab
      rw [next_lessThan_iri b c w r b0 c0 b1 c1 b2 c2 b3 c3 hw hr] at hbc
      rw [next_lessThan_iri a c u r a0 c0 a1 c1 a2 c2 a3 c3 hu hr]
      exact congrArg some (decide_eq_true (lt_trans (of_decide_eq_true (Option.some.inj hab))
        (of_decide_eq_true (Option.some.inj hbc))))
    · rw [next_lessThan_unset a b a0 b0 a1 b1 a2 b2 a3 b3 hu hw] at hab
      exact Bool.noConfusion (Option.some.inj hab)

theorem next_lessThan_total (a b : ActivityStreamsNextProperty vocab) : ∃ r, a.LessThan b = some r := by
  rcases lt_trichotomy a.KindIndex b.KindIndex with h | h | h
  · exact ⟨_, next_lessThan_lt a b h⟩
  · rcases next_kind_cases a with
      ⟨⟨x, hx⟩, ka⟩ | ⟨a0, ⟨x, hx⟩, ka⟩ | ⟨a0, a1, ⟨x, hx⟩, ka⟩ |
      ⟨a0, a1, a2, ⟨x, hx⟩, ka⟩ | ⟨a0, a1, a2, a3, ⟨u, hu⟩, ka⟩ | ⟨a0, a1, a2, a3, hu, ka⟩ <;>
    rcases next_kind_cases b with
      ⟨⟨y, hy⟩, kb⟩ | ⟨b0, ⟨y, hy⟩, kb⟩ | ⟨b0, b1, ⟨y, hy⟩, kb⟩ |
      ⟨b0, b1, b2, ⟨y, hy⟩, kb⟩ | ⟨b0, b1, b2, b3, ⟨w, hw⟩, kb⟩ | ⟨b0, b1, b2, b3, hw, kb⟩ <;>
    (try omega)
    · exact ⟨_, next_lessThan_kind0 a b x y hx hy⟩
    · exact ⟨_, next_lessThan_kind1 a b x y a0 b0 hx hy⟩
    · exact ⟨_, next_lessThan_kind2 a b x y a0 b0 a1 b1 hx hy⟩
    · exact ⟨_, next_lessThan_kind3 a b x y a0 b0 a1 b1 a2 b2 hx hy⟩
    · exact ⟨_, next_lessThan_iri a b u w a0 b0 a1 b1 a2 b2 a3 b3 hu hw⟩
    · exact ⟨_, next_lessThan_unset a b a0 b0 a1 b1 a2 b2 a3 b3 hu hw⟩
  · exact ⟨_, next_lessThan_gt a b h⟩

theorem next_lessThan_lexicographic (a b : ActivityStreamsNextProperty vocab) :
    (a.KindIndex < b.KindIndex → a.LessThan b = some true) ∧
    (b.KindIndex < a.KindIndex → a.LessThan b = some false) ∧
    (a.KindIndex = 0 → b.KindIndex = 0 →
      ∃ x y, a.GetActivityStreamsCollectionPage = some x ∧
        b.GetActivityStreamsCollectionPage = some y ∧
        a.LessThan b = some (vocab.ActivityStreamsCollectionPage.LessThan x y)) ∧
    (a.KindIndex = 1 → b.KindIndex = 1 →
      ∃ x y, a.GetActivityStreamsLink = some x ∧
        b.GetActivityStreamsLink = some y ∧
        a.LessThan b = some (vocab.ActivityStreamsLink.LessThan x y)) ∧
    (a.KindIndex = 2 → b.KindIndex = 2 →
      ∃ x y, a.GetActivityStreamsMention = some x ∧
        b.GetActivityStreamsMention = some y ∧
        a.LessThan b = some (vocab.ActivityStreamsMention.LessThan x y)) ∧
    (a.KindIndex = 3 → b.KindIndex = 3 →
      ∃ x y, a.GetActivityStreamsOrderedCollectionPage = some x ∧
        b.GetActivityStreamsOrderedCollectionPage = some y ∧
        a.LessThan b = some (vocab.ActivityStreamsOrderedCollectionPage.LessThan x y)) ∧
    (a.KindIndex = -2 → b.KindIndex = -2 →
      ∃ u w, a.GetIRI = some u ∧ b.GetIRI = some w ∧
        a.LessThan b = some (decide (u.String < w.String))) ∧
    (a.KindIndex = -1 → b.KindIndex = -1 → a.LessThan b = some false) ∧
    (a.KindIndex = 0 ∨ a.KindIndex = 1 ∨ a.KindIndex = 2 ∨ a.KindIndex = 3 ∨
      a.KindIndex = -2 ∨ a.KindIndex = -1) := by
  refine ⟨next_lessThan_lt a b, next_lessThan_gt a b, ?_, ?_, ?_, ?_, ?_, ?_, ?_⟩
  · intro k1 k2
    rcases next_kind_cases a with
      ⟨⟨x, hx⟩, ka⟩ | ⟨a0, ⟨x, hx⟩, ka⟩ | ⟨a0, a1, ⟨x, hx⟩, ka⟩ |
      ⟨a0, a1, a2, ⟨x, hx⟩, ka⟩ | ⟨a0, a1, a2, a3, ⟨u, hu⟩, ka⟩ | ⟨a0, a1, a2, a3, hu, ka⟩ <;>
    rcases next_kind_cases b with
      ⟨⟨y, hy⟩, kb⟩ | ⟨b0, ⟨y, hy⟩, kb⟩ | ⟨b0, b1, ⟨y, hy⟩, kb⟩ |
      ⟨b0, b1, b2, ⟨y, hy⟩, kb⟩ | ⟨b0, b1, b2, b3, ⟨w, hw⟩, kb⟩ | ⟨b0, b1, b2, b3, hw, kb⟩ <;>
    (try omega)
    exact ⟨x, y, hx, hy, next_lessThan_kind0 a b x y hx hy⟩
  · intro k1 k2
    rcases next_kind_cases a with
      ⟨⟨x, hx⟩, ka⟩ | ⟨a0, ⟨x, hx⟩, ka⟩ | ⟨a0, a1, ⟨x, hx⟩, ka⟩ |
      ⟨a0, a1, a2, ⟨x, hx⟩, ka⟩ | ⟨a0, a1, a2, a3, ⟨u, hu⟩, ka⟩ | ⟨a0, a1, a2, a3, hu, ka⟩ <;>
    rcases next_kind_cases b with
      ⟨⟨y, hy⟩, kb⟩ | ⟨b0, ⟨y, hy⟩, kb⟩ | ⟨b0, b1, ⟨y, hy⟩, kb⟩ |
      ⟨b0, b1, b2, ⟨y, hy⟩, kb⟩ | ⟨b0, b1, b2, b3, ⟨w, hw⟩, kb⟩ | ⟨b0, b1, b2, b3, hw, kb⟩ <;>
    (try omega)
    exact ⟨x, y, hx, hy, next_lessThan_kind1 a b x y a0 b0 hx hy⟩
  · intro k1 k2
    rcases next_kind_cases a with
      ⟨⟨x, hx⟩, ka⟩ | ⟨a0, ⟨x, hx⟩, ka⟩ | ⟨a0, a1, ⟨x, hx⟩, ka⟩ |
      ⟨a0, a1, a2, ⟨x, hx⟩, ka⟩ | ⟨a0, a1, a2, a3, ⟨u, hu⟩, ka⟩ | ⟨a0, a1, a2, a3, hu, ka⟩ <;>
    rcases next_kind_cases b with
      ⟨⟨y, hy⟩, kb⟩ | ⟨b0, ⟨y, hy⟩, kb⟩ | ⟨b0, b1, ⟨y, hy⟩, kb⟩ |
      ⟨b0, b1, b2, ⟨y, hy⟩, kb⟩ | ⟨b0, b1, b2, b3, ⟨w, hw⟩, kb⟩ | ⟨b0, b1, b2, b3, hw, kb⟩ <;>
    (try omega)
    exact ⟨x, y, hx, hy, next_lessThan_kind2 a b x y a0 b0 a1 b1 hx hy⟩
  · intro k1 k2
    rcases next_kind_cases a with
      ⟨⟨x, hx⟩, ka⟩ | ⟨a0, ⟨x, hx⟩, ka⟩ | ⟨a0, a1, ⟨x, hx⟩, ka⟩ |
      ⟨a0, a1, a2, ⟨x, hx⟩, ka⟩ | ⟨a0, a1, a2, a3, ⟨u, hu⟩, ka⟩ | ⟨a0, a1, a2, a3, hu, ka⟩ <;>
    rcases next_kind_cases b with
      ⟨⟨y, hy⟩, kb⟩ | ⟨b0, ⟨y, hy⟩, kb⟩ | ⟨b0, b1, ⟨y, hy⟩, kb⟩ |
      ⟨b0, b1, b2, ⟨y, hy⟩, kb⟩ | ⟨b0, b1, b2, b3, ⟨w, hw⟩, kb⟩ | ⟨b0, b1, b2, b3, hw, kb⟩ <;>
    (try omega)
    exact ⟨x, y, hx, hy, next_lessThan_kind3 a b x y a0 b0 a1 b1 a2 b2 hx hy⟩
  · intro k1 k2
    rcases next_kind_cases a with
      ⟨⟨x, hx⟩, ka⟩ | ⟨a0, ⟨x, hx⟩, ka⟩ | ⟨a0, a1, ⟨x, hx⟩, ka⟩ |
      ⟨a0, a1, a2, ⟨x, hx⟩, ka⟩ | ⟨a0, a1, a2, a3, ⟨u, hu⟩, ka⟩ | ⟨a0, a1, a2, a3, hu, ka⟩ <;>
    rcases next_kind_cases b with
      ⟨⟨y, hy⟩, kb⟩ | ⟨b0, ⟨y, hy⟩, kb⟩ | ⟨b0, b1, ⟨y, hy⟩, kb⟩ |
      ⟨b0, b1, b2, ⟨y, hy⟩, kb⟩ | ⟨b0, b1, b2, b3, ⟨w, hw⟩, kb⟩ | ⟨b0, b1, b2, b3, hw, kb⟩ <;>
    (try omega)
    exact ⟨u, w, hu, hw, next_lessThan_iri a b u w a0 b0 a1 b1 a2 b2 a3 b3 hu hw⟩
  · intro k1 k2
    rcases next_kind_cases a with
      ⟨⟨x, hx⟩, ka⟩ | ⟨a0, ⟨x, hx⟩, ka⟩ | ⟨a0, a1, ⟨x, hx⟩, ka⟩ |
      ⟨a0, a1, a2, ⟨x, hx⟩, ka⟩ | ⟨a0, a1, a2, a3, ⟨u, hu⟩, ka⟩ | ⟨a0, a1, a2, a3, hu, ka⟩ <;>
    rcases next_kind_cases b with
      ⟨⟨y, hy⟩, kb⟩ | ⟨b0, ⟨y, hy⟩, kb⟩ | ⟨b0, b1, ⟨y, hy⟩, kb⟩ |
      ⟨b0, b1, b2, ⟨y, hy⟩, kb⟩ | ⟨b0, b1, b2, b3, ⟨w, hw⟩, kb⟩ | ⟨b0, b1, b2, b3, hw, kb⟩ <;>
    (try omega)
    exact next_lessThan_unset a b a0 b0 a1 b1 a2 b2 a3 b3 hu hw
  · rcases next_kind_cases a with
      ⟨⟨x, hx⟩, ka⟩ | ⟨a0, ⟨x, hx⟩, ka⟩ | ⟨a0, a1, ⟨x, hx⟩, ka⟩ |
      ⟨a0, a1, a2, ⟨x, hx⟩, ka⟩ | ⟨a0, a1, a2, a3, ⟨u, hu⟩, ka⟩ | ⟨a0, a1, a2, a3, hu, ka⟩ <;>
    omega

end ActivityStreamsNextProperty

end propertynext

/-! ## The order of "prev", kind by kind -/

namespace propertyprev

namespace ActivityStreamsPrevProperty

variable {vocab : Vocab}

theorem prev_kind_cases (p : ActivityStreamsPrevProperty vocab) :
    ((∃ a, p.activitystreamsCollectionPageMember = some a) ∧ p.KindIndex = 0) ∨
    (p.activitystreamsCollectionPageMember = none ∧
      (∃ a, p.activitystreamsLinkMember = some a) ∧ p.KindIndex = 1) ∨
    (p.activitystreamsCollectionPageMember = none ∧ p.activitystreamsLinkMember = none ∧
      (∃ a, p.activitystreamsMentionMember = some a) ∧ p.KindIndex = 2) ∨
    (p.activitystreamsCollectionPageMember = none ∧ p.activitystreamsLinkMember = none ∧ p.activitystreamsMentionMember = none ∧
      (∃ a, p.activitystreamsOrderedCollectionPageMember = some a) ∧ p.KindIndex = 3) ∨
    (p.activitystreamsCollectionPageMember = none ∧ p.activitystreamsLinkMember = none ∧
      p.activitystreamsMentionMember = none ∧
      p.activitystreamsOrderedCollectionPageMember = none ∧
      (∃ u, p.iri = some u) ∧ p.KindIndex = -2) ∨
    (p.activitystreamsCollectionPageMember = none ∧ p.activitystreamsLinkMember = none ∧
      p.activitystreamsMentionMember = none ∧
      p.activitystreamsOrderedCollectionPageMember = none ∧
      p.iri = none ∧ p.KindIndex = -1) := by
  rcases p with ⟨_ | a, _ | b, _ | c, _ | d, unk, _ | u, al⟩ <;>
  simp [KindIndex, IsActivityStreamsCollectionPage, IsActivityStreamsLink,
    IsActivityStreamsMention, IsActivityStreamsOrderedCollectionPage, IsIRI]

theorem prev_lessThan_lt (a b : ActivityStreamsPrevProperty vocab) (h : a.KindIndex < b.KindIndex) :
    a.LessThan b = some true := by
  simp only [LessThan, h, if_true]

theorem prev_lessThan_gt (a b : ActivityStreamsPrevProperty vocab) (h : b.KindIndex < a.KindIndex) :
    a.LessThan b = some false := by
  have h1 : ¬ a.KindIndex < b.KindIndex := by omega
  simp only [LessThan, h1, gt_iff_lt, h, if_true, if_false]

theorem prev_lessThan_kind0 (a b : ActivityStreamsPrevProperty vocab)
    (x y : vocab.ActivityStreamsCollectionPage)
    (hx : a.activitystreamsCollectionPageMember = some x)
    (hy : b.activitystreamsCollectionPageMember = some y) :
    a.LessThan b = some (vocab.ActivityStreamsCollectionPage.LessThan x y) := by
  simp [LessThan, KindIndex, IsActivityStreamsCollectionPage, IsActivityStreamsLink,
    IsActivityStreamsMention, IsActivityStreamsOrderedCollectionPage, IsIRI,
    GetActivityStreamsCollectionPage, GetActivityStreamsLink, GetActivityStreamsMention,
    GetActivityStreamsOrderedCollectionPage, GetIRI, hx, hy]

theorem prev_lessThan_kind1 (a b : ActivityStreamsPrevProperty vocab)
    (x y : vocab.ActivityStreamsLink)
    (ha0 : a.activitystreamsCollectionPageMember = none)
    (hb0 : b.activitystreamsCollectionPageMember = none)
    (hx : a.activitystreamsLinkMember = some x)
    (hy : b.activitystreamsLinkMember = some y) :
    a.LessThan b = some (vocab.ActivityStreamsLink.LessThan x y) := by
  simp [LessThan, KindIndex, IsActivityStreamsCollectionPage, IsActivityStreamsLink,
    IsActivityStreamsMention, IsActivityStreamsOrderedCollectionPage, IsIRI,
    GetActivityStreamsCollectionPage, GetActivityStreamsLink, GetActivityStreamsMention,
    GetActivityStreamsOrderedCollectionPage, GetIRI, ha0, hb0, hx, hy]

theorem prev_lessThan_kind2 (a b : ActivityStreamsPrevProperty vocab)
    (x y : vocab.ActivityStreamsMention)
    (ha0 : a.activitystreamsCollectionPageMember = none)
    (hb0 : b.activitystreamsCollectionPageMember = none)
    (ha1 : a.activitystreamsLinkMember = none)
    (hb1 : b.activitystreamsLinkMember = none)
    (hx : a.activitystreamsMentionMember = some x)
    (hy : b.activitystreamsMentionMember = some y) :
    a.LessThan b = some (vocab.ActivityStreamsMention.LessThan x y) := by
  simp [LessThan, KindIndex, IsActivityStreamsCollectionPage, IsActivityStreamsLink,
    IsActivityStreamsMention, IsActivityStreamsOrderedCollectionPage, IsIRI,
    GetActivityStreamsCollectionPage, GetActivityStreamsLink, GetActivityStreamsMention,
    GetActivityStreamsOrderedCollectionPage, GetIRI, ha0, hb0, ha1, hb1, hx, hy]

theorem prev_lessThan_kind3 (a b : ActivityStreamsPrevProperty vocab)
    (x y : vocab.ActivityStreamsOrderedCollectionPage)
    (ha0 : a.activitystreamsCollectionPageMember = none)
    (hb0 : b.activitystreamsCollectionPageMember = none)
    (ha1 : a.activitystreamsLinkMember = none)
    (hb1 : b.activitystreamsLinkMember = none)
    (ha2 : a.activitystreamsMentionMember = none)
    (hb2 : b.activitystreamsMentionMember = none)
    (hx : a.activitystreamsOrderedCollectionPageMember = some x)
    (hy : b.activitystreamsOrderedCollectionPageMember = some y) :
    a.LessThan b = some (vocab.ActivityStreamsOrderedCollectionPage.LessThan x y) := by
  simp [LessThan, KindIndex, IsActivityStreamsCollectionPage, IsActivityStreamsLink,
    IsActivityStreamsMention, IsActivityStreamsOrderedCollectionPage, IsIRI,
    GetActivityStreamsCollectionPage, GetActivityStreamsLink, GetActivityStreamsMention,
    GetActivityStreamsOrderedCollectionPage, GetIRI, ha0, hb0, ha1, hb1, ha2, hb2, hx, hy]

theorem prev_lessThan_iri (a b : ActivityStreamsPrevProperty vocab) (u w : URL)
    (ha0 : a.activitystreamsCollectionPageMember = none)
    (hb0 : b.activitystreamsCollectionPageMember = none)
    (ha1 : a.activitystreamsLinkMember = none)
    (hb1 : b.activitystreamsLinkMember = none)
    (ha2 : a.activitystreamsMentionMember = none)
    (hb2 : b.activitystreamsMentionMember = none)
    (ha3 : a.activitystreamsOrderedCollectionPageMember = none)
    (hb3 : b.activitystreamsOrderedCollectionPageMember = none)
    (hu : a.iri = some u) (hw : b.iri = some w) :
    a.LessThan b = some (decide (u.String < w.String)) := by
  simp [LessThan, KindIndex, IsActivityStreamsCollectionPage, IsActivityStreamsLink,
    IsActivityStreamsMention, IsActivityStreamsOrderedCollectionPage, IsIRI,
    GetActivityStreamsCollectionPage, GetActivityStreamsLink, GetActivityStreamsMention,
    GetActivityStreamsOrderedCollectionPage, GetIRI, ha0, hb0, ha1, hb1, ha2, hb2, ha3, hb3, hu, hw]

theorem prev_lessThan_unset (a b : ActivityStreamsPrevProperty vocab)
    (ha0 : a.activitystreamsCollectionPageMember = none)
    (hb0 : b.activitystreamsCollectionPageMember = none)
    (ha1 : a.activitystreamsLinkMember = none)
    (hb1 : b.activitystreamsLinkMember = none)
    (ha2 : a.activitystreamsMentionMember = none)
    (hb2 : b.activitystreamsMentionMember = none)
    (ha3 : a.activitystreamsOrderedCollectionPageMember = none)
    (hb3 : b.activitystreamsOrderedCollectionPageMember = none)
    (hu : a.iri = none) (hw : b.iri = none) :
    a.LessThan b = some false := by
  simp [LessThan, KindIndex, IsActivityStreamsCollectionPage, IsActivityStreamsLink,
    IsActivityStreamsMention, IsActivityStreamsOrderedCollectionPage, IsIRI,
    GetActivityStreamsCollectionPage, GetActivityStreamsLink, GetActivityStreamsMention,
    GetActivityStreamsOrderedCollectionPage, GetIRI, ha0, hb0, ha1, hb1, ha2, hb2, ha3, hb3, hu, hw]

theorem prev_kind_ranking (i a t : ActivityStreamsPrevProperty vocab)
    (hi : i.IsIRI = true ∧ i.IsActivityStreamsCollectionPage = false ∧
      i.IsActivityStreamsLink = false ∧ i.IsActivityStreamsMention = false ∧
      i.IsActivityStreamsOrderedCollectionPage = false)
    (ha : a.HasAny = false)
    (ht : t.IsActivityStreamsCollectionPage = true ∨ t.IsActivityStreamsLink = true ∨
      t.IsActivityStreamsMention = true ∨ t.IsActivityStreamsOrderedCollectionPage = true) :
    i.KindIndex = -2 ∧ a.KindIndex = -1 ∧ 0 ≤ t.KindIndex ∧
      i.KindIndex < a.KindIndex ∧ a.KindIndex < t.KindIndex := by
  have h1 : i.KindIndex = -2 := by
    rcases prev_kind_cases i with
      ⟨⟨x, hx⟩, hk⟩ | ⟨h0, ⟨x, hx⟩, hk⟩ | ⟨h0, h1, ⟨x, hx⟩, hk⟩ |
    ⟨h0, h1, h2, ⟨x, hx⟩, hk⟩ | ⟨h0, h1, h2, h3, ⟨u, hu⟩, hk⟩ | ⟨h0, h1, h2, h3, hu, hk⟩ <;>
    simp_all [HasAny, IsActivityStreamsCollectionPage, IsActivityStreamsLink,
    IsActivityStreamsMention, IsActivityStreamsOrderedCollectionPage, IsIRI]
  have h2 : a.KindIndex = -1 := by
    rcases prev_kind_cases a with
      ⟨⟨x, hx⟩, hk⟩ | ⟨h0, ⟨x, hx⟩, hk⟩ | ⟨h0, h1, ⟨x, hx⟩, hk⟩ |
    ⟨h0, h1, h2, ⟨x, hx⟩, hk⟩ | ⟨h0, h1, h2, h3, ⟨u, hu⟩, hk⟩ | ⟨h0, h1, h2, h3, hu, hk⟩ <;>
    simp_all [HasAny, IsActivityStreamsCollectionPage, IsActivityStreamsLink,
    IsActivityStreamsMention, IsActivityStreamsOrderedCollectionPage, IsIRI]
  have h3 : 0 ≤ t.KindIndex := by
    rcases prev_kind_cases t with
      ⟨⟨x, hx⟩, hk⟩ | ⟨h0, ⟨x, hx⟩, hk⟩ | ⟨h0, h1, ⟨x, hx⟩, hk⟩ |
    ⟨h0, h1, h2, ⟨x, hx⟩, hk⟩ | ⟨h0, h1, h2, h3, ⟨u, hu⟩, hk⟩ | ⟨h0, h1, h2, h3, hu, hk⟩ <;>
    simp_all [HasAny, IsActivityStreamsCollectionPage, IsActivityStreamsLink,
    IsActivityStreamsMention, IsActivityStreamsOrderedCollectionPage, IsIRI]
  exact ⟨h1, h2, h3, by omega, by omega⟩

theorem prev_lessThan_asymm
    (s0 : vocab.ActivityStreamsCollectionPage.StrictOrder)
    (s1 : vocab.ActivityStreamsLink.StrictOrder)
    (s2 : vocab.ActivityStreamsMention.StrictOrder)
    (s3 : vocab.ActivityStreamsOrderedCollectionPage.StrictOrder)
    (a b : ActivityStreamsPrevProperty vocab) :
    ¬ (a.LessThan b = some true ∧ b.LessThan a = some true) := by
  rintro ⟨hab, hba⟩
  rcases lt_trichotomy a.KindIndex b.KindIndex with h | h | h
  · rw [prev_lessThan_gt b a h] at hba
    exact Bool.noConfusion (Option.some.inj hba)
  · rcases prev_kind_cases a with
      ⟨⟨x, hx⟩, ka⟩ | ⟨a0, ⟨x, hx⟩, ka⟩ | ⟨a0, a1, ⟨x, hx⟩, ka⟩ |
      ⟨a0, a1, a2, ⟨x, hx⟩, ka⟩ | ⟨a0, a1, a2, a3, ⟨u, hu⟩, ka⟩ | ⟨a0, a1, a2, a3, hu, ka⟩ <;>
    rcases prev_kind_cases b with
      ⟨⟨y, hy⟩, kb⟩ | ⟨b0, ⟨y, hy⟩, kb⟩ | ⟨b0, b1, ⟨y, hy⟩, kb⟩ |
      ⟨b0, b1, b2, ⟨y, hy⟩, kb⟩ | ⟨b0, b1, b2, b3, ⟨w, hw⟩, kb⟩ | ⟨b0, b1, b2, b3, hw, kb⟩ <;>
    (try omega)
    · rw [prev_lessThan_kind0 a b x y hx hy] at hab
      rw [prev_lessThan_kind0 b a y x hy hx] at hba
      have e := s0.2.1 x y (Option.some.inj hab)
      rw [e] at hba
      exact Bool.noConfusion (Option.some.inj hba)
    · rw [prev_lessThan_kind1 a b x y a0 b0 hx hy] at hab
      rw [prev_lessThan_kind1 b a y x b0 a0 hy hx] at hba
      have e := s1.2.1 x y (Option.some.inj hab)
      rw [e] at hba
      exact Bool.noConfusion (Option.some.inj hba)
    · rw [prev_lessThan_kind2 a b x y a0 b0 a1 b1 hx hy] at hab
      rw [prev_lessThan_kind2 b a y x b0 a0 b1 a1 hy hx] at hba
      have e := s2.2.1 x y (Option.some.inj hab)
      rw [e] at hba
      exact Bool.noConfusion (Option.some.inj hba)
    · rw [prev_lessThan_kind3 a b x y a0 b0 a1 b1 a2 b2 hx hy] at hab
      rw [prev_lessThan_kind3 b a y x b0 a0 b1 a1 b2 a2 hy hx] at hba
      have e := s3.2.1 x y (Option.some.inj hab)
      rw [e] at hba
      exact Bool.noConfusion (Option.some.inj hba)
    · rw [prev_lessThan_iri a b u w a0 b0 a1 b1 a2 b2 a3 b3 hu hw] at hab
      rw [prev_lessThan_iri b a w u b0 a0 b1 a1 b2 a2 b3 a3 hw hu] at hba
      exact lt_asymm (of_decide_eq_true (Option.some.inj hab))
        (of_decide_eq_true (Option.some.inj hba))
    · rw [prev_lessThan_unset a b a0 b0 a1 b1 a2 b2 a3 b3 hu hw] at hab
      exact Bool.noConfusion (Option.some.inj hab)
  · rw [prev_lessThan_gt a b h] at hab
    exact Bool.noConfusion (Option.some.inj hab)

theorem prev_lessThan_trans
    (s0 : vocab.ActivityStreamsCollectionPage.StrictOrder)
    (s1 : vocab.ActivityStreamsLink.StrictOrder)
    (s2 : vocab.ActivityStreamsMention.StrictOrder)
    (s3 : vocab.ActivityStreamsOrderedCollectionPage.StrictOrder)
    (a b c : ActivityStreamsPrevProperty vocab)
    (hab : a.LessThan b = some true) (hbc : b.LessThan c = some true) :
    a.LessThan c = some true := by
  have h1 : ¬ b.KindIndex < a.KindIndex := by
    intro h
    rw [prev_lessThan_gt a b h] at hab
    exact Bool.noConfusion (Option.some.inj hab)
  have h2 : ¬ c.KindIndex < b.KindIndex := by
    intro h
    rw [prev_lessThan_gt b c h] at hbc
    exact Bool.noConfusion (Option.some.inj hbc)
  by_cases h : a.KindIndex < c.KindIndex
  · exact prev_lessThan_lt a c h
  · have e1 : a.KindIndex = b.KindIndex := by omega
    have e2 : b.KindIndex = c.KindIndex := by omega
    rcases prev_kind_cases a with
      ⟨⟨x, hx⟩, ka⟩ | ⟨a0, ⟨x, hx⟩, ka⟩ | ⟨a0, a1, ⟨x, hx⟩, ka⟩ |
      ⟨a0, a1, a2, ⟨x, hx⟩, ka⟩ | ⟨a0, a1, a2, a3, ⟨u, hu⟩, ka⟩ | ⟨a0, a1, a2, a3, hu, ka⟩ <;>
    rcases prev_kind_cases b with
      ⟨⟨y, hy⟩, kb⟩ | ⟨b0, ⟨y, hy⟩, kb⟩ | ⟨b0, b1, ⟨y, hy⟩, kb⟩ |
      ⟨b0, b1, b2, ⟨y, hy⟩, kb⟩ | ⟨b0, b1, b2, b3, ⟨w, hw⟩, kb⟩ | ⟨b0, b1, b2, b3, hw, kb⟩ <;>
    (try omega) <;>
    rcases prev_kind_cases c with
      ⟨⟨z, hz⟩, kc⟩ | ⟨c0, ⟨z, hz⟩, kc⟩ | ⟨c0, c1, ⟨z, hz⟩, kc⟩ |
      ⟨c0, c1, c2, ⟨z, hz⟩, kc⟩ | ⟨c0, c1, c2, c3, ⟨r, hr⟩, kc⟩ | ⟨c0, c1, c2, c3, hr, kc⟩ <;>
    (try omega)
    · rw [prev_lessThan_kind0 a b x y hx hy] at hab
      rw [prev_lessThan_kind0 b c y z hy hz] at hbc
      rw [prev_lessThan_kind0 a c x z hx hz]
      exact congrArg some (s0.2.2 x y z (Option.some.inj hab) (Option.some.inj hbc))
    · rw [prev_lessThan_kind1 a b x y a0 b0 hx hy] at hab
      rw [prev_lessThan_kind1 b c y z b0 c0 hy hz] at hbc
      rw [prev_lessThan_kind1 a c x z a0 c0 hx hz]
      exact congrArg some (s1.2.2 x y z (Option.some.inj hab) (Option.some.inj hbc))
    · rw [prev_lessThan_kind2 a b x y a0 b0 a1 b1 hx hy] at hab
      rw [prev_lessThan_kind2 b c y z b0 c0 b1 c1 hy hz] at hbc
      rw [prev_lessThan_kind2 a c x z a0 c0 a1 c1 hx hz]
      exact congrArg some (s2.2.2 x y z (Option.some.inj hab) (Option.some.inj hbc))
    · rw [prev_lessThan_kind3 a b x y a0 b0 a1 b1 a2 b2 hx hy] at hab
      rw [prev_lessThan_kind3 b c y z b0 c0 b1 c1 b2 c2 hy hz] at hbc
      rw [prev_lessThan_kind3 a c x z a0 c0 a1 c1 a2 c2 hx hz]
      exact congrArg some (s3.2.2 x y z (Option.some.inj hab) (Option.some.inj hbc))
    · rw [prev_lessThan_iri a b u w a0 b0 a1 b1 a2 b2 a3 b3 hu hw] at hab
      rw [prev_lessThan_iri b c w r b0 c0 b1 c1 b2 c2 b3 c3 hw hr] at hbc
      rw [prev_lessThan_iri a c u r a0 c0 a1 c1 a2 c2 a3 c3 hu hr]
      exact congrArg some (decide_eq_true (lt_trans (of_decide_eq_true (Option.some.inj hab))
        (of_decide_eq_true (Option.some.inj hbc))))
    · rw [prev_lessThan_unset a b a0 b0 a1 b1 a2 b2 a3 b3 hu hw] at hab
      exact Bool.noConfusion (Option.some.inj hab)

theorem prev_lessThan_total (a b : ActivityStreamsPrevProperty vocab) : ∃ r, a.LessThan b = some r := by
  rcases lt_trichotomy a.KindIndex b.KindIndex with h | h | h
  · exact ⟨_, prev_lessThan_lt a b h⟩
  · rcases prev_kind_cases a with
      ⟨⟨x, hx⟩, ka⟩ | ⟨a0, ⟨x, hx⟩, ka⟩ | ⟨a0, a1, ⟨x, hx⟩, ka⟩ |
      ⟨a0, a1, a2, ⟨x, hx⟩, ka⟩ | ⟨a0, a1, a2, a3, ⟨u, hu⟩, ka⟩ | ⟨a0, a1, a2, a3, hu, ka⟩ <;>
    rcases prev_kind_cases b with
      ⟨⟨y, hy⟩, kb⟩ | ⟨b0, ⟨y, hy⟩, kb⟩ | ⟨b0, b1, ⟨y, hy⟩, kb⟩ |
      ⟨b0, b1, b2, ⟨y, hy⟩, kb⟩ | ⟨b0, b1, b2, b3, ⟨w, hw⟩, kb⟩ | ⟨b0, b1, b2, b3, hw, kb⟩ <;>
    (try omega)
    · exact ⟨_, prev_lessThan_kind0 a b x y hx hy⟩
    · exact ⟨_, prev_lessThan_kind1 a b x y a0 b0 hx hy⟩
    · exact ⟨_, prev_lessThan_kind2 a b x y a0 b0 a1 b1 hx hy⟩
    · exact ⟨_, prev_lessThan_kind3 a b x y a0 b0 a1 b1 a2 b2 hx hy⟩
    · exact ⟨_, prev_lessThan_iri a b u w a0 b0 a1 b1 a2 b2 a3 b3 hu hw⟩
    · exact ⟨_, prev_lessThan_unset a b a0 b0 a1 b1 a2 b2 a3 b3 hu hw⟩
  · exact ⟨_, prev_lessThan_gt a b h⟩

theorem prev_lessThan_lexicographic (a b : ActivityStreamsPrevProperty vocab) :
    (a.KindIndex < b.KindIndex → a.LessThan b = some true) ∧
    (b.KindIndex < a.KindIndex → a.LessThan b = some false) ∧
    (a.KindIndex = 0 → b.KindIndex = 0 →
      ∃ x y, a.GetActivityStreamsCollectionPage = some x ∧
        b.GetActivityStreamsCollectionPage = some y ∧
        a.LessThan b = some (vocab.ActivityStreamsCollectionPage.LessThan x y)) ∧
    (a.KindIndex = 1 → b.KindIndex = 1 →
      ∃ x y, a.GetActivityStreamsLink = some x ∧
        b.GetActivityStreamsLink = some y ∧
        a.LessThan b = some (vocab.ActivityStreamsLink.LessThan x y)) ∧
    (a.KindIndex = 2 → b.KindIndex = 2 →
      ∃ x y, a.GetActivityStreamsMention = some x ∧
        b.GetActivityStreamsMention = some y ∧
        a.LessThan b = some (vocab.ActivityStreamsMention.LessThan x y)) ∧
    (a.KindIndex = 3 → b.KindIndex = 3 →
      ∃ x y, a.GetActivityStreamsOrderedCollectionPage = some x ∧
        b.GetActivityStreamsOrderedCollectionPage = some y ∧
        a.LessThan b = some (vocab.ActivityStreamsOrderedCollectionPage.LessThan x y)) ∧
    (a.KindIndex = -2 → b.KindIndex = -2 →
      ∃ u w, a.GetIRI = some u ∧ b.GetIRI = some w ∧
        a.LessThan b = some (decide (u.String < w.String))) ∧
    (a.KindIndex = -1 → b.KindIndex = -1 → a.LessThan b = some false) ∧
    (a.KindIndex = 0 ∨ a.KindIndex = 1 ∨ a.KindIndex = 2 ∨ a.KindIndex = 3 ∨
      a.KindIndex = -2 ∨ a.KindIndex = -1) := by
  refine ⟨prev_lessThan_lt a b, prev_lessThan_gt a b, ?_, ?_, ?_, ?_, ?_, ?_, ?_⟩
  · intro k1 k2
    rcases prev_kind_cases a with
      ⟨⟨x, hx⟩, ka⟩ | ⟨a0, ⟨x, hx⟩, ka⟩ | ⟨a0, a1, ⟨x, hx⟩, ka⟩ |
      ⟨a0, a1, a2, ⟨x, hx⟩, ka⟩ | ⟨a0, a1, a2, a3, ⟨u, hu⟩, ka⟩ | ⟨a0, a1, a2, a3, hu, ka⟩ <;>
    rcases prev_kind_cases b with
      ⟨⟨y, hy⟩, kb⟩ | ⟨b0, ⟨y, hy⟩, kb⟩ | ⟨b0, b1, ⟨y, hy⟩, kb⟩ |
      ⟨b0, b1, b2, ⟨y, hy⟩, kb⟩ | ⟨b0, b1, b2, b3, ⟨w, hw⟩, kb⟩ | ⟨b0, b1, b2, b3, hw, kb⟩ <;>
    (try omega)
    exact ⟨x, y, hx, hy, prev_lessThan_kind0 a b x y hx hy⟩
  · intro k1 k2
    rcases prev_kind_cases a with
      ⟨⟨x, hx⟩, ka⟩ | ⟨a0, ⟨x, hx⟩, ka⟩ | ⟨a0, a1, ⟨x, hx⟩, ka⟩ |
      ⟨a0, a1, a2, ⟨x, hx⟩, ka⟩ | ⟨a0, a1, a2, a3, ⟨u, hu⟩, ka⟩ | ⟨a0, a1, a2, a3, hu, ka⟩ <;>
    rcases prev_kind_cases b with
      ⟨⟨y, hy⟩, kb⟩ | ⟨b0, ⟨y, hy⟩, kb⟩ | ⟨b0, b1, ⟨y, hy⟩, kb⟩ |
      ⟨b0, b1, b2, ⟨y, hy⟩, kb⟩ | ⟨b0, b1, b2, b3, ⟨w, hw⟩, kb⟩ | ⟨b0, b1, b2, b3, hw, kb⟩ <;>
    (try omega)
    exact ⟨x, y, hx, hy, prev_lessThan_kind1 a b x y a0 b0 hx hy⟩
  · intro k1 k2
    rcases prev_kind_cases a with
      ⟨⟨x, hx⟩, ka⟩ | ⟨a0, ⟨x, hx⟩, ka⟩ | ⟨a0, a1, ⟨x, hx⟩, ka⟩ |
      ⟨a0, a1, a2, ⟨x, hx⟩, ka⟩ | ⟨a0, a1, a2, a3, ⟨u, hu⟩, ka⟩ | ⟨a0, a1, a2, a3, hu, ka⟩ <;>
    rcases prev_kind_cases b with
      ⟨⟨y, hy⟩, kb⟩ | ⟨b0, ⟨y, hy⟩, kb⟩ | ⟨b0, b1, ⟨y, hy⟩, kb⟩ |
      ⟨b0, b1, b2, ⟨y, hy⟩, kb⟩ | ⟨b0, b1, b2, b3, ⟨w, hw⟩, kb⟩ | ⟨b0, b1, b2, b3, hw, kb⟩ <;>
    (try omega)
    exact ⟨x, y, hx, hy, prev_lessThan_kind2 a b x y a0 b0 a1 b1 hx hy⟩
  · intro k1 k2
    rcases prev_kind_cases a with
      ⟨⟨x, hx⟩, ka⟩ | ⟨a0, ⟨x, hx⟩, ka⟩ | ⟨a0, a1, ⟨x, hx⟩, ka⟩ |
      ⟨a0, a1, a2, ⟨x, hx⟩, ka⟩ | ⟨a0, a1, a2, a3, ⟨u, hu⟩, ka⟩ | ⟨a0, a1, a2, a3, hu, ka⟩ <;>
    rcases prev_kind_cases b with
      ⟨⟨y, hy⟩, kb⟩ | ⟨b0, ⟨y, hy⟩, kb⟩ | ⟨b0, b1, ⟨y, hy⟩, kb⟩ |
      ⟨b0, b1, b2, ⟨y, hy⟩, kb⟩ | ⟨b0, b1, b2, b3, ⟨w, hw⟩, kb⟩ | ⟨b0, b1, b2, b3, hw, kb⟩ <;>
    (try omega)
    exact ⟨x, y, hx, hy, prev_lessThan_kind3 a b x y a0 b0 a1 b1 a2 b2 hx hy⟩
  · intro k1 k2
    rcases prev_kind_cases a with
      ⟨⟨x, hx⟩, ka⟩ | ⟨a0, ⟨x, hx⟩, ka⟩ | ⟨a0, a1, ⟨x, hx⟩, ka⟩ |
      ⟨a0, a1, a2, ⟨x, hx⟩, ka⟩ | ⟨a0, a1, a2, a3, ⟨u, hu⟩, ka⟩ | ⟨a0, a1, a2, a3, hu, ka⟩ <;>
    rcases prev_kind_cases b with
      ⟨⟨y, hy⟩, kb⟩ | ⟨b0, ⟨y, hy⟩, kb⟩ | ⟨b0, b1, ⟨y, hy⟩, kb⟩ |
      ⟨b0, b1, b2, ⟨y, hy⟩, kb⟩ | ⟨b0, b1, b2, b3, ⟨w, hw⟩, kb⟩ | ⟨b0, b1, b2, b3, hw, kb⟩ <;>
    (try omega)
    exact ⟨u, w, hu, hw, prev_lessThan_iri a b u w a0 b0 a1 b1 a2 b2 a3 b3 hu hw⟩
  · intro k1 k2
    rcases prev_kind_cases a with
      ⟨⟨x, hx⟩, ka⟩ | ⟨a0, ⟨x, hx⟩, ka⟩ | ⟨a0, a1, ⟨x, hx⟩, ka⟩ |
      ⟨a0, a1, a2, ⟨x, hx⟩, ka⟩ | ⟨a0, a1, a2, a3, ⟨u, hu⟩, ka⟩ | ⟨a0, a1, a2, a3, hu, ka⟩ <;>
    rcases prev_kind_cases b with
      ⟨⟨y, hy⟩, kb⟩ | ⟨b0, ⟨y, hy⟩, kb⟩ | ⟨b0, b1, ⟨y, hy⟩, kb⟩ |
      ⟨b0, b1, b2, ⟨y, hy⟩, kb⟩ | ⟨b0, b1, b2, b3, ⟨w, hw⟩, kb⟩ | ⟨b0, b1, b2, b3, hw, kb⟩ <;>
    (try omega)
    exact prev_lessThan_unset a b a0 b0 a1 b1 a2 b2 a3 b3 hu hw
  · rcases prev_kind_cases a with
      ⟨⟨x, hx⟩, ka⟩ | ⟨a0, ⟨x, hx⟩, ka⟩ | ⟨a0, a1, ⟨x, hx⟩, ka⟩ |
      ⟨a0, a1, a2, ⟨x, hx⟩, ka⟩ | ⟨a0, a1, a2, a3, ⟨u, hu⟩, ka⟩ | ⟨a0, a1, a2, a3, hu, ka⟩ <;>
    omega

end ActivityStreamsPrevProperty

end propertyprev

/-! ## The order of "following", kind by kind -/

namespace propertyfollowing

namespace ActivityStreamsFollowingProperty

variable {vocab : Vocab}

theorem following_kind_cases (p : ActivityStreamsFollowingProperty vocab) :
    ((∃ a, p.activitystreamsOrderedCollectionMember = some a) ∧ p.KindIndex = 0) ∨
    (p.activitystreamsOrderedCollectionMember = none ∧
      (∃ a, p.activitystreamsCollectionMember = some a) ∧ p.KindIndex = 1) ∨
    (p.activitystreamsOrderedCollectionMember = none ∧ p.activitystreamsCollectionMember = none ∧
      (∃ a, p.activitystreamsCollectionPageMember = some a) ∧ p.KindIndex = 2) ∨
    (p.activitystreamsOrderedCollectionMember = none ∧ p.activitystreamsCollectionMember = none ∧ p.activitystreamsCollectionPageMember = none ∧
      (∃ a, p.activitystreamsOrderedCollectionPageMember = some a) ∧ p.KindIndex = 3) ∨
    (p.activitystreamsOrderedCollectionMember = none ∧ p.activitystreamsCollectionMember = none ∧
      p.activitystreamsCollectionPageMember = none ∧
      p.activitystreamsOrderedCollectionPageMember = none ∧
      (∃ u, p.iri = some u) ∧ p.KindIndex = -2) ∨
    (p.activitystreamsOrderedCollectionMember = none ∧ p.activitystreamsCollectionMember = none ∧
      p.activitystreamsCollectionPageMember = none ∧
      p.activitystreamsOrderedCollectionPageMember = none ∧
      p.iri = none ∧ p.KindIndex = -1) := by
  rcases p with ⟨_ | a, _ | b, _ | c, _ | d, unk, _ | u, al⟩ <;>
  simp [KindIndex, IsActivityStreamsOrderedCollection, IsActivityStreamsCollection,
    IsActivityStreamsCollectionPage, IsActivityStreamsOrderedCollectionPage, IsIRI]

theorem following_lessThan_lt (a b : ActivityStreamsFollowingProperty vocab) (h : a.KindIndex < b.KindIndex) :
    a.LessThan b = some true := by
  simp only [LessThan, h, if_true]

theorem following_lessThan_gt (a b : ActivityStreamsFollowingProperty vocab) (h : b.KindIndex < a.KindIndex) :
    a.LessThan b = some false := by
  have h1 : ¬ a.KindIndex < b.KindIndex := by omega
  simp only [LessThan, h1, gt_iff_lt, h, if_true, if_false]

theorem following_lessThan_kind0 (a b : ActivityStreamsFollowingProperty vocab)
    (x y : vocab.ActivityStreamsOrderedCollection)
    (hx : a.activitystreamsOrderedCollectionMember = some x)
    (hy : b.activitystreamsOrderedCollectionMember = some y) :
    a.LessThan b = some (vocab.ActivityStreamsOrderedCollection.LessThan x y) := by
  simp [LessThan, KindIndex, IsActivityStreamsOrderedCollection, IsActivityStreamsCollection,
    IsActivityStreamsCollectionPage, IsActivityStreamsOrderedCollectionPage, IsIRI,
    GetActivityStreamsOrderedCollection, GetActivityStreamsCollection, GetActivityStreamsCollectionPage,
    GetActivityStreamsOrderedCollectionPage, GetIRI, hx, hy]

theorem following_lessThan_kind1 (a b : ActivityStreamsFollowingProperty vocab)
    (x y : vocab.ActivityStreamsCollection)
    (ha0 : a.activitystreamsOrderedCollectionMember = none)
    (hb0 : b.activitystreamsOrderedCollectionMember = none)
    (hx : a.activitystreamsCollectionMember = some x)
    (hy : b.activitystreamsCollectionMember = some y) :
    a.LessThan b = some (vocab.ActivityStreamsCollection.LessThan x y) := by
  simp [LessThan, KindIndex, IsActivityStreamsOrderedCollection, IsActivityStreamsCollection,
    IsActivityStreamsCollectionPage, IsActivityStreamsOrderedCollectionPage, IsIRI,
    GetActivityStreamsOrderedCollection, GetActivityStreamsCollection, GetActivityStreamsCollectionPage,
    GetActivityStreamsOrderedCollectionPage, GetIRI, ha0, hb0, hx, hy]

theorem following_lessThan_kind2 (a b : ActivityStreamsFollowingProperty vocab)
    (x y : vocab.ActivityStreamsCollectionPage)
    (ha0 : a.activitystreamsOrderedCollectionMember = none)
    (hb0 : b.activitystreamsOrderedCollectionMember = none)
    (ha1 : a.activitystreamsCollectionMember = none)
    (hb1 : b.activitystreamsCollectionMember = none)
    (hx : a.activitystreamsCollectionPageMember = some x)
    (hy : b.activitystreamsCollectionPageMember = some y) :
    a.LessThan b = some (vocab.ActivityStreamsCollectionPage.LessThan x y) := by
  simp [LessThan, KindIndex, IsActivityStreamsOrderedCollection, IsActivityStreamsCollection,
    IsActivityStreamsCollectionPage, IsActivityStreamsOrderedCollectionPage, IsIRI,
    GetActivityStreamsOrderedCollection, GetActivityStreamsCollection, GetActivityStreamsCollectionPage,
    GetActivityStreamsOrderedCollectionPage, GetIRI, ha0, hb0, ha1, hb1, hx, hy]

theorem following_lessThan_kind3 (a b : ActivityStreamsFollowingProperty vocab)
    (x y : vocab.ActivityStreamsOrderedCollectionPage)
    (ha0 : a.activitystreamsOrderedCollectionMember = none)
    (hb0 : b.activitystreamsOrderedCollectionMember = none)
    (ha1 : a.activitystreamsCollectionMember = none)
    (hb1 : b.activitystreamsCollectionMember = none)
    (ha2 : a.activitystreamsCollectionPageMember = none)
    (hb2 : b.activitystreamsCollectionPageMember = none)
    (hx : a.activitystreamsOrderedCollectionPageMember = some x)
    (hy : b.activitystreamsOrderedCollectionPageMember = some y) :
    a.LessThan b = some (vocab.ActivityStreamsOrderedCollectionPage.LessThan x y) := by
  simp [LessThan, KindIndex, IsActivityStreamsOrderedCollection, IsActivityStreamsCollection,
    IsActivityStreamsCollectionPage, IsActivityStreamsOrderedCollectionPage, IsIRI,
    GetActivityStreamsOrderedCollection, GetActivityStreamsCollection, GetActivityStreamsCollectionPage,
    GetActivityStreamsOrderedCollectionPage, GetIRI, ha0, hb0, ha1, hb1, ha2, hb2, hx, hy]

theorem following_lessThan_iri (a b : ActivityStreamsFollowingProperty vocab) (u w : URL)
    (ha0 : a.activitystreamsOrderedCollectionMember = none)
    (hb0 : b.activitystreamsOrderedCollectionMember = none)
    (ha1 : a.activitystreamsCollectionMember = none)
    (hb1 : b.activitystreamsCollectionMember = none)
    (ha2 : a.activitystreamsCollectionPageMember = none)
    (hb2 : b.activitystreamsCollectionPageMember = none)
    (ha3 : a.activitystreamsOrderedCollectionPageMember = none)
    (hb3 : b.activitystreamsOrderedCollectionPageMember = none)
    (hu : a.iri = some u) (hw : b.iri = some w) :
    a.LessThan b = some (decide (u.String < w.String)) := by
  simp [LessThan, KindIndex, IsActivityStreamsOrderedCollection, IsActivityStreamsCollection,
    IsActivityStreamsCollectionPage, IsActivityStreamsOrderedCollectionPage, IsIRI,
    GetActivityStreamsOrderedCollection, GetActivityStreamsCollection, GetActivityStreamsCollectionPage,
    GetActivityStreamsOrderedCollectionPage, GetIRI, ha0, hb0, ha1, hb1, ha2, hb2, ha3, hb3, hu, hw]

theorem following_lessThan_unset (a b : ActivityStreamsFollowingProperty vocab)
    (ha0 : a.activitystreamsOrderedCollectionMember = none)
    (hb0 : b.activitystreamsOrderedCollectionMember = none)
    (ha1 : a.activitystreamsCollectionMember = none)
    (hb1 : b.activitystreamsCollectionMember = none)
    (ha2 : a.activitystreamsCollectionPageMember = none)
    (hb2 : b.activitystreamsCollectionPageMember = none)
    (ha3 : a.activitystreamsOrderedCollectionPageMember = none)
    (hb3 : b.activitystreamsOrderedCollectionPageMember = none)
    (hu : a.iri = none) (hw : b.iri = none) :
    a.LessThan b = some false := by
  simp [LessThan, KindIndex, IsActivityStreamsOrderedCollection, IsActivityStreamsCollection,
    IsActivityStreamsCollectionPage, IsActivityStreamsOrderedCollectionPage, IsIRI,
    GetActivityStreamsOrderedCollection, GetActivityStreamsCollection, GetActivityStreamsCollectionPage,
    GetActivityStreamsOrderedCollectionPage, GetIRI, ha0, hb0, ha1, hb1, ha2, hb2, ha3, hb3, hu, hw]

theorem following_kind_ranking (i a t : ActivityStreamsFollowingProperty vocab)
    (hi : i.IsIRI = true ∧ i.IsActivityStreamsOrderedCollection = false ∧
      i.IsActivityStreamsCollection = false ∧ i.IsActivityStreamsCollectionPage = false ∧
      i.IsActivityStreamsOrderedCollectionPage = false)
    (ha : a.HasAny = false)
    (ht : t.IsActivityStreamsOrderedCollection = true ∨ t.IsActivityStreamsCollection = true ∨
      t.IsActivityStreamsCollectionPage = true ∨ t.IsActivityStreamsOrderedCollectionPage = true) :
    i.KindIndex = -2 ∧ a.KindIndex = -1 ∧ 0 ≤ t.KindIndex ∧
      i.KindIndex < a.KindIndex ∧ a.KindIndex < t.KindIndex := by
  have h1 : i.KindIndex = -2 := by
    rcases following_kind_cases i with
      ⟨⟨x, hx⟩, hk⟩ | ⟨h0, ⟨x, hx⟩, hk⟩ | ⟨h0, h1, ⟨x, hx⟩, hk⟩ |
    ⟨h0, h1, h2, ⟨x, hx⟩, hk⟩ | ⟨h0, h1, h2, h3, ⟨u, hu⟩, hk⟩ | ⟨h0, h1, h2, h3, hu, hk⟩ <;>
    simp_all [HasAny, IsActivityStreamsOrderedCollection, IsActivityStreamsCollection,
    IsActivityStreamsCollectionPage, IsActivityStreamsOrderedCollectionPage, IsIRI]
  have h2 : a.KindIndex = -1 := by
    rcases following_kind_cases a with
      ⟨⟨x, hx⟩, hk⟩ | ⟨h0, ⟨x, hx⟩, hk⟩ | ⟨h0, h1, ⟨x, hx⟩, hk⟩ |
    ⟨h0, h1, h2, ⟨x, hx⟩, hk⟩ | ⟨h0, h1, h2, h3, ⟨u, hu⟩, hk⟩ | ⟨h0, h1, h2, h3, hu, hk⟩ <;>
    simp_all [HasAny, IsActivityStreamsOrderedCollection, IsActivityStreamsCollection,
    IsActivityStreamsCollectionPage, IsActivityStreamsOrderedCollectionPage, IsIRI]
  have h3 : 0 ≤ t.KindIndex := by
    rcases following_kind_cases t with
      ⟨⟨x, hx⟩, hk⟩ | ⟨h0, ⟨x, hx⟩, hk⟩ | ⟨h0, h1, ⟨x, hx⟩, hk⟩ |
    ⟨h0, h1, h2, ⟨x, hx⟩, hk⟩ | ⟨h0, h1, h2, h3, ⟨u, hu⟩, hk⟩ | ⟨h0, h1, h2, h3, hu, hk⟩ <;>
    simp_all [HasAny, IsActivityStreamsOrderedCollection, IsActivityStreamsCollection,
    IsActivityStreamsCollectionPage, IsActivityStreamsOrderedCollectionPage, IsIRI]
  exact ⟨h1, h2, h3, by omega, by omega⟩

theorem following_lessThan_asymm
    (s0 : vocab.ActivityStreamsOrderedCollection.StrictOrder)
    (s1 : vocab.ActivityStreamsCollection.StrictOrder)
    (s2 : vocab.ActivityStreamsCollectionPage.StrictOrder)
    (s3 : vocab.ActivityStreamsOrderedCollectionPage.StrictOrder)
    (a b : ActivityStreamsFollowingProperty vocab) :
    ¬ (a.LessThan b = some true ∧ b.LessThan a = some true) := by
  rintro ⟨hab, hba⟩
  rcases lt_trichotomy a.KindIndex b.KindIndex with h | h | h
  · rw [following_lessThan_gt b a h] at hba
    exact Bool.noConfusion (Option.some.inj hba)
  · rcases following_kind_cases a with
      ⟨⟨x, hx⟩, ka⟩ | ⟨a0, ⟨x, hx⟩, ka⟩ | ⟨a0, a1, ⟨x, hx⟩, ka⟩ |
      ⟨a0, a1, a2, ⟨x, hx⟩, ka⟩ | ⟨a0, a1, a2, a3, ⟨u, hu⟩, ka⟩ | ⟨a0, a1, a2, a3, hu, ka⟩ <;>
    rcases following_kind_cases b with
      ⟨⟨y, hy⟩, kb⟩ | ⟨b0, ⟨y, hy⟩, kb⟩ | ⟨b0, b1, ⟨y, hy⟩, kb⟩ |
      ⟨b0, b1, b2, ⟨y, hy⟩, kb⟩ | ⟨b0, b1, b2, b3, ⟨w, hw⟩, kb⟩ | ⟨b0, b1, b2, b3, hw, kb⟩ <;>
    (try omega)
    · rw [following_lessThan_kind0 a b x y hx hy] at hab
      rw [following_lessThan_kind0 b a y x hy hx] at hba
      have e := s0.2.1 x y (Option.some.inj hab)
      rw [e] at hba
      exact Bool.noConfusion (Option.some.inj hba)
    · rw [following_lessThan_kind1 a b x y a0 b0 hx hy] at hab
      rw [following_lessThan_kind1 b a y x b0 a0 hy hx] at hba
      have e := s1.2.1 x y (Option.some.inj hab)
      rw [e] at hba
      exact Bool.noConfusion (Option.some.inj hba)
    · rw [following_lessThan_kind2 a b x y a0 b0 a1 b1 hx hy] at hab
      rw [following_lessThan_kind2 b a y x b0 a0 b1 a1 hy hx] at hba
      have e := s2.2.1 x y (Option.some.inj hab)
      rw [e] at hba
      exact Bool.noConfusion (Option.some.inj hba)
    · rw [following_lessThan_kind3 a b x y a0 b0 a1 b1 a2 b2 hx hy] at hab
      rw [following_lessThan_kind3 b a y x b0 a0 b1 a1 b2 a2 hy hx] at hba
      have e := s3.2.1 x y (Option.some.inj hab)
      rw [e] at hba
      exact Bool.noConfusion (Option.some.inj hba)
    · rw [following_lessThan_iri a b u w a0 b0 a1 b1 a2 b2 a3 b3 hu hw] at hab
      rw [following_lessThan_iri b a w u b0 a0 b1 a1 b2 a2 b3 a3 hw hu] at hba
      exact lt_asymm (of_decide_eq_true (Option.some.inj hab))
        (of_decide_eq_true (Option.some.inj hba))
    · rw [following_lessThan_unset a b a0 b0 a1 b1 a2 b2 a3 b3 hu hw] at hab
      exact Bool.noConfusion (Option.some.inj hab)
  · rw [following_lessThan_gt a b h] at hab
    exact Bool.noConfusion (Option.some.inj hab)

theorem following_lessThan_trans
    (s0 : vocab.ActivityStreamsOrderedCollection.StrictOrder)
    (s1 : vocab.ActivityStreamsCollection.StrictOrder)
    (s2 : vocab.ActivityStreamsCollectionPage.StrictOrder)
    (s3 : vocab.ActivityStreamsOrderedCollectionPage.StrictOrder)
    (a b c : ActivityStreamsFollowingProperty vocab)
    (hab : a.LessThan b = some true) (hbc : b.LessThan c = some true) :
    a.LessThan c = some true := by
  have h1 : ¬ b.KindIndex < a.KindIndex := by
    intro h
    rw [following_lessThan_gt a b h] at hab
    exact Bool.noConfusion (Option.some.inj hab)
  have h2 : ¬ c.KindIndex < b.KindIndex := by
    intro h
    rw [following_lessThan_gt b c h] at hbc
    exact Bool.noConfusion (Option.some.inj hbc)
  by_cases h : a.KindIndex < c.KindIndex
  · exact following_lessThan_lt a c h
  · have e1 : a.KindIndex = b.KindIndex := by omega
    have e2 : b.KindIndex = c.KindIndex := by omega
    rcases following_kind_cases a with
      ⟨⟨x, hx⟩, ka⟩ | ⟨a0, ⟨x, hx⟩, ka⟩ | ⟨a0, a1, ⟨x, hx⟩, ka⟩ |
      ⟨a0, a1, a2, ⟨x, hx⟩, ka⟩ | ⟨a0, a1, a2, a3, ⟨u, hu⟩, ka⟩ | ⟨a0, a1, a2, a3, hu, ka⟩ <;>
    rcases following_kind_cases b with
      ⟨⟨y, hy⟩, kb⟩ | ⟨b0, ⟨y, hy⟩, kb⟩ | ⟨b0, b1, ⟨y, hy⟩, kb⟩ |
      ⟨b0, b1, b2, ⟨y, hy⟩, kb⟩ | ⟨b0, b1, b2, b3, ⟨w, hw⟩, kb⟩ | ⟨b0, b1, b2, b3, hw, kb⟩ <;>
    (try omega) <;>
    rcases following_kind_cases c with
      ⟨⟨z, hz⟩, kc⟩ | ⟨c0, ⟨z, hz⟩, kc⟩ | ⟨c0, c1, ⟨z, hz⟩, kc⟩ |
      ⟨c0, c1, c2, ⟨z, hz⟩, kc⟩ | ⟨c0, c1, c2, c3, ⟨r, hr⟩, kc⟩ | ⟨c0, c1, c2, c3, hr, kc⟩ <;>
    (try omega)
    · rw [following_lessThan_kind0 a b x y hx hy] at hab
      rw [following_lessThan_kind0 b c y z hy hz] at hbc
      rw [following_lessThan_kind0 a c x z hx hz]
      exact congrArg some (s0.2.2 x y z (Option.some.inj hab) (Option.some.inj hbc))
    · rw [following_lessThan_kind1 a b x y a0 b0 hx hy] at hab
      rw [following_lessThan_kind1 b c y z b0 c0 hy hz] at hbc
      rw [following_lessThan_kind1 a c x z a0 c0 hx hz]
      exact congrArg some (s1.2.2 x y z (Option.some.inj hab) (Option.some.inj hbc))
    · rw [following_lessThan_kind2 a b x y a0 b0 a1 b1 hx hy] at hab
      rw [following_lessThan_kind2 b c y z b0 c0 b1 c1 hy hz] at hbc
      rw [following_lessThan_kind2 a c x z a0 c0 a1 c1 hx hz]
      exact congrArg some (s2.2.2 x y z (Option.some.inj hab) (Option.some.inj hbc))
    · rw [following_lessThan_kind3 a b x y a0 b0 a1 b1 a2 b2 hx hy] at hab
      rw [following_lessThan_kind3 b c y z b0 c0 b1 c1 b2 c2 hy hz] at hbc
      rw [following_lessThan_kind3 a c x z a0 c0 a1 c1 a2 c2 hx hz]
      exact congrArg some (s3.2.2 x y z (Option.some.inj hab) (Option.some.inj hbc))
    · rw [following_lessThan_iri a b u w a0 b0 a1 b1 a2 b2 a3 b3 hu hw] at hab
      rw [following_lessThan_iri b c w r b0 c0 b1 c1 b2 c2 b3 c3 hw hr] at hbc
      rw [following_lessThan_iri a c u r a0 c0 a1 c1 a2 c2 a3 c3 hu hr]
      exact congrArg some (decide_eq_true (lt_trans (of_decide_eq_true (Option.some.inj hab))
        (of_decide_eq_true (Option.some.inj hbc))))
    · rw [following_lessThan_unset a b a0 b0 a1 b1 a2 b2 a3 b3 hu hw] at hab
      exact Bool.noConfusion (Option.some.inj hab)

theorem following_lessThan_total (a b : ActivityStreamsFollowingProperty vocab) : ∃ r, a.LessThan b = some r := by
  rcases lt_trichotomy a.KindIndex b.KindIndex with h | h | h
  · exact ⟨_, following_lessThan_lt a b h⟩
  · rcases following_kind_cases a with
      ⟨⟨x, hx⟩, ka⟩ | ⟨a0, ⟨x, hx⟩, ka⟩ | ⟨a0, a1, ⟨x, hx⟩, ka⟩ |
      ⟨a0, a1, a2, ⟨x, hx⟩, ka⟩ | ⟨a0, a1, a2, a3, ⟨u, hu⟩, ka⟩ | ⟨a0, a1, a2, a3, hu, ka⟩ <;>
    rcases following_kind_cases b with
      ⟨⟨y, hy⟩, kb⟩ | ⟨b0, ⟨y, hy⟩, kb⟩ | ⟨b0, b1, ⟨y, hy⟩, kb⟩ |
      ⟨b0, b1, b2, ⟨y, hy⟩, kb⟩ | ⟨b0, b1, b2, b3, ⟨w, hw⟩, kb⟩ | ⟨b0, b1, b2, b3, hw, kb⟩ <;>
    (try omega)
    · exact ⟨_, following_lessThan_kind0 a b x y hx hy⟩
    · exact ⟨_, following_lessThan_kind1 a b x y a0 b0 hx hy⟩
    · exact ⟨_, following_lessThan_kind2 a b x y a0 b0 a1 b1 hx hy⟩
    · exact ⟨_, following_lessThan_kind3 a b x y a0 b0 a1 b1 a2 b2 hx hy⟩
    · exact ⟨_, following_lessThan_iri a b u w a0 b0 a1 b1 a2 b2 a3 b3 hu hw⟩
    · exact ⟨_, following_lessThan_unset a b a0 b0 a1 b1 a2 b2 a3 b3 hu hw⟩
  · exact ⟨_, following_lessThan_gt a b h⟩

theorem following_lessThan_lexicographic (a b : ActivityStreamsFollowingProperty vocab) :
    (a.KindIndex < b.KindIndex → a.LessThan b = some true) ∧
    (b.KindIndex < a.KindIndex → a.LessThan b = some false) ∧
    (a.KindIndex = 0 → b.KindIndex = 0 →
      ∃ x y, a.GetActivityStreamsOrderedCollection = some x ∧
        b.GetActivityStreamsOrderedCollection = some y ∧
        a.LessThan b = some (vocab.ActivityStreamsOrderedCollection.LessThan x y)) ∧
    (a.KindIndex = 1 → b.KindIndex = 1 →
      ∃ x y, a.GetActivityStreamsCollection = some x ∧
        b.GetActivityStreamsCollection = some y ∧
        a.LessThan b = some (vocab.ActivityStreamsCollection.LessThan x y)) ∧
    (a.KindIndex = 2 → b.KindIndex = 2 →
      ∃ x y, a.GetActivityStreamsCollectionPage = some x ∧
        b.GetActivityStreamsCollectionPage = some y ∧
        a.LessThan b = some (vocab.ActivityStreamsCollectionPage.LessThan x y)) ∧
    (a.KindIndex = 3 → b.KindIndex = 3 →
      ∃ x y, a.GetActivityStreamsOrderedCollectionPage = some x ∧
        b.GetActivityStreamsOrderedCollectionPage = some y ∧
        a.LessThan b = some (vocab.ActivityStreamsOrderedCollectionPage.LessThan x y)) ∧
    (a.KindIndex = -2 → b.KindIndex = -2 →
      ∃ u w, a.GetIRI = some u ∧ b.GetIRI = some w ∧
        a.LessThan b = some (decide (u.String < w.String))) ∧
    (a.KindIndex = -1 → b.KindIndex = -1 → a.LessThan b = some false) ∧
    (a.KindIndex = 0 ∨ a.KindIndex = 1 ∨ a.KindIndex = 2 ∨ a.KindIndex = 3 ∨
      a.KindIndex = -2 ∨ a.KindIndex = -1) := by
  refine ⟨following_lessThan_lt a b, following_lessThan_gt a b, ?_, ?_, ?_, ?_, ?_, ?_, ?_⟩
  · intro k1 k2
    rcases following_kind_cases a with
      ⟨⟨x, hx⟩, ka⟩ | ⟨a0, ⟨x, hx⟩, ka⟩ | ⟨a0, a1, ⟨x, hx⟩, ka⟩ |
      ⟨a0, a1, a2, ⟨x, hx⟩, ka⟩ | ⟨a0, a1, a2, a3, ⟨u, hu⟩, ka⟩ | ⟨a0, a1, a2, a3, hu, ka⟩ <;>
    rcases following_kind_cases b with
      ⟨⟨y, hy⟩, kb⟩ | ⟨b0, ⟨y, hy⟩, kb⟩ | ⟨b0, b1, ⟨y, hy⟩, kb⟩ |
      ⟨b0, b1, b2, ⟨y, hy⟩, kb⟩ | ⟨b0, b1, b2, b3, ⟨w, hw⟩, kb⟩ | ⟨b0, b1, b2, b3, hw, kb⟩ <;>
    (try omega)
    exact ⟨x, y, hx, hy, following_lessThan_kind0 a b x y hx hy⟩
  · intro k1 k2
    rcases following_kind_cases a with
      ⟨⟨x, hx⟩, ka⟩ | ⟨a0, ⟨x, hx⟩, ka⟩ | ⟨a0, a1, ⟨x, hx⟩, ka⟩ |
      ⟨a0, a1, a2, ⟨x, hx⟩, ka⟩ | ⟨a0, a1, a2, a3, ⟨u, hu⟩, ka⟩ | ⟨a0, a1, a2, a3, hu, ka⟩ <;>
    rcases following_kind_cases b with
      ⟨⟨y, hy⟩, kb⟩ | ⟨b0, ⟨y, hy⟩, kb⟩ | ⟨b0, b1, ⟨y, hy⟩, kb⟩ |
      ⟨b0, b1, b2, ⟨y, hy⟩, kb⟩ | ⟨b0, b1, b2, b3, ⟨w, hw⟩, kb⟩ | ⟨b0, b1, b2, b3, hw, kb⟩ <;>
    (try omega)
    exact ⟨x, y, hx, hy, following_lessThan_kind1 a b x y a0 b0 hx hy⟩
  · intro k1 k2
    rcases following_kind_cases a with
      ⟨⟨x, hx⟩, ka⟩ | ⟨a0, ⟨x, hx⟩, ka⟩ | ⟨a0, a1, ⟨x, hx⟩, ka⟩ |
      ⟨a0, a1, a2, ⟨x, hx⟩, ka⟩ | ⟨a0, a1, a2, a3, ⟨u, hu⟩, ka⟩ | ⟨a0, a1, a2, a3, hu, ka⟩ <;>
    rcases following_kind_cases b with
      ⟨⟨y, hy⟩, kb⟩ | ⟨b0, ⟨y, hy⟩, kb⟩ | ⟨b0, b1, ⟨y, hy⟩, kb⟩ |
      ⟨b0, b1, b2, ⟨y, hy⟩, kb⟩ | ⟨b0, b1, b2, b3, ⟨w, hw⟩, kb⟩ | ⟨b0, b1, b2, b3, hw, kb⟩ <;>
    (try omega)
    exact ⟨x, y, hx, hy, following_lessThan_kind2 a b x y a0 b0 a1 b1 hx hy⟩
  · intro k1 k2
    rcases following_kind_cases a with
      ⟨⟨x, hx⟩, ka⟩ | ⟨a0, ⟨x, hx⟩, ka⟩ | ⟨a0, a1, ⟨x, hx⟩, ka⟩ |
      ⟨a0, a1, a2, ⟨x, hx⟩, ka⟩ | ⟨a0, a1, a2, a3, ⟨u, hu⟩, ka⟩ | ⟨a0, a1, a2, a3, hu, ka⟩ <;>
    rcases following_kind_cases b with
      ⟨⟨y, hy⟩, kb⟩ | ⟨b0, ⟨y, hy⟩, kb⟩ | ⟨b0, b1, ⟨y, hy⟩, kb⟩ |
      ⟨b0, b1, b2, ⟨y, hy⟩, kb⟩ | ⟨b0, b1, b2, b3, ⟨w, hw⟩, kb⟩ | ⟨b0, b1, b2, b3, hw, kb⟩ <;>
    (try omega)
    exact ⟨x, y, hx, hy, following_lessThan_kind3 a b x y a0 b0 a1 b1 a2 b2 hx hy⟩
  · intro k1 k2
    rcases following_kind_cases a with
      ⟨⟨x, hx⟩, ka⟩ | ⟨a0, ⟨x, hx⟩, ka⟩ | ⟨a0, a1, ⟨x, hx⟩, ka⟩ |
      ⟨a0, a1, a2, ⟨x, hx⟩, ka⟩ | ⟨a0, a1, a2, a3, ⟨u, hu⟩, ka⟩ | ⟨a0, a1, a2, a3, hu, ka⟩ <;>
    rcases following_kind_cases b with
      ⟨⟨y, hy⟩, kb⟩ | ⟨b0, ⟨y, hy⟩, kb⟩ | ⟨b0, b1, ⟨y, hy⟩, kb⟩ |
      ⟨b0, b1, b2, ⟨y, hy⟩, kb⟩ | ⟨b0, b1, b2, b3, ⟨w, hw⟩, kb⟩ | ⟨b0, b1, b2, b3, hw, kb⟩ <;>
    (try omega)
    exact ⟨u, w, hu, hw, following_lessThan_iri a b u w a0 b0 a1 b1 a2 b2 a3 b3 hu hw⟩
  · intro k1 k2
    rcases following_kind_cases a with
      ⟨⟨x, hx⟩, ka⟩ | ⟨a0, ⟨x, hx⟩, ka⟩ | ⟨a0, a1, ⟨x, hx⟩, ka⟩ |
      ⟨a0, a1, a2, ⟨x, hx⟩, ka⟩ | ⟨a0, a1, a2, a3, ⟨u, hu⟩, ka⟩ | ⟨a0, a1, a2, a3, hu, ka⟩ <;>
    rcases following_kind_cases b with
      ⟨⟨y, hy⟩, kb⟩ | ⟨b0, ⟨y, hy⟩, kb⟩ | ⟨b0, b1, ⟨y, hy⟩, kb⟩ |
      ⟨b0, b1, b2, ⟨y, hy⟩, kb⟩ | ⟨b0, b1, b2, b3, ⟨w, hw⟩, kb⟩ | ⟨b0, b1, b2, b3, hw, kb⟩ <;>
    (try omega)
    exact following_lessThan_unset a b a0 b0 a1 b1 a2 b2 a3 b3 hu hw
  · rcases following_kind_cases a with
      ⟨⟨x, hx⟩, ka⟩ | ⟨a0, ⟨x, hx⟩, ka⟩ | ⟨a0, a1, ⟨x, hx⟩, ka⟩ |
      ⟨a0, a1, a2, ⟨x, hx⟩, ka⟩ | ⟨a0, a1, a2, a3, ⟨u, hu⟩, ka⟩ | ⟨a0, a1, a2, a3, hu, ka⟩ <;>
    omega

end ActivityStreamsFollowingProperty

end propertyfollowing

/-! ## The sample orders -/

theorem sampleRankedType_strictOrder : sampleRankedType.StrictOrder := by
  refine ⟨?_, ?_, ?_⟩
  · intro a
    simp [sampleRankedType]
  · intro a b h
    simp only [sampleRankedType, decide_eq_true_eq, decide_eq_false_iff_not] at h ⊢
    omega
  · intro a b c h1 h2
    simp only [sampleRankedType, decide_eq_true_eq] at h1 h2 ⊢
    omega

theorem sampleRankedVocab_strictOrder : sampleRankedVocab.StrictOrder :=
  ⟨sampleRankedType_strictOrder, sampleRankedType_strictOrder, sampleRankedType_strictOrder,
    sampleRankedType_strictOrder, sampleRankedType_strictOrder, sampleRankedType_strictOrder⟩

/-! ## Maps -/

theorem eq_none_of_isSome_false {α : Type} (o : Option α) (h : o.isSome = false) :
    o = none := by
  cases o with
  | none => rfl
  | some a => cases h

theorem lookup_cons_ite {β : Type} (a : String) (b : β) (l : List (String × β)) (k : String) :
    ((a, b) :: l).lookup k = if k = a then some b else l.lookup k := by
  rw [List.lookup_cons]
  by_cases h : k = a
  · simp [h]
  · have hb : (k == a) = false := by simpa using h
    simp [h, hb]

theorem lookup_mapSet {β : Type} (m : List (String × β)) (k k' : String) (v : β) :
    (mapSet m k v).lookup k' = if k' = k then some v else m.lookup k' := by
  induction m with
  | nil =>
    by_cases h : k' = k
    · simp [mapSet, lookup_cons_ite, h]
    · simp [mapSet, lookup_cons_ite, h]
  | cons kv rest ih =>
    obtain ⟨k1, v1⟩ := kv
    by_cases h1 : k1 = k
    · subst h1
      by_cases h : k' = k1
      · simp [mapSet, lookup_cons_ite, h]
      · simp [mapSet, lookup_cons_ite, h]
    · by_cases h : k' = k
      · subst h
        have h2 : ¬ k' = k1 := fun e => h1 e.symm
        simp [mapSet, lookup_cons_ite, h1, h2, ih]
      · by_cases h2 : k' = k1
        · simp [mapSet, lookup_cons_ite, h1, h2]
        · simp [mapSet, lookup_cons_ite, h1, h2, h, ih]

theorem lookup_eq_none_of_not_mem_keys {β : Type} (m : List (String × β)) (k : String)
    (h : k ∉ m.map Prod.fst) : m.lookup k = none := by
  rw [List.lookup_eq_none_iff]
  intro p hp
  simp only [bne_iff_ne, ne_eq]
  intro hk
  exact h (List.mem_map.2 ⟨p, hp, hk.symm⟩)

theorem lookup_deserializeUnknown_from (known : List String) (m acc : JsonMap) (k : String)
    (hm : DistinctKeys m) :
    (m.foldl (fun unknown kv =>
        if known.contains kv.1 then unknown else mapSet unknown kv.1 kv.2) acc).lookup k =
      if k ∈ known then acc.lookup k
      else match m.lookup k with
        | some v => some v
        | none => acc.lookup k := by
  induction m generalizing acc with
  | nil => simp
  | cons kv rest ih =>
    obtain ⟨k1, v1⟩ := kv
    have hd : k1 ∉ rest.map Prod.fst ∧ DistinctKeys rest := by
      simpa [DistinctKeys] using hm
    have hr := lookup_eq_none_of_not_mem_keys rest k1 hd.1
    rw [List.foldl_cons, ih _ hd.2]
    by_cases hk1 : k1 ∈ known
    · by_cases hk : k ∈ known
      · simp [hk1, hk]
      · have hne : ¬ k = k1 := fun e => hk (e ▸ hk1)
        simp [hk1, hk, lookup_cons_ite, hne]
    · by_cases hk : k ∈ known
      · have hne : ¬ k = k1 := fun e => hk1 (e ▸ hk)
        simp [hk1, hk, lookup_mapSet, hne]
      · by_cases hne : k = k1
        · subst hne
          simp [hk1, hr, lookup_mapSet, lookup_cons_ite]
        · simp [hk1, hk, lookup_mapSet, lookup_cons_ite, hne]

theorem lookup_deserializeUnknown (known : List String) (m : JsonMap) (k : String)
    (hm : DistinctKeys m) :
    (deserializeUnknown known m).lookup k = if k ∈ known then none else m.lookup k := by
  unfold deserializeUnknown
  rw [lookup_deserializeUnknown_from known m [] k hm]
  cases m.lookup k <;> simp

theorem lookup_serializeUnknown (unknown m : JsonMap) (k : String) :
    (serializeUnknown unknown m).lookup k =
      match m.lookup k with
      | some v => some v
      | none => unknown.lookup k := by
  unfold serializeUnknown
  induction unknown generalizing m with
  | nil =>
    simp only [List.foldl_nil]
    cases m.lookup k <;> rfl
  | cons kv rest ih =>
    obtain ⟨k1, v1⟩ := kv
    rw [List.foldl_cons, ih]
    by_cases hne : k = k1
    · subst hne
      cases hm : m.lookup k with
      | none => simp [hm, lookup_mapSet, lookup_cons_ite]
      | some v => simp [hm, lookup_cons_ite]
    · cases hm1 : m.lookup k1 with
      | none => simp [hm1, lookup_mapSet, lookup_cons_ite, hne]
      | some v => simp [hm1, lookup_cons_ite, hne]

/-! ## The repeated blocks -/

section blocks

variable {P : PropertyType}

theorem firstPropertyError_eq_none_iff (mgr : PropertyManager P) (m : JsonMap)
    (aliasMap : AliasMap) (names : List String) :
    firstPropertyError mgr m aliasMap names = none ↔
      ∀ n ∈ names, (mgr n m aliasMap).2 = none := by
  simp [firstPropertyError]

theorem deserializeKnown_error (mgr : PropertyManager P) (m : JsonMap) (aliasMap : AliasMap)
    (names : List String) (e : error)
    (h : firstPropertyError mgr m aliasMap names = some e) :
    deserializeKnown mgr m aliasMap names = ([], some e) := by
  induction names with
  | nil => simp [firstPropertyError] at h
  | cons name rest ih =>
    rcases hr : mgr name m aliasMap with ⟨p, _ | e1⟩
    · have h2 : firstPropertyError mgr m aliasMap rest = some e := by
        simpa [firstPropertyError, List.findSome?_cons, hr] using h
      simp [deserializeKnown, hr, ih h2]
    · have h2 : e1 = e := by
        simpa [firstPropertyError, List.findSome?_cons, hr] using h
      simp [deserializeKnown, hr, h2]

theorem deserializeKnown_ok (mgr : PropertyManager P) (m : JsonMap) (aliasMap : AliasMap)
    (names : List String) (h : firstPropertyError mgr m aliasMap names = none) :
    deserializeKnown mgr m aliasMap names =
      (names.map (fun n => (mgr n m aliasMap).1), none) := by
  induction names with
  | nil => rfl
  | cons name rest ih =>
    rcases hr : mgr name m aliasMap with ⟨p, _ | e1⟩
    · have h2 : firstPropertyError mgr m aliasMap rest = none := by
        simpa [firstPropertyError, List.findSome?_cons, hr] using h
      simp [deserializeKnown, hr, ih h2]
    · simp [firstPropertyError, List.findSome?_cons, hr] at h

theorem serializeKnown_lookup_other (fields : List (Option P)) (m out : JsonMap) (k : String)
    (h : serializeKnown fields m = (out, none))
    (hn : ∀ p, some p ∈ fields → P.Name p ≠ k) : out.lookup k = m.lookup k := by
  induction fields generalizing m with
  | nil =>
    simp only [serializeKnown, Prod.mk.injEq, and_true] at h
    rw [h]
  | cons f rest ih =>
    cases f with
    | none =>
      exact ih m h (fun p hp => hn p (List.mem_cons_of_mem _ hp))
    | some p =>
      have hp : P.Name p ≠ k := hn p (List.mem_cons_self _ _)
      rcases hs : P.Serialize p with ⟨i, _ | e⟩
      · simp only [serializeKnown, hs] at h
        rw [ih _ h (fun q hq => hn q (List.mem_cons_of_mem _ hq))]
        by_cases hi : i.isNil = true
        · simp [hi]
        · have hk : ¬ k = P.Name p := fun e => hp e.symm
          simp [hi, lookup_mapSet, hk]
      · simp [serializeKnown, hs] at h

theorem serializeKnown_lookup_isSome (fields : List (Option P)) (m out : JsonMap) (k : String)
    (h : serializeKnown fields m = (out, none)) (hk : (m.lookup k).isSome = true) :
    (out.lookup k).isSome = true := by
  induction fields generalizing m with
  | nil =>
    simp only [serializeKnown, Prod.mk.injEq, and_true] at h
    rw [← h]
    exact hk
  | cons f rest ih =>
    cases f with
    | none => exact ih m h hk
    | some p =>
      rcases hs : P.Serialize p with ⟨i, _ | e⟩
      · simp only [serializeKnown, hs] at h
        apply ih _ h
        by_cases hi : i.isNil = true
        · simpa [hi] using hk
        · by_cases hkp : k = P.Name p
          · simp [hi, lookup_mapSet, hkp]
          · simpa [hi, lookup_mapSet, hkp] using hk
      · simp [serializeKnown, hs] at h

theorem alias_pair (aliasMap : AliasMap) :
    (match aliasMap.lookup vocabURI with
      | some a => (a, a ++ ":")
      | none => ("", "")) = (boundAlias aliasMap, typeAliasPrefix aliasMap) := by
  unfold boundAlias typeAliasPrefix
  cases aliasMap.lookup vocabURI <;> rfl

end blocks

/-! ## Round trip -/

section roundtrip

variable {P : PropertyType}

theorem mem_mapSet {β : Type} (m : List (String × β)) (k : String) (v : β) (kv : String × β)
    (h : kv ∈ mapSet m k v) : kv = (k, v) ∨ kv ∈ m := by
  induction m with
  | nil =>
    simp only [mapSet, List.mem_singleton] at h
    exact Or.inl h
  | cons e rest ih =>
    obtain ⟨k1, v1⟩ := e
    by_cases h1 : k1 = k
    · simp only [mapSet, h1, if_true, List.mem_cons] at h
      rcases h with h | h
      · exact Or.inl h
      · exact Or.inr (List.mem_cons_of_mem _ h)
    · simp only [mapSet, h1, if_false, List.mem_cons] at h
      rcases h with h | h
      · exact Or.inr (h ▸ List.mem_cons_self _ _)
      · rcases ih h with h2 | h2
        · exact Or.inl h2
        · exact Or.inr (List.mem_cons_of_mem _ h2)

theorem serializeKnown_keys (fields : List (Option P)) (m out : JsonMap) (names : List String)
    (h : serializeKnown fields m = (out, none))
    (hm : ∀ kv ∈ m, kv.1 ∈ names)
    (hn : ∀ p, some p ∈ fields → P.Name p ∈ names) : ∀ kv ∈ out, kv.1 ∈ names := by
  induction fields generalizing m with
  | nil =>
    simp only [serializeKnown, Prod.mk.injEq, and_true] at h
    rw [← h]
    exact hm
  | cons f rest ih =>
    cases f with
    | none => exact ih m h hm (fun p hp => hn p (List.mem_cons_of_mem _ hp))
    | some p =>
      rcases hs : P.Serialize p with ⟨i, _ | e⟩
      · simp only [serializeKnown, hs] at h
        refine ih _ h ?_ (fun q hq => hn q (List.mem_cons_of_mem _ hq))
        intro kv hkv
        by_cases hi : i.isNil = true
        · rw [if_pos hi] at hkv
          exact hm kv hkv
        · rw [if_neg hi] at hkv
          rcases mem_mapSet m _ _ kv hkv with h2 | h2
          · rw [h2]
            exact hn p (List.mem_cons_self _ _)
          · exact hm kv h2
      · simp [serializeKnown, hs] at h

theorem deserializeUnknown_from_known (known : List String) (m acc : JsonMap)
    (h : ∀ kv ∈ m, kv.1 ∈ known) :
    m.foldl (fun unknown kv =>
      if known.contains kv.1 then unknown else mapSet unknown kv.1 kv.2) acc = acc := by
  induction m generalizing acc with
  | nil => rfl
  | cons kv rest ih =>
    have h1 : kv.1 ∈ known := h kv (List.mem_cons_self _ _)
    rw [List.foldl_cons, ih _ (fun e he => h e (List.mem_cons_of_mem _ he))]
    simp [h1]

theorem deserializeUnknown_eq_nil (known : List String) (m : JsonMap)
    (h : ∀ kv ∈ m, kv.1 ∈ known) : deserializeUnknown known m = [] :=
  deserializeUnknown_from_known known m [] h

theorem lessThanKnown_equiv (l l' : List (Option P))
    (h : List.Forall₂ (fieldEquiv P) l l') :
    lessThanKnown l l' = none ∧ lessThanKnown l' l = none := by
  induction h with
  | nil => exact ⟨rfl, rfl⟩
  | @cons a b l l' hab _ ih =>
    cases a with
    | none =>
      cases b with
      | none => simpa [lessThanKnown] using ih
      | some q => exact absurd hab (by simp [fieldEquiv])
    | some p =>
      cases b with
      | none => exact absurd hab (by simp [fieldEquiv])
      | some q =>
        simp only [fieldEquiv] at hab
        simp [lessThanKnown, hab.1, hab.2, ih.1, ih.2]

theorem firstPropertyError_of_forall₂ (mgr : PropertyManager P) (m : JsonMap)
    (aliasMap : AliasMap) (fields : List (Option P)) (names : List String)
    (h : List.Forall₂ (fun f n =>
      (mgr n m aliasMap).2 = none ∧ fieldEquiv P f (mgr n m aliasMap).1) fields names) :
    firstPropertyError mgr m aliasMap names = none ∧
      List.Forall₂ (fieldEquiv P) fields (names.map (fun n => (mgr n m aliasMap).1)) := by
  induction h with
  | nil => exact ⟨rfl, List.Forall₂.nil⟩
  | @cons f n fields names hfn _ ih =>
    refine ⟨?_, List.Forall₂.cons hfn.2 ih.2⟩
    have h1 := ih.1
    simp only [firstPropertyError] at h1 ⊢
    rw [List.findSome?_cons, hfn.1]
    exact h1

end roundtrip

/-! ## Contexts -/

theorem lookup_mergeContext (child m : AliasMap) (k : String) (hd : DistinctKeys child) :
    (child.foldl (fun toMerge kv => mapSet toMerge kv.1 kv.2) m).lookup k =
      match child.lookup k with
      | some v => some v
      | none => m.lookup k := by
  induction child generalizing m with
  | nil => simp
  | cons kv rest ih =>
    obtain ⟨k1, v1⟩ := kv
    have hd2 : k1 ∉ rest.map Prod.fst ∧ DistinctKeys rest := by
      simpa [DistinctKeys] using hd
    have hr := lookup_eq_none_of_not_mem_keys rest k1 hd2.1
    rw [List.foldl_cons, ih _ hd2.2]
    by_cases hne : k = k1
    · subst hne
      simp [hr, lookup_mapSet, lookup_cons_ite]
    · simp [lookup_mapSet, lookup_cons_ite, hne]

theorem lookup_helperJSONLDContext_some {P : PropertyType} (p : P) (toMerge : AliasMap)
    (k : String) (hd : DistinctKeys (P.JSONLDContext p)) :
    (helperJSONLDContext (some p) toMerge).lookup k =
      match (P.JSONLDContext p).lookup k with
      | some v => some v
      | none => toMerge.lookup k := by
  simp only [helperJSONLDContext]
  exact lookup_mergeContext _ _ k hd

theorem lookup_contextFold_none {P : PropertyType} (fields : List (Option P)) (m : AliasMap)
    (k : String) (hd : ∀ p, some p ∈ fields → DistinctKeys (P.JSONLDContext p))
    (hn : ∀ p, some p ∈ fields → (P.JSONLDContext p).lookup k = none) :
    (fields.foldl (fun m i => helperJSONLDContext i m) m).lookup k = m.lookup k := by
  induction fields generalizing m with
  | nil => rfl
  | cons i rest ih =>
    rw [List.foldl_cons, ih _ (fun p hp => hd p (List.mem_cons_of_mem _ hp))
      (fun p hp => hn p (List.mem_cons_of_mem _ hp))]
    cases i with
    | none => rfl
    | some p =>
      rw [lookup_helperJSONLDContext_some p m k (hd p (List.mem_cons_self _ _)),
        hn p (List.mem_cons_self _ _)]

theorem lookup_contextFold_last {P : PropertyType} (front back : List (Option P)) (p : P)
    (m : AliasMap) (k v : String)
    (hd : ∀ q, some q ∈ front ++ some p :: back → DistinctKeys (P.JSONLDContext q))
    (hp : (P.JSONLDContext p).lookup k = some v)
    (hn : ∀ q, some q ∈ back → (P.JSONLDContext q).lookup k = none) :
    ((front ++ some p :: back).foldl (fun m i => helperJSONLDContext i m) m).lookup k =
      some v := by
  rw [List.foldl_append, List.foldl_cons,
    lookup_contextFold_none back _ k
      (fun q hq => hd q (List.mem_append_right _ (List.mem_cons_of_mem _ hq))) hn,
    lookup_helperJSONLDContext_some p _ k
      (hd p (List.mem_append_right _ (List.mem_cons_self _ _))), hp]

/-! ## The order of the types -/

theorem lessThanKnownUnguarded_nil_left {P : PropertyType} (ls rs : List (Option P))
    (r : Option P) : lessThanKnownUnguarded (none :: ls) (r :: rs) = none := by
  cases r <;> rfl

/-! ## Prefixes of type names -/

theorem trimPrefixChars_append (pre s : List Char) :
    strings.trimPrefixChars (pre ++ s) pre = some s := by
  induction pre with
  | nil => cases s <;> rfl
  | cons c pre ih => simp [strings.trimPrefixChars, ih]

theorem trimPrefix_append (a b : String) : strings.TrimPrefix (a ++ b) a = b := by
  simp [strings.TrimPrefix, String.data_append, trimPrefixChars_append]

theorem trimPrefixChars_mem (pre : List Char) (c : Char) (s r : List Char)
    (h : strings.trimPrefixChars s (pre ++ [c]) = some r) : c ∈ s := by
  induction pre generalizing s with
  | nil =>
    cases s with
    | nil => simp [strings.trimPrefixChars] at h
    | cons d s =>
      by_cases hd : d = c
      · simp [hd]
      · simp [strings.trimPrefixChars, hd] at h
  | cons p pre ih =>
    cases s with
    | nil => simp [strings.trimPrefixChars] at h
    | cons d s =>
      by_cases hd : d = p
      · simp only [List.cons_append, strings.trimPrefixChars, hd, if_true] at h
        exact List.mem_cons_of_mem _ (ih s h)
      · simp [strings.trimPrefixChars, hd] at h

theorem trimPrefix_bare (s a : String) (h : ':' ∉ s.data) :
    strings.TrimPrefix s (a ++ ":") = s := by
  unfold strings.TrimPrefix
  cases hr : strings.trimPrefixChars s.data (a ++ ":").data with
  | none => rfl
  | some r =>
    rw [String.data_append] at hr
    exact absurd (trimPrefixChars_mem a.data ':' s.data r hr) h

theorem namesType_bare (typeName : String) (aliasMap : AliasMap) (h : ':' ∉ typeName.data) :
    namesType typeName (typeAliasPrefix aliasMap) (Value.string typeName) = true := by
  unfold typeAliasPrefix
  cases aliasMap.lookup vocabURI with
  | none =>
    have e : strings.TrimPrefix typeName "" = typeName := by
      have := trimPrefix_append "" typeName
      simpa using this
    simp [namesType, e]
  | some a => simp [namesType, trimPrefix_bare typeName a h]

theorem namesType_serialized (typeName a : String) (aliasMap : AliasMap)
    (h : ':' ∉ typeName.data)
    (ha : aliasMap.lookup vocabURI = some a ∨ (a = "" ∧ aliasMap.lookup vocabURI = none)) :
    namesType typeName (typeAliasPrefix aliasMap)
      (Value.string (if a.length > 0 then a ++ ":" ++ typeName else typeName)) = true := by
  by_cases hl : a.length > 0
  · rcases ha with ha | ⟨ha, _⟩
    · simp [namesType, typeAliasPrefix, ha, hl, trimPrefix_append]
    · rw [ha] at hl
      exact absurd hl (by decide)
  · simp only [hl, if_false]
    exact namesType_bare typeName aliasMap h

/-! ## The comparison of known properties -/

section blocks

variable {P : PropertyType}

theorem lessThanKnown_append (fa fb la lb : List (Option P)) (h : fa.length = fb.length) :
    lessThanKnown (fa ++ la) (fb ++ lb) =
      match lessThanKnown fa fb with
      | some r => some r
      | none => lessThanKnown la lb := by
  induction fa generalizing fb with
  | nil =>
    cases fb with
    | nil => simp [lessThanKnown]
    | cons b fb => simp at h
  | cons a fa ih =>
    cases fb with
    | nil => simp at h
    | cons b fb =>
      have h2 : fa.length = fb.length := by simpa using h
      cases a with
      | none =>
        cases b with
        | none => simpa [lessThanKnown] using ih fb h2
        | some y => simp [lessThanKnown]
      | some x =>
        cases b with
        | none => simpa [lessThanKnown] using ih fb h2
        | some y =>
          by_cases h1 : P.LessThan x y = true
          · simp [lessThanKnown, h1]
          · by_cases h3 : P.LessThan y x = true
            · simp [lessThanKnown, h1, h3]
            · simpa [lessThanKnown, h1, h3] using ih fb h2

theorem lessThanKnown_self (hirr : ∀ a : P, P.LessThan a a = false) (l : List (Option P)) :
    lessThanKnown l l = none := by
  induction l with
  | nil => rfl
  | cons a l ih =>
    cases a with
    | none => simpa [lessThanKnown] using ih
    | some x => simpa [lessThanKnown, hirr x] using ih

end blocks

/-! ## Runs of the known-property serialization -/

section blocks

variable {P : PropertyType}

theorem serializeKnown_returns (fields : List (Option P)) (m : JsonMap)
    (h : ∀ p, some p ∈ fields → (P.Serialize p).2 = none) :
    ∃ known, serializeKnown fields m = (known, none) := by
  induction fields generalizing m with
  | nil => exact ⟨m, rfl⟩
  | cons f rest ih =>
    cases f with
    | none =>
      simpa [serializeKnown] using ih m (fun p hp => h p (List.mem_cons_of_mem _ hp))
    | some p =>
      have hp := h p (List.mem_cons_self _ _)
      rcases hs : P.Serialize p with ⟨i, e⟩
      rw [hs] at hp
      simp only at hp
      subst hp
      simp only [serializeKnown, hs]
      exact ih _ (fun q hq => h q (List.mem_cons_of_mem _ hq))

theorem serializeKnown_error (fields : List (Option P)) (m known : JsonMap) (p : P)
    (hp : some p ∈ fields) (he : (P.Serialize p).2 ≠ none) :
    serializeKnown fields m ≠ (known, none) := by
  induction fields generalizing m with
  | nil => simp at hp
  | cons f rest ih =>
    cases f with
    | none =>
      have hp2 : some p ∈ rest := by simpa using hp
      simpa [serializeKnown] using ih m hp2
    | some q =>
      rcases hs : P.Serialize q with ⟨i, _ | e⟩
      · have hp2 : some p ∈ rest := by
          rcases List.mem_cons.1 hp with h1 | h1
          · have e1 : p = q := Option.some.inj h1
            rw [e1, hs] at he
            exact absurd rfl he
          · exact h1
        simp only [serializeKnown, hs]
        exact ih _ hp2
      · simp [serializeKnown, hs]

theorem serializeKnownUnguarded_returns (fields : List (Option P)) (m : JsonMap)
    (hall : fields.all (fun f => f.isSome) = true)
    (h : ∀ p, some p ∈ fields → (P.Serialize p).2 = none) :
    ∃ known, serializeKnownUnguarded fields m = some (known, none) := by
  induction fields generalizing m with
  | nil => exact ⟨m, rfl⟩
  | cons f rest ih =>
    cases f with
    | none => simp at hall
    | some p =>
      have hrest : rest.all (fun f => f.isSome) = true := by simpa using hall
      have hp := h p (List.mem_cons_self _ _)
      rcases hs : P.Serialize p with ⟨i, e⟩
      rw [hs] at hp
      simp only at hp
      subst hp
      simp only [serializeKnownUnguarded, hs]
      exact ih _ hrest (fun q hq => h q (List.mem_cons_of_mem _ hq))

theorem serializeKnownUnguarded_absent (fields : List (Option P)) (m known : JsonMap)
    (hall : fields.all (fun f => f.isSome) = false) :
    serializeKnownUnguarded fields m ≠ some (known, none) := by
  induction fields generalizing m with
  | nil => simp at hall
  | cons f rest ih =>
    cases f with
    | none => simp [serializeKnownUnguarded]
    | some p =>
      have hrest : rest.all (fun f => f.isSome) = false := by simpa using hall
      rcases hs : P.Serialize p with ⟨i, _ | e⟩
      · simp only [serializeKnownUnguarded, hs]
        exact ih _ hrest
      · simp [serializeKnownUnguarded, hs]

end blocks

/-! ## The type check of Link -/

namespace typelink

variable {P : PropertyType}

theorem link_deserialize_reject (mgr : PropertyManager P) (m : JsonMap) (aliasMap : AliasMap)
    (h : ∀ tv, m.lookup "type" = some tv →
      namesType "Link" (typeAliasPrefix aliasMap) tv = false) :
    ∃ e, DeserializeLink mgr m aliasMap = (none, some e) := by
  cases ht : m.lookup "type" with
  | none =>
    simp only [DeserializeLink, alias_pair, ht]
    exact ⟨_, rfl⟩
  | some tv =>
    have h2 := h tv ht
    simp only [DeserializeLink, alias_pair, ht]
    cases tv with
    | string s =>
      have h3 : ¬ strings.TrimPrefix s (typeAliasPrefix aliasMap) = "Link" := by
        simpa [namesType] using h2
      simp [h3]
    | array xs =>
      simp only [namesType] at h2
      simp [h2]
    | _ => exact ⟨_, rfl⟩

theorem link_deserialize_accept (mgr : PropertyManager P) (m : JsonMap) (aliasMap : AliasMap)
    (tv : Value) (h1 : m.lookup "type" = some tv)
    (h2 : namesType "Link" (typeAliasPrefix aliasMap) tv = true) :
    DeserializeLink mgr m aliasMap =
      match deserializeKnown mgr m aliasMap propertyNames with
      | (_, some err) => (none, some err)
      | (fields, none) =>
        (some (ActivityStreamsLink.ofFields fields (boundAlias aliasMap)
          (deserializeUnknown knownNames m)), none) := by
  simp only [DeserializeLink, alias_pair, h1]
  cases tv with
  | string s =>
    have h3 : strings.TrimPrefix s (typeAliasPrefix aliasMap) = "Link" := by
      simpa [namesType] using h2
    simp [h3]
  | array xs =>
    simp only [namesType] at h2
    simp [h2]
  | _ => simp [namesType] at h2

end typelink

namespace typelink

variable {P : PropertyType}

theorem link_property_error (mgr : PropertyManager P) (m : JsonMap) (aliasMap : AliasMap)
    (tv : Value) (e : error) (h1 : m.lookup "type" = some tv)
    (h2 : namesType "Link" (typeAliasPrefix aliasMap) tv = true)
    (h3 : firstPropertyError mgr m aliasMap propertyNames = some e) :
    DeserializeLink mgr m aliasMap = (none, some e) := by
  rw [link_deserialize_accept mgr m aliasMap tv h1 h2,
    deserializeKnown_error mgr m aliasMap propertyNames e h3]

theorem link_success (mgr : PropertyManager P) (m : JsonMap) (aliasMap : AliasMap)
    (tv : Value) (h1 : m.lookup "type" = some tv)
    (h2 : namesType "Link" (typeAliasPrefix aliasMap) tv = true)
    (h3 : firstPropertyError mgr m aliasMap propertyNames = none) :
    DeserializeLink mgr m aliasMap =
      (some (ActivityStreamsLink.ofFields
        (propertyNames.map (fun n => (mgr n m aliasMap).1)) (boundAlias aliasMap)
        (deserializeUnknown knownNames m)), none) := by
  rw [link_deserialize_accept mgr m aliasMap tv h1 h2,
    deserializeKnown_ok mgr m aliasMap propertyNames h3]

theorem link_success_inv (mgr : PropertyManager P) (m : JsonMap) (aliasMap : AliasMap)
    (v : ActivityStreamsLink P) (h : DeserializeLink mgr m aliasMap = (some v, none)) :
    (∃ tv, m.lookup "type" = some tv ∧
        namesType "Link" (typeAliasPrefix aliasMap) tv = true) ∧
      firstPropertyError mgr m aliasMap propertyNames = none ∧
      v = ActivityStreamsLink.ofFields
        (propertyNames.map (fun n => (mgr n m aliasMap).1)) (boundAlias aliasMap)
        (deserializeUnknown knownNames m) := by
  by_cases hr : ∀ tv, m.lookup "type" = some tv →
      namesType "Link" (typeAliasPrefix aliasMap) tv = false
  · obtain ⟨e, he⟩ := link_deserialize_reject mgr m aliasMap hr
    rw [he] at h
    cases h
  · have hr2 : ∃ tv, m.lookup "type" = some tv ∧
        namesType "Link" (typeAliasPrefix aliasMap) tv = true := by
      by_contra hc
      apply hr
      intro tv htv
      cases hn : namesType "Link" (typeAliasPrefix aliasMap) tv with
      | false => rfl
      | true => exact absurd ⟨tv, htv, hn⟩ hc
    obtain ⟨tv, h1, h2⟩ := hr2
    cases h3 : firstPropertyError mgr m aliasMap propertyNames with
    | some e =>
      rw [link_property_error mgr m aliasMap tv e h1 h2 h3] at h
      cases h
    | none =>
      rw [link_success mgr m aliasMap tv h1 h2 h3] at h
      refine ⟨⟨tv, h1, h2⟩, rfl, ?_⟩
      cases h
      rfl

theorem link_error_no_object (mgr : PropertyManager P) (m : JsonMap) (aliasMap : AliasMap)
    (h : (DeserializeLink mgr m aliasMap).2 ≠ none) :
    (DeserializeLink mgr m aliasMap).1 = none := by
  by_cases hr : ∀ tv, m.lookup "type" = some tv →
      namesType "Link" (typeAliasPrefix aliasMap) tv = false
  · obtain ⟨e, he⟩ := link_deserialize_reject mgr m aliasMap hr
    rw [he]
  · have hr2 : ∃ tv, m.lookup "type" = some tv ∧
        namesType "Link" (typeAliasPrefix aliasMap) tv = true := by
      by_contra hc
      apply hr
      intro tv htv
      cases hn : namesType "Link" (typeAliasPrefix aliasMap) tv with
      | false => rfl
      | true => exact absurd ⟨tv, htv, hn⟩ hc
    obtain ⟨tv, h1, h2⟩ := hr2
    cases h3 : firstPropertyError mgr m aliasMap propertyNames with
    | some e => rw [link_property_error mgr m aliasMap tv e h1 h2 h3]
    | none =>
      rw [link_success mgr m aliasMap tv h1 h2 h3] at h
      exact absurd rfl h

end typelink

namespace typelink

variable {P : PropertyType}

theorem link_unknown_of_success (mgr : PropertyManager P) (m : JsonMap) (aliasMap : AliasMap)
    (v : ActivityStreamsLink P) (h : DeserializeLink mgr m aliasMap = (some v, none)) :
    v.unknown = deserializeUnknown knownNames m := by
  rw [(link_success_inv mgr m aliasMap v h).2.2]
  rfl

theorem link_serialize_inv (this : ActivityStreamsLink P) (out : JsonMap)
    (h : this.Serialize = (out, none)) :
    ∃ known, serializeKnown this.fields
        [("type", Value.string
          (if this.alias_.length > 0 then this.alias_ ++ ":" ++ "Link" else "Link"))] =
          (known, none) ∧
      out = serializeUnknown this.unknown known := by
  rcases hk : serializeKnown this.fields
      [("type", Value.string
        (if this.alias_.length > 0 then this.alias_ ++ ":" ++ "Link" else "Link"))]
    with ⟨known, _ | e⟩
  · refine ⟨known, rfl, ?_⟩
    simp only [ActivityStreamsLink.Serialize, mapSet, hk] at h
    exact (Prod.mk.inj h).1.symm
  · simp [ActivityStreamsLink.Serialize, mapSet, hk] at h

theorem link_serialize_of_known (this : ActivityStreamsLink P) (known : JsonMap)
    (h : serializeKnown this.fields
        [("type", Value.string
          (if this.alias_.length > 0 then this.alias_ ++ ":" ++ "Link" else "Link"))] =
          (known, none)) :
    this.Serialize = (serializeUnknown this.unknown known, none) := by
  simp only [ActivityStreamsLink.Serialize, mapSet, h]

end typelink

namespace typelink

variable {P : PropertyType}

theorem link_serialize_type (this : ActivityStreamsLink P) (out : JsonMap)
    (h : this.Serialize = (out, none))
    (hn : ∀ p, some p ∈ this.fields → P.Name p ≠ "type") :
    out.lookup "type" = some (Value.string
      (if this.alias_.length > 0 then this.alias_ ++ ":" ++ "Link" else "Link")) := by
  obtain ⟨known, hkn, hout⟩ := link_serialize_inv this out h
  have h1 := serializeKnown_lookup_other this.fields _ known "type" hkn hn
  rw [hout, lookup_serializeUnknown, h1]
  rfl

end typelink

/-! ## The type check of Relationship -/

namespace typerelationship

variable {P : PropertyType}

theorem relationship_deserialize_reject (mgr : PropertyManager P) (m : JsonMap) (aliasMap : AliasMap)
    (h : ∀ tv, m.lookup "type" = some tv →
      namesType "Relationship" (typeAliasPrefix aliasMap) tv = false) :
    ∃ e, DeserializeRelationship mgr m aliasMap = (none, some e) := by
  cases ht : m.lookup "type" with
  | none =>
    simp only [DeserializeRelationship, alias_pair, ht]
    exact ⟨_, rfl⟩
  | some tv =>
    have h2 := h tv ht
    simp only [DeserializeRelationship, alias_pair, ht]
    cases tv with
    | string s =>
      have h3 : ¬ strings.TrimPrefix s (typeAliasPrefix aliasMap) = "Relationship" := by
        simpa [namesType] using h2
      simp [h3]
    | array xs =>
      simp only [namesType] at h2
      simp [h2]
    | _ => exact ⟨_, rfl⟩

theorem relationship_deserialize_accept (mgr : PropertyManager P) (m : JsonMap) (aliasMap : AliasMap)
    (tv : Value) (h1 : m.lookup "type" = some tv)
    (h2 : namesType "Relationship" (typeAliasPrefix aliasMap) tv = true) :
    DeserializeRelationship mgr m aliasMap =
      match deserializeKnown mgr m aliasMap propertyNames with
      | (_, some err) => (none, some err)
      | (fields, none) =>
        (some (ActivityStreamsRelationship.ofFields fields (boundAlias aliasMap)
          (deserializeUnknown knownNames m)), none) := by
  simp only [DeserializeRelationship, alias_pair, h1]
  cases tv with
  | string s =>
    have h3 : strings.TrimPrefix s (typeAliasPrefix aliasMap) = "Relationship" := by
      simpa [namesType] using h2
    simp [h3]
  | array xs =>
    simp only [namesType] at h2
    simp [h2]
  | _ => simp [namesType] at h2

end typerelationship

namespace typerelationship

variable {P : PropertyType}

theorem relationship_property_error (mgr : PropertyManager P) (m : JsonMap) (aliasMap : AliasMap)
    (tv : Value) (e : error) (h1 : m.lookup "type" = some tv)
    (h2 : namesType "Relationship" (typeAliasPrefix aliasMap) tv = true)
    (h3 : firstPropertyError mgr m aliasMap propertyNames = some e) :
    DeserializeRelationship mgr m aliasMap = (none, some e) := by
  rw [relationship_deserialize_accept mgr m aliasMap tv h1 h2,
    deserializeKnown_error mgr m aliasMap propertyNames e h3]

theorem relationship_success (mgr : PropertyManager P) (m : JsonMap) (aliasMap : AliasMap)
    (tv : Value) (h1 : m.lookup "type" = some tv)
    (h2 : namesType "Relationship" (typeAliasPrefix aliasMap) tv = true)
    (h3 : firstPropertyError mgr m aliasMap propertyNames = none) :
    DeserializeRelationship mgr m aliasMap =
      (some (ActivityStreamsRelationship.ofFields
        (propertyNames.map (fun n => (mgr n m aliasMap).1)) (boundAlias aliasMap)
        (deserializeUnknown knownNames m)), none) := by
  rw [relationship_deserialize_accept mgr m aliasMap tv h1 h2,
    deserializeKnown_ok mgr m aliasMap propertyNames h3]

theorem relationship_success_inv (mgr : PropertyManager P) (m : JsonMap) (aliasMap : AliasMap)
    (v : ActivityStreamsRelationship P) (h : DeserializeRelationship mgr m aliasMap = (some v, none)) :
    (∃ tv, m.lookup "type" = some tv ∧
        namesType "Relationship" (typeAliasPrefix aliasMap) tv = true) ∧
      firstPropertyError mgr m aliasMap propertyNames = none ∧
      v = ActivityStreamsRelationship.ofFields
        (propertyNames.map (fun n => (mgr n m aliasMap).1)) (boundAlias aliasMap)
        (deserializeUnknown knownNames m) := by
  by_cases hr : ∀ tv, m.lookup "type" = some tv →
      namesType "Relationship" (typeAliasPrefix aliasMap) tv = false
  · obtain ⟨e, he⟩ := relationship_deserialize_reject mgr m aliasMap hr
    rw [he] at h
    cases h
  · have hr2 : ∃ tv, m.lookup "type" = some tv ∧
        namesType "Relationship" (typeAliasPrefix aliasMap) tv = true := by
      by_contra hc
      apply hr
      intro tv htv
      cases hn : namesType "Relationship" (typeAliasPrefix aliasMap) tv with
      | false => rfl
      | true => exact absurd ⟨tv, htv, hn⟩ hc
    obtain ⟨tv, h1, h2⟩ := hr2
    cases h3 : firstPropertyError mgr m aliasMap propertyNames with
    | some e =>
      rw [relationship_property_error mgr m aliasMap tv e h1 h2 h3] at h
      cases h
    | none =>
      rw [relationship_success mgr m aliasMap tv h1 h2 h3] at h
      refine ⟨⟨tv, h1, h2⟩, rfl, ?_⟩
      cases h
      rfl

theorem relationship_error_no_object (mgr : PropertyManager P) (m : JsonMap) (aliasMap : AliasMap)
    (h : (DeserializeRelationship mgr m aliasMap).2 ≠ none) :
    (DeserializeRelationship mgr m aliasMap).1 = none := by
  by_cases hr : ∀ tv, m.lookup "type" = some tv →
      namesType "Relationship" (typeAliasPrefix aliasMap) tv = false
  · obtain ⟨e, he⟩ := relationship_deserialize_reject mgr m aliasMap hr
    rw [he]
  · have hr2 : ∃ tv, m.lookup "type" = some tv ∧
        namesType "Relationship" (typeAliasPrefix aliasMap) tv = true := by
      by_contra hc
      apply hr
      intro tv htv
      cases hn : namesType "Relationship" (typeAliasPrefix aliasMap) tv with
      | false => rfl
      | true => exact absurd ⟨tv, htv, hn⟩ hc
    obtain ⟨tv, h1, h2⟩ := hr2
    cases h3 : firstPropertyError mgr m aliasMap propertyNames with
    | some e => rw [relationship_property_error mgr m aliasMap tv e h1 h2 h3]
    | none =>
      rw [relationship_success mgr m aliasMap tv h1 h2 h3] at h
      exact absurd rfl h

end typerelationship

namespace typerelationship

variable {P : PropertyType}

theorem relationship_unknown_of_success (mgr : PropertyManager P) (m : JsonMap) (aliasMap : AliasMap)
    (v : ActivityStreamsRelationship P) (h : DeserializeRelationship mgr m aliasMap = (some v, none)) :
    v.unknown = deserializeUnknown knownNames m := by
  rw [(relationship_success_inv mgr m aliasMap v h).2.2]
  rfl

theorem relationship_serialize_inv (this : ActivityStreamsRelationship P) (out : JsonMap)
    (h : this.Serialize = (out, none)) :
    ∃ known, serializeKnown this.fields
        [("type", Value.string
          (if this.alias_.length > 0 then this.alias_ ++ ":" ++ "Relationship" else "Relationship"))] =
          (known, none) ∧
      out = serializeUnknown this.unknown known := by
  rcases hk : serializeKnown this.fields
      [("type", Value.string
        (if this.alias_.length > 0 then this.alias_ ++ ":" ++ "Relationship" else "Relationship"))]
    with ⟨known, _ | e⟩
  · refine ⟨known, rfl, ?_⟩
    simp only [ActivityStreamsRelationship.Serialize, mapSet, hk] at h
    exact (Prod.mk.inj h).1.symm
  · simp [ActivityStreamsRelationship.Serialize, mapSet, hk] at h

theorem relationship_serialize_of_known (this : ActivityStreamsRelationship P) (known : JsonMap)
    (h : serializeKnown this.fields
        [("type", Value.string
          (if this.alias_.length > 0 then this.alias_ ++ ":" ++ "Relationship" else "Relationship"))] =
          (known, none)) :
    this.Serialize = (serializeUnknown this.unknown known, none) := by
  simp only [ActivityStreamsRelationship.Serialize, mapSet, h]

end typerelationship

namespace typerelationship

variable {P : PropertyType}

theorem relationship_serialize_type (this : ActivityStreamsRelationship P) (out : JsonMap)
    (h : this.Serialize = (out, none))
    (hn : ∀ p, some p ∈ this.fields → P.Name p ≠ "type") :
    out.lookup "type" = some (Value.string
      (if this.alias_.length > 0 then this.alias_ ++ ":" ++ "Relationship" else "Relationship")) := by
  obtain ⟨known, hkn, hout⟩ := relationship_serialize_inv this out h
  have h1 := serializeKnown_lookup_other this.fields _ known "type" hkn hn
  rw [hout, lookup_serializeUnknown, h1]
  rfl

end typerelationship

/-! ## Place -/

namespace typeplace

variable {P : PropertyType}

theorem place_property_error (mgr : PropertyManager P) (m : JsonMap) (aliasMap : AliasMap)
    (e : error) (h3 : firstPropertyError mgr m aliasMap propertyNames = some e) :
    DeserializePlace mgr m aliasMap = (none, some e) := by
  simp only [DeserializePlace, deserializeKnown_error mgr m aliasMap propertyNames e h3]

theorem place_success (mgr : PropertyManager P) (m : JsonMap) (aliasMap : AliasMap)
    (h3 : firstPropertyError mgr m aliasMap propertyNames = none) :
    DeserializePlace mgr m aliasMap =
      (some (Place.ofFields (propertyNames.map (fun n => (mgr n m aliasMap).1))
        (boundAlias aliasMap) (deserializeUnknown knownNames m)), none) := by
  simp only [DeserializePlace, deserializeKnown_ok mgr m aliasMap propertyNames h3,
    resolver_alias]

theorem place_success_inv (mgr : PropertyManager P) (m : JsonMap) (aliasMap : AliasMap)
    (v : Place P) (h : DeserializePlace mgr m aliasMap = (some v, none)) :
    firstPropertyError mgr m aliasMap propertyNames = none ∧
      v = Place.ofFields (propertyNames.map (fun n => (mgr n m aliasMap).1))
        (boundAlias aliasMap) (deserializeUnknown knownNames m) := by
  cases h3 : firstPropertyError mgr m aliasMap propertyNames with
  | some e =>
    rw [place_property_error mgr m aliasMap e h3] at h
    cases h
  | none =>
    rw [place_success mgr m aliasMap h3] at h
    refine ⟨rfl, ?_⟩
    cases h
    rfl

end typeplace

/-! ## The type discriminator in the words of the specification -/

theorem type_rejected_iff (m : JsonMap) (typeName pre : String) :
    (∀ tv, m.lookup "type" = some tv → namesType typeName pre tv = false) ↔
      (m.lookup "type" = none ∨
        (∃ tv, m.lookup "type" = some tv ∧
          (∀ s, tv ≠ Value.string s) ∧ (∀ xs, tv ≠ Value.array xs)) ∨
        (∃ s, m.lookup "type" = some (Value.string s) ∧
          strings.TrimPrefix s pre ≠ typeName) ∨
        (∃ xs, m.lookup "type" = some (Value.array xs) ∧
          ∀ s, Value.string s ∈ xs → strings.TrimPrefix s pre ≠ typeName)) := by
  cases ht : m.lookup "type" with
  | none => simp
  | some tv =>
    cases tv with
    | string s => simp [namesType]
    | array xs =>
      constructor
      · intro h
        refine Or.inr (Or.inr (Or.inr ⟨xs, rfl, ?_⟩))
        intro s hs
        have h2 := h (Value.array xs) rfl
        simp only [namesType, List.any_eq_false] at h2
        simpa using h2 _ hs
      · intro h tv htv
        cases htv
        simp only [namesType, List.any_eq_false]
        intro x hx
        rcases h with h | ⟨tv, h1, _, h2⟩ | ⟨s, h1, _⟩ | ⟨ys, h1, h2⟩
        · cases h
        · cases h1
          exact absurd rfl (h2 xs)
        · cases h1
        · cases h1
          cases x with
          | string s => simpa using h2 s hx
          | _ => simp
    | _ => simp [namesType]

namespace typeplace

variable {P : PropertyType}

theorem place_unknown_of_success (mgr : PropertyManager P) (m : JsonMap) (aliasMap : AliasMap)
    (v : Place P) (h : DeserializePlace mgr m aliasMap = (some v, none)) :
    v.unknown = deserializeUnknown knownNames m := by
  rw [(place_success_inv mgr m aliasMap v h).2]
  rfl

theorem place_serialize_of_known (this : Place P) (known : JsonMap)
    (h : serializeKnownUnguarded this.fields [] = some (known, none)) :
    this.Serialize = some (Value.object (serializeUnknown this.unknown known), none) := by
  simp only [Place.Serialize, h]

end typeplace


/-! ## Claims about the property resolvers -/

/-- C1 (first match wins). When the value under the lookup key of "next", "prev" or
"following" is a nested object `o`, the resolver returns the property holding exactly the value
returned by the earliest candidate, in the declared order, whose deserializer returns no error;
all other typed members, the IRI and the unknown value stay unset, whatever the later
candidates return. -/
theorem first_match_wins (vocab : Vocab) (url : NetURL) (mgr : Manager vocab) (m : JsonMap)
    (aliasMap : AliasMap) (o : JsonMap) :
    (m.lookup (lookupKey aliasMap "next") = some (Value.object o) →
      ((mgr.DeserializeCollectionPageActivityStreams o aliasMap).2 = none →
        propertynext.DeserializeNextProperty url mgr m aliasMap =
          (some { activitystreamsCollectionPageMember :=
                    (mgr.DeserializeCollectionPageActivityStreams o aliasMap).1,
                  alias_ := boundAlias aliasMap }, none)) ∧
      ((mgr.DeserializeCollectionPageActivityStreams o aliasMap).2 ≠ none →
        (mgr.DeserializeLinkActivityStreams o aliasMap).2 = none →
        propertynext.DeserializeNextProperty url mgr m aliasMap =
          (some { activitystreamsLinkMember := (mgr.DeserializeLinkActivityStreams o aliasMap).1,
                  alias_ := boundAlias aliasMap }, none)) ∧
      ((mgr.DeserializeCollectionPageActivityStreams o aliasMap).2 ≠ none →
        (mgr.DeserializeLinkActivityStreams o aliasMap).2 ≠ none →
        (mgr.DeserializeMentionActivityStreams o aliasMap).2 = none →
        propertynext.DeserializeNextProperty url mgr m aliasMap =
          (some { activitystreamsMentionMember := (mgr.DeserializeMentionActivityStreams o aliasMap).1,
                  alias_ := boundAlias aliasMap }, none)) ∧
      ((mgr.DeserializeCollectionPageActivityStreams o aliasMap).2 ≠ none →
        (mgr.DeserializeLinkActivityStreams o aliasMap).2 ≠ none →
        (mgr.DeserializeMentionActivityStreams o aliasMap).2 ≠ none →
        (mgr.DeserializeOrderedCollectionPageActivityStreams o aliasMap).2 = none →
        propertynext.DeserializeNextProperty url mgr m aliasMap =
          (some { activitystreamsOrderedCollectionPageMember :=
                    (mgr.DeserializeOrderedCollectionPageActivityStreams o aliasMap).1,
                  alias_ := boundAlias aliasMap }, none))) ∧
    (m.lookup (lookupKey aliasMap "prev") = some (Value.object o) →
      ((mgr.DeserializeCollectionPageActivityStreams o aliasMap).2 = none →
        propertyprev.DeserializePrevProperty url mgr m aliasMap =
          (some { activitystreamsCollectionPageMember :=
                    (mgr.DeserializeCollectionPageActivityStreams o aliasMap).1,
                  alias_ := boundAlias aliasMap }, none)) ∧
      ((mgr.DeserializeCollectionPageActivityStreams o aliasMap).2 ≠ none →
        (mgr.DeserializeLinkActivityStreams o aliasMap).2 = none →
        propertyprev.DeserializePrevProperty url mgr m aliasMap =
          (some { activitystreamsLinkMember := (mgr.DeserializeLinkActivityStreams o aliasMap).1,
                  alias_ := boundAlias aliasMap }, none)) ∧
      ((mgr.DeserializeCollectionPageActivityStreams o aliasMap).2 ≠ none →
        (mgr.DeserializeLinkActivityStreams o aliasMap).2 ≠ none →
        (mgr.DeserializeMentionActivityStreams o aliasMap).2 = none →
        propertyprev.DeserializePrevProperty url mgr m aliasMap =
          (some { activitystreamsMentionMember := (mgr.DeserializeMentionActivityStreams o aliasMap).1,
                  alias_ := boundAlias aliasMap }, none)) ∧
      ((mgr.DeserializeCollectionPageActivityStreams o aliasMap).2 ≠ none →
        (mgr.DeserializeLinkActivityStreams o aliasMap).2 ≠ none →
        (mgr.DeserializeMentionActivityStreams o aliasMap).2 ≠ none →
        (mgr.DeserializeOrderedCollectionPageActivityStreams o aliasMap).2 = none →
        propertyprev.DeserializePrevProperty url mgr m aliasMap =
          (some { activitystreamsOrderedCollectionPageMember :=
                    (mgr.DeserializeOrderedCollectionPageActivityStreams o aliasMap).1,
                  alias_ := boundAlias aliasMap }, none))) ∧
    (m.lookup (lookupKey aliasMap "following") = some (Value.object o) →
      ((mgr.DeserializeOrderedCollectionActivityStreams o aliasMap).2 = none →
        propertyfollowing.DeserializeFollowingProperty url mgr m aliasMap =
          (some { activitystreamsOrderedCollectionMember :=
                    (mgr.DeserializeOrderedCollectionActivityStreams o aliasMap).1,
                  alias_ := boundAlias aliasMap }, none)) ∧
      ((mgr.DeserializeOrderedCollectionActivityStreams o aliasMap).2 ≠ none →
        (mgr.DeserializeCollectionActivityStreams o aliasMap).2 = none →
        propertyfollowing.DeserializeFollowingProperty url mgr m aliasMap =
          (some { activitystreamsCollectionMember := (mgr.DeserializeCollectionActivityStreams o aliasMap).1,
                  alias_ := boundAlias aliasMap }, none)) ∧
      ((mgr.DeserializeOrderedCollectionActivityStreams o aliasMap).2 ≠ none →
        (mgr.DeserializeCollectionActivityStreams o aliasMap).2 ≠ none →
        (mgr.DeserializeCollectionPageActivityStreams o aliasMap).2 = none →
        propertyfollowing.DeserializeFollowingProperty url mgr m aliasMap =
          (some { activitystreamsCollectionPageMember := (mgr.DeserializeCollectionPageActivityStreams o aliasMap).1,
                  alias_ := boundAlias aliasMap }, none)) ∧
      ((mgr.DeserializeOrderedCollectionActivityStreams o aliasMap).2 ≠ none →
        (mgr.DeserializeCollectionActivityStreams o aliasMap).2 ≠ none →
        (mgr.DeserializeCollectionPageActivityStreams o aliasMap).2 ≠ none →
        (mgr.DeserializeOrderedCollectionPageActivityStreams o aliasMap).2 = none →
        propertyfollowing.DeserializeFollowingProperty url mgr m aliasMap =
          (some { activitystreamsOrderedCollectionPageMember :=
                    (mgr.DeserializeOrderedCollectionPageActivityStreams o aliasMap).1,
                  alias_ := boundAlias aliasMap }, none))) := by
  refine ⟨?_, ?_, ?_⟩
  · intro h
    rw [propertynext.next_object url mgr m aliasMap o h]
    rcases mgr.DeserializeCollectionPageActivityStreams o aliasMap with ⟨v1, _ | e1⟩ <;>
    rcases mgr.DeserializeLinkActivityStreams o aliasMap with ⟨v2, _ | e2⟩ <;>
    rcases mgr.DeserializeMentionActivityStreams o aliasMap with ⟨v3, _ | e3⟩ <;>
    rcases mgr.DeserializeOrderedCollectionPageActivityStreams o aliasMap with ⟨v4, _ | e4⟩ <;>
    simp
  · intro h
    rw [propertyprev.prev_object url mgr m aliasMap o h]
    rcases mgr.DeserializeCollectionPageActivityStreams o aliasMap with ⟨v1, _ | e1⟩ <;>
    rcases mgr.DeserializeLinkActivityStreams o aliasMap with ⟨v2, _ | e2⟩ <;>
    rcases mgr.DeserializeMentionActivityStreams o aliasMap with ⟨v3, _ | e3⟩ <;>
    rcases mgr.DeserializeOrderedCollectionPageActivityStreams o aliasMap with ⟨v4, _ | e4⟩ <;>
    simp
  · intro h
    rw [propertyfollowing.following_object url mgr m aliasMap o h]
    rcases mgr.DeserializeOrderedCollectionActivityStreams o aliasMap with ⟨v1, _ | e1⟩ <;>
    rcases mgr.DeserializeCollectionActivityStreams o aliasMap with ⟨v2, _ | e2⟩ <;>
    rcases mgr.DeserializeCollectionPageActivityStreams o aliasMap with ⟨v3, _ | e3⟩ <;>
    rcases mgr.DeserializeOrderedCollectionPageActivityStreams o aliasMap with ⟨v4, _ | e4⟩ <;>
    simp

/-- Witness of C1: a map of type "Link" under "next" and "prev" (the sample Mention
deserializer accepts it too), and a map of type "OrderedCollection" under "following" (the
sample Collection deserializer accepts it too). -/
theorem first_match_wins_witness :
    propertynext.DeserializeNextProperty sampleURL sampleManager
        [("next", Value.object [("type", Value.string "Link")])] [] =
      (some { activitystreamsLinkMember := some [("type", Value.string "Link")] }, none) ∧
    propertyprev.DeserializePrevProperty sampleURL sampleManager
        [("prev", Value.object [("type", Value.string "Link")])] [] =
      (some { activitystreamsLinkMember := some [("type", Value.string "Link")] }, none) ∧
    propertyfollowing.DeserializeFollowingProperty sampleURL sampleManager
        [("following", Value.object [("type", Value.string "OrderedCollection")])] [] =
      (some { activitystreamsOrderedCollectionMember :=
                some [("type", Value.string "OrderedCollection")] }, none) :=
  ⟨((first_match_wins sampleVocab sampleURL sampleManager
      [("next", Value.object [("type", Value.string "Link")])] []
      [("type", Value.string "Link")]).1 rfl).2.1 (by decide) rfl,
   ((first_match_wins sampleVocab sampleURL sampleManager
      [("prev", Value.object [("type", Value.string "Link")])] []
      [("type", Value.string "Link")]).2.1 rfl).2.1 (by decide) rfl,
   ((first_match_wins sampleVocab sampleURL sampleManager
      [("following", Value.object [("type", Value.string "OrderedCollection")])] []
      [("type", Value.string "OrderedCollection")]).2.2 rfl).1 rfl⟩

/-- C2. For "next": when the Link deserializer returns no error on the nested object `o`, the
resolved property is never Mention-valued, whatever the Mention deserializer returns; and when
moreover the CollectionPage deserializer returns an error, the property holds the value the
Link deserializer returned, so it is Link-valued as soon as that value is a Link (non-nil), and
no other kind is set. -/
theorem link_never_mention (vocab : Vocab) (url : NetURL) (mgr : Manager vocab) (m : JsonMap)
    (aliasMap : AliasMap) (o : JsonMap)
    (h : m.lookup (lookupKey aliasMap "next") = some (Value.object o))
    (hl : (mgr.DeserializeLinkActivityStreams o aliasMap).2 = none) :
    ∃ p, propertynext.DeserializeNextProperty url mgr m aliasMap = (some p, none) ∧
      p.IsActivityStreamsMention = false ∧
      ((mgr.DeserializeCollectionPageActivityStreams o aliasMap).2 ≠ none →
        p.GetActivityStreamsLink = (mgr.DeserializeLinkActivityStreams o aliasMap).1 ∧
        (∀ v, (mgr.DeserializeLinkActivityStreams o aliasMap).1 = some v →
          p.IsActivityStreamsLink = true) ∧
        p.IsActivityStreamsCollectionPage = false ∧
        p.IsActivityStreamsOrderedCollectionPage = false ∧
        p.IsIRI = false) := by
  rw [propertynext.next_object url mgr m aliasMap o h]
  revert hl
  rcases mgr.DeserializeCollectionPageActivityStreams o aliasMap with ⟨v1, _ | e1⟩ <;>
  rcases mgr.DeserializeLinkActivityStreams o aliasMap with ⟨v2, _ | e2⟩ <;>
  simp [propertynext.ActivityStreamsNextProperty.IsActivityStreamsMention,
    propertynext.ActivityStreamsNextProperty.IsActivityStreamsLink,
    propertynext.ActivityStreamsNextProperty.IsActivityStreamsCollectionPage,
    propertynext.ActivityStreamsNextProperty.IsActivityStreamsOrderedCollectionPage,
    propertynext.ActivityStreamsNextProperty.IsIRI,
    propertynext.ActivityStreamsNextProperty.GetActivityStreamsLink]
  intro v hv
  simp [hv]

/-- Witness of C2: a map of type "Link", which the sample Mention deserializer accepts as
well, resolves to a Link-valued property. -/
theorem link_never_mention_witness :
    ∃ p, propertynext.DeserializeNextProperty sampleURL sampleManager
        [("next", Value.object [("type", Value.string "Link")])] [] = (some p, none) ∧
      p.IsActivityStreamsMention = false ∧ p.IsActivityStreamsLink = true := by
  obtain ⟨p, hp, hm, hrest⟩ := link_never_mention sampleVocab sampleURL sampleManager
    [("next", Value.object [("type", Value.string "Link")])] []
    [("type", Value.string "Link")] rfl rfl
  exact ⟨p, hp, hm, (hrest (by decide)).2.1 _ rfl⟩

/-- C3 (fallback to the unknown value). When the value `v` under the lookup key is present,
is not classified as an IRI (if it is a string, parsing fails or yields an empty scheme) and is
accepted by no typed candidate (if it is a nested object, all four deserializers return an
error), the resolver returns a property and no error, in which no typed alternative and no IRI
is set and whose unknown value is `v` verbatim. Numbers, booleans, arrays and null satisfy both
conditions vacuously. -/
theorem unknown_fallback (vocab : Vocab) (url : NetURL) (mgr : Manager vocab) (m : JsonMap)
    (aliasMap : AliasMap) (v : Value) :
    (m.lookup (lookupKey aliasMap "next") = some v →
      (∀ s u, v = Value.string s → url.Parse s = Except.ok u → u.Scheme = "") →
      (∀ o, v = Value.object o →
        (mgr.DeserializeCollectionPageActivityStreams o aliasMap).2 ≠ none ∧
        (mgr.DeserializeLinkActivityStreams o aliasMap).2 ≠ none ∧
        (mgr.DeserializeMentionActivityStreams o aliasMap).2 ≠ none ∧
        (mgr.DeserializeOrderedCollectionPageActivityStreams o aliasMap).2 ≠ none) →
      propertynext.DeserializeNextProperty url mgr m aliasMap =
        (some { alias_ := boundAlias aliasMap, unknown := v }, none)) ∧
    (m.lookup (lookupKey aliasMap "prev") = some v →
      (∀ s u, v = Value.string s → url.Parse s = Except.ok u → u.Scheme = "") →
      (∀ o, v = Value.object o →
        (mgr.DeserializeCollectionPageActivityStreams o aliasMap).2 ≠ none ∧
        (mgr.DeserializeLinkActivityStreams o aliasMap).2 ≠ none ∧
        (mgr.DeserializeMentionActivityStreams o aliasMap).2 ≠ none ∧
        (mgr.DeserializeOrderedCollectionPageActivityStreams o aliasMap).2 ≠ none) →
      propertyprev.DeserializePrevProperty url mgr m aliasMap =
        (some { alias_ := boundAlias aliasMap, unknown := v }, none)) ∧
    (m.lookup (lookupKey aliasMap "following") = some v →
      (∀ s u, v = Value.string s → url.Parse s = Except.ok u → u.Scheme = "") →
      (∀ o, v = Value.object o →
        (mgr.DeserializeOrderedCollectionActivityStreams o aliasMap).2 ≠ none ∧
        (mgr.DeserializeCollectionActivityStreams o aliasMap).2 ≠ none ∧
        (mgr.DeserializeCollectionPageActivityStreams o aliasMap).2 ≠ none ∧
        (mgr.DeserializeOrderedCollectionPageActivityStreams o aliasMap).2 ≠ none) →
      propertyfollowing.DeserializeFollowingProperty url mgr m aliasMap =
        (some { alias_ := boundAlias aliasMap, unknown := v }, none)) := by
  refine ⟨?_, ?_, ?_⟩
  · intro h hs ho
    cases v with
    | string s => exact propertynext.next_string_unknown url mgr m aliasMap s h (fun u hu => hs s u rfl hu)
    | object o =>
      obtain ⟨h1, h2, h3, h4⟩ := ho o rfl
      rw [propertynext.next_object url mgr m aliasMap o h]
      revert h1 h2 h3 h4
      rcases mgr.DeserializeCollectionPageActivityStreams o aliasMap with ⟨v1, _ | e1⟩ <;>
      rcases mgr.DeserializeLinkActivityStreams o aliasMap with ⟨v2, _ | e2⟩ <;>
      rcases mgr.DeserializeMentionActivityStreams o aliasMap with ⟨v3, _ | e3⟩ <;>
      rcases mgr.DeserializeOrderedCollectionPageActivityStreams o aliasMap with ⟨v4, _ | e4⟩ <;>
      simp
    | _ => exact propertynext.next_other url mgr m aliasMap _ h (fun s => by simp) (fun o => by simp)
  · intro h hs ho
    cases v with
    | string s => exact propertyprev.prev_string_unknown url mgr m aliasMap s h (fun u hu => hs s u rfl hu)
    | object o =>
      obtain ⟨h1, h2, h3, h4⟩ := ho o rfl
      rw [propertyprev.prev_object url mgr m aliasMap o h]
      revert h1 h2 h3 h4
      rcases mgr.DeserializeCollectionPageActivityStreams o aliasMap with ⟨v1, _ | e1⟩ <;>
      rcases mgr.DeserializeLinkActivityStreams o aliasMap with ⟨v2, _ | e2⟩ <;>
      rcases mgr.DeserializeMentionActivityStreams o aliasMap with ⟨v3, _ | e3⟩ <;>
      rcases mgr.DeserializeOrderedCollectionPageActivityStreams o aliasMap with ⟨v4, _ | e4⟩ <;>
      simp
    | _ => exact propertyprev.prev_other url mgr m aliasMap _ h (fun s => by simp) (fun o => by simp)
  · intro h hs ho
    cases v with
    | string s => exact propertyfollowing.following_string_unknown url mgr m aliasMap s h (fun u hu => hs s u rfl hu)
    | object o =>
      obtain ⟨h1, h2, h3, h4⟩ := ho o rfl
      rw [propertyfollowing.following_object url mgr m aliasMap o h]
      revert h1 h2 h3 h4
      rcases mgr.DeserializeOrderedCollectionActivityStreams o aliasMap with ⟨v1, _ | e1⟩ <;>
      rcases mgr.DeserializeCollectionActivityStreams o aliasMap with ⟨v2, _ | e2⟩ <;>
      rcases mgr.DeserializeCollectionPageActivityStreams o aliasMap with ⟨v3, _ | e3⟩ <;>
      rcases mgr.DeserializeOrderedCollectionPageActivityStreams o aliasMap with ⟨v4, _ | e4⟩ <;>
      simp
    | _ => exact propertyfollowing.following_other url mgr m aliasMap _ h (fun s => by simp) (fun o => by simp)

/-- Witness of C3: an array under the key, a string without scheme, and a nested object that
every sample candidate rejects. -/
theorem unknown_fallback_witness :
    propertynext.DeserializeNextProperty sampleURL sampleManager
        [("next", Value.array [Value.number 1, Value.bool true])] [] =
      (some { unknown := Value.array [Value.number 1, Value.bool true] }, none) ∧
    propertyprev.DeserializePrevProperty sampleURL sampleManager
        [("prev", Value.string "not-a-url")] [] =
      (some { unknown := Value.string "not-a-url" }, none) ∧
    propertyfollowing.DeserializeFollowingProperty sampleURL sampleManager
        [("following", Value.object [("type", Value.string "Note")])] [] =
      (some { unknown := Value.object [("type", Value.string "Note")] }, none) :=
  ⟨(unknown_fallback sampleVocab sampleURL sampleManager
      [("next", Value.array [Value.number 1, Value.bool true])] []
      (Value.array [Value.number 1, Value.bool true])).1 rfl
      (fun s u hv => by simp at hv) (fun o hv => by simp at hv),
   (unknown_fallback sampleVocab sampleURL sampleManager
      [("prev", Value.string "not-a-url")] [] (Value.string "not-a-url")).2.1 rfl
      (fun s u hv hu => by
        cases hv
        cases hu
        rfl)
      (fun o hv => by simp at hv),
   (unknown_fallback sampleVocab sampleURL sampleManager
      [("following", Value.object [("type", Value.string "Note")])] []
      (Value.object [("type", Value.string "Note")])).2.2 rfl
      (fun s u hv => by simp at hv)
      (fun o hv => by
        cases hv
        decide)⟩

/-- C4. The error result of the three property resolvers is nil on every input map and alias
map, whatever the candidate deserializers and the URL parser return. -/
theorem resolver_never_errors (vocab : Vocab) (url : NetURL) (mgr : Manager vocab) (m : JsonMap)
    (aliasMap : AliasMap) :
    ((propertynext.DeserializeNextProperty url mgr m aliasMap).2 = none) ∧
    ((propertyprev.DeserializePrevProperty url mgr m aliasMap).2 = none) ∧
    ((propertyfollowing.DeserializeFollowingProperty url mgr m aliasMap).2 = none) := by
  refine ⟨?_, ?_, ?_⟩
  · exact (propertynext.next_result url mgr m aliasMap).1
  · exact (propertyprev.prev_result url mgr m aliasMap).1
  · exact (propertyfollowing.following_result url mgr m aliasMap).1


/-- C5 (IRI scheme requirement). For a string `s` under the lookup key: if `url.Parse s`
succeeds with a non-empty scheme the property holds that URL as its IRI and nothing else (the
result does not depend on the candidate deserializers, none is tried); otherwise it holds `s`
verbatim as its unknown value; hence it is IRI-valued iff parsing succeeds with a non-empty
scheme. With the sample parser, "https://example.com/x" yields an IRI-valued property and
"not-a-url" an unknown-valued one. -/
theorem iri_scheme_requirement (vocab : Vocab) (url : NetURL) (mgr : Manager vocab) (m : JsonMap)
    (aliasMap : AliasMap) (s : String) :
    (m.lookup (lookupKey aliasMap "next") = some (Value.string s) →
      (∀ u, url.Parse s = Except.ok u → u.Scheme ≠ "" →
        propertynext.DeserializeNextProperty url mgr m aliasMap =
          (some { alias_ := boundAlias aliasMap, iri := some u }, none)) ∧
      ((∀ u, url.Parse s = Except.ok u → u.Scheme = "") →
        propertynext.DeserializeNextProperty url mgr m aliasMap =
          (some { alias_ := boundAlias aliasMap, unknown := Value.string s }, none)) ∧
      (∃ p, propertynext.DeserializeNextProperty url mgr m aliasMap = (some p, none) ∧
        (p.IsIRI = true ↔ ∃ u, url.Parse s = Except.ok u ∧ u.Scheme ≠ ""))) ∧
    (m.lookup (lookupKey aliasMap "prev") = some (Value.string s) →
      (∀ u, url.Parse s = Except.ok u → u.Scheme ≠ "" →
        propertyprev.DeserializePrevProperty url mgr m aliasMap =
          (some { alias_ := boundAlias aliasMap, iri := some u }, none)) ∧
      ((∀ u, url.Parse s = Except.ok u → u.Scheme = "") →
        propertyprev.DeserializePrevProperty url mgr m aliasMap =
          (some { alias_ := boundAlias aliasMap, unknown := Value.string s }, none)) ∧
      (∃ p, propertyprev.DeserializePrevProperty url mgr m aliasMap = (some p, none) ∧
        (p.IsIRI = true ↔ ∃ u, url.Parse s = Except.ok u ∧ u.Scheme ≠ ""))) ∧
    (m.lookup (lookupKey aliasMap "following") = some (Value.string s) →
      (∀ u, url.Parse s = Except.ok u → u.Scheme ≠ "" →
        propertyfollowing.DeserializeFollowingProperty url mgr m aliasMap =
          (some { alias_ := boundAlias aliasMap, iri := some u }, none)) ∧
      ((∀ u, url.Parse s = Except.ok u → u.Scheme = "") →
        propertyfollowing.DeserializeFollowingProperty url mgr m aliasMap =
          (some { alias_ := boundAlias aliasMap, unknown := Value.string s }, none)) ∧
      (∃ p, propertyfollowing.DeserializeFollowingProperty url mgr m aliasMap = (some p, none) ∧
        (p.IsIRI = true ↔ ∃ u, url.Parse s = Except.ok u ∧ u.Scheme ≠ ""))) ∧
    (propertynext.DeserializeNextProperty sampleURL mgr
        [("next", Value.string "https://example.com/x")] [] =
      (some { iri := some { Scheme := "https", full := "https://example.com/x" } }, none) ∧
    propertynext.DeserializeNextProperty sampleURL mgr
        [("next", Value.string "not-a-url")] [] =
      (some { unknown := Value.string "not-a-url" }, none)) ∧
    (propertyprev.DeserializePrevProperty sampleURL mgr
        [("prev", Value.string "https://example.com/x")] [] =
      (some { iri := some { Scheme := "https", full := "https://example.com/x" } }, none) ∧
    propertyprev.DeserializePrevProperty sampleURL mgr
        [("prev", Value.string "not-a-url")] [] =
      (some { unknown := Value.string "not-a-url" }, none)) ∧
    (propertyfollowing.DeserializeFollowingProperty sampleURL mgr
        [("following", Value.string "https://example.com/x")] [] =
      (some { iri := some { Scheme := "https", full := "https://example.com/x" } }, none) ∧
    propertyfollowing.DeserializeFollowingProperty sampleURL mgr
        [("following", Value.string "not-a-url")] [] =
      (some { unknown := Value.string "not-a-url" }, none)) := by
  refine ⟨?_, ?_, ?_, ?_, ?_, ?_⟩
  · intro h
    refine ⟨fun u hu hs => propertynext.next_iri url mgr m aliasMap s u h hu hs,
      fun hn => propertynext.next_string_unknown url mgr m aliasMap s h hn, ?_⟩
    by_cases hp : ∃ u, url.Parse s = Except.ok u ∧ u.Scheme ≠ ""
    · obtain ⟨u, hu, hs⟩ := hp
      refine ⟨_, propertynext.next_iri url mgr m aliasMap s u h hu hs, ?_⟩
      simp only [propertynext.ActivityStreamsNextProperty.IsIRI, Option.isSome_some, true_iff]
      exact ⟨u, hu, hs⟩
    · refine ⟨_, propertynext.next_string_unknown url mgr m aliasMap s h
        (fun u hu => by
          by_contra hne
          exact hp ⟨u, hu, hne⟩), ?_⟩
      simp only [propertynext.ActivityStreamsNextProperty.IsIRI, Option.isSome_none]
      exact ⟨fun hf => Bool.noConfusion hf, fun hq => absurd hq hp⟩
  · intro h
    refine ⟨fun u hu hs => propertyprev.prev_iri url mgr m aliasMap s u h hu hs,
      fun hn => propertyprev.prev_string_unknown url mgr m aliasMap s h hn, ?_⟩
    by_cases hp : ∃ u, url.Parse s = Except.ok u ∧ u.Scheme ≠ ""
    · obtain ⟨u, hu, hs⟩ := hp
      refine ⟨_, propertyprev.prev_iri url mgr m aliasMap s u h hu hs, ?_⟩
      simp only [propertyprev.ActivityStreamsPrevProperty.IsIRI, Option.isSome_some, true_iff]
      exact ⟨u, hu, hs⟩
    · refine ⟨_, propertyprev.prev_string_unknown url mgr m aliasMap s h
        (fun u hu => by
          by_contra hne
          exact hp ⟨u, hu, hne⟩), ?_⟩
      simp only [propertyprev.ActivityStreamsPrevProperty.IsIRI, Option.isSome_none]
      exact ⟨fun hf => Bool.noConfusion hf, fun hq => absurd hq hp⟩
  · intro h
    refine ⟨fun u hu hs => propertyfollowing.following_iri url mgr m aliasMap s u h hu hs,
      fun hn => propertyfollowing.following_string_unknown url mgr m aliasMap s h hn, ?_⟩
    by_cases hp : ∃ u, url.Parse s = Except.ok u ∧ u.Scheme ≠ ""
    · obtain ⟨u, hu, hs⟩ := hp
      refine ⟨_, propertyfollowing.following_iri url mgr m aliasMap s u h hu hs, ?_⟩
      simp only [propertyfollowing.ActivityStreamsFollowingProperty.IsIRI, Option.isSome_some, true_iff]
      exact ⟨u, hu, hs⟩
    · refine ⟨_, propertyfollowing.following_string_unknown url mgr m aliasMap s h
        (fun u hu => by
          by_contra hne
          exact hp ⟨u, hu, hne⟩), ?_⟩
      simp only [propertyfollowing.ActivityStreamsFollowingProperty.IsIRI, Option.isSome_none]
      exact ⟨fun hf => Bool.noConfusion hf, fun hq => absurd hq hp⟩
  · exact ⟨rfl, rfl⟩
  · exact ⟨rfl, rfl⟩
  · exact ⟨rfl, rfl⟩

/-- Witness of C5 at the string "https://example.com/x" under the sample parser. -/
theorem iri_scheme_requirement_witness :
    propertynext.DeserializeNextProperty sampleURL sampleManager
        [("next", Value.string "https://example.com/x")] [] =
      (some { iri := some { Scheme := "https", full := "https://example.com/x" } }, none) :=
  ((iri_scheme_requirement sampleVocab sampleURL sampleManager
      [("next", Value.string "https://example.com/x")] [] "https://example.com/x").1 rfl).1
    { Scheme := "https", full := "https://example.com/x" } rfl (by decide)

/-- C6 (key resolution). The resolver returns no property exactly when the input map has no
entry under `lookupKey`, and then it returns no error either; `lookupKey` is `alias:name` when
the alias map binds the vocabulary URI to a non-empty alias and the bare name otherwise. In
particular, under a non-empty alias a map without the prefixed key yields no property, whatever
it stores under the bare name. -/
theorem key_resolution (vocab : Vocab) (url : NetURL) (mgr : Manager vocab) (m : JsonMap)
    (aliasMap : AliasMap) :
    (((propertynext.DeserializeNextProperty url mgr m aliasMap).1 = none ↔
        m.lookup (lookupKey aliasMap "next") = none) ∧
      (m.lookup (lookupKey aliasMap "next") = none →
        propertynext.DeserializeNextProperty url mgr m aliasMap = (none, none)) ∧
      (∀ a, aliasMap.lookup vocabURI = some a → a ≠ "" →
        lookupKey aliasMap "next" = a ++ ":" ++ "next") ∧
      (aliasMap.lookup vocabURI = none ∨ aliasMap.lookup vocabURI = some "" →
        lookupKey aliasMap "next" = "next") ∧
      (∀ a, aliasMap.lookup vocabURI = some a → a ≠ "" →
        m.lookup (a ++ ":" ++ "next") = none →
        propertynext.DeserializeNextProperty url mgr m aliasMap = (none, none))) ∧
    (((propertyprev.DeserializePrevProperty url mgr m aliasMap).1 = none ↔
        m.lookup (lookupKey aliasMap "prev") = none) ∧
      (m.lookup (lookupKey aliasMap "prev") = none →
        propertyprev.DeserializePrevProperty url mgr m aliasMap = (none, none)) ∧
      (∀ a, aliasMap.lookup vocabURI = some a → a ≠ "" →
        lookupKey aliasMap "prev" = a ++ ":" ++ "prev") ∧
      (aliasMap.lookup vocabURI = none ∨ aliasMap.lookup vocabURI = some "" →
        lookupKey aliasMap "prev" = "prev") ∧
      (∀ a, aliasMap.lookup vocabURI = some a → a ≠ "" →
        m.lookup (a ++ ":" ++ "prev") = none →
        propertyprev.DeserializePrevProperty url mgr m aliasMap = (none, none))) ∧
    (((propertyfollowing.DeserializeFollowingProperty url mgr m aliasMap).1 = none ↔
        m.lookup (lookupKey aliasMap "following") = none) ∧
      (m.lookup (lookupKey aliasMap "following") = none →
        propertyfollowing.DeserializeFollowingProperty url mgr m aliasMap = (none, none)) ∧
      (∀ a, aliasMap.lookup vocabURI = some a → a ≠ "" →
        lookupKey aliasMap "following" = a ++ ":" ++ "following") ∧
      (aliasMap.lookup vocabURI = none ∨ aliasMap.lookup vocabURI = some "" →
        lookupKey aliasMap "following" = "following") ∧
      (∀ a, aliasMap.lookup vocabURI = some a → a ≠ "" →
        m.lookup (a ++ ":" ++ "following") = none →
        propertyfollowing.DeserializeFollowingProperty url mgr m aliasMap = (none, none))) := by
  refine ⟨?_, ?_, ?_⟩
  · refine ⟨⟨fun hn => ?_, fun hl => ?_⟩,
      fun hl => propertynext.next_absent url mgr m aliasMap hl, fun a ha hne => ?_, fun hb => ?_,
      fun a ha hne hl => ?_⟩
    · cases hv : m.lookup (lookupKey aliasMap "next") with
      | none => rfl
      | some v =>
        obtain ⟨p, hp⟩ := propertynext.next_present url mgr m aliasMap v hv
        rw [hp] at hn
        cases hn
    · rw [propertynext.next_absent url mgr m aliasMap hl]
    · simp [lookupKey, boundAlias, ha, hne]
    · rcases hb with hb | hb <;> simp [lookupKey, boundAlias, hb]
    · apply propertynext.next_absent
      simpa [lookupKey, boundAlias, ha, hne] using hl
  · refine ⟨⟨fun hn => ?_, fun hl => ?_⟩,
      fun hl => propertyprev.prev_absent url mgr m aliasMap hl, fun a ha hne => ?_, fun hb => ?_,
      fun a ha hne hl => ?_⟩
    · cases hv : m.lookup (lookupKey aliasMap "prev") with
      | none => rfl
      | some v =>
        obtain ⟨p, hp⟩ := propertyprev.prev_present url mgr m aliasMap v hv
        rw [hp] at hn
        cases hn
    · rw [propertyprev.prev_absent url mgr m aliasMap hl]
    · simp [lookupKey, boundAlias, ha, hne]
    · rcases hb with hb | hb <;> simp [lookupKey, boundAlias, hb]
    · apply propertyprev.prev_absent
      simpa [lookupKey, boundAlias, ha, hne] using hl
  · refine ⟨⟨fun hn => ?_, fun hl => ?_⟩,
      fun hl => propertyfollowing.following_absent url mgr m aliasMap hl, fun a ha hne => ?_, fun hb => ?_,
      fun a ha hne hl => ?_⟩
    · cases hv : m.lookup (lookupKey aliasMap "following") with
      | none => rfl
      | some v =>
        obtain ⟨p, hp⟩ := propertyfollowing.following_present url mgr m aliasMap v hv
        rw [hp] at hn
        cases hn
    · rw [propertyfollowing.following_absent url mgr m aliasMap hl]
    · simp [lookupKey, boundAlias, ha, hne]
    · rcases hb with hb | hb <;> simp [lookupKey, boundAlias, hb]
    · apply propertyfollowing.following_absent
      simpa [lookupKey, boundAlias, ha, hne] using hl

/-- Witness of C6: under the alias "as" a value stored under the bare name is ignored. -/
theorem key_resolution_witness :
    propertynext.DeserializeNextProperty sampleURL sampleManager
        [("next", Value.number 1)] [(vocabURI, "as")] = (none, none) :=
  (key_resolution sampleVocab sampleURL sampleManager
      [("next", Value.number 1)] [(vocabURI, "as")]).1.2.2.2.2 "as" rfl (by decide) rfl


/-- C7 (mutual exclusion). From every state of a "next", "prev" or "following" property and
for every non-nil value, after a typed setter or `SetIRI` the Is-predicate of that kind is
true, every other Is-predicate (IsIRI included) is false, the getter of that kind returns the
value, `HasAny` is true and the unknown value is cleared. -/
theorem setter_mutual_exclusion (vocab : Vocab)
    (next_p : propertynext.ActivityStreamsNextProperty vocab)
    (prev_p : propertyprev.ActivityStreamsPrevProperty vocab)
    (following_p : propertyfollowing.ActivityStreamsFollowingProperty vocab)
    (vCollection : vocab.ActivityStreamsCollection)
    (vCollectionPage : vocab.ActivityStreamsCollectionPage)
    (vLink : vocab.ActivityStreamsLink) (vMention : vocab.ActivityStreamsMention)
    (vOrderedCollection : vocab.ActivityStreamsOrderedCollection)
    (vOrderedCollectionPage : vocab.ActivityStreamsOrderedCollectionPage) (u : URL) :
    (((next_p.SetActivityStreamsCollectionPage (some vCollectionPage)).IsActivityStreamsCollectionPage = true ∧
      (next_p.SetActivityStreamsCollectionPage (some vCollectionPage)).IsActivityStreamsLink = false ∧
      (next_p.SetActivityStreamsCollectionPage (some vCollectionPage)).IsActivityStreamsMention = false ∧
      (next_p.SetActivityStreamsCollectionPage (some vCollectionPage)).IsActivityStreamsOrderedCollectionPage = false ∧
      (next_p.SetActivityStreamsCollectionPage (some vCollectionPage)).IsIRI = false ∧
      (next_p.SetActivityStreamsCollectionPage (some vCollectionPage)).GetActivityStreamsCollectionPage = some vCollectionPage ∧
      (next_p.SetActivityStreamsCollectionPage (some vCollectionPage)).HasAny = true ∧
      (next_p.SetActivityStreamsCollectionPage (some vCollectionPage)).unknown = Value.nil) ∧
    ((next_p.SetActivityStreamsLink (some vLink)).IsActivityStreamsLink = true ∧
      (next_p.SetActivityStreamsLink (some vLink)).IsActivityStreamsCollectionPage = false ∧
      (next_p.SetActivityStreamsLink (some vLink)).IsActivityStreamsMention = false ∧
      (next_p.SetActivityStreamsLink (some vLink)).IsActivityStreamsOrderedCollectionPage = false ∧
      (next_p.SetActivityStreamsLink (some vLink)).IsIRI = false ∧
      (next_p.SetActivityStreamsLink (some vLink)).GetActivityStreamsLink = some vLink ∧
      (next_p.SetActivityStreamsLink (some vLink)).HasAny = true ∧
      (next_p.SetActivityStreamsLink (some vLink)).unknown = Value.nil) ∧
    ((next_p.SetActivityStreamsMention (some vMention)).IsActivityStreamsMention = true ∧
      (next_p.SetActivityStreamsMention (some vMention)).IsActivityStreamsCollectionPage = false ∧
      (next_p.SetActivityStreamsMention (some vMention)).IsActivityStreamsLink = false ∧
      (next_p.SetActivityStreamsMention (some vMention)).IsActivityStreamsOrderedCollectionPage = false ∧
      (next_p.SetActivityStreamsMention (some vMention)).IsIRI = false ∧
      (next_p.SetActivityStreamsMention (some vMention)).GetActivityStreamsMention = some vMention ∧
      (next_p.SetActivityStreamsMention (some vMention)).HasAny = true ∧
      (next_p.SetActivityStreamsMention (some vMention)).unknown = Value.nil) ∧
    ((next_p.SetActivityStreamsOrderedCollectionPage (some vOrderedCollectionPage)).IsActivityStreamsOrderedCollectionPage = true ∧
      (next_p.SetActivityStreamsOrderedCollectionPage (some vOrderedCollectionPage)).IsActivityStreamsCollectionPage = false ∧
      (next_p.SetActivityStreamsOrderedCollectionPage (some vOrderedCollectionPage)).IsActivityStreamsLink = false ∧
      (next_p.SetActivityStreamsOrderedCollectionPage (some vOrderedCollectionPage)).IsActivityStreamsMention = false ∧
      (next_p.SetActivityStreamsOrderedCollectionPage (some vOrderedCollectionPage)).IsIRI = false ∧
      (next_p.SetActivityStreamsOrderedCollectionPage (some vOrderedCollectionPage)).GetActivityStreamsOrderedCollectionPage = some vOrderedCollectionPage ∧
      (next_p.SetActivityStreamsOrderedCollectionPage (some vOrderedCollectionPage)).HasAny = true ∧
      (next_p.SetActivityStreamsOrderedCollectionPage (some vOrderedCollectionPage)).unknown = Value.nil) ∧
    ((next_p.SetIRI (some u)).IsIRI = true ∧
      (next_p.SetIRI (some u)).IsActivityStreamsCollectionPage = false ∧
      (next_p.SetIRI (some u)).IsActivityStreamsLink = false ∧
      (next_p.SetIRI (some u)).IsActivityStreamsMention = false ∧
      (next_p.SetIRI (some u)).IsActivityStreamsOrderedCollectionPage = false ∧
      (next_p.SetIRI (some u)).GetIRI = some u ∧
      (next_p.SetIRI (some u)).HasAny = true ∧
      (next_p.SetIRI (some u)).unknown = Value.nil)) ∧
    (((prev_p.SetActivityStreamsCollectionPage (some vCollectionPage)).IsActivityStreamsCollectionPage = true ∧
      (prev_p.SetActivityStreamsCollectionPage (some vCollectionPage)).IsActivityStreamsLink = false ∧
      (prev_p.SetActivityStreamsCollectionPage (some vCollectionPage)).IsActivityStreamsMention = false ∧
      (prev_p.SetActivityStreamsCollectionPage (some vCollectionPage)).IsActivityStreamsOrderedCollectionPage = false ∧
      (prev_p.SetActivityStreamsCollectionPage (some vCollectionPage)).IsIRI = false ∧
      (prev_p.SetActivityStreamsCollectionPage (some vCollectionPage)).GetActivityStreamsCollectionPage = some vCollectionPage ∧
      (prev_p.SetActivityStreamsCollectionPage (some vCollectionPage)).HasAny = true ∧
      (prev_p.SetActivityStreamsCollectionPage (some vCollectionPage)).unknown = Value.nil) ∧
    ((prev_p.SetActivityStreamsLink (some vLink)).IsActivityStreamsLink = true ∧
      (prev_p.SetActivityStreamsLink (some vLink)).IsActivityStreamsCollectionPage = false ∧
      (prev_p.SetActivityStreamsLink (some vLink)).IsActivityStreamsMention = false ∧
      (prev_p.SetActivityStreamsLink (some vLink)).IsActivityStreamsOrderedCollectionPage = false ∧
      (prev_p.SetActivityStreamsLink (some vLink)).IsIRI = false ∧
      (prev_p.SetActivityStreamsLink (some vLink)).GetActivityStreamsLink = some vLink ∧
      (prev_p.SetActivityStreamsLink (some vLink)).HasAny = true ∧
      (prev_p.SetActivityStreamsLink (some vLink)).unknown = Value.nil) ∧
    ((prev_p.SetActivityStreamsMention (some vMention)).IsActivityStreamsMention = true ∧
      (prev_p.SetActivityStreamsMention (some vMention)).IsActivityStreamsCollectionPage = false ∧
      (prev_p.SetActivityStreamsMention (some vMention)).IsActivityStreamsLink = false ∧
      (prev_p.SetActivityStreamsMention (some vMention)).IsActivityStreamsOrderedCollectionPage = false ∧
      (prev_p.SetActivityStreamsMention (some vMention)).IsIRI = false ∧
      (prev_p.SetActivityStreamsMention (some vMention)).GetActivityStreamsMention = some vMention ∧
      (prev_p.SetActivityStreamsMention (some vMention)).HasAny = true ∧
      (prev_p.SetActivityStreamsMention (some vMention)).unknown = Value.nil) ∧
    ((prev_p.SetActivityStreamsOrderedCollectionPage (some vOrderedCollectionPage)).IsActivityStreamsOrderedCollectionPage = true ∧
      (prev_p.SetActivityStreamsOrderedCollectionPage (some vOrderedCollectionPage)).IsActivityStreamsCollectionPage = false ∧
      (prev_p.SetActivityStreamsOrderedCollectionPage (some vOrderedCollectionPage)).IsActivityStreamsLink = false ∧
      (prev_p.SetActivityStreamsOrderedCollectionPage (some vOrderedCollectionPage)).IsActivityStreamsMention = false ∧
      (prev_p.SetActivityStreamsOrderedCollectionPage (some vOrderedCollectionPage)).IsIRI = false ∧
      (prev_p.SetActivityStreamsOrderedCollectionPage (some vOrderedCollectionPage)).GetActivityStreamsOrderedCollectionPage = some vOrderedCollectionPage ∧
      (prev_p.SetActivityStreamsOrderedCollectionPage (some vOrderedCollectionPage)).HasAny = true ∧
      (prev_p.SetActivityStreamsOrderedCollectionPage (some vOrderedCollectionPage)).unknown = Value.nil) ∧
    ((prev_p.SetIRI (some u)).IsIRI = true ∧
      (prev_p.SetIRI (some u)).IsActivityStreamsCollectionPage = false ∧
      (prev_p.SetIRI (some u)).IsActivityStreamsLink = false ∧
      (prev_p.SetIRI (some u)).IsActivityStreamsMention = false ∧
      (prev_p.SetIRI (some u)).IsActivityStreamsOrderedCollectionPage = false ∧
      (prev_p.SetIRI (some u)).GetIRI = some u ∧
      (prev_p.SetIRI (some u)).HasAny = true ∧
      (prev_p.SetIRI (some u)).unknown = Value.nil)) ∧
    (((following_p.SetActivityStreamsOrderedCollection (some vOrderedCollection)).IsActivityStreamsOrderedCollection = true ∧
      (following_p.SetActivityStreamsOrderedCollection (some vOrderedCollection)).IsActivityStreamsCollection = false ∧
      (following_p.SetActivityStreamsOrderedCollection (some vOrderedCollection)).IsActivityStreamsCollectionPage = false ∧
      (following_p.SetActivityStreamsOrderedCollection (some vOrderedCollection)).IsActivityStreamsOrderedCollectionPage = false ∧
      (following_p.SetActivityStreamsOrderedCollection (some vOrderedCollection)).IsIRI = false ∧
      (following_p.SetActivityStreamsOrderedCollection (some vOrderedCollection)).GetActivityStreamsOrderedCollection = some vOrderedCollection ∧
      (following_p.SetActivityStreamsOrderedCollection (some vOrderedCollection)).HasAny = true ∧
      (following_p.SetActivityStreamsOrderedCollection (some vOrderedCollection)).unknown = Value.nil) ∧
    ((following_p.SetActivityStreamsCollection (some vCollection)).IsActivityStreamsCollection = true ∧
      (following_p.SetActivityStreamsCollection (some vCollection)).IsActivityStreamsOrderedCollection = false ∧
      (following_p.SetActivityStreamsCollection (some vCollection)).IsActivityStreamsCollectionPage = false ∧
      (following_p.SetActivityStreamsCollection (some vCollection)).IsActivityStreamsOrderedCollectionPage = false ∧
      (following_p.SetActivityStreamsCollection (some vCollection)).IsIRI = false ∧
      (following_p.SetActivityStreamsCollection (some vCollection)).GetActivityStreamsCollection = some vCollection ∧
      (following_p.SetActivityStreamsCollection (some vCollection)).HasAny = true ∧
      (following_p.SetActivityStreamsCollection (some vCollection)).unknown = Value.nil) ∧
    ((following_p.SetActivityStreamsCollectionPage (some vCollectionPage)).IsActivityStreamsCollectionPage = true ∧
      (following_p.SetActivityStreamsCollectionPage (some vCollectionPage)).IsActivityStreamsOrderedCollection = false ∧
      (following_p.SetActivityStreamsCollectionPage (some vCollectionPage)).IsActivityStreamsCollection = false ∧
      (following_p.SetActivityStreamsCollectionPage (some vCollectionPage)).IsActivityStreamsOrderedCollectionPage = false ∧
      (following_p.SetActivityStreamsCollectionPage (some vCollectionPage)).IsIRI = false ∧
      (following_p.SetActivityStreamsCollectionPage (some vCollectionPage)).GetActivityStreamsCollectionPage = some vCollectionPage ∧
      (following_p.SetActivityStreamsCollectionPage (some vCollectionPage)).HasAny = true ∧
      (following_p.SetActivityStreamsCollectionPage (some vCollectionPage)).unknown = Value.nil) ∧
    ((following_p.SetActivityStreamsOrderedCollectionPage (some vOrderedCollectionPage)).IsActivityStreamsOrderedCollectionPage = true ∧
      (following_p.SetActivityStreamsOrderedCollectionPage (some vOrderedCollectionPage)).IsActivityStreamsOrderedCollection = false ∧
      (following_p.SetActivityStreamsOrderedCollectionPage (some vOrderedCollectionPage)).IsActivityStreamsCollection = false ∧
      (following_p.SetActivityStreamsOrderedCollectionPage (some vOrderedCollectionPage)).IsActivityStreamsCollectionPage = false ∧
      (following_p.SetActivityStreamsOrderedCollectionPage (some vOrderedCollectionPage)).IsIRI = false ∧
      (following_p.SetActivityStreamsOrderedCollectionPage (some vOrderedCollectionPage)).GetActivityStreamsOrderedCollectionPage = some vOrderedCollectionPage ∧
      (following_p.SetActivityStreamsOrderedCollectionPage (some vOrderedCollectionPage)).HasAny = true ∧
      (following_p.SetActivityStreamsOrderedCollectionPage (some vOrderedCollectionPage)).unknown = Value.nil) ∧
    ((following_p.SetIRI (some u)).IsIRI = true ∧
      (following_p.SetIRI (some u)).IsActivityStreamsOrderedCollection = false ∧
      (following_p.SetIRI (some u)).IsActivityStreamsCollection = false ∧
      (following_p.SetIRI (some u)).IsActivityStreamsCollectionPage = false ∧
      (following_p.SetIRI (some u)).IsActivityStreamsOrderedCollectionPage = false ∧
      (following_p.SetIRI (some u)).GetIRI = some u ∧
      (following_p.SetIRI (some u)).HasAny = true ∧
      (following_p.SetIRI (some u)).unknown = Value.nil)) := by
  refine ⟨?_, ?_, ?_⟩
  · exact ⟨⟨rfl, rfl, rfl, rfl, rfl, rfl, rfl, rfl⟩, ⟨rfl, rfl, rfl, rfl, rfl, rfl, rfl, rfl⟩, ⟨rfl, rfl, rfl, rfl, rfl, rfl, rfl, rfl⟩, ⟨rfl, rfl, rfl, rfl, rfl, rfl, rfl, rfl⟩, ⟨rfl, rfl, rfl, rfl, rfl, rfl, rfl, rfl⟩⟩
  · exact ⟨⟨rfl, rfl, rfl, rfl, rfl, rfl, rfl, rfl⟩, ⟨rfl, rfl, rfl, rfl, rfl, rfl, rfl, rfl⟩, ⟨rfl, rfl, rfl, rfl, rfl, rfl, rfl, rfl⟩, ⟨rfl, rfl, rfl, rfl, rfl, rfl, rfl, rfl⟩, ⟨rfl, rfl, rfl, rfl, rfl, rfl, rfl, rfl⟩⟩
  · exact ⟨⟨rfl, rfl, rfl, rfl, rfl, rfl, rfl, rfl⟩, ⟨rfl, rfl, rfl, rfl, rfl, rfl, rfl, rfl⟩, ⟨rfl, rfl, rfl, rfl, rfl, rfl, rfl, rfl⟩, ⟨rfl, rfl, rfl, rfl, rfl, rfl, rfl, rfl⟩, ⟨rfl, rfl, rfl, rfl, rfl, rfl, rfl, rfl⟩⟩

/-- C8 (at-most-one invariant). In every state reached from the new property or from a
property returned by the resolver through any sequence of typed setters, `SetIRI` and `Clear`
(with any arguments, nil included), at most one of the four typed members, the IRI and the
unknown value is non-nil. -/
theorem at_most_one_set (vocab : Vocab) (url : NetURL) (mgr : Manager vocab) (m : JsonMap)
    (aliasMap : AliasMap)
    (next_ops : List (propertynext.Mutation vocab))
    (prev_ops : List (propertyprev.Mutation vocab))
    (following_ops : List (propertyfollowing.Mutation vocab)) :
    ((next_ops.foldl propertynext.Mutation.apply
        (propertynext.NewActivityStreamsNextProperty : propertynext.ActivityStreamsNextProperty vocab)).nonNilCount ≤ 1 ∧
      ∀ p, (propertynext.DeserializeNextProperty url mgr m aliasMap).1 = some p →
        (next_ops.foldl propertynext.Mutation.apply p).nonNilCount ≤ 1) ∧
    ((prev_ops.foldl propertyprev.Mutation.apply
        (propertyprev.NewActivityStreamsPrevProperty : propertyprev.ActivityStreamsPrevProperty vocab)).nonNilCount ≤ 1 ∧
      ∀ p, (propertyprev.DeserializePrevProperty url mgr m aliasMap).1 = some p →
        (prev_ops.foldl propertyprev.Mutation.apply p).nonNilCount ≤ 1) ∧
    ((following_ops.foldl propertyfollowing.Mutation.apply
        (propertyfollowing.NewActivityStreamsFollowingProperty : propertyfollowing.ActivityStreamsFollowingProperty vocab)).nonNilCount ≤ 1 ∧
      ∀ p, (propertyfollowing.DeserializeFollowingProperty url mgr m aliasMap).1 = some p →
        (following_ops.foldl propertyfollowing.Mutation.apply p).nonNilCount ≤ 1) := by
  refine ⟨?_, ?_, ?_⟩
  · refine ⟨propertynext.next_run_count next_ops _ (Nat.zero_le 1), fun p hp => ?_⟩
    exact propertynext.next_run_count next_ops p
      ((propertynext.next_result url mgr m aliasMap).2 p hp).1
  · refine ⟨propertyprev.prev_run_count prev_ops _ (Nat.zero_le 1), fun p hp => ?_⟩
    exact propertyprev.prev_run_count prev_ops p
      ((propertyprev.prev_result url mgr m aliasMap).2 p hp).1
  · refine ⟨propertyfollowing.following_run_count following_ops _ (Nat.zero_le 1), fun p hp => ?_⟩
    exact propertyfollowing.following_run_count following_ops p
      ((propertyfollowing.following_result url mgr m aliasMap).2 p hp).1

/-- Witness of C8: the property resolved from the number 42, then `SetIRI`, a typed setter
with a nil argument, and `SetActivityStreamsLink`. -/
theorem at_most_one_set_witness :
    (List.foldl propertynext.Mutation.apply
      ({ unknown := Value.number 42 } : propertynext.ActivityStreamsNextProperty sampleVocab)
      [propertynext.Mutation.SetIRI (some { Scheme := "https", full := "https://example.com/x" }),
       propertynext.Mutation.SetActivityStreamsMention none,
       propertynext.Mutation.SetActivityStreamsLink
         (some [("type", Value.string "Link")])]).nonNilCount ≤ 1 :=
  (at_most_one_set sampleVocab sampleURL sampleManager [("next", Value.number 42)] []
    [propertynext.Mutation.SetIRI (some { Scheme := "https", full := "https://example.com/x" }),
     propertynext.Mutation.SetActivityStreamsMention none,
     propertynext.Mutation.SetActivityStreamsLink (some [("type", Value.string "Link")])]
    [] []).1.2 _ rfl

/-- C9 as stated fails: the property resolved from the number 42 holds it as its unknown
value, yet `HasAny` is false. -/
theorem hasAny_unknown_counterexample :
    ∃ p, propertynext.DeserializeNextProperty sampleURL sampleManager
        [("next", Value.number 42)] [] = (some p, none) ∧
      p.unknown = Value.number 42 ∧ p.unknown.isNil = false ∧ p.HasAny = false :=
  ⟨_, rfl, rfl, rfl, rfl⟩

/-- C9 (amended). `HasAny` is true iff a typed alternative or an IRI is set; the unknown
value does not count: a property that holds only an unknown value, as the resolver returns for
the fallback, has `HasAny` false. -/
theorem hasAny_iff_typed_or_iri (vocab : Vocab)
    (next_p : propertynext.ActivityStreamsNextProperty vocab)
    (prev_p : propertyprev.ActivityStreamsPrevProperty vocab)
    (following_p : propertyfollowing.ActivityStreamsFollowingProperty vocab)
    (a : String) (v : Value) :
    ((next_p.HasAny = true ↔
        (next_p.IsActivityStreamsCollectionPage = true ∨
          next_p.IsActivityStreamsLink = true ∨
          next_p.IsActivityStreamsMention = true ∨
          next_p.IsActivityStreamsOrderedCollectionPage = true ∨
          next_p.IsIRI = true)) ∧
      ({ alias_ := a, unknown := v } : propertynext.ActivityStreamsNextProperty vocab).HasAny = false) ∧
    ((prev_p.HasAny = true ↔
        (prev_p.IsActivityStreamsCollectionPage = true ∨
          prev_p.IsActivityStreamsLink = true ∨
          prev_p.IsActivityStreamsMention = true ∨
          prev_p.IsActivityStreamsOrderedCollectionPage = true ∨
          prev_p.IsIRI = true)) ∧
      ({ alias_ := a, unknown := v } : propertyprev.ActivityStreamsPrevProperty vocab).HasAny = false) ∧
    ((following_p.HasAny = true ↔
        (following_p.IsActivityStreamsOrderedCollection = true ∨
          following_p.IsActivityStreamsCollection = true ∨
          following_p.IsActivityStreamsCollectionPage = true ∨
          following_p.IsActivityStreamsOrderedCollectionPage = true ∨
          following_p.IsIRI = true)) ∧
      ({ alias_ := a, unknown := v } : propertyfollowing.ActivityStreamsFollowingProperty vocab).HasAny = false) := by
  refine ⟨?_, ?_, ?_⟩
  · refine ⟨?_, rfl⟩
    simp [propertynext.ActivityStreamsNextProperty.HasAny,
      propertynext.ActivityStreamsNextProperty.IsIRI, or_assoc]
  · refine ⟨?_, rfl⟩
    simp [propertyprev.ActivityStreamsPrevProperty.HasAny,
      propertyprev.ActivityStreamsPrevProperty.IsIRI, or_assoc]
  · refine ⟨?_, rfl⟩
    simp [propertyfollowing.ActivityStreamsFollowingProperty.HasAny,
      propertyfollowing.ActivityStreamsFollowingProperty.IsIRI, or_assoc]

/-- C10. After `Clear`, from every state, the four typed Is-predicates and `IsIRI` are
false, `HasAny` is false, the unknown value is unset, `Serialize` returns a nil value and no
error, and the alias is unchanged. -/
theorem clear_unsets_everything (vocab : Vocab)
    (next_p : propertynext.ActivityStreamsNextProperty vocab)
    (prev_p : propertyprev.ActivityStreamsPrevProperty vocab)
    (following_p : propertyfollowing.ActivityStreamsFollowingProperty vocab) :
    (next_p.Clear.IsActivityStreamsCollectionPage = false ∧
      next_p.Clear.IsActivityStreamsLink = false ∧
      next_p.Clear.IsActivityStreamsMention = false ∧
      next_p.Clear.IsActivityStreamsOrderedCollectionPage = false ∧
      next_p.Clear.IsIRI = false ∧
      next_p.Clear.HasAny = false ∧
      next_p.Clear.unknown = Value.nil ∧
      next_p.Clear.Serialize = (Value.nil, none) ∧
      next_p.Clear.alias_ = next_p.alias_) ∧
    (prev_p.Clear.IsActivityStreamsCollectionPage = false ∧
      prev_p.Clear.IsActivityStreamsLink = false ∧
      prev_p.Clear.IsActivityStreamsMention = false ∧
      prev_p.Clear.IsActivityStreamsOrderedCollectionPage = false ∧
      prev_p.Clear.IsIRI = false ∧
      prev_p.Clear.HasAny = false ∧
      prev_p.Clear.unknown = Value.nil ∧
      prev_p.Clear.Serialize = (Value.nil, none) ∧
      prev_p.Clear.alias_ = prev_p.alias_) ∧
    (following_p.Clear.IsActivityStreamsOrderedCollection = false ∧
      following_p.Clear.IsActivityStreamsCollection = false ∧
      following_p.Clear.IsActivityStreamsCollectionPage = false ∧
      following_p.Clear.IsActivityStreamsOrderedCollectionPage = false ∧
      following_p.Clear.IsIRI = false ∧
      following_p.Clear.HasAny = false ∧
      following_p.Clear.unknown = Value.nil ∧
      following_p.Clear.Serialize = (Value.nil, none) ∧
      following_p.Clear.alias_ = following_p.alias_) := by
  refine ⟨?_, ?_, ?_⟩
  · exact ⟨rfl, rfl, rfl, rfl, rfl, rfl, rfl, rfl, rfl⟩
  · exact ⟨rfl, rfl, rfl, rfl, rfl, rfl, rfl, rfl, rfl⟩
  · exact ⟨rfl, rfl, rfl, rfl, rfl, rfl, rfl, rfl, rfl⟩


/-! ## Claims about the vocabulary types -/

/-- C11 (type discriminator). When every declared property deserializer succeeds,
`DeserializeLink` (resp. `DeserializeRelationship`) returns an error iff the map has no "type"
key, or its value is neither a string nor an array, or it is a string that differs from "Link"
(resp. "Relationship") once the alias prefix is removed, or it is an array none of whose string
elements equals that name once the alias prefix is removed; equivalently, iff the "type" value
does not name the type (`namesType`). On error no object is returned. The alias prefix is
`alias:` when the alias map binds the vocabulary URI to `alias`, and empty when unbound. -/
theorem type_discriminator (P : PropertyType) (mgr : PropertyManager P) (m : JsonMap)
    (aliasMap : AliasMap) :
    ((∀ n ∈ typelink.propertyNames, (mgr n m aliasMap).2 = none) →
      (((typelink.DeserializeLink mgr m aliasMap).2 ≠ none ↔
          (m.lookup "type" = none ∨
            (∃ tv, m.lookup "type" = some tv ∧
              (∀ s, tv ≠ Value.string s) ∧ (∀ xs, tv ≠ Value.array xs)) ∨
            (∃ s, m.lookup "type" = some (Value.string s) ∧
              strings.TrimPrefix s (typeAliasPrefix aliasMap) ≠ "Link") ∨
            (∃ xs, m.lookup "type" = some (Value.array xs) ∧
              ∀ s, Value.string s ∈ xs →
                strings.TrimPrefix s (typeAliasPrefix aliasMap) ≠ "Link"))) ∧
        ((typelink.DeserializeLink mgr m aliasMap).2 ≠ none ↔
          ∀ tv, m.lookup "type" = some tv →
            namesType "Link" (typeAliasPrefix aliasMap) tv = false) ∧
        ((typelink.DeserializeLink mgr m aliasMap).2 ≠ none →
          (typelink.DeserializeLink mgr m aliasMap).1 = none))) ∧
    ((∀ n ∈ typerelationship.propertyNames, (mgr n m aliasMap).2 = none) →
      (((typerelationship.DeserializeRelationship mgr m aliasMap).2 ≠ none ↔
          (m.lookup "type" = none ∨
            (∃ tv, m.lookup "type" = some tv ∧
              (∀ s, tv ≠ Value.string s) ∧ (∀ xs, tv ≠ Value.array xs)) ∨
            (∃ s, m.lookup "type" = some (Value.string s) ∧
              strings.TrimPrefix s (typeAliasPrefix aliasMap) ≠ "Relationship") ∨
            (∃ xs, m.lookup "type" = some (Value.array xs) ∧
              ∀ s, Value.string s ∈ xs →
                strings.TrimPrefix s (typeAliasPrefix aliasMap) ≠ "Relationship"))) ∧
        ((typerelationship.DeserializeRelationship mgr m aliasMap).2 ≠ none ↔
          ∀ tv, m.lookup "type" = some tv →
            namesType "Relationship" (typeAliasPrefix aliasMap) tv = false) ∧
        ((typerelationship.DeserializeRelationship mgr m aliasMap).2 ≠ none →
          (typerelationship.DeserializeRelationship mgr m aliasMap).1 = none))) := by
  refine ⟨?_, ?_⟩
  · intro hp
    have hfe := (firstPropertyError_eq_none_iff mgr m aliasMap typelink.propertyNames).2 hp
    have key : (typelink.DeserializeLink mgr m aliasMap).2 ≠ none ↔
        ∀ tv, m.lookup "type" = some tv →
          namesType "Link" (typeAliasPrefix aliasMap) tv = false := by
      constructor
      · intro he tv htv
        cases hn : namesType "Link" (typeAliasPrefix aliasMap) tv with
        | false => rfl
        | true =>
          rw [typelink.link_success mgr m aliasMap tv htv hn hfe] at he
          exact absurd rfl he
      · intro hr
        obtain ⟨e, he⟩ := typelink.link_deserialize_reject mgr m aliasMap hr
        rw [he]
        simp
    exact ⟨key.trans (type_rejected_iff m "Link" (typeAliasPrefix aliasMap)), key,
      typelink.link_error_no_object mgr m aliasMap⟩
  · intro hp
    have hfe := (firstPropertyError_eq_none_iff mgr m aliasMap typerelationship.propertyNames).2 hp
    have key : (typerelationship.DeserializeRelationship mgr m aliasMap).2 ≠ none ↔
        ∀ tv, m.lookup "type" = some tv →
          namesType "Relationship" (typeAliasPrefix aliasMap) tv = false := by
      constructor
      · intro he tv htv
        cases hn : namesType "Relationship" (typeAliasPrefix aliasMap) tv with
        | false => rfl
        | true =>
          rw [typerelationship.relationship_success mgr m aliasMap tv htv hn hfe] at he
          exact absurd rfl he
      · intro hr
        obtain ⟨e, he⟩ := typerelationship.relationship_deserialize_reject mgr m aliasMap hr
        rw [he]
        simp
    exact ⟨key.trans (type_rejected_iff m "Relationship" (typeAliasPrefix aliasMap)), key,
      typerelationship.relationship_error_no_object mgr m aliasMap⟩

/-- Witness of C11: "as:Link" passes under the alias "as", and an array holding "Link"
passes. -/
theorem type_discriminator_witness :
    (typelink.DeserializeLink samplePropertyManager
        [("type", Value.string "as:Link")] [(vocabURI, "as")]).2 = none ∧
    (typerelationship.DeserializeRelationship samplePropertyManager
        [("type", Value.array [Value.string "Object", Value.string "Relationship"])] []).2 =
      none := by
  have h1 := ((type_discriminator sampleProperty samplePropertyManager
    [("type", Value.string "as:Link")] [(vocabURI, "as")]).1
      (fun n _ => by
        simp only [samplePropertyManager]
        split <;> rfl)).2.1
  have h2 := ((type_discriminator sampleProperty samplePropertyManager
    [("type", Value.array [Value.string "Object", Value.string "Relationship"])] []).2
      (fun n _ => by
        simp only [samplePropertyManager]
        split <;> rfl)).2.1
  constructor
  · by_contra hc
    have h3 := h1.1 hc (Value.string "as:Link") rfl
    exact absurd h3 (by decide)
  · by_contra hc
    have h3 := h2.1 hc _ rfl
    exact absurd h3 (by decide)

/-- C12 fails on the code: `DeserializePlace` has no type check. On a map without a "type"
key, and on a map whose "type" is "Link", it returns a Place and no error. -/
theorem place_type_not_validated :
    (typeplace.DeserializePlace samplePropertyManager [] []).2 = none ∧
    (typeplace.DeserializePlace samplePropertyManager [] []).1.isSome = true ∧
    (typeplace.DeserializePlace samplePropertyManager
      [("type", Value.string "Link")] []).2 = none ∧
    (typeplace.DeserializePlace samplePropertyManager
      [("type", Value.string "Link")] []).1.isSome = true :=
  ⟨rfl, rfl, rfl, rfl⟩

/-- C13. When some declared property deserializer returns an error (and, for Link and
Relationship, the "type" value names the type), the object deserializer returns no object
together with the error of the first failing property in declaration order. -/
theorem property_error_aborts (P : PropertyType) (mgr : PropertyManager P) (m : JsonMap)
    (aliasMap : AliasMap) :
    (∀ tv e, m.lookup "type" = some tv →
      namesType "Link" (typeAliasPrefix aliasMap) tv = true →
      firstPropertyError mgr m aliasMap typelink.propertyNames = some e →
      typelink.DeserializeLink mgr m aliasMap = (none, some e)) ∧
    (∀ tv e, m.lookup "type" = some tv →
      namesType "Relationship" (typeAliasPrefix aliasMap) tv = true →
      firstPropertyError mgr m aliasMap typerelationship.propertyNames = some e →
      typerelationship.DeserializeRelationship mgr m aliasMap = (none, some e)) ∧
    (∀ e, firstPropertyError mgr m aliasMap typeplace.propertyNames = some e →
      typeplace.DeserializePlace mgr m aliasMap = (none, some e)) := by
  refine ⟨?_, ?_, ?_⟩
  · intro tv e h1 h2 h3
    exact typelink.link_property_error mgr m aliasMap tv e h1 h2 h3
  · intro tv e h1 h2 h3
    exact typerelationship.relationship_property_error mgr m aliasMap tv e h1 h2 h3
  · intro e h3
    exact typeplace.place_property_error mgr m aliasMap e h3

/-- Witness of C13: the deserializers of "rel" and "href" fail; the error of "href", the
earlier one in declaration order, is returned. -/
theorem property_error_aborts_witness :
    typelink.DeserializeLink (sampleFailingManager ["rel", "href"])
        [("type", Value.string "Link")] [] = (none, some "cannot read href") ∧
    typeplace.DeserializePlace (sampleFailingManager ["url", "altitude"]) [] [] =
      (none, some "cannot read altitude") :=
  ⟨(property_error_aborts sampleProperty (sampleFailingManager ["rel", "href"])
      [("type", Value.string "Link")] []).1 _ _ rfl (by decide) rfl,
   (property_error_aborts sampleProperty (sampleFailingManager ["url", "altitude"])
      [] []).2.2 _ rfl⟩

/-- C14 as stated fails under a non-empty alias: with the vocabulary URI bound to "as", the
key "href" is the lookup key of no declared property of Link (those are "as:attributedTo",
…), yet `DeserializeLink` does not copy it into the unknown bag. -/
theorem unknown_bag_alias_counterexample :
    ∃ v, typelink.DeserializeLink samplePropertyManager
        [("type", Value.string "as:Link"), ("href", Value.number 5)] [(vocabURI, "as")] =
        (some v, none) ∧
      (∀ n ∈ typelink.propertyNames, lookupKey [(vocabURI, "as")] n ≠ "href") ∧
      v.unknown.lookup "href" = none :=
  ⟨_, rfl, by decide, rfl⟩

/-- C14 (amended). On every input map (with distinct keys) and alias map on which
`DeserializeLink` (resp. `DeserializeRelationship`, `DeserializePlace`) succeeds, every key
outside the type's fixed list of bare names `knownNames` is in the unknown bag with its input
value, and no key of that list is; the list does not depend on the alias. -/
theorem unknown_bag_contents (P : PropertyType) (mgr : PropertyManager P) (m : JsonMap)
    (aliasMap : AliasMap) :
    (∀ v, DistinctKeys m → typelink.DeserializeLink mgr m aliasMap = (some v, none) →
      ∀ k, v.unknown.lookup k = if k ∈ typelink.knownNames then none else m.lookup k) ∧
    (∀ v, DistinctKeys m → typerelationship.DeserializeRelationship mgr m aliasMap = (some v, none) →
      ∀ k, v.unknown.lookup k = if k ∈ typerelationship.knownNames then none else m.lookup k) ∧
    (∀ v, DistinctKeys m → typeplace.DeserializePlace mgr m aliasMap = (some v, none) →
      ∀ k, v.unknown.lookup k = if k ∈ typeplace.knownNames then none else m.lookup k) := by
  refine ⟨?_, ?_, ?_⟩
  · intro v hm h k
    rw [typelink.link_unknown_of_success mgr m aliasMap v h]
    exact lookup_deserializeUnknown typelink.knownNames m k hm
  · intro v hm h k
    rw [typerelationship.relationship_unknown_of_success mgr m aliasMap v h]
    exact lookup_deserializeUnknown typerelationship.knownNames m k hm
  · intro v hm h k
    rw [typeplace.place_unknown_of_success mgr m aliasMap v h]
    exact lookup_deserializeUnknown typeplace.knownNames m k hm

/-- Witness of C14 (amended): the extra key "customField" is kept, under the alias "as" as
well. -/
theorem unknown_bag_contents_witness :
    ∃ v, typelink.DeserializeLink samplePropertyManager
        [("type", Value.string "as:Link"), ("customField", Value.number 42)]
        [(vocabURI, "as")] = (some v, none) ∧
      v.unknown.lookup "customField" = some (Value.number 42) :=
  ⟨_, rfl, ((unknown_bag_contents sampleProperty samplePropertyManager
      [("type", Value.string "as:Link"), ("customField", Value.number 42)]
      [(vocabURI, "as")]).1 _ (by unfold DistinctKeys; decide) rfl "customField").trans rfl⟩

/-- C15 (unknown-key preservation). If `DeserializeLink` (resp. `DeserializeRelationship`)
succeeds on a map (with distinct keys) and `Serialize` of the result succeeds, every key `k`
outside the type's declared names has in the output the value it has in the input, provided no
present property serializes under the name `k`. -/
theorem unknown_key_preserved (P : PropertyType) (mgr : PropertyManager P) (m : JsonMap)
    (aliasMap : AliasMap) :
    (∀ v out k, DistinctKeys m →
      typelink.DeserializeLink mgr m aliasMap = (some v, none) →
      k ∉ typelink.knownNames →
      v.Serialize = (out, none) →
      (∀ p, some p ∈ v.fields → P.Name p ≠ k) →
      out.lookup k = m.lookup k) ∧
    (∀ v out k, DistinctKeys m →
      typerelationship.DeserializeRelationship mgr m aliasMap = (some v, none) →
      k ∉ typerelationship.knownNames →
      v.Serialize = (out, none) →
      (∀ p, some p ∈ v.fields → P.Name p ≠ k) →
      out.lookup k = m.lookup k) := by
  refine ⟨?_, ?_⟩
  · intro v out k hm h hk hs hn
    obtain ⟨known, hkn, hout⟩ := typelink.link_serialize_inv v out hs
    have h1 := serializeKnown_lookup_other v.fields _ known k hkn hn
    have hkt : ¬ k = "type" := fun e => hk (e ▸ by decide)
    have h2 : known.lookup k = none := by
      rw [h1, lookup_cons_ite]
      simp [hkt]
    rw [hout, lookup_serializeUnknown, h2, typelink.link_unknown_of_success mgr m aliasMap v h,
      lookup_deserializeUnknown typelink.knownNames m k hm]
    simp [hk]
  · intro v out k hm h hk hs hn
    obtain ⟨known, hkn, hout⟩ := typerelationship.relationship_serialize_inv v out hs
    have h1 := serializeKnown_lookup_other v.fields _ known k hkn hn
    have hkt : ¬ k = "type" := fun e => hk (e ▸ by decide)
    have h2 : known.lookup k = none := by
      rw [h1, lookup_cons_ite]
      simp [hkt]
    rw [hout, lookup_serializeUnknown, h2, typerelationship.relationship_unknown_of_success mgr m aliasMap v h,
      lookup_deserializeUnknown typerelationship.knownNames m k hm]
    simp [hk]

/-- Witness of C15: "customField": 42 is reproduced by decoding and re-encoding a Link. -/
theorem unknown_key_preserved_witness :
    ∃ v out, typelink.DeserializeLink samplePropertyManager
        [("type", Value.string "Link"), ("href", Value.string "https://example.com/x"),
         ("customField", Value.number 42)] [] = (some v, none) ∧
      v.Serialize = (out, none) ∧ out.lookup "customField" = some (Value.number 42) :=
  ⟨_, _, rfl, rfl, ((unknown_key_preserved sampleProperty samplePropertyManager
      [("type", Value.string "Link"), ("href", Value.string "https://example.com/x"),
       ("customField", Value.number 42)] []).1 _ _ "customField"
      (by unfold DistinctKeys; decide) rfl (by decide) rfl
      (by
        intro p hp
        simp only [typelink.ActivityStreamsLink.fields, typelink.ActivityStreamsLink.ofFields,
          typelink.propertyNames, samplePropertyManager, lookupKey, boundAlias] at hp
        simp at hp
        rcases hp with hp | hp <;> subst hp <;> decide)).trans rfl⟩

/-- C16 (no clobbering) holds for Link and Relationship and fails on the code for Place.
Let `known` be the map the known block of `Serialize` builds: the "type" entry, for Link and
Relationship, and the entries of the present properties. For every Link and every
Relationship, when no present property returns an error, the known block returns and
`Serialize` returns a map in which every key of `known` keeps its known value, also when the
unknown bag holds that key, and every other key has the value the unknown bag stores for it,
if any; when a present property returns an error, `Serialize` returns an error and no map.
For a Place the same holds when every declared property is present; but the known block of
`Place.Serialize` calls `this.X.Serialize()` without a nil test, so on every Place with an
absent property `Serialize` never returns a map: the unknown bag is not spliced in. -/
theorem no_clobbering (P : PropertyType) (link : typelink.ActivityStreamsLink P)
    (relationship : typerelationship.ActivityStreamsRelationship P)
    (place : typeplace.Place P) :
    (∀ known, serializeKnown link.fields
        [("type", Value.string
          (if link.alias_.length > 0 then link.alias_ ++ ":" ++ "Link" else "Link"))] =
        (known, none) →
      ∃ out, link.Serialize = (out, none) ∧
        ∀ k, out.lookup k =
          match known.lookup k with
          | some v => some v
          | none => link.unknown.lookup k) ∧
    ((∀ p, some p ∈ link.fields → (P.Serialize p).2 = none) →
      ∃ known out, serializeKnown link.fields
          [("type", Value.string
            (if link.alias_.length > 0 then link.alias_ ++ ":" ++ "Link" else "Link"))] =
          (known, none) ∧
        link.Serialize = (out, none) ∧
        ∀ k, out.lookup k =
          match known.lookup k with
          | some v => some v
          | none => link.unknown.lookup k) ∧
    (∀ p, some p ∈ link.fields → (P.Serialize p).2 ≠ none →
      ∃ e, link.Serialize = ([], some e)) ∧
    (∀ known, serializeKnown relationship.fields
        [("type", Value.string
          (if relationship.alias_.length > 0 then relationship.alias_ ++ ":" ++ "Relationship" else "Relationship"))] =
        (known, none) →
      ∃ out, relationship.Serialize = (out, none) ∧
        ∀ k, out.lookup k =
          match known.lookup k with
          | some v => some v
          | none => relationship.unknown.lookup k) ∧
    ((∀ p, some p ∈ relationship.fields → (P.Serialize p).2 = none) →
      ∃ known out, serializeKnown relationship.fields
          [("type", Value.string
            (if relationship.alias_.length > 0 then relationship.alias_ ++ ":" ++ "Relationship" else "Relationship"))] =
          (known, none) ∧
        relationship.Serialize = (out, none) ∧
        ∀ k, out.lookup k =
          match known.lookup k with
          | some v => some v
          | none => relationship.unknown.lookup k) ∧
    (∀ p, some p ∈ relationship.fields → (P.Serialize p).2 ≠ none →
      ∃ e, relationship.Serialize = ([], some e)) ∧
    (place.fields.all (fun f => f.isSome) = true →
      (∀ p, some p ∈ place.fields → (P.Serialize p).2 = none) →
      ∃ known out, serializeKnownUnguarded place.fields [] = some (known, none) ∧
        place.Serialize = some (Value.object out, none) ∧
        ∀ k, out.lookup k =
          match known.lookup k with
          | some v => some v
          | none => place.unknown.lookup k) ∧
    (place.fields.all (fun f => f.isSome) = false →
      ∀ r, place.Serialize ≠ some (r, none)) := by
  refine ⟨?_, ?_, ?_, ?_, ?_, ?_, ?_, ?_⟩
  · intro known h
    exact ⟨_, typelink.link_serialize_of_known link known h,
      fun k => lookup_serializeUnknown link.unknown known k⟩
  · intro h
    obtain ⟨known, hk⟩ := serializeKnown_returns link.fields
      [("type", Value.string
          (if link.alias_.length > 0 then link.alias_ ++ ":" ++ "Link" else "Link"))] h
    exact ⟨known, _, hk, typelink.link_serialize_of_known link known hk,
      fun k => lookup_serializeUnknown link.unknown known k⟩
  · intro p hp he
    rcases hk : serializeKnown link.fields
      [("type", Value.string
          (if link.alias_.length > 0 then link.alias_ ++ ":" ++ "Link" else "Link"))] with ⟨known, _ | e⟩
    · exact absurd hk (serializeKnown_error link.fields _ known p hp he)
    · exact ⟨e, by simp only [typelink.ActivityStreamsLink.Serialize, mapSet, hk]⟩
  · intro known h
    exact ⟨_, typerelationship.relationship_serialize_of_known relationship known h,
      fun k => lookup_serializeUnknown relationship.unknown known k⟩
  · intro h
    obtain ⟨known, hk⟩ := serializeKnown_returns relationship.fields
      [("type", Value.string
          (if relationship.alias_.length > 0 then relationship.alias_ ++ ":" ++ "Relationship" else "Relationship"))] h
    exact ⟨known, _, hk, typerelationship.relationship_serialize_of_known relationship known hk,
      fun k => lookup_serializeUnknown relationship.unknown known k⟩
  · intro p hp he
    rcases hk : serializeKnown relationship.fields
      [("type", Value.string
          (if relationship.alias_.length > 0 then relationship.alias_ ++ ":" ++ "Relationship" else "Relationship"))] with ⟨known, _ | e⟩
    · exact absurd hk (serializeKnown_error relationship.fields _ known p hp he)
    · exact ⟨e, by simp only [typerelationship.ActivityStreamsRelationship.Serialize, mapSet, hk]⟩
  · intro hall h
    obtain ⟨known, hk⟩ := serializeKnownUnguarded_returns place.fields [] hall h
    exact ⟨known, _, hk, typeplace.place_serialize_of_known place known hk,
      fun k => lookup_serializeUnknown place.unknown known k⟩
  · intro hall r hs
    rcases hk : serializeKnownUnguarded place.fields [] with _ | ⟨known, _ | e⟩
    · simp [typeplace.Place.Serialize, hk] at hs
    · exact serializeKnownUnguarded_absent place.fields [] known hall hk
    · simp [typeplace.Place.Serialize, hk] at hs

/-- Witness of C16: a Link whose unknown bag holds the keys "type" and "href" next to "x" keeps
the type name and the value of the present "href" property; a Place with every property
present whose unknown bag holds "name" and "x" keeps the value of the "name" property; and a
Place without any property whose unknown bag holds "x" returns no map. -/
theorem no_clobbering_witness :
    (∃ out, (({ ActivityStreamsHref := some ("href", Value.string "https://example.com/x"),
                unknown := [("type", Value.number 1), ("href", Value.number 2),
                  ("x", Value.number 3)] } :
          typelink.ActivityStreamsLink sampleProperty).Serialize = (out, none)) ∧
      out.lookup "type" = some (Value.string "Link") ∧
      out.lookup "href" = some (Value.string "https://example.com/x") ∧
      out.lookup "x" = some (Value.number 3)) ∧
    (∃ out, sampleFullPlace.Serialize = some (Value.object out, none) ∧
      out.lookup "name" = some (Value.string "name") ∧
      out.lookup "x" = some (Value.number 2)) ∧
    (∀ r, ({ unknown := [("x", Value.number 2)] } :
      typeplace.Place sampleProperty).Serialize ≠ some (r, none)) := by
  refine ⟨?_, ?_, ?_⟩
  · obtain ⟨out, hout, hk⟩ := (no_clobbering sampleProperty
      { ActivityStreamsHref := some ("href", Value.string "https://example.com/x"),
        unknown := [("type", Value.number 1), ("href", Value.number 2),
          ("x", Value.number 3)] }
      {} {}).1 _ rfl
    exact ⟨out, hout, (hk "type").trans rfl, (hk "href").trans rfl, (hk "x").trans rfl⟩
  · obtain ⟨known, out, hkn, hout, hk⟩ := (no_clobbering sampleProperty {} {}
      sampleFullPlace).2.2.2.2.2.2.1 rfl (fun _ _ => rfl)
    have hc : serializeKnownUnguarded sampleFullPlace.fields [] =
        some (typeplace.propertyNames.map (fun n => (n, Value.string n)), none) := rfl
    rw [hc] at hkn
    cases hkn
    exact ⟨out, hout, (hk "name").trans rfl, (hk "x").trans rfl⟩
  · exact (no_clobbering sampleProperty {} {}
      { unknown := [("x", Value.number 2)] }).2.2.2.2.2.2.2 rfl

/-- C17. For every Link or Relationship on which `Serialize` succeeds, the output has the key
"type"; when the type property is absent (and no other present property serializes under the
name "type"), its value is the bare type name if the alias is empty and `alias:` followed by
the type name otherwise. -/
theorem type_key_emitted (P : PropertyType) (link : typelink.ActivityStreamsLink P)
    (relationship : typerelationship.ActivityStreamsRelationship P) :
    (∀ out, link.Serialize = (out, none) →
      (out.lookup "type").isSome = true ∧
      (link.ActivityStreamsType = none →
        (∀ p, some p ∈ link.fields → P.Name p ≠ "type") →
        out.lookup "type" =
          some (Value.string (if link.alias_ = "" then "Link" else link.alias_ ++ ":" ++ "Link")))) ∧
    (∀ out, relationship.Serialize = (out, none) →
      (out.lookup "type").isSome = true ∧
      (relationship.ActivityStreamsType = none →
        (∀ p, some p ∈ relationship.fields → P.Name p ≠ "type") →
        out.lookup "type" =
          some (Value.string (if relationship.alias_ = "" then "Relationship" else relationship.alias_ ++ ":" ++ "Relationship")))) := by
  refine ⟨?_, ?_⟩
  · intro out hs
    obtain ⟨known, hkn, hout⟩ := typelink.link_serialize_inv link out hs
    have h0 : (List.lookup "type"
        [("type", Value.string
          (if link.alias_.length > 0 then link.alias_ ++ ":" ++ "Link" else "Link"))]).isSome =
        true := rfl
    have h1 := serializeKnown_lookup_isSome link.fields _ known "type" hkn h0
    have h2 : out.lookup "type" = known.lookup "type" := by
      rw [hout, lookup_serializeUnknown]
      cases hk : known.lookup "type" with
      | none => simp [hk] at h1
      | some v => rfl
    refine ⟨by rw [h2]; exact h1, fun _ hn => ?_⟩
    rw [h2, serializeKnown_lookup_other link.fields _ known "type" hkn hn]
    by_cases ha : link.alias_ = ""
    · simp [ha]
    · have hp := (string_length_pos_iff link.alias_).2 ha
      simp [ha, hp]
  · intro out hs
    obtain ⟨known, hkn, hout⟩ := typerelationship.relationship_serialize_inv relationship out hs
    have h0 : (List.lookup "type"
        [("type", Value.string
          (if relationship.alias_.length > 0 then relationship.alias_ ++ ":" ++ "Relationship" else "Relationship"))]).isSome =
        true := rfl
    have h1 := serializeKnown_lookup_isSome relationship.fields _ known "type" hkn h0
    have h2 : out.lookup "type" = known.lookup "type" := by
      rw [hout, lookup_serializeUnknown]
      cases hk : known.lookup "type" with
      | none => simp [hk] at h1
      | some v => rfl
    refine ⟨by rw [h2]; exact h1, fun _ hn => ?_⟩
    rw [h2, serializeKnown_lookup_other relationship.fields _ known "type" hkn hn]
    by_cases ha : relationship.alias_ = ""
    · simp [ha]
    · have hp := (string_length_pos_iff relationship.alias_).2 ha
      simp [ha, hp]

/-- Witness of C17: a Relationship with the alias "as" and one property serializes its type
as "as:Relationship". -/
theorem type_key_emitted_witness :
    ∃ out, (({ ActivityStreamsSubject := some ("subject", Value.string "https://example.com/x"),
                alias_ := "as" } :
          typerelationship.ActivityStreamsRelationship sampleProperty).Serialize =
          (out, none)) ∧
      out.lookup "type" = some (Value.string "as:Relationship") :=
  ⟨_, rfl, (((type_key_emitted sampleProperty {}
      { ActivityStreamsSubject := some ("subject", Value.string "https://example.com/x"),
         alias_ := "as" }).2 _ rfl).2 rfl
      (by
        intro p hp
        simp [typerelationship.ActivityStreamsRelationship.fields] at hp
        subst hp
        decide)).trans rfl⟩

/-- C18 as stated fails. A Link without a type property and with an empty unknown bag
serializes to the single entry "type": "Link"; decoding that map reads a type property back, so
the Link is less than its image. And a Link whose type property holds "Note" serializes to
"type": "Note", which `DeserializeLink` rejects. -/
theorem link_round_trip_counterexample :
    (∃ out v', (({} : typelink.ActivityStreamsLink sampleProperty).Serialize = (out, none)) ∧
      typelink.DeserializeLink samplePropertyManager out [(vocabURI, "")] = (some v', none) ∧
      ({} : typelink.ActivityStreamsLink sampleProperty).LessThan v' = true) ∧
    (∃ out, (({ ActivityStreamsType := some ("type", Value.string "Note") } :
        typelink.ActivityStreamsLink sampleProperty).Serialize = (out, none)) ∧
      (typelink.DeserializeLink samplePropertyManager out [(vocabURI, "")]).2 ≠ none) :=
  ⟨⟨_, _, rfl, rfl, rfl⟩, ⟨_, rfl, by decide⟩⟩

/-- C18 (amended). Let `v` be a Link with an empty unknown bag whose `Serialize` returns the map
`out`, and take any alias map. If the "type" value of `out` names Link, every present property
serializes under one of Link's known names, and each declared property's deserializer, applied
to `out`, returns no error and a value equivalent to the field of `v` (nothing for an absent
property, a property neither less nor greater for a present one), then `DeserializeLink`
succeeds on `out` and returns `v'` with neither `v.LessThan v'` nor `v'.LessThan v`. -/
theorem link_round_trip (P : PropertyType) (mgr : PropertyManager P)
    (v : typelink.ActivityStreamsLink P) (out : JsonMap) (aliasMap : AliasMap)
    (hs : v.Serialize = (out, none)) (hu : v.unknown = [])
    (ht : ∃ tv, out.lookup "type" = some tv ∧
      namesType "Link" (typeAliasPrefix aliasMap) tv = true)
    (hn : ∀ p, some p ∈ v.fields → P.Name p ∈ typelink.knownNames)
    (hp : List.Forall₂ (fun f n =>
      (mgr n out aliasMap).2 = none ∧ fieldEquiv P f (mgr n out aliasMap).1)
      v.fields typelink.propertyNames) :
    ∃ v', typelink.DeserializeLink mgr out aliasMap = (some v', none) ∧
      v.LessThan v' = false ∧ v'.LessThan v = false := by
  obtain ⟨known, hkn, hout⟩ := typelink.link_serialize_inv v out hs
  have hok : out = known := by
    rw [hout, hu]
    rfl
  obtain ⟨tv, h1, h2⟩ := ht
  obtain ⟨hfe, hfields⟩ := firstPropertyError_of_forall₂ mgr out aliasMap v.fields
    typelink.propertyNames hp
  have hkeys : ∀ kv ∈ out, kv.1 ∈ typelink.knownNames := by
    rw [hok]
    refine serializeKnown_keys v.fields _ known typelink.knownNames hkn ?_ hn
    intro kv hkv
    simp only [List.mem_singleton] at hkv
    rw [hkv]
    show "type" ∈ typelink.knownNames
    decide
  have hun := deserializeUnknown_eq_nil typelink.knownNames out hkeys
  have hlt := lessThanKnown_equiv _ _ hfields
  refine ⟨_, typelink.link_success mgr out aliasMap tv h1 h2 hfe, ?_, ?_⟩
  · have hf : (typelink.ActivityStreamsLink.ofFields
        (typelink.propertyNames.map (fun n => (mgr n out aliasMap).1)) (boundAlias aliasMap)
        (deserializeUnknown typelink.knownNames out)).fields =
        typelink.propertyNames.map (fun n => (mgr n out aliasMap).1) := rfl
    simp only [typelink.ActivityStreamsLink.LessThan, hf, hlt.1,
      typelink.ActivityStreamsLink.GetUnknownProperties]
    simp [hu, typelink.ActivityStreamsLink.ofFields, hun]
  · have hf : (typelink.ActivityStreamsLink.ofFields
        (typelink.propertyNames.map (fun n => (mgr n out aliasMap).1)) (boundAlias aliasMap)
        (deserializeUnknown typelink.knownNames out)).fields =
        typelink.propertyNames.map (fun n => (mgr n out aliasMap).1) := rfl
    simp only [typelink.ActivityStreamsLink.LessThan, hf, hlt.2,
      typelink.ActivityStreamsLink.GetUnknownProperties]
    simp [hu, typelink.ActivityStreamsLink.ofFields, hun]

/-- Witness of C18 (amended): a Link holding a type property "Link" and an "href" property. -/
theorem link_round_trip_witness :
    ∃ v', typelink.DeserializeLink samplePropertyManager
        [("type", Value.string "Link"), ("href", Value.string "https://example.com/x")] [] =
        (some v', none) ∧
      ({ ActivityStreamsHref := some ("href", Value.string "https://example.com/x"),
         ActivityStreamsType := some ("type", Value.string "Link") } :
        typelink.ActivityStreamsLink sampleProperty).LessThan v' = false ∧
      v'.LessThan
        ({ ActivityStreamsHref := some ("href", Value.string "https://example.com/x"),
           ActivityStreamsType := some ("type", Value.string "Link") } :
          typelink.ActivityStreamsLink sampleProperty) = false :=
  link_round_trip sampleProperty samplePropertyManager
    { ActivityStreamsHref := some ("href", Value.string "https://example.com/x"),
      ActivityStreamsType := some ("type", Value.string "Link") }
    [("type", Value.string "Link"), ("href", Value.string "https://example.com/x")] []
    rfl rfl ⟨_, rfl, by decide⟩
    (by
      intro p hp
      simp [typelink.ActivityStreamsLink.fields] at hp
      rcases hp with hp | hp <;> subst hp <;> decide)
    (by
      simp only [typelink.ActivityStreamsLink.fields, typelink.propertyNames]
      repeat
        first
          | exact List.Forall₂.nil
          | refine List.Forall₂.cons ⟨rfl, ?_⟩ ?_
          | exact trivial
          | exact ⟨rfl, rfl⟩)

/-- C19 as stated fails: a "next" property located under "as:next" by the resolver, with the
alias "as" recorded, still has the name "next". -/
theorem name_ignores_alias_counterexample :
    ∃ p, propertynext.DeserializeNextProperty sampleURL sampleManager
        [("as:next", Value.number 1)] [(vocabURI, "as")] = (some p, none) ∧
      p.alias_ = "as" ∧
      lookupKey [(vocabURI, "as")] "next" = "as:next" ∧
      p.Name = "next" ∧ p.Name ≠ "as:next" :=
  ⟨_, rfl, rfl, by decide, rfl, by decide⟩

/-- C19 (amended). The name of a "next" ("prev", "following") property is its bare name,
whatever alias it records. So for a property deserialized under a non-empty alias `a` the
recorded alias is `a`, the key under which the resolver located it is `a:name`, and the key
under which the enclosing object re-emits it, its `Name()`, differs from that key. -/
theorem name_is_bare (vocab : Vocab) (url : NetURL) (mgr : Manager vocab) (m : JsonMap)
    (aliasMap : AliasMap) :
    (∀ a p, aliasMap.lookup vocabURI = some a → a ≠ "" →
      (propertynext.DeserializeNextProperty url mgr m aliasMap).1 = some p →
      p.alias_ = a ∧ p.Name = "next" ∧
        lookupKey aliasMap "next" = a ++ ":" ++ "next" ∧
        p.Name ≠ lookupKey aliasMap "next") ∧
    (∀ a p, aliasMap.lookup vocabURI = some a → a ≠ "" →
      (propertyprev.DeserializePrevProperty url mgr m aliasMap).1 = some p →
      p.alias_ = a ∧ p.Name = "prev" ∧
        lookupKey aliasMap "prev" = a ++ ":" ++ "prev" ∧
        p.Name ≠ lookupKey aliasMap "prev") ∧
    (∀ a p, aliasMap.lookup vocabURI = some a → a ≠ "" →
      (propertyfollowing.DeserializeFollowingProperty url mgr m aliasMap).1 = some p →
      p.alias_ = a ∧ p.Name = "following" ∧
        lookupKey aliasMap "following" = a ++ ":" ++ "following" ∧
        p.Name ≠ lookupKey aliasMap "following") := by
  refine ⟨?_, ?_, ?_⟩
  · intro a p ha hne hp
    have hb : boundAlias aliasMap = a := by simp [boundAlias, ha]
    have hk : lookupKey aliasMap "next" = a ++ ":" ++ "next" := by
      simp [lookupKey, hb, hne]
    refine ⟨((propertynext.next_result url mgr m aliasMap).2 p hp).2.trans hb, rfl, hk, ?_⟩
    rw [hk]
    intro he
    have hl := congrArg String.length he
    simp only [propertynext.ActivityStreamsNextProperty.Name, String.length_append] at hl
    have hpos := (string_length_pos_iff a).2 hne
    omega
  · intro a p ha hne hp
    have hb : boundAlias aliasMap = a := by simp [boundAlias, ha]
    have hk : lookupKey aliasMap "prev" = a ++ ":" ++ "prev" := by
      simp [lookupKey, hb, hne]
    refine ⟨((propertyprev.prev_result url mgr m aliasMap).2 p hp).2.trans hb, rfl, hk, ?_⟩
    rw [hk]
    intro he
    have hl := congrArg String.length he
    simp only [propertyprev.ActivityStreamsPrevProperty.Name, String.length_append] at hl
    have hpos := (string_length_pos_iff a).2 hne
    omega
  · intro a p ha hne hp
    have hb : boundAlias aliasMap = a := by simp [boundAlias, ha]
    have hk : lookupKey aliasMap "following" = a ++ ":" ++ "following" := by
      simp [lookupKey, hb, hne]
    refine ⟨((propertyfollowing.following_result url mgr m aliasMap).2 p hp).2.trans hb, rfl, hk, ?_⟩
    rw [hk]
    intro he
    have hl := congrArg String.length he
    simp only [propertyfollowing.ActivityStreamsFollowingProperty.Name, String.length_append] at hl
    have hpos := (string_length_pos_iff a).2 hne
    omega

/-- Witness of C19 (amended) under the alias "as". -/
theorem name_is_bare_witness :
    ∃ p, propertynext.DeserializeNextProperty sampleURL sampleManager
        [("as:next", Value.number 1)] [(vocabURI, "as")] = (some p, none) ∧
      p.Name ≠ lookupKey [(vocabURI, "as")] "next" :=
  ⟨_, rfl, ((name_is_bare sampleVocab sampleURL sampleManager
      [("as:next", Value.number 1)] [(vocabURI, "as")]).1 "as" _ rfl (by decide) rfl).2.2.2⟩

/-- C20. Every property returned by the resolver of "next", "prev" or "following" records
the alias the alias map binds to the vocabulary URI (the empty string if unbound), whichever
branch built it; when no typed alternative is set, `JSONLDContext` maps the vocabulary URI to
that alias. -/
theorem alias_recorded (vocab : Vocab) (url : NetURL) (mgr : Manager vocab) (m : JsonMap)
    (aliasMap : AliasMap) :
    (∀ p, (propertynext.DeserializeNextProperty url mgr m aliasMap).1 = some p →
      p.alias_ = boundAlias aliasMap ∧
      (p.IsActivityStreamsCollectionPage = false → p.IsActivityStreamsLink = false →
        p.IsActivityStreamsMention = false → p.IsActivityStreamsOrderedCollectionPage = false →
        p.JSONLDContext.lookup vocabURI = some (boundAlias aliasMap))) ∧
    (∀ p, (propertyprev.DeserializePrevProperty url mgr m aliasMap).1 = some p →
      p.alias_ = boundAlias aliasMap ∧
      (p.IsActivityStreamsCollectionPage = false → p.IsActivityStreamsLink = false →
        p.IsActivityStreamsMention = false → p.IsActivityStreamsOrderedCollectionPage = false →
        p.JSONLDContext.lookup vocabURI = some (boundAlias aliasMap))) ∧
    (∀ p, (propertyfollowing.DeserializeFollowingProperty url mgr m aliasMap).1 = some p →
      p.alias_ = boundAlias aliasMap ∧
      (p.IsActivityStreamsOrderedCollection = false → p.IsActivityStreamsCollection = false →
        p.IsActivityStreamsCollectionPage = false → p.IsActivityStreamsOrderedCollectionPage = false →
        p.JSONLDContext.lookup vocabURI = some (boundAlias aliasMap))) := by
  refine ⟨?_, ?_, ?_⟩
  · intro p hp
    have ha := ((propertynext.next_result url mgr m aliasMap).2 p hp).2
    refine ⟨ha, fun h1 h2 h3 h4 => ?_⟩
    have e1 := eq_none_of_isSome_false _ h1
    have e2 := eq_none_of_isSome_false _ h2
    have e3 := eq_none_of_isSome_false _ h3
    have e4 := eq_none_of_isSome_false _ h4
    simp [propertynext.ActivityStreamsNextProperty.JSONLDContext, e1, e2, e3, e4, ha]
  · intro p hp
    have ha := ((propertyprev.prev_result url mgr m aliasMap).2 p hp).2
    refine ⟨ha, fun h1 h2 h3 h4 => ?_⟩
    have e1 := eq_none_of_isSome_false _ h1
    have e2 := eq_none_of_isSome_false _ h2
    have e3 := eq_none_of_isSome_false _ h3
    have e4 := eq_none_of_isSome_false _ h4
    simp [propertyprev.ActivityStreamsPrevProperty.JSONLDContext, e1, e2, e3, e4, ha]
  · intro p hp
    have ha := ((propertyfollowing.following_result url mgr m aliasMap).2 p hp).2
    refine ⟨ha, fun h1 h2 h3 h4 => ?_⟩
    have e1 := eq_none_of_isSome_false _ h1
    have e2 := eq_none_of_isSome_false _ h2
    have e3 := eq_none_of_isSome_false _ h3
    have e4 := eq_none_of_isSome_false _ h4
    simp [propertyfollowing.ActivityStreamsFollowingProperty.JSONLDContext, e1, e2, e3, e4, ha]

/-- Witness of C20: an IRI-valued "prev" property resolved under the alias "as". -/
theorem alias_recorded_witness :
    ∃ p, propertyprev.DeserializePrevProperty sampleURL sampleManager
        [("as:prev", Value.string "https://example.com/x")] [(vocabURI, "as")] =
        (some p, none) ∧
      p.alias_ = "as" ∧ p.JSONLDContext.lookup vocabURI = some "as" := by
  have h := (alias_recorded sampleVocab sampleURL sampleManager
    [("as:prev", Value.string "https://example.com/x")] [(vocabURI, "as")]).2.1 _ rfl
  exact ⟨_, rfl, h.1, h.2 rfl rfl rfl rfl⟩


/-! ## Claims about round trips, kinds and orders -/

/-- C21 (round trip of unknown values). Let `v` be the value under the lookup key of "next"
("prev", "following") and let the resolver return a property `p` that holds `v` as its unknown
value. Then `p` has no typed alternative and no IRI set, `Serialize` returns `v` verbatim with
no error, and on every map that binds the same lookup key to that serialized value the resolver,
under the same alias map, returns again a property with no typed alternative, no IRI and the
unknown value `v`. -/
theorem unknown_round_trip (vocab : Vocab) (url : NetURL) (mgr : Manager vocab) (m : JsonMap)
    (aliasMap : AliasMap) (v : Value) :
    (∀ p, m.lookup (lookupKey aliasMap "next") = some v →
      propertynext.DeserializeNextProperty url mgr m aliasMap = (some p, none) →
      p.unknown = v →
      p.HasAny = false ∧
      p.Serialize = (v, none) ∧
      ∀ m2 : JsonMap, m2.lookup (lookupKey aliasMap "next") = some p.Serialize.1 →
        ∃ q, propertynext.DeserializeNextProperty url mgr m2 aliasMap = (some q, none) ∧
          q.HasAny = false ∧ q.unknown = v) ∧
    (∀ p, m.lookup (lookupKey aliasMap "prev") = some v →
      propertyprev.DeserializePrevProperty url mgr m aliasMap = (some p, none) →
      p.unknown = v →
      p.HasAny = false ∧
      p.Serialize = (v, none) ∧
      ∀ m2 : JsonMap, m2.lookup (lookupKey aliasMap "prev") = some p.Serialize.1 →
        ∃ q, propertyprev.DeserializePrevProperty url mgr m2 aliasMap = (some q, none) ∧
          q.HasAny = false ∧ q.unknown = v) ∧
    (∀ p, m.lookup (lookupKey aliasMap "following") = some v →
      propertyfollowing.DeserializeFollowingProperty url mgr m aliasMap = (some p, none) →
      p.unknown = v →
      p.HasAny = false ∧
      p.Serialize = (v, none) ∧
      ∀ m2 : JsonMap, m2.lookup (lookupKey aliasMap "following") = some p.Serialize.1 →
        ∃ q, propertyfollowing.DeserializeFollowingProperty url mgr m2 aliasMap = (some q, none) ∧
          q.HasAny = false ∧ q.unknown = v) := by
  refine ⟨?_, ?_, ?_⟩
  · intro p hv hd hu
    have hp : p = { alias_ := boundAlias aliasMap, unknown := v } := by
      cases v with
      | string s =>
        by_cases hiri : ∃ u, url.Parse s = Except.ok u ∧ u.Scheme ≠ ""
        · obtain ⟨u, hu1, hu2⟩ := hiri
          rw [propertynext.next_iri url mgr m aliasMap s u hv hu1 hu2] at hd
          cases hd
          cases hu
        · rw [propertynext.next_string_unknown url mgr m aliasMap s hv
            (fun u hu1 => by
              by_contra hne
              exact hiri ⟨u, hu1, hne⟩)] at hd
          cases hd
          rfl
      | object o =>
        rw [propertynext.next_object url mgr m aliasMap o hv] at hd
        revert hd
        rcases mgr.DeserializeCollectionPageActivityStreams o aliasMap with ⟨v1, _ | e1⟩ <;>
        rcases mgr.DeserializeLinkActivityStreams o aliasMap with ⟨v2, _ | e2⟩ <;>
        rcases mgr.DeserializeMentionActivityStreams o aliasMap with ⟨v3, _ | e3⟩ <;>
        rcases mgr.DeserializeOrderedCollectionPageActivityStreams o aliasMap with ⟨v4, _ | e4⟩ <;>
        intro hd <;>
        cases hd <;>
        first
          | rfl
          | cases hu
      | nil =>
        rw [propertynext.next_other url mgr m aliasMap _ hv (fun s => by simp) (fun o => by simp)] at hd
        cases hd
        rfl
      | bool b =>
        rw [propertynext.next_other url mgr m aliasMap _ hv (fun s => by simp) (fun o => by simp)] at hd
        cases hd
        rfl
      | number n =>
        rw [propertynext.next_other url mgr m aliasMap _ hv (fun s => by simp) (fun o => by simp)] at hd
        cases hd
        rfl
      | array xs =>
        rw [propertynext.next_other url mgr m aliasMap _ hv (fun s => by simp) (fun o => by simp)] at hd
        cases hd
        rfl
    subst hp
    refine ⟨rfl, rfl, ?_⟩
    intro m2 hm2
    have hm : m2.lookup (lookupKey aliasMap "next") = m.lookup (lookupKey aliasMap "next") := by
      rw [hv, hm2]
      rfl
    have he : propertynext.DeserializeNextProperty url mgr m2 aliasMap =
        propertynext.DeserializeNextProperty url mgr m aliasMap := by
      simp only [propertynext.DeserializeNextProperty, resolver_alias, resolver_key, hm]
    rw [he, hd]
    exact ⟨_, rfl, rfl, rfl⟩
  · intro p hv hd hu
    have hp : p = { alias_ := boundAlias aliasMap, unknown := v } := by
      cases v with
      | string s =>
        by_cases hiri : ∃ u, url.Parse s = Except.ok u ∧ u.Scheme ≠ ""
        · obtain ⟨u, hu1, hu2⟩ := hiri
          rw [propertyprev.prev_iri url mgr m aliasMap s u hv hu1 hu2] at hd
          cases hd
          cases hu
        · rw [propertyprev.prev_string_unknown url mgr m aliasMap s hv
            (fun u hu1 => by
              by_contra hne
              exact hiri ⟨u, hu1, hne⟩)] at hd
          cases hd
          rfl
      | object o =>
        rw [propertyprev.prev_object url mgr m aliasMap o hv] at hd
        revert hd
        rcases mgr.DeserializeCollectionPageActivityStreams o aliasMap with ⟨v1, _ | e1⟩ <;>
        rcases mgr.DeserializeLinkActivityStreams o aliasMap with ⟨v2, _ | e2⟩ <;>
        rcases mgr.DeserializeMentionActivityStreams o aliasMap with ⟨v3, _ | e3⟩ <;>
        rcases mgr.DeserializeOrderedCollectionPageActivityStreams o aliasMap with ⟨v4, _ | e4⟩ <;>
        intro hd <;>
        cases hd <;>
        first
          | rfl
          | cases hu
      | nil =>
        rw [propertyprev.prev_other url mgr m aliasMap _ hv (fun s => by simp) (fun o => by simp)] at hd
        cases hd
        rfl
      | bool b =>
        rw [propertyprev.prev_other url mgr m aliasMap _ hv (fun s => by simp) (fun o => by simp)] at hd
        cases hd
        rfl
      | number n =>
        rw [propertyprev.prev_other url mgr m aliasMap _ hv (fun s => by simp) (fun o => by simp)] at hd
        cases hd
        rfl
      | array xs =>
        rw [propertyprev.prev_other url mgr m aliasMap _ hv (fun s => by simp) (fun o => by simp)] at hd
        cases hd
        rfl
    subst hp
    refine ⟨rfl, rfl, ?_⟩
    intro m2 hm2
    have hm : m2.lookup (lookupKey aliasMap "prev") = m.lookup (lookupKey aliasMap "prev") := by
      rw [hv, hm2]
      rfl
    have he : propertyprev.DeserializePrevProperty url mgr m2 aliasMap =
        propertyprev.DeserializePrevProperty url mgr m aliasMap := by
      simp only [propertyprev.DeserializePrevProperty, resolver_alias, resolver_key, hm]
    rw [he, hd]
    exact ⟨_, rfl, rfl, rfl⟩
  · intro p hv hd hu
    have hp : p = { alias_ := boundAlias aliasMap, unknown := v } := by
      cases v with
      | string s =>
        by_cases hiri : ∃ u, url.Parse s = Except.ok u ∧ u.Scheme ≠ ""
        · obtain ⟨u, hu1, hu2⟩ := hiri
          rw [propertyfollowing.following_iri url mgr m aliasMap s u hv hu1 hu2] at hd
          cases hd
          cases hu
        · rw [propertyfollowing.following_string_unknown url mgr m aliasMap s hv
            (fun u hu1 => by
              by_contra hne
              exact hiri ⟨u, hu1, hne⟩)] at hd
          cases hd
          rfl
      | object o =>
        rw [propertyfollowing.following_object url mgr m aliasMap o hv] at hd
        revert hd
        rcases mgr.DeserializeOrderedCollectionActivityStreams o aliasMap with ⟨v1, _ | e1⟩ <;>
        rcases mgr.DeserializeCollectionActivityStreams o aliasMap with ⟨v2, _ | e2⟩ <;>
        rcases mgr.DeserializeCollectionPageActivityStreams o aliasMap with ⟨v3, _ | e3⟩ <;>
        rcases mgr.DeserializeOrderedCollectionPageActivityStreams o aliasMap with ⟨v4, _ | e4⟩ <;>
        intro hd <;>
        cases hd <;>
        first
          | rfl
          | cases hu
      | nil =>
        rw [propertyfollowing.following_other url mgr m aliasMap _ hv (fun s => by simp) (fun o => by simp)] at hd
        cases hd
        rfl
      | bool b =>
        rw [propertyfollowing.following_other url mgr m aliasMap _ hv (fun s => by simp) (fun o => by simp)] at hd
        cases hd
        rfl
      | number n =>
        rw [propertyfollowing.following_other url mgr m aliasMap _ hv (fun s => by simp) (fun o => by simp)] at hd
        cases hd
        rfl
      | array xs =>
        rw [propertyfollowing.following_other url mgr m aliasMap _ hv (fun s => by simp) (fun o => by simp)] at hd
        cases hd
        rfl
    subst hp
    refine ⟨rfl, rfl, ?_⟩
    intro m2 hm2
    have hm : m2.lookup (lookupKey aliasMap "following") = m.lookup (lookupKey aliasMap "following") := by
      rw [hv, hm2]
      rfl
    have he : propertyfollowing.DeserializeFollowingProperty url mgr m2 aliasMap =
        propertyfollowing.DeserializeFollowingProperty url mgr m aliasMap := by
      simp only [propertyfollowing.DeserializeFollowingProperty, resolver_alias, resolver_key, hm]
    rw [he, hd]
    exact ⟨_, rfl, rfl, rfl⟩

/-- Witness of C21: the number 5 under "next" comes back verbatim, also from another map. -/
theorem unknown_round_trip_witness :
    ∃ p, propertynext.DeserializeNextProperty sampleURL sampleManager
        [("next", Value.number 5)] [] = (some p, none) ∧
      p.Serialize = (Value.number 5, none) ∧
      ∃ q, propertynext.DeserializeNextProperty sampleURL sampleManager
          [("id", Value.string "x"), ("next", Value.number 5)] [] = (some q, none) ∧
        q.HasAny = false ∧ q.unknown = Value.number 5 :=
  have h := (unknown_round_trip sampleVocab sampleURL sampleManager
    [("next", Value.number 5)] [] (Value.number 5)).1 _ rfl rfl rfl
  ⟨_, rfl, h.2.1, h.2.2 [("id", Value.string "x"), ("next", Value.number 5)] rfl⟩

/-- C22 as stated fails: the `KindIndex` of a new, empty property is -1, and that of a property
holding an IRI is -2, so the absent state does not rank below the IRI state. -/
theorem absent_above_iri_counterexample :
    ((propertynext.NewActivityStreamsNextProperty :
        propertynext.ActivityStreamsNextProperty sampleVocab).KindIndex = -1 ∧
      (propertynext.NewActivityStreamsNextProperty.SetIRI
        (some { Scheme := "https", full := "https://example.com/x" }) :
        propertynext.ActivityStreamsNextProperty sampleVocab).KindIndex = -2) ∧
    ((propertyprev.NewActivityStreamsPrevProperty :
        propertyprev.ActivityStreamsPrevProperty sampleVocab).KindIndex = -1 ∧
      (propertyprev.NewActivityStreamsPrevProperty.SetIRI
        (some { Scheme := "https", full := "https://example.com/x" }) :
        propertyprev.ActivityStreamsPrevProperty sampleVocab).KindIndex = -2) ∧
    ((propertyfollowing.NewActivityStreamsFollowingProperty :
        propertyfollowing.ActivityStreamsFollowingProperty sampleVocab).KindIndex = -1 ∧
      (propertyfollowing.NewActivityStreamsFollowingProperty.SetIRI
        (some { Scheme := "https", full := "https://example.com/x" }) :
        propertyfollowing.ActivityStreamsFollowingProperty sampleVocab).KindIndex = -2) :=
  ⟨⟨rfl, rfl⟩, ⟨rfl, rfl⟩, ⟨rfl, rfl⟩⟩

/-- C22 (amended). For every "next", "prev" and "following" property: a state holding an IRI
and no typed alternative has `KindIndex` -2; a state with nothing set (absent, or holding only an
unknown value) has `KindIndex` -1; a state holding a typed alternative has a `KindIndex` of at
least 0. So the IRI state ranks lowest of all, the absent or unknown state ranks between the
IRI state and every typed alternative. -/
theorem kind_ranking (vocab : Vocab) :
    (∀ i a t : propertynext.ActivityStreamsNextProperty vocab,
      (i.IsIRI = true ∧ i.IsActivityStreamsCollectionPage = false ∧
        i.IsActivityStreamsLink = false ∧ i.IsActivityStreamsMention = false ∧
        i.IsActivityStreamsOrderedCollectionPage = false) →
      a.HasAny = false →
      (t.IsActivityStreamsCollectionPage = true ∨ t.IsActivityStreamsLink = true ∨
        t.IsActivityStreamsMention = true ∨ t.IsActivityStreamsOrderedCollectionPage = true) →
      i.KindIndex = -2 ∧ a.KindIndex = -1 ∧ 0 ≤ t.KindIndex ∧
        i.KindIndex < a.KindIndex ∧ a.KindIndex < t.KindIndex) ∧
    (∀ i a t : propertyprev.ActivityStreamsPrevProperty vocab,
      (i.IsIRI = true ∧ i.IsActivityStreamsCollectionPage = false ∧
        i.IsActivityStreamsLink = false ∧ i.IsActivityStreamsMention = false ∧
        i.IsActivityStreamsOrderedCollectionPage = false) →
      a.HasAny = false →
      (t.IsActivityStreamsCollectionPage = true ∨ t.IsActivityStreamsLink = true ∨
        t.IsActivityStreamsMention = true ∨ t.IsActivityStreamsOrderedCollectionPage = true) →
      i.KindIndex = -2 ∧ a.KindIndex = -1 ∧ 0 ≤ t.KindIndex ∧
        i.KindIndex < a.KindIndex ∧ a.KindIndex < t.KindIndex) ∧
    (∀ i a t : propertyfollowing.ActivityStreamsFollowingProperty vocab,
      (i.IsIRI = true ∧ i.IsActivityStreamsOrderedCollection = false ∧
        i.IsActivityStreamsCollection = false ∧ i.IsActivityStreamsCollectionPage = false ∧
        i.IsActivityStreamsOrderedCollectionPage = false) →
      a.HasAny = false →
      (t.IsActivityStreamsOrderedCollection = true ∨ t.IsActivityStreamsCollection = true ∨
        t.IsActivityStreamsCollectionPage = true ∨ t.IsActivityStreamsOrderedCollectionPage = true) →
      i.KindIndex = -2 ∧ a.KindIndex = -1 ∧ 0 ≤ t.KindIndex ∧
        i.KindIndex < a.KindIndex ∧ a.KindIndex < t.KindIndex) := by
  refine ⟨?_, ?_, ?_⟩
  · exact fun i a t hi ha ht =>
      propertynext.ActivityStreamsNextProperty.next_kind_ranking i a t hi ha ht
  · exact fun i a t hi ha ht =>
      propertyprev.ActivityStreamsPrevProperty.prev_kind_ranking i a t hi ha ht
  · exact fun i a t hi ha ht =>
      propertyfollowing.ActivityStreamsFollowingProperty.following_kind_ranking i a t hi ha ht

/-- Witness of C22 (amended): an IRI, an unknown number and a Link held by "next". -/
theorem kind_ranking_witness :
    ({ iri := some { Scheme := "https", full := "https://example.com/x" } } :
        propertynext.ActivityStreamsNextProperty sampleVocab).KindIndex <
      ({ unknown := Value.number 5 } :
        propertynext.ActivityStreamsNextProperty sampleVocab).KindIndex ∧
    ({ unknown := Value.number 5 } :
        propertynext.ActivityStreamsNextProperty sampleVocab).KindIndex <
      ({ activitystreamsLinkMember := some [] } :
        propertynext.ActivityStreamsNextProperty sampleVocab).KindIndex :=
  ((kind_ranking sampleVocab).1
    { iri := some { Scheme := "https", full := "https://example.com/x" } }
    { unknown := Value.number 5 } { activitystreamsLinkMember := some [] }
    ⟨rfl, rfl, rfl, rfl, rfl⟩ rfl (Or.inr (Or.inl rfl))).2.2.2

/-- C23. `KindIndex` ranks the typed alternatives 0, 1, 2, 3 in the order in which the
resolver tries them (CollectionPage, Link, Mention, OrderedCollectionPage for "next" and "prev";
OrderedCollection, Collection, CollectionPage, OrderedCollectionPage for "following"): a property
holding the alternative of position k, the earlier ones being unset, has `KindIndex` k. Hence
when the value under the lookup key is a nested object `o`, the candidates before position k
return an error and the candidate of position k returns a value `x` and no error, the resolver
returns a property that holds `x` and has `KindIndex` k. -/
theorem kind_follows_trial_order (vocab : Vocab) (url : NetURL) (mgr : Manager vocab) (m : JsonMap)
    (aliasMap : AliasMap) (o : JsonMap) :
    ((∀ p : propertynext.ActivityStreamsNextProperty vocab,
        (∀ x, p.activitystreamsCollectionPageMember = some x → p.KindIndex = 0) ∧
        (∀ x, p.activitystreamsCollectionPageMember = none →
          p.activitystreamsLinkMember = some x → p.KindIndex = 1) ∧
        (∀ x, p.activitystreamsCollectionPageMember = none →
          p.activitystreamsLinkMember = none →
          p.activitystreamsMentionMember = some x → p.KindIndex = 2) ∧
        (∀ x, p.activitystreamsCollectionPageMember = none →
          p.activitystreamsLinkMember = none →
          p.activitystreamsMentionMember = none →
          p.activitystreamsOrderedCollectionPageMember = some x → p.KindIndex = 3)) ∧
      (m.lookup (lookupKey aliasMap "next") = some (Value.object o) →
        (∀ x, mgr.DeserializeCollectionPageActivityStreams o aliasMap = (some x, none) →
          ∃ p, propertynext.DeserializeNextProperty url mgr m aliasMap = (some p, none) ∧
            p.GetActivityStreamsCollectionPage = some x ∧ p.KindIndex = 0) ∧
        (∀ x, (mgr.DeserializeCollectionPageActivityStreams o aliasMap).2 ≠ none →
          mgr.DeserializeLinkActivityStreams o aliasMap = (some x, none) →
          ∃ p, propertynext.DeserializeNextProperty url mgr m aliasMap = (some p, none) ∧
            p.GetActivityStreamsLink = some x ∧ p.KindIndex = 1) ∧
        (∀ x, (mgr.DeserializeCollectionPageActivityStreams o aliasMap).2 ≠ none →
          (mgr.DeserializeLinkActivityStreams o aliasMap).2 ≠ none →
          mgr.DeserializeMentionActivityStreams o aliasMap = (some x, none) →
          ∃ p, propertynext.DeserializeNextProperty url mgr m aliasMap = (some p, none) ∧
            p.GetActivityStreamsMention = some x ∧ p.KindIndex = 2) ∧
        (∀ x, (mgr.DeserializeCollectionPageActivityStreams o aliasMap).2 ≠ none →
          (mgr.DeserializeLinkActivityStreams o aliasMap).2 ≠ none →
          (mgr.DeserializeMentionActivityStreams o aliasMap).2 ≠ none →
          mgr.DeserializeOrderedCollectionPageActivityStreams o aliasMap = (some x, none) →
          ∃ p, propertynext.DeserializeNextProperty url mgr m aliasMap = (some p, none) ∧
            p.GetActivityStreamsOrderedCollectionPage = some x ∧ p.KindIndex = 3))) ∧
    ((∀ p : propertyprev.ActivityStreamsPrevProperty vocab,
        (∀ x, p.activitystreamsCollectionPageMember = some x → p.KindIndex = 0) ∧
        (∀ x, p.activitystreamsCollectionPageMember = none →
          p.activitystreamsLinkMember = some x → p.KindIndex = 1) ∧
        (∀ x, p.activitystreamsCollectionPageMember = none →
          p.activitystreamsLinkMember = none →
          p.activitystreamsMentionMember = some x → p.KindIndex = 2) ∧
        (∀ x, p.activitystreamsCollectionPageMember = none →
          p.activitystreamsLinkMember = none →
          p.activitystreamsMentionMember = none →
          p.activitystreamsOrderedCollectionPageMember = some x → p.KindIndex = 3)) ∧
      (m.lookup (lookupKey aliasMap "prev") = some (Value.object o) →
        (∀ x, mgr.DeserializeCollectionPageActivityStreams o aliasMap = (some x, none) →
          ∃ p, propertyprev.DeserializePrevProperty url mgr m aliasMap = (some p, none) ∧
            p.GetActivityStreamsCollectionPage = some x ∧ p.KindIndex = 0) ∧
        (∀ x, (mgr.DeserializeCollectionPageActivityStreams o aliasMap).2 ≠ none →
          mgr.DeserializeLinkActivityStreams o aliasMap = (some x, none) →
          ∃ p, propertyprev.DeserializePrevProperty url mgr m aliasMap = (some p, none) ∧
            p.GetActivityStreamsLink = some x ∧ p.KindIndex = 1) ∧
        (∀ x, (mgr.DeserializeCollectionPageActivityStreams o aliasMap).2 ≠ none →
          (mgr.DeserializeLinkActivityStreams o aliasMap).2 ≠ none →
          mgr.DeserializeMentionActivityStreams o aliasMap = (some x, none) →
          ∃ p, propertyprev.DeserializePrevProperty url mgr m aliasMap = (some p, none) ∧
            p.GetActivityStreamsMention = some x ∧ p.KindIndex = 2) ∧
        (∀ x, (mgr.DeserializeCollectionPageActivityStreams o aliasMap).2 ≠ none →
          (mgr.DeserializeLinkActivityStreams o aliasMap).2 ≠ none →
          (mgr.DeserializeMentionActivityStreams o aliasMap).2 ≠ none →
          mgr.DeserializeOrderedCollectionPageActivityStreams o aliasMap = (some x, none) →
          ∃ p, propertyprev.DeserializePrevProperty url mgr m aliasMap = (some p, none) ∧
            p.GetActivityStreamsOrderedCollectionPage = some x ∧ p.KindIndex = 3))) ∧
    ((∀ p : propertyfollowing.ActivityStreamsFollowingProperty vocab,
        (∀ x, p.activitystreamsOrderedCollectionMember = some x → p.KindIndex = 0) ∧
        (∀ x, p.activitystreamsOrderedCollectionMember = none →
          p.activitystreamsCollectionMember = some x → p.KindIndex = 1) ∧
        (∀ x, p.activitystreamsOrderedCollectionMember = none →
          p.activitystreamsCollectionMember = none →
          p.activitystreamsCollectionPageMember = some x → p.KindIndex = 2) ∧
        (∀ x, p.activitystreamsOrderedCollectionMember = none →
          p.activitystreamsCollectionMember = none →
          p.activitystreamsCollectionPageMember = none →
          p.activitystreamsOrderedCollectionPageMember = some x → p.KindIndex = 3)) ∧
      (m.lookup (lookupKey aliasMap "following") = some (Value.object o) →
        (∀ x, mgr.DeserializeOrderedCollectionActivityStreams o aliasMap = (some x, none) →
          ∃ p, propertyfollowing.DeserializeFollowingProperty url mgr m aliasMap = (some p, none) ∧
            p.GetActivityStreamsOrderedCollection = some x ∧ p.KindIndex = 0) ∧
        (∀ x, (mgr.DeserializeOrderedCollectionActivityStreams o aliasMap).2 ≠ none →
          mgr.DeserializeCollectionActivityStreams o aliasMap = (some x, none) →
          ∃ p, propertyfollowing.DeserializeFollowingProperty url mgr m aliasMap = (some p, none) ∧
            p.GetActivityStreamsCollection = some x ∧ p.KindIndex = 1) ∧
        (∀ x, (mgr.DeserializeOrderedCollectionActivityStreams o aliasMap).2 ≠ none →
          (mgr.DeserializeCollectionActivityStreams o aliasMap).2 ≠ none →
          mgr.DeserializeCollectionPageActivityStreams o aliasMap = (some x, none) →
          ∃ p, propertyfollowing.DeserializeFollowingProperty url mgr m aliasMap = (some p, none) ∧
            p.GetActivityStreamsCollectionPage = some x ∧ p.KindIndex = 2) ∧
        (∀ x, (mgr.DeserializeOrderedCollectionActivityStreams o aliasMap).2 ≠ none →
          (mgr.DeserializeCollectionActivityStreams o aliasMap).2 ≠ none →
          (mgr.DeserializeCollectionPageActivityStreams o aliasMap).2 ≠ none →
          mgr.DeserializeOrderedCollectionPageActivityStreams o aliasMap = (some x, none) →
          ∃ p, propertyfollowing.DeserializeFollowingProperty url mgr m aliasMap = (some p, none) ∧
            p.GetActivityStreamsOrderedCollectionPage = some x ∧ p.KindIndex = 3))) := by
  refine ⟨?_, ?_, ?_⟩
  · refine ⟨fun p => ⟨?_, ?_, ?_, ?_⟩, fun h => ⟨?_, ?_, ?_, ?_⟩⟩
    · intro x h0
      simp [propertynext.ActivityStreamsNextProperty.KindIndex,
          propertynext.ActivityStreamsNextProperty.HasAny,
          propertynext.ActivityStreamsNextProperty.IsActivityStreamsCollectionPage,
          propertynext.ActivityStreamsNextProperty.IsActivityStreamsLink,
          propertynext.ActivityStreamsNextProperty.IsActivityStreamsMention,
          propertynext.ActivityStreamsNextProperty.IsActivityStreamsOrderedCollectionPage,
          propertynext.ActivityStreamsNextProperty.IsIRI, h0]
    · intro x h0 h1
      simp [propertynext.ActivityStreamsNextProperty.KindIndex,
          propertynext.ActivityStreamsNextProperty.HasAny,
          propertynext.ActivityStreamsNextProperty.IsActivityStreamsCollectionPage,
          propertynext.ActivityStreamsNextProperty.IsActivityStreamsLink,
          propertynext.ActivityStreamsNextProperty.IsActivityStreamsMention,
          propertynext.ActivityStreamsNextProperty.IsActivityStreamsOrderedCollectionPage,
          propertynext.ActivityStreamsNextProperty.IsIRI, h0, h1]
    · intro x h0 h1 h2
      simp [propertynext.ActivityStreamsNextProperty.KindIndex,
          propertynext.ActivityStreamsNextProperty.HasAny,
          propertynext.ActivityStreamsNextProperty.IsActivityStreamsCollectionPage,
          propertynext.ActivityStreamsNextProperty.IsActivityStreamsLink,
          propertynext.ActivityStreamsNextProperty.IsActivityStreamsMention,
          propertynext.ActivityStreamsNextProperty.IsActivityStreamsOrderedCollectionPage,
          propertynext.ActivityStreamsNextProperty.IsIRI, h0, h1, h2]
    · intro x h0 h1 h2 h3
      simp [propertynext.ActivityStreamsNextProperty.KindIndex,
          propertynext.ActivityStreamsNextProperty.HasAny,
          propertynext.ActivityStreamsNextProperty.IsActivityStreamsCollectionPage,
          propertynext.ActivityStreamsNextProperty.IsActivityStreamsLink,
          propertynext.ActivityStreamsNextProperty.IsActivityStreamsMention,
          propertynext.ActivityStreamsNextProperty.IsActivityStreamsOrderedCollectionPage,
          propertynext.ActivityStreamsNextProperty.IsIRI, h0, h1, h2, h3]
    · intro x h1
      rw [propertynext.next_object url mgr m aliasMap o h, h1]
      exact ⟨_, rfl, rfl, rfl⟩
    · intro x h1 h2
      rw [propertynext.next_object url mgr m aliasMap o h, h2]
      revert h1
      rcases mgr.DeserializeCollectionPageActivityStreams o aliasMap with ⟨v1, _ | e1⟩
      · intro h1
        exact absurd rfl h1
      · intro _
        exact ⟨_, rfl, rfl, rfl⟩
    · intro x h1 h2 h3
      rw [propertynext.next_object url mgr m aliasMap o h, h3]
      revert h1 h2
      rcases mgr.DeserializeCollectionPageActivityStreams o aliasMap with ⟨v1, _ | e1⟩
      · intro h1
        exact absurd rfl h1
      · rcases mgr.DeserializeLinkActivityStreams o aliasMap with ⟨v2, _ | e2⟩
        · intro _ h2
          exact absurd rfl h2
        · intro _ _
          exact ⟨_, rfl, rfl, rfl⟩
    · intro x h1 h2 h3 h4
      rw [propertynext.next_object url mgr m aliasMap o h, h4]
      revert h1 h2 h3
      rcases mgr.DeserializeCollectionPageActivityStreams o aliasMap with ⟨v1, _ | e1⟩
      · intro h1
        exact absurd rfl h1
      · rcases mgr.DeserializeLinkActivityStreams o aliasMap with ⟨v2, _ | e2⟩
        · intro _ h2
          exact absurd rfl h2
        · rcases mgr.DeserializeMentionActivityStreams o aliasMap with ⟨v3, _ | e3⟩
          · intro _ _ h3
            exact absurd rfl h3
          · intro _ _ _
            exact ⟨_, rfl, rfl, rfl⟩
  · refine ⟨fun p => ⟨?_, ?_, ?_, ?_⟩, fun h => ⟨?_, ?_, ?_, ?_⟩⟩
    · intro x h0
      simp [propertyprev.ActivityStreamsPrevProperty.KindIndex,
          propertyprev.ActivityStreamsPrevProperty.HasAny,
          propertyprev.ActivityStreamsPrevProperty.IsActivityStreamsCollectionPage,
          propertyprev.ActivityStreamsPrevProperty.IsActivityStreamsLink,
          propertyprev.ActivityStreamsPrevProperty.IsActivityStreamsMention,
          propertyprev.ActivityStreamsPrevProperty.IsActivityStreamsOrderedCollectionPage,
          propertyprev.ActivityStreamsPrevProperty.IsIRI, h0]
    · intro x h0 h1
      simp [propertyprev.ActivityStreamsPrevProperty.KindIndex,
          propertyprev.ActivityStreamsPrevProperty.HasAny,
          propertyprev.ActivityStreamsPrevProperty.IsActivityStreamsCollectionPage,
          propertyprev.ActivityStreamsPrevProperty.IsActivityStreamsLink,
          propertyprev.ActivityStreamsPrevProperty.IsActivityStreamsMention,
          propertyprev.ActivityStreamsPrevProperty.IsActivityStreamsOrderedCollectionPage,
          propertyprev.ActivityStreamsPrevProperty.IsIRI, h0, h1]
    · intro x h0 h1 h2
      simp [propertyprev.ActivityStreamsPrevProperty.KindIndex,
          propertyprev.ActivityStreamsPrevProperty.HasAny,
          propertyprev.ActivityStreamsPrevProperty.IsActivityStreamsCollectionPage,
          propertyprev.ActivityStreamsPrevProperty.IsActivityStreamsLink,
          propertyprev.ActivityStreamsPrevProperty.IsActivityStreamsMention,
          propertyprev.ActivityStreamsPrevProperty.IsActivityStreamsOrderedCollectionPage,
          propertyprev.ActivityStreamsPrevProperty.IsIRI, h0, h1, h2]
    · intro x h0 h1 h2 h3
      simp [propertyprev.ActivityStreamsPrevProperty.KindIndex,
          propertyprev.ActivityStreamsPrevProperty.HasAny,
          propertyprev.ActivityStreamsPrevProperty.IsActivityStreamsCollectionPage,
          propertyprev.ActivityStreamsPrevProperty.IsActivityStreamsLink,
          propertyprev.ActivityStreamsPrevProperty.IsActivityStreamsMention,
          propertyprev.ActivityStreamsPrevProperty.IsActivityStreamsOrderedCollectionPage,
          propertyprev.ActivityStreamsPrevProperty.IsIRI, h0, h1, h2, h3]
    · intro x h1
      rw [propertyprev.prev_object url mgr m aliasMap o h, h1]
      exact ⟨_, rfl, rfl, rfl⟩
    · intro x h1 h2
      rw [propertyprev.prev_object url mgr m aliasMap o h, h2]
      revert h1
      rcases mgr.DeserializeCollectionPageActivityStreams o aliasMap with ⟨v1, _ | e1⟩
      · intro h1
        exact absurd rfl h1
      · intro _
        exact ⟨_, rfl, rfl, rfl⟩
    · intro x h1 h2 h3
      rw [propertyprev.prev_object url mgr m aliasMap o h, h3]
      revert h1 h2
      rcases mgr.DeserializeCollectionPageActivityStreams o aliasMap with ⟨v1, _ | e1⟩
      · intro h1
        exact absurd rfl h1
      · rcases mgr.DeserializeLinkActivityStreams o aliasMap with ⟨v2, _ | e2⟩
        · intro _ h2
          exact absurd rfl h2
        · intro _ _
          exact ⟨_, rfl, rfl, rfl⟩
    · intro x h1 h2 h3 h4
      rw [propertyprev.prev_object url mgr m aliasMap o h, h4]
      revert h1 h2 h3
      rcases mgr.DeserializeCollectionPageActivityStreams o aliasMap with ⟨v1, _ | e1⟩
      · intro h1
        exact absurd rfl h1
      · rcases mgr.DeserializeLinkActivityStreams o aliasMap with ⟨v2, _ | e2⟩
        · intro _ h2
          exact absurd rfl h2
        · rcases mgr.DeserializeMentionActivityStreams o aliasMap with ⟨v3, _ | e3⟩
          · intro _ _ h3
            exact absurd rfl h3
          · intro _ _ _
            exact ⟨_, rfl, rfl, rfl⟩
  · refine ⟨fun p => ⟨?_, ?_, ?_, ?_⟩, fun h => ⟨?_, ?_, ?_, ?_⟩⟩
    · intro x h0
      simp [propertyfollowing.ActivityStreamsFollowingProperty.KindIndex,
          propertyfollowing.ActivityStreamsFollowingProperty.HasAny,
          propertyfollowing.ActivityStreamsFollowingProperty.IsActivityStreamsOrderedCollection,
          propertyfollowing.ActivityStreamsFollowingProperty.IsActivityStreamsCollection,
          propertyfollowing.ActivityStreamsFollowingProperty.IsActivityStreamsCollectionPage,
          propertyfollowing.ActivityStreamsFollowingProperty.IsActivityStreamsOrderedCollectionPage,
          propertyfollowing.ActivityStreamsFollowingProperty.IsIRI, h0]
    · intro x h0 h1
      simp [propertyfollowing.ActivityStreamsFollowingProperty.KindIndex,
          propertyfollowing.ActivityStreamsFollowingProperty.HasAny,
          propertyfollowing.ActivityStreamsFollowingProperty.IsActivityStreamsOrderedCollection,
          propertyfollowing.ActivityStreamsFollowingProperty.IsActivityStreamsCollection,
          propertyfollowing.ActivityStreamsFollowingProperty.IsActivityStreamsCollectionPage,
          propertyfollowing.ActivityStreamsFollowingProperty.IsActivityStreamsOrderedCollectionPage,
          propertyfollowing.ActivityStreamsFollowingProperty.IsIRI, h0, h1]
    · intro x h0 h1 h2
      simp [propertyfollowing.ActivityStreamsFollowingProperty.KindIndex,
          propertyfollowing.ActivityStreamsFollowingProperty.HasAny,
          propertyfollowing.ActivityStreamsFollowingProperty.IsActivityStreamsOrderedCollection,
          propertyfollowing.ActivityStreamsFollowingProperty.IsActivityStreamsCollection,
          propertyfollowing.ActivityStreamsFollowingProperty.IsActivityStreamsCollectionPage,
          propertyfollowing.ActivityStreamsFollowingProperty.IsActivityStreamsOrderedCollectionPage,
          propertyfollowing.ActivityStreamsFollowingProperty.IsIRI, h0, h1, h2]
    · intro x h0 h1 h2 h3
      simp [propertyfollowing.ActivityStreamsFollowingProperty.KindIndex,
          propertyfollowing.ActivityStreamsFollowingProperty.HasAny,
          propertyfollowing.ActivityStreamsFollowingProperty.IsActivityStreamsOrderedCollection,
          propertyfollowing.ActivityStreamsFollowingProperty.IsActivityStreamsCollection,
          propertyfollowing.ActivityStreamsFollowingProperty.IsActivityStreamsCollectionPage,
          propertyfollowing.ActivityStreamsFollowingProperty.IsActivityStreamsOrderedCollectionPage,
          propertyfollowing.ActivityStreamsFollowingProperty.IsIRI, h0, h1, h2, h3]
    · intro x h1
      rw [propertyfollowing.following_object url mgr m aliasMap o h, h1]
      exact ⟨_, rfl, rfl, rfl⟩
    · intro x h1 h2
      rw [propertyfollowing.following_object url mgr m aliasMap o h, h2]
      revert h1
      rcases mgr.DeserializeOrderedCollectionActivityStreams o aliasMap with ⟨v1, _ | e1⟩
      · intro h1
        exact absurd rfl h1
      · intro _
        exact ⟨_, rfl, rfl, rfl⟩
    · intro x h1 h2 h3
      rw [propertyfollowing.following_object url mgr m aliasMap o h, h3]
      revert h1 h2
      rcases mgr.DeserializeOrderedCollectionActivityStreams o aliasMap with ⟨v1, _ | e1⟩
      · intro h1
        exact absurd rfl h1
      · rcases mgr.DeserializeCollectionActivityStreams o aliasMap with ⟨v2, _ | e2⟩
        · intro _ h2
          exact absurd rfl h2
        · intro _ _
          exact ⟨_, rfl, rfl, rfl⟩
    · intro x h1 h2 h3 h4
      rw [propertyfollowing.following_object url mgr m aliasMap o h, h4]
      revert h1 h2 h3
      rcases mgr.DeserializeOrderedCollectionActivityStreams o aliasMap with ⟨v1, _ | e1⟩
      · intro h1
        exact absurd rfl h1
      · rcases mgr.DeserializeCollectionActivityStreams o aliasMap with ⟨v2, _ | e2⟩
        · intro _ h2
          exact absurd rfl h2
        · rcases mgr.DeserializeCollectionPageActivityStreams o aliasMap with ⟨v3, _ | e3⟩
          · intro _ _ h3
            exact absurd rfl h3
          · intro _ _ _
            exact ⟨_, rfl, rfl, rfl⟩

/-- Witness of C23: a map of type "Link" under "next" is rejected by the CollectionPage
candidate and accepted by the Link candidate, of position 1. -/
theorem kind_follows_trial_order_witness :
    ∃ p, propertynext.DeserializeNextProperty sampleURL sampleManager
        [("next", Value.object [("type", Value.string "Link")])] [] = (some p, none) ∧
      p.GetActivityStreamsLink = some [("type", Value.string "Link")] ∧ p.KindIndex = 1 :=
  (((kind_follows_trial_order sampleVocab sampleURL sampleManager
      [("next", Value.object [("type", Value.string "Link")])] []
      [("type", Value.string "Link")]).1.2 rfl).2.1
    [("type", Value.string "Link")] (by decide) rfl)

/-- C24. Assume the `LessThan` of each typed alternative is a strict order (irreflexive,
asymmetric, transitive). Then on all states of a "next" ("prev", "following") property, of
whatever kinds, `LessThan` returns a result, is asymmetric (never both `a.LessThan b` and
`b.LessThan a`) and is transitive. -/
theorem property_order_strict (vocab : Vocab) (h : vocab.StrictOrder) :
    ((∀ a b : propertynext.ActivityStreamsNextProperty vocab, ∃ r, a.LessThan b = some r) ∧
      (∀ a b : propertynext.ActivityStreamsNextProperty vocab,
        ¬ (a.LessThan b = some true ∧ b.LessThan a = some true)) ∧
      (∀ a b c : propertynext.ActivityStreamsNextProperty vocab,
        a.LessThan b = some true → b.LessThan c = some true → a.LessThan c = some true)) ∧
    ((∀ a b : propertyprev.ActivityStreamsPrevProperty vocab, ∃ r, a.LessThan b = some r) ∧
      (∀ a b : propertyprev.ActivityStreamsPrevProperty vocab,
        ¬ (a.LessThan b = some true ∧ b.LessThan a = some true)) ∧
      (∀ a b c : propertyprev.ActivityStreamsPrevProperty vocab,
        a.LessThan b = some true → b.LessThan c = some true → a.LessThan c = some true)) ∧
    ((∀ a b : propertyfollowing.ActivityStreamsFollowingProperty vocab, ∃ r, a.LessThan b = some r) ∧
      (∀ a b : propertyfollowing.ActivityStreamsFollowingProperty vocab,
        ¬ (a.LessThan b = some true ∧ b.LessThan a = some true)) ∧
      (∀ a b c : propertyfollowing.ActivityStreamsFollowingProperty vocab,
        a.LessThan b = some true → b.LessThan c = some true → a.LessThan c = some true)) := by
  obtain ⟨hC, hCP, hL, hM, hOC, hOCP⟩ := h
  refine ⟨⟨?_, ?_, ?_⟩, ⟨?_, ?_, ?_⟩, ⟨?_, ?_, ?_⟩⟩
  · exact propertynext.ActivityStreamsNextProperty.next_lessThan_total
  · exact propertynext.ActivityStreamsNextProperty.next_lessThan_asymm hCP hL hM hOCP
  · exact propertynext.ActivityStreamsNextProperty.next_lessThan_trans hCP hL hM hOCP
  · exact propertyprev.ActivityStreamsPrevProperty.prev_lessThan_total
  · exact propertyprev.ActivityStreamsPrevProperty.prev_lessThan_asymm hCP hL hM hOCP
  · exact propertyprev.ActivityStreamsPrevProperty.prev_lessThan_trans hCP hL hM hOCP
  · exact propertyfollowing.ActivityStreamsFollowingProperty.following_lessThan_total
  · exact propertyfollowing.ActivityStreamsFollowingProperty.following_lessThan_asymm
      hOC hC hCP hOCP
  · exact propertyfollowing.ActivityStreamsFollowingProperty.following_lessThan_trans
      hOC hC hCP hOCP

/-- Witness of C24: an IRI, a Link of rank 1 and a Link of rank 2 held by "next" are in
increasing order, and so are the first and the last. -/
theorem property_order_strict_witness :
    ({ iri := some { Scheme := "https", full := "https://example.com/x" } } :
        propertynext.ActivityStreamsNextProperty sampleRankedVocab).LessThan
      { activitystreamsLinkMember := some ("", 2) } = some true :=
  (property_order_strict sampleRankedVocab sampleRankedVocab_strictOrder).1.2.2
    { iri := some { Scheme := "https", full := "https://example.com/x" } }
    { activitystreamsLinkMember := some ("", 1) }
    { activitystreamsLinkMember := some ("", 2) } rfl rfl

/-- C25. `LessThan` of a "next" ("prev", "following") property is the lexicographic
comparison on (`KindIndex`, order within the kind): a lower `KindIndex` is less and a higher one
is not; for equal `KindIndex` k in 0..3 both properties hold the typed alternative of position k
and compare by that alternative's own `LessThan` on the held values; for equal `KindIndex` -2
both hold an IRI and compare by `this.iri.String() < o.iri.String()`; for equal `KindIndex` -1
(absent, or holding only an unknown value, whatever it is) the result is false. No other
`KindIndex` occurs. -/
theorem property_order_lexicographic (vocab : Vocab) :
    (∀ a b : propertynext.ActivityStreamsNextProperty vocab,
      (a.KindIndex < b.KindIndex → a.LessThan b = some true) ∧
      (b.KindIndex < a.KindIndex → a.LessThan b = some false) ∧
      (a.KindIndex = 0 → b.KindIndex = 0 →
        ∃ x y, a.GetActivityStreamsCollectionPage = some x ∧
          b.GetActivityStreamsCollectionPage = some y ∧
          a.LessThan b = some (vocab.ActivityStreamsCollectionPage.LessThan x y)) ∧
      (a.KindIndex = 1 → b.KindIndex = 1 →
        ∃ x y, a.GetActivityStreamsLink = some x ∧
          b.GetActivityStreamsLink = some y ∧
          a.LessThan b = some (vocab.ActivityStreamsLink.LessThan x y)) ∧
      (a.KindIndex = 2 → b.KindIndex = 2 →
        ∃ x y, a.GetActivityStreamsMention = some x ∧
          b.GetActivityStreamsMention = some y ∧
          a.LessThan b = some (vocab.ActivityStreamsMention.LessThan x y)) ∧
      (a.KindIndex = 3 → b.KindIndex = 3 →
        ∃ x y, a.GetActivityStreamsOrderedCollectionPage = some x ∧
          b.GetActivityStreamsOrderedCollectionPage = some y ∧
          a.LessThan b = some (vocab.ActivityStreamsOrderedCollectionPage.LessThan x y)) ∧
      (a.KindIndex = -2 → b.KindIndex = -2 →
        ∃ u w, a.GetIRI = some u ∧ b.GetIRI = some w ∧
          a.LessThan b = some (decide (u.String < w.String))) ∧
      (a.KindIndex = -1 → b.KindIndex = -1 → a.LessThan b = some false) ∧
      (a.KindIndex = 0 ∨ a.KindIndex = 1 ∨ a.KindIndex = 2 ∨ a.KindIndex = 3 ∨
        a.KindIndex = -2 ∨ a.KindIndex = -1)) ∧
    (∀ a b : propertyprev.ActivityStreamsPrevProperty vocab,
      (a.KindIndex < b.KindIndex → a.LessThan b = some true) ∧
      (b.KindIndex < a.KindIndex → a.LessThan b = some false) ∧
      (a.KindIndex = 0 → b.KindIndex = 0 →
        ∃ x y, a.GetActivityStreamsCollectionPage = some x ∧
          b.GetActivityStreamsCollectionPage = some y ∧
          a.LessThan b = some (vocab.ActivityStreamsCollectionPage.LessThan x y)) ∧
      (a.KindIndex = 1 → b.KindIndex = 1 →
        ∃ x y, a.GetActivityStreamsLink = some x ∧
          b.GetActivityStreamsLink = some y ∧
          a.LessThan b = some (vocab.ActivityStreamsLink.LessThan x y)) ∧
      (a.KindIndex = 2 → b.KindIndex = 2 →
        ∃ x y, a.GetActivityStreamsMention = some x ∧
          b.GetActivityStreamsMention = some y ∧
          a.LessThan b = some (vocab.ActivityStreamsMention.LessThan x y)) ∧
      (a.KindIndex = 3 → b.KindIndex = 3 →
        ∃ x y, a.GetActivityStreamsOrderedCollectionPage = some x ∧
          b.GetActivityStreamsOrderedCollectionPage = some y ∧
          a.LessThan b = some (vocab.ActivityStreamsOrderedCollectionPage.LessThan x y)) ∧
      (a.KindIndex = -2 → b.KindIndex = -2 →
        ∃ u w, a.GetIRI = some u ∧ b.GetIRI = some w ∧
          a.LessThan b = some (decide (u.String < w.String))) ∧
      (a.KindIndex = -1 → b.KindIndex = -1 → a.LessThan b = some false) ∧
      (a.KindIndex = 0 ∨ a.KindIndex = 1 ∨ a.KindIndex = 2 ∨ a.KindIndex = 3 ∨
        a.KindIndex = -2 ∨ a.KindIndex = -1)) ∧
    (∀ a b : propertyfollowing.ActivityStreamsFollowingProperty vocab,
      (a.KindIndex < b.KindIndex → a.LessThan b = some true) ∧
      (b.KindIndex < a.KindIndex → a.LessThan b = some false) ∧
      (a.KindIndex = 0 → b.KindIndex = 0 →
        ∃ x y, a.GetActivityStreamsOrderedCollection = some x ∧
          b.GetActivityStreamsOrderedCollection = some y ∧
          a.LessThan b = some (vocab.ActivityStreamsOrderedCollection.LessThan x y)) ∧
      (a.KindIndex = 1 → b.KindIndex = 1 →
        ∃ x y, a.GetActivityStreamsCollection = some x ∧
          b.GetActivityStreamsCollection = some y ∧
          a.LessThan b = some (vocab.ActivityStreamsCollection.LessThan x y)) ∧
      (a.KindIndex = 2 → b.KindIndex = 2 →
        ∃ x y, a.GetActivityStreamsCollectionPage = some x ∧
          b.GetActivityStreamsCollectionPage = some y ∧
          a.LessThan b = some (vocab.ActivityStreamsCollectionPage.LessThan x y)) ∧
      (a.KindIndex = 3 → b.KindIndex = 3 →
        ∃ x y, a.GetActivityStreamsOrderedCollectionPage = some x ∧
          b.GetActivityStreamsOrderedCollectionPage = some y ∧
          a.LessThan b = some (vocab.ActivityStreamsOrderedCollectionPage.LessThan x y)) ∧
      (a.KindIndex = -2 → b.KindIndex = -2 →
        ∃ u w, a.GetIRI = some u ∧ b.GetIRI = some w ∧
          a.LessThan b = some (decide (u.String < w.String))) ∧
      (a.KindIndex = -1 → b.KindIndex = -1 → a.LessThan b = some false) ∧
      (a.KindIndex = 0 ∨ a.KindIndex = 1 ∨ a.KindIndex = 2 ∨ a.KindIndex = 3 ∨
        a.KindIndex = -2 ∨ a.KindIndex = -1)) := by
  refine ⟨?_, ?_, ?_⟩
  · exact propertynext.ActivityStreamsNextProperty.next_lessThan_lexicographic
  · exact propertyprev.ActivityStreamsPrevProperty.prev_lessThan_lexicographic
  · exact propertyfollowing.ActivityStreamsFollowingProperty.following_lessThan_lexicographic

/-- Witness of C25: two "next" properties holding unknown values 1 and 2 have `KindIndex`
-1 and are not less than one another. -/
theorem property_order_lexicographic_witness :
    ({ unknown := Value.number 1 } :
        propertynext.ActivityStreamsNextProperty sampleRankedVocab).LessThan
      { unknown := Value.number 2 } = some false ∧
    ({ unknown := Value.number 2 } :
        propertynext.ActivityStreamsNextProperty sampleRankedVocab).LessThan
      { unknown := Value.number 1 } = some false :=
  ⟨((property_order_lexicographic sampleRankedVocab).1
      { unknown := Value.number 1 } { unknown := Value.number 2 }).2.2.2.2.2.2.2.1 rfl rfl,
   ((property_order_lexicographic sampleRankedVocab).1
      { unknown := Value.number 2 } { unknown := Value.number 1 }).2.2.2.2.2.2.2.1 rfl rfl⟩

/-- C26 fails on the code. In the "Compare known properties" step of `LessThan` the branch
commented "Anything else is greater than nil" tests `rhs != nil && rhs == nil`, which never
holds, so a property that `this` has and `o` lacks is skipped. For every property interface,
strict order or not, a Link holding only "attributedTo" and a Link holding only "height" are
each `LessThan` the other; likewise two Relationships holding only "altitude" and only
"attachment". -/
theorem type_order_not_asymmetric (P : PropertyType) (x y : P) :
    (({ ActivityStreamsAttributedTo := some x } : typelink.ActivityStreamsLink P).LessThan
        { ActivityStreamsHeight := some y } = true ∧
      ({ ActivityStreamsHeight := some y } : typelink.ActivityStreamsLink P).LessThan
        { ActivityStreamsAttributedTo := some x } = true) ∧
    (({ ActivityStreamsAltitude := some x } :
        typerelationship.ActivityStreamsRelationship P).LessThan
        { ActivityStreamsAttachment := some y } = true ∧
      ({ ActivityStreamsAttachment := some y } :
        typerelationship.ActivityStreamsRelationship P).LessThan
        { ActivityStreamsAltitude := some x } = true) :=
  ⟨⟨rfl, rfl⟩, ⟨rfl, rfl⟩⟩

/-- C27 holds for Link and Relationship and fails on the code for Place. When the comparison
of the known properties of two Links (Relationships) falls through, in particular when every
property is absent on both sides or present on both with neither value less, `LessThan` is
true iff the unknown bag of `this` has strictly fewer entries, whatever the bags hold. For two
Places the same holds when every step of the comparison of the known properties runs and falls
through; but `Place.LessThan` calls `this.X.LessThan` without a nil test, so two Places with no
known property fault instead of comparing as equal, whatever their unknown bags are. -/
theorem unknown_compared_by_size (P : PropertyType) :
    (∀ a b : typelink.ActivityStreamsLink P,
      (lessThanKnown a.fields b.fields = none →
        a.LessThan b = decide (a.unknown.length < b.unknown.length)) ∧
      (List.Forall₂ (fieldEquiv P) a.fields b.fields →
        a.LessThan b = decide (a.unknown.length < b.unknown.length))) ∧
    (∀ a b : typerelationship.ActivityStreamsRelationship P,
      (lessThanKnown a.fields b.fields = none →
        a.LessThan b = decide (a.unknown.length < b.unknown.length)) ∧
      (List.Forall₂ (fieldEquiv P) a.fields b.fields →
        a.LessThan b = decide (a.unknown.length < b.unknown.length))) ∧
    (∀ a b : typeplace.Place P,
      lessThanKnownUnguarded a.fields b.fields = some none →
      a.LessThan b = some (decide (a.unknown.length < b.unknown.length))) ∧
    (∀ u1 u2 : JsonMap,
      ({ unknown := u1 } : typeplace.Place P).LessThan { unknown := u2 } = none) := by
  refine ⟨?_, ?_, ?_, ?_⟩
  · intro a b
    have key : lessThanKnown a.fields b.fields = none →
        a.LessThan b = decide (a.unknown.length < b.unknown.length) := by
      intro h
      simp only [typelink.ActivityStreamsLink.LessThan, h,
        typelink.ActivityStreamsLink.GetUnknownProperties]
      by_cases hl : a.unknown.length < b.unknown.length
      · simp [hl]
      · simp [hl]
    exact ⟨key, fun h => key (lessThanKnown_equiv _ _ h).1⟩
  · intro a b
    have key : lessThanKnown a.fields b.fields = none →
        a.LessThan b = decide (a.unknown.length < b.unknown.length) := by
      intro h
      simp only [typerelationship.ActivityStreamsRelationship.LessThan, h,
        typerelationship.ActivityStreamsRelationship.GetUnknownProperties]
      by_cases hl : a.unknown.length < b.unknown.length
      · simp [hl]
      · simp [hl]
    exact ⟨key, fun h => key (lessThanKnown_equiv _ _ h).1⟩
  · intro a b h
    simp only [typeplace.Place.LessThan, h, typeplace.Place.GetUnknownProperties]
    by_cases hl : a.unknown.length < b.unknown.length
    · simp [hl]
    · simp [hl]
  · intro u1 u2
    rfl

/-- Witness of C27: two Links holding "href" with the unknown bags of sizes 1 and 2. -/
theorem unknown_compared_by_size_witness :
    ({ ActivityStreamsHref := some ("href", Value.string "https://example.com/x"),
       unknown := [("a", Value.number 1)] } :
      typelink.ActivityStreamsLink sampleProperty).LessThan
      { ActivityStreamsHref := some ("href", Value.string "https://example.com/y"),
        unknown := [("b", Value.nil), ("c", Value.nil)] } = true :=
  ((unknown_compared_by_size sampleProperty).1
    { ActivityStreamsHref := some ("href", Value.string "https://example.com/x"),
      unknown := [("a", Value.number 1)] }
    { ActivityStreamsHref := some ("href", Value.string "https://example.com/y"),
      unknown := [("b", Value.nil), ("c", Value.nil)] }).1 rfl

/-- C28 fails on the code: the merge loop runs `m[k] = v` for every entry of the nested
context, although its comment says that it should not overwrite an existing key with a new
value. A "next" property with the alias "as" holding a Link whose context binds the vocabulary
URI to the empty alias has a context that binds the vocabulary URI to the empty alias: the
entry "as" is overwritten. The same happens in a Link, a Relationship or a Place with the alias
"as" holding a property with such a context. -/
theorem context_overwritten_counterexample :
    ({ activitystreamsLinkMember := some ("", 1), alias_ := "as" } :
        propertynext.ActivityStreamsNextProperty sampleRankedVocab).JSONLDContext =
      [(vocabURI, "")] ∧
    ({ ActivityStreamsHeight := some ("", 1), alias_ := "as" } :
        typelink.ActivityStreamsLink sampleRankedProperty).JSONLDContext = [(vocabURI, "")] ∧
    ({ ActivityStreamsAltitude := some ("", 1), alias_ := "as" } :
        typerelationship.ActivityStreamsRelationship sampleRankedProperty).JSONLDContext =
      [(vocabURI, "")] ∧
    ({ Accuracy := some ("", 1), alias_ := "as" } :
        typeplace.Place sampleRankedProperty).JSONLDContext = [(vocabURI, "")] :=
  ⟨rfl, rfl, rfl, rfl⟩

/-- C28 fails on the code; this is what the merge loops do instead of keeping the existing
entry. For a "next" ("prev", "following") property holding a typed alternative whose context
has distinct keys, the context binds each key as the context of the held alternative does, and
as the property's own entry (the vocabulary URI bound to its alias) only for a key the held
alternative does not contribute. For a Link, Relationship or Place whose present properties
have contexts with distinct keys, a key contributed by a present property is bound as the last
property, in declaration order, that contributes it binds it, and the object's own entry
survives only for a key that no present property contributes. So an existing entry is
overwritten by every nested contribution for its key, against the comment on the loops, which
says that the loop should not overwrite an existing key with a new value. -/
theorem context_last_writer_wins (vocab : Vocab) (P : PropertyType) :
    (∀ (this : propertynext.ActivityStreamsNextProperty vocab) (k : String),
      (∀ x, this.activitystreamsCollectionPageMember = some x →
        DistinctKeys (vocab.ActivityStreamsCollectionPage.JSONLDContext x) →
        this.JSONLDContext.lookup k =
          match (vocab.ActivityStreamsCollectionPage.JSONLDContext x).lookup k with
          | some v => some v
          | none => [(vocabURI, this.alias_)].lookup k) ∧
      (∀ x, this.activitystreamsCollectionPageMember = none →
        this.activitystreamsLinkMember = some x →
        DistinctKeys (vocab.ActivityStreamsLink.JSONLDContext x) →
        this.JSONLDContext.lookup k =
          match (vocab.ActivityStreamsLink.JSONLDContext x).lookup k with
          | some v => some v
          | none => [(vocabURI, this.alias_)].lookup k) ∧
      (∀ x, this.activitystreamsCollectionPageMember = none →
        this.activitystreamsLinkMember = none →
        this.activitystreamsMentionMember = some x →
        DistinctKeys (vocab.ActivityStreamsMention.JSONLDContext x) →
        this.JSONLDContext.lookup k =
          match (vocab.ActivityStreamsMention.JSONLDContext x).lookup k with
          | some v => some v
          | none => [(vocabURI, this.alias_)].lookup k) ∧
      (∀ x, this.activitystreamsCollectionPageMember = none →
        this.activitystreamsLinkMember = none →
        this.activitystreamsMentionMember = none →
        this.activitystreamsOrderedCollectionPageMember = some x →
        DistinctKeys (vocab.ActivityStreamsOrderedCollectionPage.JSONLDContext x) →
        this.JSONLDContext.lookup k =
          match (vocab.ActivityStreamsOrderedCollectionPage.JSONLDContext x).lookup k with
          | some v => some v
          | none => [(vocabURI, this.alias_)].lookup k)) ∧
    (∀ (this : propertyprev.ActivityStreamsPrevProperty vocab) (k : String),
      (∀ x, this.activitystreamsCollectionPageMember = some x →
        DistinctKeys (vocab.ActivityStreamsCollectionPage.JSONLDContext x) →
        this.JSONLDContext.lookup k =
          match (vocab.ActivityStreamsCollectionPage.JSONLDContext x).lookup k with
          | some v => some v
          | none => [(vocabURI, this.alias_)].lookup k) ∧
      (∀ x, this.activitystreamsCollectionPageMember = none →
        this.activitystreamsLinkMember = some x →
        DistinctKeys (vocab.ActivityStreamsLink.JSONLDContext x) →
        this.JSONLDContext.lookup k =
          match (vocab.ActivityStreamsLink.JSONLDContext x).lookup k with
          | some v => some v
          | none => [(vocabURI, this.alias_)].lookup k) ∧
      (∀ x, this.activitystreamsCollectionPageMember = none →
        this.activitystreamsLinkMember = none →
        this.activitystreamsMentionMember = some x →
        DistinctKeys (vocab.ActivityStreamsMention.JSONLDContext x) →
        this.JSONLDContext.lookup k =
          match (vocab.ActivityStreamsMention.JSONLDContext x).lookup k with
          | some v => some v
          | none => [(vocabURI, this.alias_)].lookup k) ∧
      (∀ x, this.activitystreamsCollectionPageMember = none →
        this.activitystreamsLinkMember = none →
        this.activitystreamsMentionMember = none →
        this.activitystreamsOrderedCollectionPageMember = some x →
        DistinctKeys (vocab.ActivityStreamsOrderedCollectionPage.JSONLDContext x) →
        this.JSONLDContext.lookup k =
          match (vocab.ActivityStreamsOrderedCollectionPage.JSONLDContext x).lookup k with
          | some v => some v
          | none => [(vocabURI, this.alias_)].lookup k)) ∧
    (∀ (this : propertyfollowing.ActivityStreamsFollowingProperty vocab) (k : String),
      (∀ x, this.activitystreamsOrderedCollectionMember = some x →
        DistinctKeys (vocab.ActivityStreamsOrderedCollection.JSONLDContext x) →
        this.JSONLDContext.lookup k =
          match (vocab.ActivityStreamsOrderedCollection.JSONLDContext x).lookup k with
          | some v => some v
          | none => [(vocabURI, this.alias_)].lookup k) ∧
      (∀ x, this.activitystreamsOrderedCollectionMember = none →
        this.activitystreamsCollectionMember = some x →
        DistinctKeys (vocab.ActivityStreamsCollection.JSONLDContext x) →
        this.JSONLDContext.lookup k =
          match (vocab.ActivityStreamsCollection.JSONLDContext x).lookup k with
          | some v => some v
          | none => [(vocabURI, this.alias_)].lookup k) ∧
      (∀ x, this.activitystreamsOrderedCollectionMember = none →
        this.activitystreamsCollectionMember = none →
        this.activitystreamsCollectionPageMember = some x →
        DistinctKeys (vocab.ActivityStreamsCollectionPage.JSONLDContext x) →
        this.JSONLDContext.lookup k =
          match (vocab.ActivityStreamsCollectionPage.JSONLDContext x).lookup k with
          | some v => some v
          | none => [(vocabURI, this.alias_)].lookup k) ∧
      (∀ x, this.activitystreamsOrderedCollectionMember = none →
        this.activitystreamsCollectionMember = none →
        this.activitystreamsCollectionPageMember = none →
        this.activitystreamsOrderedCollectionPageMember = some x →
        DistinctKeys (vocab.ActivityStreamsOrderedCollectionPage.JSONLDContext x) →
        this.JSONLDContext.lookup k =
          match (vocab.ActivityStreamsOrderedCollectionPage.JSONLDContext x).lookup k with
          | some v => some v
          | none => [(vocabURI, this.alias_)].lookup k)) ∧
    (∀ (this : typelink.ActivityStreamsLink P) (k : String),
      (∀ p, some p ∈ this.fields → DistinctKeys (P.JSONLDContext p)) →
      (∀ front p back v, this.fields = front ++ some p :: back →
        (P.JSONLDContext p).lookup k = some v →
        (∀ q, some q ∈ back → (P.JSONLDContext q).lookup k = none) →
        this.JSONLDContext.lookup k = some v) ∧
      ((∀ p, some p ∈ this.fields → (P.JSONLDContext p).lookup k = none) →
        this.JSONLDContext.lookup k = [(vocabURI, this.alias_)].lookup k)) ∧
    (∀ (this : typerelationship.ActivityStreamsRelationship P) (k : String),
      (∀ p, some p ∈ this.fields → DistinctKeys (P.JSONLDContext p)) →
      (∀ front p back v, this.fields = front ++ some p :: back →
        (P.JSONLDContext p).lookup k = some v →
        (∀ q, some q ∈ back → (P.JSONLDContext q).lookup k = none) →
        this.JSONLDContext.lookup k = some v) ∧
      ((∀ p, some p ∈ this.fields → (P.JSONLDContext p).lookup k = none) →
        this.JSONLDContext.lookup k = [(vocabURI, this.alias_)].lookup k)) ∧
    (∀ (this : typeplace.Place P) (k : String),
      (∀ p, some p ∈ this.fields → DistinctKeys (P.JSONLDContext p)) →
      (∀ front p back v, this.fields = front ++ some p :: back →
        (P.JSONLDContext p).lookup k = some v →
        (∀ q, some q ∈ back → (P.JSONLDContext q).lookup k = none) →
        this.JSONLDContext.lookup k = some v) ∧
      ((∀ p, some p ∈ this.fields → (P.JSONLDContext p).lookup k = none) →
        this.JSONLDContext.lookup k = [(vocabURI, this.alias_)].lookup k)) := by
  refine ⟨?_, ?_, ?_, ?_, ?_, ?_⟩
  · intro this k
    refine ⟨?_, ?_, ?_, ?_⟩
    · intro x hx hd
      simp only [propertynext.ActivityStreamsNextProperty.JSONLDContext, hx]
      exact lookup_mergeContext _ _ k hd
    · intro x h0 hx hd
      simp only [propertynext.ActivityStreamsNextProperty.JSONLDContext, h0, hx]
      exact lookup_mergeContext _ _ k hd
    · intro x h0 h1 hx hd
      simp only [propertynext.ActivityStreamsNextProperty.JSONLDContext, h0, h1, hx]
      exact lookup_mergeContext _ _ k hd
    · intro x h0 h1 h2 hx hd
      simp only [propertynext.ActivityStreamsNextProperty.JSONLDContext, h0, h1, h2, hx]
      exact lookup_mergeContext _ _ k hd
  · intro this k
    refine ⟨?_, ?_, ?_, ?_⟩
    · intro x hx hd
      simp only [propertyprev.ActivityStreamsPrevProperty.JSONLDContext, hx]
      exact lookup_mergeContext _ _ k hd
    · intro x h0 hx hd
      simp only [propertyprev.ActivityStreamsPrevProperty.JSONLDContext, h0, hx]
      exact lookup_mergeContext _ _ k hd
    · intro x h0 h1 hx hd
      simp only [propertyprev.ActivityStreamsPrevProperty.JSONLDContext, h0, h1, hx]
      exact lookup_mergeContext _ _ k hd
    · intro x h0 h1 h2 hx hd
      simp only [propertyprev.ActivityStreamsPrevProperty.JSONLDContext, h0, h1, h2, hx]
      exact lookup_mergeContext _ _ k hd
  · intro this k
    refine ⟨?_, ?_, ?_, ?_⟩
    · intro x hx hd
      simp only [propertyfollowing.ActivityStreamsFollowingProperty.JSONLDContext, hx]
      exact lookup_mergeContext _ _ k hd
    · intro x h0 hx hd
      simp only [propertyfollowing.ActivityStreamsFollowingProperty.JSONLDContext, h0, hx]
      exact lookup_mergeContext _ _ k hd
    · intro x h0 h1 hx hd
      simp only [propertyfollowing.ActivityStreamsFollowingProperty.JSONLDContext, h0, h1, hx]
      exact lookup_mergeContext _ _ k hd
    · intro x h0 h1 h2 hx hd
      simp only [propertyfollowing.ActivityStreamsFollowingProperty.JSONLDContext, h0, h1, h2, hx]
      exact lookup_mergeContext _ _ k hd
  · intro this k hd
    refine ⟨?_, ?_⟩
    · intro front p back v hf hp hn
      rw [hf] at hd
      simp only [typelink.ActivityStreamsLink.JSONLDContext, hf]
      exact lookup_contextFold_last front back p _ k v hd hp hn
    · intro hn
      exact lookup_contextFold_none this.fields _ k hd hn
  · intro this k hd
    refine ⟨?_, ?_⟩
    · intro front p back v hf hp hn
      rw [hf] at hd
      simp only [typerelationship.ActivityStreamsRelationship.JSONLDContext, hf]
      exact lookup_contextFold_last front back p _ k v hd hp hn
    · intro hn
      exact lookup_contextFold_none this.fields _ k hd hn
  · intro this k hd
    refine ⟨?_, ?_⟩
    · intro front p back v hf hp hn
      rw [hf] at hd
      simp only [typeplace.Place.JSONLDContext, hf]
      exact lookup_contextFold_last front back p _ k v hd hp hn
    · intro hn
      exact lookup_contextFold_none this.fields _ k hd hn

/-- Witness of C28: a Link with the alias "as" whose "height" and "width" properties
were built under the aliases "h" and "w" binds the vocabulary URI to "w". -/
theorem context_last_writer_wins_witness :
    ({ ActivityStreamsHeight := some ("h", 1), ActivityStreamsWidth := some ("w", 2),
       alias_ := "as" } :
      typelink.ActivityStreamsLink sampleRankedProperty).JSONLDContext.lookup vocabURI =
      some "w" :=
  ((context_last_writer_wins sampleRankedVocab sampleRankedProperty).2.2.2.1
    { ActivityStreamsHeight := some ("h", 1), ActivityStreamsWidth := some ("w", 2),
      alias_ := "as" } vocabURI
    (by
      intro p _
      unfold DistinctKeys
      exact List.nodup_singleton _)).1
    [none, some ("h", 1), none, none, none, none, none, none, none, none, none] ("w", 2) []
    "w" rfl rfl (by
      intro q hq
      cases hq)

/-- C29 fails on the code. `Place.Serialize` calls `this.X.Serialize()` for each declared
property without testing `this.X` for nil, unlike the `Serialize` of Link and Relationship. On
the empty Place returned by `NewPlace` the first call, on the nil "accuracy" property, faults;
so does the run on a Place deserialized from a map that holds only "name", and on one
deserialized from a map that holds "accuracy" and lacks "altitude". An empty Link serializes
without a fault. -/
theorem place_serialize_faults :
    (∀ P : PropertyType, (typeplace.NewPlace : typeplace.Place P).Serialize = none) ∧
    (∃ p, typeplace.DeserializePlace samplePropertyManager
        [("name", Value.string "Town hall")] [] = (some p, none) ∧
      p.Name = some ("name", Value.string "Town hall") ∧ p.Serialize = none) ∧
    (∃ p, typeplace.DeserializePlace samplePropertyManager
        [("accuracy", Value.number 90)] [] = (some p, none) ∧
      p.Accuracy = some ("accuracy", Value.number 90) ∧ p.Serialize = none) ∧
    (∀ P : PropertyType, (({} : typelink.ActivityStreamsLink P).Serialize).2 = none) :=
  ⟨fun _ => rfl, ⟨_, rfl, rfl, rfl⟩, ⟨_, rfl, rfl, rfl⟩, fun _ => rfl⟩

/-- C30. The extension and disjointness queries depend on the other type only through its
name: `LinkIsExtendedBy` holds iff the name is "Mention"; `ActivityStreamsLinkExtends` never
holds; `PlaceExtends` and `ActivityStreamsRelationshipExtends` hold iff the name is "Object";
`PlaceIsDisjointWith` and `RelationshipIsDisjointWith` hold iff the name is "Link" or "Mention";
`PlaceIsExtendedBy` and `RelationshipIsExtendedBy` never hold; and the method `IsExtending` of
each type equals its package-level `Extends` function. -/
theorem type_relations (t : NamedType) :
    (typelink.LinkIsExtendedBy t = true ↔ t.GetName = "Mention") ∧
    typelink.ActivityStreamsLinkExtends t = false ∧
    (typeplace.PlaceExtends t = true ↔ t.GetName = "Object") ∧
    (typerelationship.ActivityStreamsRelationshipExtends t = true ↔ t.GetName = "Object") ∧
    (typeplace.PlaceIsDisjointWith t = true ↔ t.GetName = "Link" ∨ t.GetName = "Mention") ∧
    (typerelationship.RelationshipIsDisjointWith t = true ↔
      t.GetName = "Link" ∨ t.GetName = "Mention") ∧
    typeplace.PlaceIsExtendedBy t = false ∧
    typerelationship.RelationshipIsExtendedBy t = false ∧
    (∀ (P : PropertyType) (this : typelink.ActivityStreamsLink P),
      this.IsExtending t = typelink.ActivityStreamsLinkExtends t) ∧
    (∀ (P : PropertyType) (this : typerelationship.ActivityStreamsRelationship P),
      this.IsExtending t = typerelationship.ActivityStreamsRelationshipExtends t) ∧
    (∀ (P : PropertyType) (this : typeplace.Place P),
      this.IsExtending t = typeplace.PlaceExtends t) := by
  refine ⟨?_, rfl, ?_, ?_, ?_, ?_, rfl, rfl, fun _ _ => rfl, fun _ _ => rfl, fun _ _ => rfl⟩
  · simp only [typelink.LinkIsExtendedBy, List.any_cons, List.any_nil, Bool.or_false,
      beq_iff_eq]
    exact eq_comm
  · simp only [typeplace.PlaceExtends, List.any_cons, List.any_nil, Bool.or_false, beq_iff_eq]
    exact eq_comm
  · simp only [typerelationship.ActivityStreamsRelationshipExtends, List.any_cons,
      List.any_nil, Bool.or_false, beq_iff_eq]
    exact eq_comm
  · simp only [typeplace.PlaceIsDisjointWith, List.any_cons, List.any_nil, Bool.or_false,
      Bool.or_eq_true, beq_iff_eq]
    exact or_congr eq_comm eq_comm
  · simp only [typerelationship.RelationshipIsDisjointWith, List.any_cons, List.any_nil,
      Bool.or_false, Bool.or_eq_true, beq_iff_eq]
    exact or_congr eq_comm eq_comm


/-! ## Claims about implicit behaviour -/

/-- C31 as stated fails: the loop over a "type" array skips the elements that are not
strings, so the array holding "Link" and the number 5 is accepted by `DeserializeLink`, and the
array holding "Relationship" and the number 5 by `DeserializeRelationship`. -/
theorem mixed_type_array_counterexample :
    (∃ v, typelink.DeserializeLink samplePropertyManager
        [("type", Value.array [Value.string "Link", Value.number 5])] [] = (some v, none)) ∧
    (∃ v, typerelationship.DeserializeRelationship samplePropertyManager
        [("type", Value.array [Value.string "Relationship", Value.number 5])] [] =
        (some v, none)) :=
  ⟨⟨_, rfl⟩, ⟨_, rfl⟩⟩

/-- C31 (amended). When the "type" value is an array and every declared property
deserializer succeeds, `DeserializeLink` (resp. `DeserializeRelationship`) returns an error iff
no string element of the array equals "Link" (resp. "Relationship") once the alias prefix is
removed. Elements that are not strings are ignored: an array with such an element is accepted
as soon as one of its string elements names the type. -/
theorem type_array_check (P : PropertyType) (mgr : PropertyManager P) (m : JsonMap)
    (aliasMap : AliasMap) (xs : List Value) :
    (m.lookup "type" = some (Value.array xs) →
      (∀ n ∈ typelink.propertyNames, (mgr n m aliasMap).2 = none) →
      (((typelink.DeserializeLink mgr m aliasMap).2 ≠ none ↔
          ∀ s, Value.string s ∈ xs →
            strings.TrimPrefix s (typeAliasPrefix aliasMap) ≠ "Link") ∧
        ((∃ s, Value.string s ∈ xs ∧
            strings.TrimPrefix s (typeAliasPrefix aliasMap) = "Link") →
          ∃ v, typelink.DeserializeLink mgr m aliasMap = (some v, none)))) ∧
    (m.lookup "type" = some (Value.array xs) →
      (∀ n ∈ typerelationship.propertyNames, (mgr n m aliasMap).2 = none) →
      (((typerelationship.DeserializeRelationship mgr m aliasMap).2 ≠ none ↔
          ∀ s, Value.string s ∈ xs →
            strings.TrimPrefix s (typeAliasPrefix aliasMap) ≠ "Relationship") ∧
        ((∃ s, Value.string s ∈ xs ∧
            strings.TrimPrefix s (typeAliasPrefix aliasMap) = "Relationship") →
          ∃ v, typerelationship.DeserializeRelationship mgr m aliasMap = (some v, none)))) := by
  refine ⟨?_, ?_⟩
  · intro ht hp
    have hfe := (firstPropertyError_eq_none_iff mgr m aliasMap typelink.propertyNames).2 hp
    have key : namesType "Link" (typeAliasPrefix aliasMap) (Value.array xs) = false ↔
        ∀ s, Value.string s ∈ xs →
          strings.TrimPrefix s (typeAliasPrefix aliasMap) ≠ "Link" := by
      simp only [namesType, List.any_eq_false]
      constructor
      · intro h s hs
        simpa using h (Value.string s) hs
      · intro h x hx
        cases x with
        | string s => simpa using h s hx
        | _ => simp
    refine ⟨⟨?_, ?_⟩, ?_⟩
    · intro he
      apply key.1
      cases hn : namesType "Link" (typeAliasPrefix aliasMap) (Value.array xs) with
      | false => rfl
      | true =>
        rw [typelink.link_success mgr m aliasMap _ ht hn hfe] at he
        exact absurd rfl he
    · intro hr
      obtain ⟨e, he⟩ := typelink.link_deserialize_reject mgr m aliasMap
        (fun tv htv => by
          rw [ht] at htv
          cases htv
          exact key.2 hr)
      rw [he]
      simp
    · rintro ⟨s, hs, hn⟩
      have hn2 : namesType "Link" (typeAliasPrefix aliasMap) (Value.array xs) = true := by
        cases hc : namesType "Link" (typeAliasPrefix aliasMap) (Value.array xs) with
        | true => rfl
        | false => exact absurd hn (key.1 hc s hs)
      exact ⟨_, typelink.link_success mgr m aliasMap _ ht hn2 hfe⟩
  · intro ht hp
    have hfe := (firstPropertyError_eq_none_iff mgr m aliasMap typerelationship.propertyNames).2 hp
    have key : namesType "Relationship" (typeAliasPrefix aliasMap) (Value.array xs) = false ↔
        ∀ s, Value.string s ∈ xs →
          strings.TrimPrefix s (typeAliasPrefix aliasMap) ≠ "Relationship" := by
      simp only [namesType, List.any_eq_false]
      constructor
      · intro h s hs
        simpa using h (Value.string s) hs
      · intro h x hx
        cases x with
        | string s => simpa using h s hx
        | _ => simp
    refine ⟨⟨?_, ?_⟩, ?_⟩
    · intro he
      apply key.1
      cases hn : namesType "Relationship" (typeAliasPrefix aliasMap) (Value.array xs) with
      | false => rfl
      | true =>
        rw [typerelationship.relationship_success mgr m aliasMap _ ht hn hfe] at he
        exact absurd rfl he
    · intro hr
      obtain ⟨e, he⟩ := typerelationship.relationship_deserialize_reject mgr m aliasMap
        (fun tv htv => by
          rw [ht] at htv
          cases htv
          exact key.2 hr)
      rw [he]
      simp
    · rintro ⟨s, hs, hn⟩
      have hn2 : namesType "Relationship" (typeAliasPrefix aliasMap) (Value.array xs) = true := by
        cases hc : namesType "Relationship" (typeAliasPrefix aliasMap) (Value.array xs) with
        | true => rfl
        | false => exact absurd hn (key.1 hc s hs)
      exact ⟨_, typerelationship.relationship_success mgr m aliasMap _ ht hn2 hfe⟩

/-- Witness of C31 (amended): the array holding the number 5 and "as:Link" is accepted under
the alias "as". -/
theorem type_array_check_witness :
    ∃ v, typelink.DeserializeLink samplePropertyManager
      [("type", Value.array [Value.number 5, Value.string "as:Link"])] [(vocabURI, "as")] =
      (some v, none) :=
  ((type_array_check sampleProperty samplePropertyManager
    [("type", Value.array [Value.number 5, Value.string "as:Link"])] [(vocabURI, "as")]
    [Value.number 5, Value.string "as:Link"]).1 rfl
    (fun n _ => by
      simp only [samplePropertyManager]
      split <;> rfl)).2 ⟨"as:Link", by simp, by decide⟩

/-- C32 fails on the code in its first half. In each step of the comparison of the known
properties the branch commented "Anything else is greater than nil" tests
`rhs != nil && rhs == nil`, which never holds: a step on a property that `this` has and `o`
lacks falls through, and when the earlier steps fall through as well the result is decided by
the later properties and, failing those, by the sizes of the unknown bags. So a Link holding
only "attributedTo" is `LessThan` a Link holding only "width" and `LessThan` a Link holding only
one unknown entry, where the claim says false (likewise for Relationship). The second half
holds: a step on a property that `this` lacks and `o` has returns true, so when the earlier
steps fall through the result is true. -/
theorem present_not_above_nil (P : PropertyType) :
    (∀ (x : P) (ls rs : List (Option P)),
      lessThanKnown (some x :: ls) (none :: rs) = lessThanKnown ls rs) ∧
    (∀ (y : P) (ls rs : List (Option P)),
      lessThanKnown (none :: ls) (some y :: rs) = some true) ∧
    (∀ (a b : typelink.ActivityStreamsLink P) (fa fb ra rb : List (Option P)) (y : P),
      a.fields = fa ++ none :: ra → b.fields = fb ++ some y :: rb →
      fa.length = fb.length → lessThanKnown fa fb = none →
      a.LessThan b = true) ∧
    (∀ (a b : typerelationship.ActivityStreamsRelationship P) (fa fb ra rb : List (Option P)) (y : P),
      a.fields = fa ++ none :: ra → b.fields = fb ++ some y :: rb →
      fa.length = fb.length → lessThanKnown fa fb = none →
      a.LessThan b = true) ∧
    (∀ (a b : typelink.ActivityStreamsLink P) (fa fb ra rb : List (Option P)) (x : P),
      a.fields = fa ++ some x :: ra → b.fields = fb ++ none :: rb →
      fa.length = fb.length → lessThanKnown fa fb = none →
      a.LessThan b =
        match lessThanKnown ra rb with
        | some r => r
        | none => decide (a.unknown.length < b.unknown.length)) ∧
    (∀ (a b : typerelationship.ActivityStreamsRelationship P) (fa fb ra rb : List (Option P)) (x : P),
      a.fields = fa ++ some x :: ra → b.fields = fb ++ none :: rb →
      fa.length = fb.length → lessThanKnown fa fb = none →
      a.LessThan b =
        match lessThanKnown ra rb with
        | some r => r
        | none => decide (a.unknown.length < b.unknown.length)) ∧
    (∀ x y : P,
      ({ ActivityStreamsAttributedTo := some x } : typelink.ActivityStreamsLink P).LessThan
          { ActivityStreamsWidth := some y } = true ∧
        ({ ActivityStreamsAttributedTo := some x } : typelink.ActivityStreamsLink P).LessThan
          { unknown := [("k", Value.nil)] } = true) ∧
    (∀ x y : P,
      ({ ActivityStreamsAltitude := some x } :
          typerelationship.ActivityStreamsRelationship P).LessThan
          { ActivityStreamsUrl := some y } = true ∧
        ({ ActivityStreamsAltitude := some x } :
          typerelationship.ActivityStreamsRelationship P).LessThan
          { unknown := [("k", Value.nil)] } = true) := by
  refine ⟨?_, ?_, ?_, ?_, ?_, ?_, ?_, ?_⟩
  · intro x ls rs
    rfl
  · intro y ls rs
    rfl
  · intro a b fa fb ra rb y ha hb hl ht
    simp only [typelink.ActivityStreamsLink.LessThan, ha, hb,
      lessThanKnown_append fa fb _ _ hl, ht]
    rfl
  · intro a b fa fb ra rb y ha hb hl ht
    simp only [typerelationship.ActivityStreamsRelationship.LessThan, ha, hb,
      lessThanKnown_append fa fb _ _ hl, ht]
    rfl
  · intro a b fa fb ra rb x ha hb hl ht
    have e : lessThanKnown (some x :: ra) (none :: rb) = lessThanKnown ra rb := rfl
    simp only [typelink.ActivityStreamsLink.LessThan, ha, hb,
      lessThanKnown_append fa fb _ _ hl, ht, e,
      typelink.ActivityStreamsLink.GetUnknownProperties]
    cases lessThanKnown ra rb with
    | some r => rfl
    | none =>
      by_cases hlen : a.unknown.length < b.unknown.length
      · simp [hlen]
      · simp [hlen]
  · intro a b fa fb ra rb x ha hb hl ht
    have e : lessThanKnown (some x :: ra) (none :: rb) = lessThanKnown ra rb := rfl
    simp only [typerelationship.ActivityStreamsRelationship.LessThan, ha, hb,
      lessThanKnown_append fa fb _ _ hl, ht, e,
      typerelationship.ActivityStreamsRelationship.GetUnknownProperties]
    cases lessThanKnown ra rb with
    | some r => rfl
    | none =>
      by_cases hlen : a.unknown.length < b.unknown.length
      · simp [hlen]
      · simp [hlen]
  · intro x y
    exact ⟨rfl, rfl⟩
  · intro x y
    exact ⟨rfl, rfl⟩

/-- Witness of C32: the second half on a Link without "href" and a Link holding it, and the
step that falls through on the same two Links in the other order, where the larger unknown bag
of the second decides. -/
theorem present_not_above_nil_witness :
    (({ unknown := [("a", Value.nil), ("b", Value.nil)] } :
        typelink.ActivityStreamsLink sampleProperty).LessThan
        { ActivityStreamsHref := some ("href", Value.string "https://example.com/x") } =
      true) ∧
    (({ ActivityStreamsHref := some ("href", Value.string "https://example.com/x") } :
        typelink.ActivityStreamsLink sampleProperty).LessThan
        { unknown := [("a", Value.nil), ("b", Value.nil)] } = true) :=
  ⟨(present_not_above_nil sampleProperty).2.2.1
      { unknown := [("a", Value.nil), ("b", Value.nil)] }
      { ActivityStreamsHref := some ("href", Value.string "https://example.com/x") }
      [none, none] [none, none] [none, none, none, none, none, none, none, none, none]
      [none, none, none, none, none, none, none, none, none]
      ("href", Value.string "https://example.com/x") rfl rfl rfl rfl,
   ((present_not_above_nil sampleProperty).2.2.2.2.1
      { ActivityStreamsHref := some ("href", Value.string "https://example.com/x") }
      { unknown := [("a", Value.nil), ("b", Value.nil)] }
      [none, none] [none, none] [none, none, none, none, none, none, none, none, none]
      [none, none, none, none, none, none, none, none, none]
      ("href", Value.string "https://example.com/x") rfl rfl rfl rfl).trans rfl⟩

/-- C33. On every input map (with distinct keys) and every alias map on which
`DeserializeLink` succeeds, the unknown bag is the input map restricted to the keys outside the
fixed list of bare names `knownNames`, whatever the alias is: the bare key "href" is never kept,
and a key `a:href` is always kept, since it is not in the list. The "href" field holds what the
"href" property deserializer returns. So when that deserializer reads the map under the lookup
key, as the property resolvers do, then under a non-empty alias `a` an entry `a:href` is both
consumed by the property and copied to the unknown bag, and without such an entry no "href"
property is set and a bare "href" entry is dropped. The same holds for `DeserializeRelationship`
and its "url" property. -/
theorem unknown_bag_ignores_alias (P : PropertyType) (mgr : PropertyManager P) (m : JsonMap)
    (aliasMap : AliasMap) :
    (∀ v, DistinctKeys m → typelink.DeserializeLink mgr m aliasMap = (some v, none) →
      (∀ k, v.unknown.lookup k = if k ∈ typelink.knownNames then none else m.lookup k) ∧
      v.ActivityStreamsHref = (mgr "href" m aliasMap).1 ∧
      v.unknown.lookup "href" = none ∧
      (∀ a, v.unknown.lookup (a ++ ":" ++ "href") = m.lookup (a ++ ":" ++ "href")) ∧
      (((mgr "href" m aliasMap).1 = none ↔ m.lookup (lookupKey aliasMap "href") = none) →
        ∀ a, aliasMap.lookup vocabURI = some a → a ≠ "" →
          (∀ x, m.lookup (a ++ ":" ++ "href") = some x →
            v.ActivityStreamsHref ≠ none ∧ v.unknown.lookup (a ++ ":" ++ "href") = some x) ∧
          (m.lookup (a ++ ":" ++ "href") = none →
            v.ActivityStreamsHref = none ∧ v.unknown.lookup "href" = none))) ∧
    (∀ v, DistinctKeys m → typerelationship.DeserializeRelationship mgr m aliasMap = (some v, none) →
      (∀ k, v.unknown.lookup k = if k ∈ typerelationship.knownNames then none else m.lookup k) ∧
      v.ActivityStreamsUrl = (mgr "url" m aliasMap).1 ∧
      v.unknown.lookup "url" = none ∧
      (∀ a, v.unknown.lookup (a ++ ":" ++ "url") = m.lookup (a ++ ":" ++ "url")) ∧
      (((mgr "url" m aliasMap).1 = none ↔ m.lookup (lookupKey aliasMap "url") = none) →
        ∀ a, aliasMap.lookup vocabURI = some a → a ≠ "" →
          (∀ x, m.lookup (a ++ ":" ++ "url") = some x →
            v.ActivityStreamsUrl ≠ none ∧ v.unknown.lookup (a ++ ":" ++ "url") = some x) ∧
          (m.lookup (a ++ ":" ++ "url") = none →
            v.ActivityStreamsUrl = none ∧ v.unknown.lookup "url" = none))) := by
  refine ⟨?_, ?_⟩
  · intro v hm h
    have hu : ∀ k, v.unknown.lookup k =
        if k ∈ typelink.knownNames then none else m.lookup k := by
      intro k
      rw [typelink.link_unknown_of_success mgr m aliasMap v h]
      exact lookup_deserializeUnknown typelink.knownNames m k hm
    have hf : v.ActivityStreamsHref = (mgr "href" m aliasMap).1 := by
      rw [(typelink.link_success_inv mgr m aliasMap v h).2.2]
      rfl
    have hcolon : ∀ a : String, a ++ ":" ++ "href" ∉ typelink.knownNames := by
      intro a hmem
      have h1 : ':' ∈ (a ++ ":" ++ "href").data := by simp [String.data_append]
      have h2 : ∀ n ∈ typelink.knownNames, ':' ∉ n.data := by decide
      exact h2 _ hmem h1
    have hbare : v.unknown.lookup "href" = none := by
      rw [hu "href"]
      rfl
    have hpre : ∀ a, v.unknown.lookup (a ++ ":" ++ "href") = m.lookup (a ++ ":" ++ "href") := by
      intro a
      rw [hu, if_neg (hcolon a)]
    refine ⟨hu, hf, hbare, hpre, ?_⟩
    intro hk a ha hne
    have hb : boundAlias aliasMap = a := by simp [boundAlias, ha]
    have hkey : lookupKey aliasMap "href" = a ++ ":" ++ "href" := by
      simp [lookupKey, hb, hne]
    rw [hkey] at hk
    refine ⟨fun x hx => ⟨?_, (hpre a).trans hx⟩, fun hx => ⟨?_, hbare⟩⟩
    · rw [hf]
      intro hc
      rw [hk.1 hc] at hx
      cases hx
    · rw [hf]
      exact hk.2 hx
  · intro v hm h
    have hu : ∀ k, v.unknown.lookup k =
        if k ∈ typerelationship.knownNames then none else m.lookup k := by
      intro k
      rw [typerelationship.relationship_unknown_of_success mgr m aliasMap v h]
      exact lookup_deserializeUnknown typerelationship.knownNames m k hm
    have hf : v.ActivityStreamsUrl = (mgr "url" m aliasMap).1 := by
      rw [(typerelationship.relationship_success_inv mgr m aliasMap v h).2.2]
      rfl
    have hcolon : ∀ a : String, a ++ ":" ++ "url" ∉ typerelationship.knownNames := by
      intro a hmem
      have h1 : ':' ∈ (a ++ ":" ++ "url").data := by simp [String.data_append]
      have h2 : ∀ n ∈ typerelationship.knownNames, ':' ∉ n.data := by decide
      exact h2 _ hmem h1
    have hbare : v.unknown.lookup "url" = none := by
      rw [hu "url"]
      rfl
    have hpre : ∀ a, v.unknown.lookup (a ++ ":" ++ "url") = m.lookup (a ++ ":" ++ "url") := by
      intro a
      rw [hu, if_neg (hcolon a)]
    refine ⟨hu, hf, hbare, hpre, ?_⟩
    intro hk a ha hne
    have hb : boundAlias aliasMap = a := by simp [boundAlias, ha]
    have hkey : lookupKey aliasMap "url" = a ++ ":" ++ "url" := by
      simp [lookupKey, hb, hne]
    rw [hkey] at hk
    refine ⟨fun x hx => ⟨?_, (hpre a).trans hx⟩, fun hx => ⟨?_, hbare⟩⟩
    · rw [hf]
      intro hc
      rw [hk.1 hc] at hx
      cases hx
    · rw [hf]
      exact hk.2 hx

/-- Witness of C33: under the alias "as" the entry "as:href" is read by the "href" property and
kept in the unknown bag. -/
theorem unknown_bag_ignores_alias_witness :
    ∃ v, typelink.DeserializeLink samplePropertyManager
        [("type", Value.string "as:Link"), ("as:href", Value.string "https://example.com/x"),
          ("href", Value.number 5)] [(vocabURI, "as")] = (some v, none) ∧
      v.ActivityStreamsHref ≠ none ∧
      v.unknown.lookup ("as" ++ ":" ++ "href") = some (Value.string "https://example.com/x") ∧
      v.unknown.lookup "href" = none := by
  have h := (unknown_bag_ignores_alias sampleProperty samplePropertyManager
    [("type", Value.string "as:Link"), ("as:href", Value.string "https://example.com/x"),
      ("href", Value.number 5)] [(vocabURI, "as")]).1 _
    (by unfold DistinctKeys; decide) rfl
  have h2 := (h.2.2.2.2 (iff_of_false (fun hc => by cases hc) (fun hc => by cases hc))
    "as" rfl (by decide)).1
    (Value.string "https://example.com/x") rfl
  exact ⟨_, rfl, h2.1, h2.2, h.2.2.1⟩

/-- C34. When the lookup key of "next" ("prev", "following") is present in the input map with
a null value, the resolver returns a property and no error; in that property nothing is set:
every Is-predicate and `HasAny` are false, the unknown value is nil, `KindIndex` is -1 and
`Serialize` returns a nil value and no error. When the key is absent the resolver returns no
property. -/
theorem null_value_present_but_empty (vocab : Vocab) (url : NetURL) (mgr : Manager vocab) (m : JsonMap)
    (aliasMap : AliasMap) :
    ((m.lookup (lookupKey aliasMap "next") = some Value.nil →
        ∃ p, propertynext.DeserializeNextProperty url mgr m aliasMap = (some p, none) ∧
          p.IsActivityStreamsCollectionPage = false ∧ p.IsActivityStreamsLink = false ∧
          p.IsActivityStreamsMention = false ∧
          p.IsActivityStreamsOrderedCollectionPage = false ∧
          p.IsIRI = false ∧ p.HasAny = false ∧ p.unknown = Value.nil ∧
          p.KindIndex = -1 ∧ p.Serialize = (Value.nil, none)) ∧
      (m.lookup (lookupKey aliasMap "next") = none →
        propertynext.DeserializeNextProperty url mgr m aliasMap = (none, none))) ∧
    ((m.lookup (lookupKey aliasMap "prev") = some Value.nil →
        ∃ p, propertyprev.DeserializePrevProperty url mgr m aliasMap = (some p, none) ∧
          p.IsActivityStreamsCollectionPage = false ∧ p.IsActivityStreamsLink = false ∧
          p.IsActivityStreamsMention = false ∧
          p.IsActivityStreamsOrderedCollectionPage = false ∧
          p.IsIRI = false ∧ p.HasAny = false ∧ p.unknown = Value.nil ∧
          p.KindIndex = -1 ∧ p.Serialize = (Value.nil, none)) ∧
      (m.lookup (lookupKey aliasMap "prev") = none →
        propertyprev.DeserializePrevProperty url mgr m aliasMap = (none, none))) ∧
    ((m.lookup (lookupKey aliasMap "following") = some Value.nil →
        ∃ p, propertyfollowing.DeserializeFollowingProperty url mgr m aliasMap = (some p, none) ∧
          p.IsActivityStreamsOrderedCollection = false ∧ p.IsActivityStreamsCollection = false ∧
          p.IsActivityStreamsCollectionPage = false ∧
          p.IsActivityStreamsOrderedCollectionPage = false ∧
          p.IsIRI = false ∧ p.HasAny = false ∧ p.unknown = Value.nil ∧
          p.KindIndex = -1 ∧ p.Serialize = (Value.nil, none)) ∧
      (m.lookup (lookupKey aliasMap "following") = none →
        propertyfollowing.DeserializeFollowingProperty url mgr m aliasMap = (none, none))) := by
  refine ⟨?_, ?_, ?_⟩
  · refine ⟨fun h => ?_, fun h => propertynext.next_absent url mgr m aliasMap h⟩
    rw [propertynext.next_other url mgr m aliasMap _ h (fun s => by simp) (fun o => by simp)]
    exact ⟨_, rfl, rfl, rfl, rfl, rfl, rfl, rfl, rfl, rfl, rfl⟩
  · refine ⟨fun h => ?_, fun h => propertyprev.prev_absent url mgr m aliasMap h⟩
    rw [propertyprev.prev_other url mgr m aliasMap _ h (fun s => by simp) (fun o => by simp)]
    exact ⟨_, rfl, rfl, rfl, rfl, rfl, rfl, rfl, rfl, rfl, rfl⟩
  · refine ⟨fun h => ?_, fun h => propertyfollowing.following_absent url mgr m aliasMap h⟩
    rw [propertyfollowing.following_other url mgr m aliasMap _ h (fun s => by simp) (fun o => by simp)]
    exact ⟨_, rfl, rfl, rfl, rfl, rfl, rfl, rfl, rfl, rfl, rfl⟩

/-- Witness of C34: "next" bound to null, against a map without "next". -/
theorem null_value_present_but_empty_witness :
    (∃ p, propertynext.DeserializeNextProperty sampleURL sampleManager
        [("next", Value.nil)] [] = (some p, none) ∧ p.HasAny = false ∧ p.KindIndex = -1) ∧
    propertynext.DeserializeNextProperty sampleURL sampleManager
        [("id", Value.string "x")] [] = (none, none) := by
  obtain ⟨p, hp, _, _, _, _, _, h6, _, h8, _⟩ :=
    (null_value_present_but_empty sampleVocab sampleURL sampleManager
      [("next", Value.nil)] []).1.1 rfl
  exact ⟨⟨p, hp, h6, h8⟩,
    (null_value_present_but_empty sampleVocab sampleURL sampleManager
      [("id", Value.string "x")] []).1.2 rfl⟩

/-- C35. From every state of a "next", "prev" or "following" property, calling a typed setter
or `SetIRI` with a nil value gives the state `Clear` gives: all typed members, the IRI and the
unknown value are unset, every Is-predicate and `HasAny` are false, and the alias is kept. -/
theorem nil_setter_is_clear (vocab : Vocab) :
    (∀ this : propertynext.ActivityStreamsNextProperty vocab,
      this.SetActivityStreamsCollectionPage none = this.Clear ∧
      this.SetActivityStreamsLink none = this.Clear ∧
      this.SetActivityStreamsMention none = this.Clear ∧
      this.SetActivityStreamsOrderedCollectionPage none = this.Clear ∧
      this.SetIRI none = this.Clear ∧
      this.Clear.GetActivityStreamsCollectionPage = none ∧
      this.Clear.GetActivityStreamsLink = none ∧
      this.Clear.GetActivityStreamsMention = none ∧
      this.Clear.GetActivityStreamsOrderedCollectionPage = none ∧
      this.Clear.GetIRI = none ∧ this.Clear.unknown = Value.nil ∧
      this.Clear.IsActivityStreamsCollectionPage = false ∧
      this.Clear.IsActivityStreamsLink = false ∧
      this.Clear.IsActivityStreamsMention = false ∧
      this.Clear.IsActivityStreamsOrderedCollectionPage = false ∧
      this.Clear.IsIRI = false ∧ this.Clear.HasAny = false ∧
      this.Clear.alias_ = this.alias_) ∧
    (∀ this : propertyprev.ActivityStreamsPrevProperty vocab,
      this.SetActivityStreamsCollectionPage none = this.Clear ∧
      this.SetActivityStreamsLink none = this.Clear ∧
      this.SetActivityStreamsMention none = this.Clear ∧
      this.SetActivityStreamsOrderedCollectionPage none = this.Clear ∧
      this.SetIRI none = this.Clear ∧
      this.Clear.GetActivityStreamsCollectionPage = none ∧
      this.Clear.GetActivityStreamsLink = none ∧
      this.Clear.GetActivityStreamsMention = none ∧
      this.Clear.GetActivityStreamsOrderedCollectionPage = none ∧
      this.Clear.GetIRI = none ∧ this.Clear.unknown = Value.nil ∧
      this.Clear.IsActivityStreamsCollectionPage = false ∧
      this.Clear.IsActivityStreamsLink = false ∧
      this.Clear.IsActivityStreamsMention = false ∧
      this.Clear.IsActivityStreamsOrderedCollectionPage = false ∧
      this.Clear.IsIRI = false ∧ this.Clear.HasAny = false ∧
      this.Clear.alias_ = this.alias_) ∧
    (∀ this : propertyfollowing.ActivityStreamsFollowingProperty vocab,
      this.SetActivityStreamsOrderedCollection none = this.Clear ∧
      this.SetActivityStreamsCollection none = this.Clear ∧
      this.SetActivityStreamsCollectionPage none = this.Clear ∧
      this.SetActivityStreamsOrderedCollectionPage none = this.Clear ∧
      this.SetIRI none = this.Clear ∧
      this.Clear.GetActivityStreamsOrderedCollection = none ∧
      this.Clear.GetActivityStreamsCollection = none ∧
      this.Clear.GetActivityStreamsCollectionPage = none ∧
      this.Clear.GetActivityStreamsOrderedCollectionPage = none ∧
      this.Clear.GetIRI = none ∧ this.Clear.unknown = Value.nil ∧
      this.Clear.IsActivityStreamsOrderedCollection = false ∧
      this.Clear.IsActivityStreamsCollection = false ∧
      this.Clear.IsActivityStreamsCollectionPage = false ∧
      this.Clear.IsActivityStreamsOrderedCollectionPage = false ∧
      this.Clear.IsIRI = false ∧ this.Clear.HasAny = false ∧
      this.Clear.alias_ = this.alias_) := by
  refine ⟨?_, ?_, ?_⟩
  · intro this
    exact ⟨rfl, rfl, rfl, rfl, rfl, rfl, rfl, rfl, rfl, rfl, rfl, rfl, rfl, rfl, rfl, rfl, rfl, rfl⟩
  · intro this
    exact ⟨rfl, rfl, rfl, rfl, rfl, rfl, rfl, rfl, rfl, rfl, rfl, rfl, rfl, rfl, rfl, rfl, rfl, rfl⟩
  · intro this
    exact ⟨rfl, rfl, rfl, rfl, rfl, rfl, rfl, rfl, rfl, rfl, rfl, rfl, rfl, rfl, rfl, rfl, rfl, rfl⟩


/-- C36. `LessThan` of a "next" ("prev", "following") property returns a result on every pair
of states, also on states with more than one member set: no nil value is dereferenced. When
the two `KindIndex` values are equal, an index k in 0..3 means that both sides hold the typed
alternative of position k, whose `LessThan` is then called; the index -2 means that both sides
hold an IRI, whose `String()` is then called; for the index -1 the result is false and nothing
is dereferenced; and no other index occurs. -/
theorem property_order_no_nil (vocab : Vocab) :
    (∀ a b : propertynext.ActivityStreamsNextProperty vocab,
      (∃ r, a.LessThan b = some r) ∧
      (a.KindIndex = b.KindIndex →
        (a.KindIndex = 0 →
          a.IsActivityStreamsCollectionPage = true ∧ b.IsActivityStreamsCollectionPage = true) ∧
        (a.KindIndex = 1 →
          a.IsActivityStreamsLink = true ∧ b.IsActivityStreamsLink = true) ∧
        (a.KindIndex = 2 →
          a.IsActivityStreamsMention = true ∧ b.IsActivityStreamsMention = true) ∧
        (a.KindIndex = 3 →
          a.IsActivityStreamsOrderedCollectionPage = true ∧
            b.IsActivityStreamsOrderedCollectionPage = true) ∧
        (a.KindIndex = -2 → a.IsIRI = true ∧ b.IsIRI = true) ∧
        (a.KindIndex = -1 → a.LessThan b = some false) ∧
        (a.KindIndex = 0 ∨ a.KindIndex = 1 ∨ a.KindIndex = 2 ∨ a.KindIndex = 3 ∨
          a.KindIndex = -2 ∨ a.KindIndex = -1))) ∧
    (∀ a b : propertyprev.ActivityStreamsPrevProperty vocab,
      (∃ r, a.LessThan b = some r) ∧
      (a.KindIndex = b.KindIndex →
        (a.KindIndex = 0 →
          a.IsActivityStreamsCollectionPage = true ∧ b.IsActivityStreamsCollectionPage = true) ∧
        (a.KindIndex = 1 →
          a.IsActivityStreamsLink = true ∧ b.IsActivityStreamsLink = true) ∧
        (a.KindIndex = 2 →
          a.IsActivityStreamsMention = true ∧ b.IsActivityStreamsMention = true) ∧
        (a.KindIndex = 3 →
          a.IsActivityStreamsOrderedCollectionPage = true ∧
            b.IsActivityStreamsOrderedCollectionPage = true) ∧
        (a.KindIndex = -2 → a.IsIRI = true ∧ b.IsIRI = true) ∧
        (a.KindIndex = -1 → a.LessThan b = some false) ∧
        (a.KindIndex = 0 ∨ a.KindIndex = 1 ∨ a.KindIndex = 2 ∨ a.KindIndex = 3 ∨
          a.KindIndex = -2 ∨ a.KindIndex = -1))) ∧
    (∀ a b : propertyfollowing.ActivityStreamsFollowingProperty vocab,
      (∃ r, a.LessThan b = some r) ∧
      (a.KindIndex = b.KindIndex →
        (a.KindIndex = 0 →
          a.IsActivityStreamsOrderedCollection = true ∧ b.IsActivityStreamsOrderedCollection = true) ∧
        (a.KindIndex = 1 →
          a.IsActivityStreamsCollection = true ∧ b.IsActivityStreamsCollection = true) ∧
        (a.KindIndex = 2 →
          a.IsActivityStreamsCollectionPage = true ∧ b.IsActivityStreamsCollectionPage = true) ∧
        (a.KindIndex = 3 →
          a.IsActivityStreamsOrderedCollectionPage = true ∧
            b.IsActivityStreamsOrderedCollectionPage = true) ∧
        (a.KindIndex = -2 → a.IsIRI = true ∧ b.IsIRI = true) ∧
        (a.KindIndex = -1 → a.LessThan b = some false) ∧
        (a.KindIndex = 0 ∨ a.KindIndex = 1 ∨ a.KindIndex = 2 ∨ a.KindIndex = 3 ∨
          a.KindIndex = -2 ∨ a.KindIndex = -1))) := by
  refine ⟨?_, ?_, ?_⟩
  · intro a b
    have hl := propertynext.ActivityStreamsNextProperty.next_lessThan_lexicographic a b
    refine ⟨propertynext.ActivityStreamsNextProperty.next_lessThan_total a b,
      fun h => ⟨?_, ?_, ?_, ?_, ?_, ?_, hl.2.2.2.2.2.2.2.2⟩⟩
    · intro hk
      obtain ⟨x, y, hx, hy, _⟩ := hl.2.2.1 hk (h ▸ hk)
      simp only [propertynext.ActivityStreamsNextProperty.GetActivityStreamsCollectionPage] at hx hy
      simp [propertynext.ActivityStreamsNextProperty.IsActivityStreamsCollectionPage, hx, hy]
    · intro hk
      obtain ⟨x, y, hx, hy, _⟩ := hl.2.2.2.1 hk (h ▸ hk)
      simp only [propertynext.ActivityStreamsNextProperty.GetActivityStreamsLink] at hx hy
      simp [propertynext.ActivityStreamsNextProperty.IsActivityStreamsLink, hx, hy]
    · intro hk
      obtain ⟨x, y, hx, hy, _⟩ := hl.2.2.2.2.1 hk (h ▸ hk)
      simp only [propertynext.ActivityStreamsNextProperty.GetActivityStreamsMention] at hx hy
      simp [propertynext.ActivityStreamsNextProperty.IsActivityStreamsMention, hx, hy]
    · intro hk
      obtain ⟨x, y, hx, hy, _⟩ := hl.2.2.2.2.2.1 hk (h ▸ hk)
      simp only [propertynext.ActivityStreamsNextProperty.GetActivityStreamsOrderedCollectionPage]
        at hx hy
      simp [propertynext.ActivityStreamsNextProperty.IsActivityStreamsOrderedCollectionPage,
        hx, hy]
    · intro hk
      obtain ⟨u, w, hu, hw, _⟩ := hl.2.2.2.2.2.2.1 hk (h ▸ hk)
      simp only [propertynext.ActivityStreamsNextProperty.GetIRI] at hu hw
      simp [propertynext.ActivityStreamsNextProperty.IsIRI, hu, hw]
    · intro hk
      exact hl.2.2.2.2.2.2.2.1 hk (h ▸ hk)
  · intro a b
    have hl := propertyprev.ActivityStreamsPrevProperty.prev_lessThan_lexicographic a b
    refine ⟨propertyprev.ActivityStreamsPrevProperty.prev_lessThan_total a b,
      fun h => ⟨?_, ?_, ?_, ?_, ?_, ?_, hl.2.2.2.2.2.2.2.2⟩⟩
    · intro hk
      obtain ⟨x, y, hx, hy, _⟩ := hl.2.2.1 hk (h ▸ hk)
      simp only [propertyprev.ActivityStreamsPrevProperty.GetActivityStreamsCollectionPage] at hx hy
      simp [propertyprev.ActivityStreamsPrevProperty.IsActivityStreamsCollectionPage, hx, hy]
    · intro hk
      obtain ⟨x, y, hx, hy, _⟩ := hl.2.2.2.1 hk (h ▸ hk)
      simp only [propertyprev.ActivityStreamsPrevProperty.GetActivityStreamsLink] at hx hy
      simp [propertyprev.ActivityStreamsPrevProperty.IsActivityStreamsLink, hx, hy]
    · intro hk
      obtain ⟨x, y, hx, hy, _⟩ := hl.2.2.2.2.1 hk (h ▸ hk)
      simp only [propertyprev.ActivityStreamsPrevProperty.GetActivityStreamsMention] at hx hy
      simp [propertyprev.ActivityStreamsPrevProperty.IsActivityStreamsMention, hx, hy]
    · intro hk
      obtain ⟨x, y, hx, hy, _⟩ := hl.2.2.2.2.2.1 hk (h ▸ hk)
      simp only [propertyprev.ActivityStreamsPrevProperty.GetActivityStreamsOrderedCollectionPage]
        at hx hy
      simp [propertyprev.ActivityStreamsPrevProperty.IsActivityStreamsOrderedCollectionPage,
        hx, hy]
    · intro hk
      obtain ⟨u, w, hu, hw, _⟩ := hl.2.2.2.2.2.2.1 hk (h ▸ hk)
      simp only [propertyprev.ActivityStreamsPrevProperty.GetIRI] at hu hw
      simp [propertyprev.ActivityStreamsPrevProperty.IsIRI, hu, hw]
    · intro hk
      exact hl.2.2.2.2.2.2.2.1 hk (h ▸ hk)
  · intro a b
    have hl := propertyfollowing.ActivityStreamsFollowingProperty.following_lessThan_lexicographic a b
    refine ⟨propertyfollowing.ActivityStreamsFollowingProperty.following_lessThan_total a b,
      fun h => ⟨?_, ?_, ?_, ?_, ?_, ?_, hl.2.2.2.2.2.2.2.2⟩⟩
    · intro hk
      obtain ⟨x, y, hx, hy, _⟩ := hl.2.2.1 hk (h ▸ hk)
      simp only [propertyfollowing.ActivityStreamsFollowingProperty.GetActivityStreamsOrderedCollection] at hx hy
      simp [propertyfollowing.ActivityStreamsFollowingProperty.IsActivityStreamsOrderedCollection, hx, hy]
    · intro hk
      obtain ⟨x, y, hx, hy, _⟩ := hl.2.2.2.1 hk (h ▸ hk)
      simp only [propertyfollowing.ActivityStreamsFollowingProperty.GetActivityStreamsCollection] at hx hy
      simp [propertyfollowing.ActivityStreamsFollowingProperty.IsActivityStreamsCollection, hx, hy]
    · intro hk
      obtain ⟨x, y, hx, hy, _⟩ := hl.2.2.2.2.1 hk (h ▸ hk)
      simp only [propertyfollowing.ActivityStreamsFollowingProperty.GetActivityStreamsCollectionPage] at hx hy
      simp [propertyfollowing.ActivityStreamsFollowingProperty.IsActivityStreamsCollectionPage, hx, hy]
    · intro hk
      obtain ⟨x, y, hx, hy, _⟩ := hl.2.2.2.2.2.1 hk (h ▸ hk)
      simp only [propertyfollowing.ActivityStreamsFollowingProperty.GetActivityStreamsOrderedCollectionPage]
        at hx hy
      simp [propertyfollowing.ActivityStreamsFollowingProperty.IsActivityStreamsOrderedCollectionPage,
        hx, hy]
    · intro hk
      obtain ⟨u, w, hu, hw, _⟩ := hl.2.2.2.2.2.2.1 hk (h ▸ hk)
      simp only [propertyfollowing.ActivityStreamsFollowingProperty.GetIRI] at hu hw
      simp [propertyfollowing.ActivityStreamsFollowingProperty.IsIRI, hu, hw]
    · intro hk
      exact hl.2.2.2.2.2.2.2.1 hk (h ▸ hk)

/-- Witness of C36: a state holding a Link and an IRI against a state holding a Link; both
have `KindIndex` 1 and the comparison returns. -/
theorem property_order_no_nil_witness :
    ({ activitystreamsLinkMember := some ("", 1),
       iri := some { Scheme := "https", full := "https://example.com/x" } } :
      propertynext.ActivityStreamsNextProperty sampleRankedVocab).IsActivityStreamsLink =
      true ∧
    ({ activitystreamsLinkMember := some ("", 2) } :
      propertynext.ActivityStreamsNextProperty sampleRankedVocab).IsActivityStreamsLink =
      true :=
  (((property_order_no_nil sampleRankedVocab).1
    { activitystreamsLinkMember := some ("", 1),
      iri := some { Scheme := "https", full := "https://example.com/x" } }
    { activitystreamsLinkMember := some ("", 2) }).2 rfl).2.1 rfl

/-- C37. Let the alias map bind the vocabulary URI to `a`, or let `a` be empty and the alias
map leave the vocabulary URI unbound. For every Link with the alias `a` and no property that
serializes under "type", the "type" value that `Serialize` writes is "Link" for an empty `a` and
`a:Link` otherwise; it passes the type check of `DeserializeLink` under that alias map, so that
`DeserializeLink` succeeds on the serialized map when every property deserializer does.
Likewise for Relationship. Moreover `DeserializeLink` (resp. `DeserializeRelationship`) accepts
the bare name "Link" (resp. "Relationship") under every alias map. -/
theorem serialized_type_accepted (P : PropertyType) (a : String) (aliasMap : AliasMap)
    (ha : aliasMap.lookup vocabURI = some a ∨ (a = "" ∧ aliasMap.lookup vocabURI = none)) :
    (∀ v : typelink.ActivityStreamsLink P, v.alias_ = a →
      (∀ p, some p ∈ v.fields → P.Name p ≠ "type") →
      ∀ out, v.Serialize = (out, none) →
        out.lookup "type" =
          some (Value.string (if a.length > 0 then a ++ ":" ++ "Link" else "Link")) ∧
        namesType "Link" (typeAliasPrefix aliasMap)
          (Value.string (if a.length > 0 then a ++ ":" ++ "Link" else "Link")) = true ∧
        ∀ mgr : PropertyManager P,
          (∀ n ∈ typelink.propertyNames, (mgr n out aliasMap).2 = none) →
          ∃ w, typelink.DeserializeLink mgr out aliasMap = (some w, none)) ∧
    (∀ v : typerelationship.ActivityStreamsRelationship P, v.alias_ = a →
      (∀ p, some p ∈ v.fields → P.Name p ≠ "type") →
      ∀ out, v.Serialize = (out, none) →
        out.lookup "type" =
          some (Value.string (if a.length > 0 then a ++ ":" ++ "Relationship" else "Relationship")) ∧
        namesType "Relationship" (typeAliasPrefix aliasMap)
          (Value.string (if a.length > 0 then a ++ ":" ++ "Relationship" else "Relationship")) = true ∧
        ∀ mgr : PropertyManager P,
          (∀ n ∈ typerelationship.propertyNames, (mgr n out aliasMap).2 = none) →
          ∃ w, typerelationship.DeserializeRelationship mgr out aliasMap = (some w, none)) ∧
    (∀ (anyAlias : AliasMap) (mgr : PropertyManager P) (m : JsonMap),
      m.lookup "type" = some (Value.string "Link") →
      (∀ n ∈ typelink.propertyNames, (mgr n m anyAlias).2 = none) →
      ∃ w, typelink.DeserializeLink mgr m anyAlias = (some w, none)) ∧
    (∀ (anyAlias : AliasMap) (mgr : PropertyManager P) (m : JsonMap),
      m.lookup "type" = some (Value.string "Relationship") →
      (∀ n ∈ typerelationship.propertyNames, (mgr n m anyAlias).2 = none) →
      ∃ w, typerelationship.DeserializeRelationship mgr m anyAlias = (some w, none)) := by
  refine ⟨?_, ?_, ?_, ?_⟩
  · intro v hv hn out hs
    have h1 := typelink.link_serialize_type v out hs hn
    rw [hv] at h1
    have h2 := namesType_serialized "Link" a aliasMap (by decide) ha
    exact ⟨h1, h2, fun mgr hp => ⟨_, typelink.link_success mgr out aliasMap _ h1 h2
      ((firstPropertyError_eq_none_iff mgr out aliasMap typelink.propertyNames).2 hp)⟩⟩
  · intro v hv hn out hs
    have h1 := typerelationship.relationship_serialize_type v out hs hn
    rw [hv] at h1
    have h2 := namesType_serialized "Relationship" a aliasMap (by decide) ha
    exact ⟨h1, h2, fun mgr hp => ⟨_, typerelationship.relationship_success mgr out aliasMap _ h1 h2
      ((firstPropertyError_eq_none_iff mgr out aliasMap typerelationship.propertyNames).2 hp)⟩⟩
  · intro anyAlias mgr m hm hp
    exact ⟨_, typelink.link_success mgr m anyAlias _ hm
      (namesType_bare "Link" anyAlias (by decide))
      ((firstPropertyError_eq_none_iff mgr m anyAlias typelink.propertyNames).2 hp)⟩
  · intro anyAlias mgr m hm hp
    exact ⟨_, typerelationship.relationship_success mgr m anyAlias _ hm
      (namesType_bare "Relationship" anyAlias (by decide))
      ((firstPropertyError_eq_none_iff mgr m anyAlias typerelationship.propertyNames).2 hp)⟩

/-- Witness of C37: a Link with the alias "as" holding "href" serializes its type as "as:Link",
which `DeserializeLink` accepts under the alias "as". -/
theorem serialized_type_accepted_witness :
    ∃ w, typelink.DeserializeLink samplePropertyManager
      [("type", Value.string "as:Link"), ("href", Value.string "https://example.com/x")]
      [(vocabURI, "as")] = (some w, none) :=
  ((serialized_type_accepted sampleProperty "as" [(vocabURI, "as")] (Or.inl rfl)).1
    { ActivityStreamsHref := some ("href", Value.string "https://example.com/x"),
      alias_ := "as" } rfl
    (by
      intro p hp
      simp [typelink.ActivityStreamsLink.fields] at hp
      subst hp
      decide)
    [("type", Value.string "as:Link"), ("href", Value.string "https://example.com/x")]
    rfl).2.2 samplePropertyManager
    (fun n _ => by
      simp only [samplePropertyManager]
      split <;> rfl)

/-- C38. When the `LessThan` of the property interface is irreflexive, `a.LessThan a` is false
for every Link `a` and for every Relationship `a`. -/
theorem type_order_irreflexive (P : PropertyType) (hirr : ∀ p : P, P.LessThan p p = false) :
    (∀ a : typelink.ActivityStreamsLink P, a.LessThan a = false) ∧
    (∀ a : typerelationship.ActivityStreamsRelationship P, a.LessThan a = false) := by
  refine ⟨?_, ?_⟩
  · intro a
    simp [typelink.ActivityStreamsLink.LessThan, lessThanKnown_self hirr,
      typelink.ActivityStreamsLink.GetUnknownProperties]
  · intro a
    simp [typerelationship.ActivityStreamsRelationship.LessThan, lessThanKnown_self hirr,
      typerelationship.ActivityStreamsRelationship.GetUnknownProperties]

/-- Witness of C38: a Link holding a "height" of rank 3 and one unknown entry. -/
theorem type_order_irreflexive_witness :
    ({ ActivityStreamsHeight := some ("", 3), unknown := [("k", Value.nil)] } :
      typelink.ActivityStreamsLink sampleRankedProperty).LessThan
      { ActivityStreamsHeight := some ("", 3), unknown := [("k", Value.nil)] } = false :=
  (type_order_irreflexive sampleRankedProperty
    (fun p => by simp [sampleRankedProperty])).1
    { ActivityStreamsHeight := some ("", 3), unknown := [("k", Value.nil)] }

/-- C39. Every setter of Place, from `SetAccuracy` to `SetUrl`, is declared with a value
receiver: its body assigns the field of the copy it runs on, and the Place the caller holds
after the call is the Place it held before. So the getter of the same property returns what it
returned before the call, and so do every other getter, the alias and the unknown bag. -/
theorem place_setters_have_no_effect (P : PropertyType) (p : typeplace.Place P)
    (i : Option P) :
    (valueReceiverCall (fun this => this.SetAccuracy i) p = p ∧
      (valueReceiverCall (fun this => this.SetAccuracy i) p).GetAccuracy = p.GetAccuracy ∧
      (p.SetAccuracy i).GetAccuracy = i) ∧
    (valueReceiverCall (fun this => this.SetAltitude i) p = p ∧
      (valueReceiverCall (fun this => this.SetAltitude i) p).GetAltitude = p.GetAltitude ∧
      (p.SetAltitude i).GetAltitude = i) ∧
    (valueReceiverCall (fun this => this.SetAttachment i) p = p ∧
      (valueReceiverCall (fun this => this.SetAttachment i) p).GetAttachment = p.GetAttachment ∧
      (p.SetAttachment i).GetAttachment = i) ∧
    (valueReceiverCall (fun this => this.SetAttributedTo i) p = p ∧
      (valueReceiverCall (fun this => this.SetAttributedTo i) p).GetAttributedTo = p.GetAttributedTo ∧
      (p.SetAttributedTo i).GetAttributedTo = i) ∧
    (valueReceiverCall (fun this => this.SetAudience i) p = p ∧
      (valueReceiverCall (fun this => this.SetAudience i) p).GetAudience = p.GetAudience ∧
      (p.SetAudience i).GetAudience = i) ∧
    (valueReceiverCall (fun this => this.SetBcc i) p = p ∧
      (valueReceiverCall (fun this => this.SetBcc i) p).GetBcc = p.GetBcc ∧
      (p.SetBcc i).GetBcc = i) ∧
    (valueReceiverCall (fun this => this.SetBto i) p = p ∧
      (valueReceiverCall (fun this => this.SetBto i) p).GetBto = p.GetBto ∧
      (p.SetBto i).GetBto = i) ∧
    (valueReceiverCall (fun this => this.SetCc i) p = p ∧
      (valueReceiverCall (fun this => this.SetCc i) p).GetCc = p.GetCc ∧
      (p.SetCc i).GetCc = i) ∧
    (valueReceiverCall (fun this => this.SetContent i) p = p ∧
      (valueReceiverCall (fun this => this.SetContent i) p).GetContent = p.GetContent ∧
      (p.SetContent i).GetContent = i) ∧
    (valueReceiverCall (fun this => this.SetContext i) p = p ∧
      (valueReceiverCall (fun this => this.SetContext i) p).GetContext = p.GetContext ∧
      (p.SetContext i).GetContext = i) ∧
    (valueReceiverCall (fun this => this.SetDuration i) p = p ∧
      (valueReceiverCall (fun this => this.SetDuration i) p).GetDuration = p.GetDuration ∧
      (p.SetDuration i).GetDuration = i) ∧
    (valueReceiverCall (fun this => this.SetEndTime i) p = p ∧
      (valueReceiverCall (fun this => this.SetEndTime i) p).GetEndTime = p.GetEndTime ∧
      (p.SetEndTime i).GetEndTime = i) ∧
    (valueReceiverCall (fun this => this.SetGenerator i) p = p ∧
      (valueReceiverCall (fun this => this.SetGenerator i) p).GetGenerator = p.GetGenerator ∧
      (p.SetGenerator i).GetGenerator = i) ∧
    (valueReceiverCall (fun this => this.SetIcon i) p = p ∧
      (valueReceiverCall (fun this => this.SetIcon i) p).GetIcon = p.GetIcon ∧
      (p.SetIcon i).GetIcon = i) ∧
    (valueReceiverCall (fun this => this.SetId i) p = p ∧
      (valueReceiverCall (fun this => this.SetId i) p).GetId = p.GetId ∧
      (p.SetId i).GetId = i) ∧
    (valueReceiverCall (fun this => this.SetImage i) p = p ∧
      (valueReceiverCall (fun this => this.SetImage i) p).GetImage = p.GetImage ∧
      (p.SetImage i).GetImage = i) ∧
    (valueReceiverCall (fun this => this.SetInReplyTo i) p = p ∧
      (valueReceiverCall (fun this => this.SetInReplyTo i) p).GetInReplyTo = p.GetInReplyTo ∧
      (p.SetInReplyTo i).GetInReplyTo = i) ∧
    (valueReceiverCall (fun this => this.SetLatitude i) p = p ∧
      (valueReceiverCall (fun this => this.SetLatitude i) p).GetLatitude = p.GetLatitude ∧
      (p.SetLatitude i).GetLatitude = i) ∧
    (valueReceiverCall (fun this => this.SetLocation i) p = p ∧
      (valueReceiverCall (fun this => this.SetLocation i) p).GetLocation = p.GetLocation ∧
      (p.SetLocation i).GetLocation = i) ∧
    (valueReceiverCall (fun this => this.SetLongitude i) p = p ∧
      (valueReceiverCall (fun this => this.SetLongitude i) p).GetLongitude = p.GetLongitude ∧
      (p.SetLongitude i).GetLongitude = i) ∧
    (valueReceiverCall (fun this => this.SetMediaType i) p = p ∧
      (valueReceiverCall (fun this => this.SetMediaType i) p).GetMediaType = p.GetMediaType ∧
      (p.SetMediaType i).GetMediaType = i) ∧
    (valueReceiverCall (fun this => this.SetName i) p = p ∧
      (valueReceiverCall (fun this => this.SetName i) p).GetName = p.GetName ∧
      (p.SetName i).GetName = i) ∧
    (valueReceiverCall (fun this => this.SetObject i) p = p ∧
      (valueReceiverCall (fun this => this.SetObject i) p).GetObject = p.GetObject ∧
      (p.SetObject i).GetObject = i) ∧
    (valueReceiverCall (fun this => this.SetPreview i) p = p ∧
      (valueReceiverCall (fun this => this.SetPreview i) p).GetPreview = p.GetPreview ∧
      (p.SetPreview i).GetPreview = i) ∧
    (valueReceiverCall (fun this => this.SetPublished i) p = p ∧
      (valueReceiverCall (fun this => this.SetPublished i) p).GetPublished = p.GetPublished ∧
      (p.SetPublished i).GetPublished = i) ∧
    (valueReceiverCall (fun this => this.SetRadius i) p = p ∧
      (valueReceiverCall (fun this => this.SetRadius i) p).GetRadius = p.GetRadius ∧
      (p.SetRadius i).GetRadius = i) ∧
    (valueReceiverCall (fun this => this.SetReplies i) p = p ∧
      (valueReceiverCall (fun this => this.SetReplies i) p).GetReplies = p.GetReplies ∧
      (p.SetReplies i).GetReplies = i) ∧
    (valueReceiverCall (fun this => this.SetStartTime i) p = p ∧
      (valueReceiverCall (fun this => this.SetStartTime i) p).GetStartTime = p.GetStartTime ∧
      (p.SetStartTime i).GetStartTime = i) ∧
    (valueReceiverCall (fun this => this.SetSummary i) p = p ∧
      (valueReceiverCall (fun this => this.SetSummary i) p).GetSummary = p.GetSummary ∧
      (p.SetSummary i).GetSummary = i) ∧
    (valueReceiverCall (fun this => this.SetTag i) p = p ∧
      (valueReceiverCall (fun this => this.SetTag i) p).GetTag = p.GetTag ∧
      (p.SetTag i).GetTag = i) ∧
    (valueReceiverCall (fun this => this.SetTo i) p = p ∧
      (valueReceiverCall (fun this => this.SetTo i) p).GetTo = p.GetTo ∧
      (p.SetTo i).GetTo = i) ∧
    (valueReceiverCall (fun this => this.SetType i) p = p ∧
      (valueReceiverCall (fun this => this.SetType i) p).GetType = p.GetType ∧
      (p.SetType i).GetType = i) ∧
    (valueReceiverCall (fun this => this.SetUnits i) p = p ∧
      (valueReceiverCall (fun this => this.SetUnits i) p).GetUnits = p.GetUnits ∧
      (p.SetUnits i).GetUnits = i) ∧
    (valueReceiverCall (fun this => this.SetUpdated i) p = p ∧
      (valueReceiverCall (fun this => this.SetUpdated i) p).GetUpdated = p.GetUpdated ∧
      (p.SetUpdated i).GetUpdated = i) ∧
    (valueReceiverCall (fun this => this.SetUrl i) p = p ∧
      (valueReceiverCall (fun this => this.SetUrl i) p).GetUrl = p.GetUrl ∧
      (p.SetUrl i).GetUrl = i) := by
  exact ⟨⟨rfl, rfl, rfl⟩, ⟨rfl, rfl, rfl⟩, ⟨rfl, rfl, rfl⟩, ⟨rfl, rfl, rfl⟩, ⟨rfl, rfl, rfl⟩,
    ⟨rfl, rfl, rfl⟩, ⟨rfl, rfl, rfl⟩, ⟨rfl, rfl, rfl⟩, ⟨rfl, rfl, rfl⟩, ⟨rfl, rfl, rfl⟩,
    ⟨rfl, rfl, rfl⟩, ⟨rfl, rfl, rfl⟩, ⟨rfl, rfl, rfl⟩, ⟨rfl, rfl, rfl⟩, ⟨rfl, rfl, rfl⟩,
    ⟨rfl, rfl, rfl⟩, ⟨rfl, rfl, rfl⟩, ⟨rfl, rfl, rfl⟩, ⟨rfl, rfl, rfl⟩, ⟨rfl, rfl, rfl⟩,
    ⟨rfl, rfl, rfl⟩, ⟨rfl, rfl, rfl⟩, ⟨rfl, rfl, rfl⟩, ⟨rfl, rfl, rfl⟩, ⟨rfl, rfl, rfl⟩,
    ⟨rfl, rfl, rfl⟩, ⟨rfl, rfl, rfl⟩, ⟨rfl, rfl, rfl⟩, ⟨rfl, rfl, rfl⟩, ⟨rfl, rfl, rfl⟩,
    ⟨rfl, rfl, rfl⟩, ⟨rfl, rfl, rfl⟩, ⟨rfl, rfl, rfl⟩, ⟨rfl, rfl, rfl⟩, ⟨rfl, rfl, rfl⟩⟩


/-- C40. The type relations of Link, Place and Relationship agree with one another, by the
names of the types: `LinkIsDisjointWith` holds for the names "Place" and "Relationship", and
`PlaceIsDisjointWith` and `RelationshipIsDisjointWith` hold for the name "Link"; Place and
Relationship are not disjoint with one another in either direction; no type is disjoint with
its own name; and no type is disjoint with a type it extends or is extended by, so Link is not
disjoint with "Mention" and Place and Relationship are not disjoint with "Object". The names
of Link and Relationship are what their `GetName` returns; the source of Place declares no
method that returns its type name. -/
theorem type_relations_consistent (P : PropertyType) (link : typelink.ActivityStreamsLink P)
    (relationship : typerelationship.ActivityStreamsRelationship P) :
    typelink.LinkIsDisjointWith { GetName := "Place" } = true ∧
    typelink.LinkIsDisjointWith { GetName := relationship.GetName } = true ∧
    typeplace.PlaceIsDisjointWith { GetName := link.GetName } = true ∧
    typerelationship.RelationshipIsDisjointWith { GetName := link.GetName } = true ∧
    typeplace.PlaceIsDisjointWith { GetName := relationship.GetName } = false ∧
    typerelationship.RelationshipIsDisjointWith { GetName := "Place" } = false ∧
    typelink.LinkIsDisjointWith { GetName := link.GetName } = false ∧
    typeplace.PlaceIsDisjointWith { GetName := "Place" } = false ∧
    typerelationship.RelationshipIsDisjointWith { GetName := relationship.GetName } = false ∧
    (∀ t, typelink.LinkIsExtendedBy t = true ∨ typelink.ActivityStreamsLinkExtends t = true →
      typelink.LinkIsDisjointWith t = false) ∧
    (∀ t, typeplace.PlaceExtends t = true ∨ typeplace.PlaceIsExtendedBy t = true →
      typeplace.PlaceIsDisjointWith t = false) ∧
    (∀ t, typerelationship.ActivityStreamsRelationshipExtends t = true ∨
        typerelationship.RelationshipIsExtendedBy t = true →
      typerelationship.RelationshipIsDisjointWith t = false) ∧
    typelink.LinkIsDisjointWith { GetName := "Mention" } = false ∧
    typeplace.PlaceIsDisjointWith { GetName := "Object" } = false ∧
    typerelationship.RelationshipIsDisjointWith { GetName := "Object" } = false := by
  refine ⟨rfl, rfl, rfl, rfl, rfl, rfl, rfl, rfl, rfl, ?_, ?_, ?_, rfl, rfl, rfl⟩
  · intro t h
    rcases t with ⟨n⟩
    simp [typelink.LinkIsExtendedBy, typelink.ActivityStreamsLinkExtends] at h
    subst h
    rfl
  · intro t h
    rcases t with ⟨n⟩
    simp [typeplace.PlaceExtends, typeplace.PlaceIsExtendedBy] at h
    subst h
    rfl
  · intro t h
    rcases t with ⟨n⟩
    simp [typerelationship.ActivityStreamsRelationshipExtends,
      typerelationship.RelationshipIsExtendedBy] at h
    subst h
    rfl

/-- Witness of C40: Link is extended by "Mention", hence not disjoint with it. -/
theorem type_relations_consistent_witness :
    typelink.LinkIsDisjointWith { GetName := "Mention" } = false :=
  (type_relations_consistent sampleProperty {} {}).2.2.2.2.2.2.2.2.2.1
    { GetName := "Mention" } (Or.inl rfl)


end streams
